import Mathlib

/-!
Bulk-load table controller (`we_tableinfo.cpp`).

A shallow embedding of the parts of `WriteEngine::TableInfo` that the
specification talks about: the HWM validator, the reader/parser ring of row
buffers, and the Parquet value converters.

Machine integers are `Nat`/`Int` with explicit reduction modulo `2^w` at the
places where the C++ arithmetic can wrap.
-/

namespace WriteEngine

/-! ## Return codes -/

/-- Modelled from the spec: `we_define.h` is not among the sources; the spec
gives exit code 0 for success and a non-zero code for every `ERR_*`. -/
def NO_ERROR : Int := 0

/-- The `ERR_*` constants of `we_define.h`.  The header is not among the
sources, so their numeric values are parameters of the development. -/
structure ErrorCodes where
  ERR_BRM_HWMS_NOT_EQUAL : Int
  ERR_BRM_HWMS_OUT_OF_SYNC : Int
  ERR_BRM_UNSUPP_WIDTH : Int
  ERR_BULK_MAX_ERR_NUM : Int
  ERR_FILE_OPEN : Int
  ERR_UNKNOWN : Int
  deriving DecidableEq, Repr

/-- The codes are error codes (non-zero, as the spec says of every `ERR_*`)
and the differently named codes are different numbers. -/
def ErrorCodes.Valid (ec : ErrorCodes) : Prop :=
  [ec.ERR_BRM_HWMS_NOT_EQUAL, ec.ERR_BRM_HWMS_OUT_OF_SYNC, ec.ERR_BRM_UNSUPP_WIDTH,
    ec.ERR_BULK_MAX_ERR_NUM, ec.ERR_FILE_OPEN, ec.ERR_UNKNOWN, NO_ERROR].Nodup

instance (ec : ErrorCodes) : Decidable ec.Valid := by
  unfold ErrorCodes.Valid; infer_instance

/-- The value a C++ `bool` takes when it is assigned to an `int`. -/
def boolToInt (b : Bool) : Int := if b then 1 else 0

/-! ## HWM validation -/

/-- `DBRootExtentInfo`: `fDbRoot`/`fSegment` are `uint16_t`, `fPartition` and
`fLocalHwm` (type `HWM`) are `uint32_t`. -/
structure DBRootExtentInfo where
  fDbRoot : Nat
  fPartition : Nat
  fSegment : Nat
  fLocalHwm : Nat
  deriving DecidableEq, Repr, Inhabited

/-- The five reference columns `byte1First` .. `byte16First` of
`validateColumnHWMs`; `-1` means that no column of that width was seen. -/
structure Firsts where
  byte1First : Int
  byte2First : Int
  byte4First : Int
  byte8First : Int
  byte16First : Int
  deriving DecidableEq, Repr

/-- All five reference columns start at `-1`. -/
def Firsts.init : Firsts := ⟨-1, -1, -1, -1, -1⟩

/-- The `switch (jobColK.width)` of `validateColumnHWMs`: records `k` as the
reference column of its width when there is none yet and yields the reference
column `k1`; `none` is the `default:` branch (unsupported width). -/
def widthSwitch (f : Firsts) (width : Int) (k : Nat) : Option (Firsts × Int) :=
  if width = 1 then
    let f1 := if f.byte1First = -1 then { f with byte1First := k } else f
    some (f1, f1.byte1First)
  else if width = 2 then
    let f1 := if f.byte2First = -1 then { f with byte2First := k } else f
    some (f1, f1.byte2First)
  else if width = 4 then
    let f1 := if f.byte4First = -1 then { f with byte4First := k } else f
    some (f1, f1.byte4First)
  else if width = 8 then
    let f1 := if f.byte8First = -1 then { f with byte8First := k } else f
    some (f1, f1.byte8First)
  else if width = 16 then
    let f1 := if f.byte16First = -1 then { f with byte16First := k } else f
    some (f1, f1.byte16First)
  else none

/-- The element `segFileInfo[k]` for an `int` index. -/
def segAt (segFileInfo : List DBRootExtentInfo) (k : Int) : DBRootExtentInfo :=
  segFileInfo.getD k.toNat default

/-- One pass of the first loop of `validateColumnHWMs` for column `k`; `widths`
are the `width` fields of `jobTable->colList` (or of `fColumns`). -/
def sameWidthBody (ec : ErrorCodes) (widths : List Int) (segFileInfo : List DBRootExtentInfo)
    (k : Nat) (f : Firsts) : Except Int Firsts :=
  match widthSwitch f (widths.getD k 0) k with
  | none => .error ec.ERR_BRM_UNSUPP_WIDTH
  | some (f1, k1) =>
    if (segAt segFileInfo k1).fDbRoot ≠ (segAt segFileInfo k).fDbRoot ∨
        (segAt segFileInfo k1).fPartition ≠ (segAt segFileInfo k).fPartition ∨
        (segAt segFileInfo k1).fSegment ≠ (segAt segFileInfo k).fSegment ∨
        (segAt segFileInfo k1).fLocalHwm ≠ (segAt segFileInfo k).fLocalHwm then
      .error ec.ERR_BRM_HWMS_NOT_EQUAL
    else if (segAt segFileInfo 0).fDbRoot ≠ (segAt segFileInfo k).fDbRoot ∨
        (segAt segFileInfo 0).fPartition ≠ (segAt segFileInfo k).fPartition ∨
        (segAt segFileInfo 0).fSegment ≠ (segAt segFileInfo k).fSegment then
      .error ec.ERR_BRM_HWMS_NOT_EQUAL
    else .ok f1

/-- The loop `for (k = 0; k < segFileInfo.size(); k++)`; `fuel` is the number
of columns still to visit. -/
def sameWidthLoop (ec : ErrorCodes) (widths : List Int) (segFileInfo : List DBRootExtentInfo) :
    Nat → Nat → Firsts → Except Int Firsts
  | 0, _, f => .ok f
  | fuel + 1, k, f =>
    match sameWidthBody ec widths segFileInfo k f with
    | .error e => .error e
    | .ok f1 => sameWidthLoop ec widths segFileInfo fuel (k + 1) f1

/-- `TableInfo::compareHWMs`; the second component is the out-parameter
`colIdx`.  `HWM` is `uint32_t`, so the range bounds are computed modulo 2^32. -/
def compareHWMs (ec : ErrorCodes) (smallestColumnId widerColumnId : Int)
    (smallerColumnWidth widerColumnWidth : Nat) (segFileInfo : List DBRootExtentInfo)
    (colIdx : Int) : Int × Int :=
  if widerColumnId < 0 then (NO_ERROR, colIdx)
  else
    let columnDiffMultiplier := widerColumnWidth / smallerColumnWidth
    let hwmLo := ((segAt segFileInfo smallestColumnId).fLocalHwm * columnDiffMultiplier) % 2 ^ 32
    let hwmHi := (hwmLo + columnDiffMultiplier + (2 ^ 32 - 1)) % 2 ^ 32
    if (segAt segFileInfo widerColumnId).fLocalHwm < hwmLo ∨
        (segAt segFileInfo widerColumnId).fLocalHwm > hwmHi then
      (ec.ERR_BRM_HWMS_OUT_OF_SYNC, widerColumnId)
    else (NO_ERROR, colIdx)

/-- One `if ((rc = compareHWMs(..) != NO_ERROR)) goto errorCheck;` of
`validateColumnHWMs`.  By C++ precedence `rc` receives the value of the
comparison `compareHWMs(..) != NO_ERROR`; an `error` is the jump to
`errorCheck` with that `rc`. -/
def hwmCheck (ec : ErrorCodes) (segFileInfo : List DBRootExtentInfo)
    (smallestColumnId widerColumnId : Int) (w1 w2 : Nat) : Except Int Unit :=
  let rc := boolToInt
    (decide ((compareHWMs ec smallestColumnId widerColumnId w1 w2 segFileInfo 0).1 ≠ NO_ERROR))
  if rc ≠ 0 then .error rc else .ok ()

/-- The cross-width part of `validateColumnHWMs` (after the first loop): the
four guarded groups of checks, each check leaving for `errorCheck` on failure. -/
def crossWidthChecks (ec : ErrorCodes) (segFileInfo : List DBRootExtentInfo) (f : Firsts) :
    Except Int Unit :=
  (if f.byte1First ≥ 0 then
    hwmCheck ec segFileInfo f.byte1First f.byte2First 1 2 >>= fun _ =>
    hwmCheck ec segFileInfo f.byte1First f.byte4First 1 4 >>= fun _ =>
    hwmCheck ec segFileInfo f.byte1First f.byte8First 1 8 >>= fun _ =>
    hwmCheck ec segFileInfo f.byte1First f.byte16First 1 16
  else .ok ()) >>= fun _ =>
  (if f.byte2First ≥ 0 then
    hwmCheck ec segFileInfo f.byte2First f.byte4First 2 4 >>= fun _ =>
    hwmCheck ec segFileInfo f.byte2First f.byte8First 2 8 >>= fun _ =>
    hwmCheck ec segFileInfo f.byte2First f.byte16First 2 16
  else .ok ()) >>= fun _ =>
  (if f.byte4First ≥ 0 then
    hwmCheck ec segFileInfo f.byte4First f.byte8First 4 8 >>= fun _ =>
    hwmCheck ec segFileInfo f.byte4First f.byte16First 4 16
  else .ok ()) >>= fun _ =>
  (if f.byte8First ≥ 0 then
    hwmCheck ec segFileInfo f.byte8First f.byte16First 8 16
  else .ok ())

/-- `TableInfo::validateColumnHWMs`: the returned `rc`.  `widths[k]` is the
width of column `k` and `segFileInfo[k]` its extent information. -/
def validateColumnHWMs (ec : ErrorCodes) (widths : List Int)
    (segFileInfo : List DBRootExtentInfo) : Int :=
  match sameWidthLoop ec widths segFileInfo segFileInfo.length 0 Firsts.init with
  | .error e => e
  | .ok f =>
    match crossWidthChecks ec segFileInfo f with
    | .error rc => rc
    | .ok _ => NO_ERROR

/-- A column extent with the given local HWM on DBRoot 1, partition 0, segment 0. -/
def segHwm (hwm : Nat) : DBRootExtentInfo := ⟨1, 0, 0, hwm⟩

/-- The supported column widths. -/
def supportedWidth (w : Int) : Prop := w = 1 ∨ w = 2 ∨ w = 4 ∨ w = 8 ∨ w = 16

instance (w : Int) : Decidable (supportedWidth w) := by
  unfold supportedWidth; infer_instance

/-- The reference column recorded for width `w`. -/
def Firsts.get (f : Firsts) (w : Int) : Int :=
  if w = 1 then f.byte1First else if w = 2 then f.byte2First else if w = 4 then f.byte4First
  else if w = 8 then f.byte8First else if w = 16 then f.byte16First else -1

/-- Two extents have the same DBRoot, partition and segment. -/
def samePlace (a b : DBRootExtentInfo) : Prop :=
  a.fDbRoot = b.fDbRoot ∧ a.fPartition = b.fPartition ∧ a.fSegment = b.fSegment

/-- Two extents have the same DBRoot, partition, segment and local HWM. -/
def sameExtent (a b : DBRootExtentInfo) : Prop :=
  samePlace a b ∧ a.fLocalHwm = b.fLocalHwm

instance (a b : DBRootExtentInfo) : Decidable (samePlace a b) := by
  unfold samePlace; infer_instance

instance (a b : DBRootExtentInfo) : Decidable (sameExtent a b) := by
  unfold sameExtent; infer_instance

/-- A sample assignment of distinct non-zero codes, used to instantiate the
`ErrorCodes` parameter at concrete inputs. -/
def sampleCodes : ErrorCodes := ⟨1527, 1528, 1539, 1461, 1052, 1002⟩

/-- Invariant of the first loop of `validateColumnHWMs` once the columns
`0 .. k-1` have been visited without error. -/
structure LoopInv (widths : List Int) (seg : List DBRootExtentInfo) (k : Nat) (f : Firsts) :
    Prop where
  ref : ∀ w, f.get w = -1 ∨ ∃ j : Nat, j < k ∧ f.get w = j ∧ widths.getD j 0 = w
  seen : ∀ i < k, supportedWidth (widths.getD i 0) ∧
    (∃ j : Nat, j ≤ i ∧ f.get (widths.getD i 0) = j ∧ sameExtent (segAt seg j) (segAt seg i)) ∧
    samePlace (segAt seg 0) (segAt seg i)

/-! ## The reader/parser ring -/

/-- `WriteEngine::Status`, used for the table, for each row buffer and for each
(buffer, column) cell. -/
inductive Status where
  | NEW
  | READ_PROGRESS
  | READ_COMPLETE
  | PARSE_COMPLETE
  | ERR
  deriving DecidableEq, Repr, Inhabited

/-- One (buffer, column) cell: the worker that locked the column for parsing
(`-1` for none) and the parse status of the column in this buffer. -/
structure LockInfo where
  locker : Int
  status : Status
  deriving DecidableEq, Repr, Inhabited

/-- The part of `BulkLoadBuffer` that `TableInfo` reads and writes: the buffer
status and the per-column cells. -/
structure BulkLoadBuffer where
  fStatusBLB : Status
  fColumnLocks : List LockInfo
  deriving DecidableEq, Repr, Inhabited

/-- Replace element `i` of a list by its image under `f`; nothing happens when
`i` is out of range. -/
def updateAt {α : Type} (l : List α) (i : Nat) (f : α → α) : List α :=
  match l[i]? with
  | some a => l.set i (f a)
  | none => l

/-- `BulkLoadBuffer::setStatusBLB`. -/
def BulkLoadBuffer.setStatusBLB (b : BulkLoadBuffer) (st : Status) : BulkLoadBuffer :=
  { b with fStatusBLB := st }

/-- Modelled from the spec: `BulkLoadBuffer::resetColumnLocks` is not among the
sources; claiming a buffer resets its per-column lockers, every cell becomes
unlocked and `NEW`. -/
def BulkLoadBuffer.resetColumnLocks (b : BulkLoadBuffer) : BulkLoadBuffer :=
  { b with fColumnLocks := b.fColumnLocks.map (fun _ => ⟨-1, Status.NEW⟩) }

/-- Modelled from the spec: `BulkLoadBuffer::getColumnLocker` is not among the
sources; the locker of cell `k`. -/
def BulkLoadBuffer.getColumnLocker (b : BulkLoadBuffer) (k : Nat) : Int :=
  (b.fColumnLocks.getD k default).locker

/-- Modelled from the spec: `BulkLoadBuffer::getColumnStatus` is not among the
sources; the status of cell `k`. -/
def BulkLoadBuffer.getColumnStatus (b : BulkLoadBuffer) (k : Nat) : Status :=
  (b.fColumnLocks.getD k default).status

/-- Modelled from the spec: `BulkLoadBuffer::tryAndLockColumn` is not among the
sources; a cell whose locker is none is locked for worker `id`, a locked cell is
refused. -/
def BulkLoadBuffer.tryAndLockColumn (b : BulkLoadBuffer) (columnId : Nat) (id : Int) :
    Bool × BulkLoadBuffer :=
  if b.getColumnLocker columnId = -1 then
    (true, { b with
      fColumnLocks := (updateAt b.fColumnLocks columnId fun c => { c with locker := id }) })
  else (false, b)

/-- Modelled from the spec: `BulkLoadBuffer::setColumnStatus` is not among the
sources; it stores the cell status and reports whether all column cells of the
buffer are now `PARSE_COMPLETE` ("a buffer's status becomes `PARSE_COMPLETE`
exactly when all its column cells are `PARSE_COMPLETE`"). -/
def BulkLoadBuffer.setColumnStatus (b : BulkLoadBuffer) (columnId : Nat) (st : Status) :
    Bool × BulkLoadBuffer :=
  let b1 := { b with
    fColumnLocks := (updateAt b.fColumnLocks columnId fun c => { c with status := st }) }
  (b1.fColumnLocks.all (fun c => decide (c.status = Status.PARSE_COMPLETE)), b1)

/-- The fields of `ColumnInfo` used by the table controller. -/
structure ColumnInfo where
  width : Int
  lastProcessingTime : Int
  deriving DecidableEq, Repr, Inhabited

/-- Calls to collaborators made by the finalize sequence, in program order. -/
inductive Call where
  | finishParsing (columnId : Nat)
  | flushPrimProcAllverBlocks
  | synchronizeAutoInc
  | validateColumnHWMs
  | confirmDBFileChanges
  | finishBRM
  | changeTableLockState
  | deleteTempDBFileChanges
  | deleteMetaDataRollbackFile
  | releaseTableLock
  | reportTotals
  | freeProcessingBuffers
  deriving DecidableEq, Repr

/-- The data members of `TableInfo` that take part in the read/parse state
machine.  `fCalls` is a ghost log of the collaborator calls made so far. -/
structure TableInfo where
  fStatusTI : Status
  fLocker : Int
  fReadBufCount : Nat
  fNumberOfColumns : Nat
  fBuffers : List BulkLoadBuffer
  fColumns : List ColumnInfo
  fCurrentReadBuffer : Nat
  fCurrentParseBuffer : Nat
  fLastBufferId : Int
  fTotalReadRows : Nat
  fTotalErrRows : Nat
  fMaxErrorRows : Nat
  fNumberOfColsParsed : Nat
  fProcessingBegun : Bool
  fRejectDataCnt : Nat
  fRejectErrCnt : Nat
  fCalls : List Call
  deriving DecidableEq, Repr

/-- The state left by the `TableInfo` constructor. -/
def TableInfo.new : TableInfo :=
  { fStatusTI := Status.NEW, fLocker := -1, fReadBufCount := 0, fNumberOfColumns := 0,
    fBuffers := [], fColumns := [], fCurrentReadBuffer := 0, fCurrentParseBuffer := 0,
    fLastBufferId := -1, fTotalReadRows := 0, fTotalErrRows := 0, fMaxErrorRows := 5,
    fNumberOfColsParsed := 0, fProcessingBegun := false, fRejectDataCnt := 0,
    fRejectErrCnt := 0, fCalls := [] }

/-- `TableInfo::addColumn`. -/
def TableInfo.addColumn (ti : TableInfo) (info : ColumnInfo) : TableInfo :=
  { ti with fColumns := ti.fColumns ++ [info], fNumberOfColumns := ti.fColumns.length + 1 }

/-- `TableInfo::initializeBuffers`: `noOfBuffers` fresh buffers, each `NEW` with
one unlocked `NEW` cell per column. -/
def TableInfo.initializeBuffers (ti : TableInfo) (noOfBuffers : Nat) : TableInfo :=
  { ti with
    fReadBufCount := noOfBuffers
    fBuffers := ti.fBuffers ++ List.replicate noOfBuffers
      ⟨Status.NEW, List.replicate ti.fNumberOfColumns ⟨-1, Status.NEW⟩⟩ }

/-- `TableInfo::freeProcessingBuffers`. -/
def TableInfo.freeProcessingBuffers (ti : TableInfo) : TableInfo :=
  { ti with fBuffers := [], fColumns := [], fNumberOfColumns := 0 }

/-- `TableInfo::lockForRead`: the returned flag and the state after the call. -/
def TableInfo.lockForRead (ti : TableInfo) (locker : Int) : Bool × TableInfo :=
  if ti.fLocker = -1 then
    if ti.fStatusTI = Status.NEW then (true, { ti with fLocker := locker })
    else (false, ti)
  else (false, ti)

/-- A sequence of `lockForRead` calls, one per worker id: the flags returned, in
order, and the final state. -/
def lockForReadSeq : List Int → TableInfo → List Bool × TableInfo
  | [], ti => ([], ti)
  | id :: ids, ti =>
    let r := ti.lockForRead id
    let rest := lockForReadSeq ids r.2
    (r.1 :: rest.1, rest.2)

/-- `TableInfo::setParseError`. -/
def TableInfo.setParseError (ti : TableInfo) : TableInfo :=
  { ti with fStatusTI := Status.ERR }

/-- `TableInfo::isBufferAvailable`: the returned flag and the state after the
call. -/
def TableInfo.isBufferAvailable (ti : TableInfo) : Bool × TableInfo :=
  let bufferStatus := (ti.fBuffers.getD ti.fCurrentReadBuffer default).fStatusBLB
  if bufferStatus = Status.PARSE_COMPLETE ∨ bufferStatus = Status.NEW then
    (true, { ti with
      fBuffers := (updateAt ti.fBuffers ti.fCurrentReadBuffer fun b =>
        (b.setStatusBLB Status.READ_PROGRESS).resetColumnLocks) })
  else (false, ti)

/-- `TableInfo::bufferReadyForParse`. -/
def TableInfo.bufferReadyForParse (ti : TableInfo) (bufferId : Nat) : Bool :=
  if ti.fBuffers.length = 0 then false
  else decide ((ti.fBuffers.getD bufferId default).fStatusBLB = Status.READ_COMPLETE)

/-- `TableInfo::writeErrReason`, as far as the counters go (the `.err` file is
taken to open). -/
def TableInfo.writeErrReason (ti : TableInfo) (errorRows : Option Nat) (bCloseFile : Bool) :
    TableInfo :=
  let errorRowsCount := errorRows.getD 0
  let ti1 := if errorRowsCount > 0 then
    { ti with fRejectErrCnt := ti.fRejectErrCnt + errorRowsCount } else ti
  if bCloseFile ∧ ti1.fRejectErrCnt > 0 then { ti1 with fRejectErrCnt := 0 } else ti1

/-- `TableInfo::writeBadRows`, as far as the counters go (the `.bad` file is
taken to open). -/
def TableInfo.writeBadRows (ti : TableInfo) (errorDatRows : Option Nat) (bCloseFile : Bool) :
    TableInfo :=
  let errorDatRowsCount := errorDatRows.getD 0
  let ti1 := if errorDatRowsCount > 0 then
    { ti with fRejectDataCnt := ti.fRejectDataCnt + errorDatRowsCount } else ti
  if bCloseFile ∧ ti1.fRejectDataCnt > 0 then { ti1 with fRejectDataCnt := 0 } else ti1

/-- `TableInfo::writeErrorList`; the two vectors are given by their sizes
(`none` for a null pointer). -/
def TableInfo.writeErrorList (ti : TableInfo) (errorRows errorDatRows : Option Nat)
    (bCloseFile : Bool) : TableInfo :=
  let errorRowsCount := errorRows.getD 0
  let errorDatRowsCount := errorDatRows.getD 0
  if errorRowsCount > 0 ∨ errorDatRowsCount > 0 ∨ bCloseFile then
    let ti1 := if errorRowsCount > 0 ∨ bCloseFile then ti.writeErrReason errorRows bCloseFile
      else ti
    let ti2 := if errorDatRowsCount > 0 ∨ bCloseFile then
      ti1.writeBadRows errorDatRows bCloseFile else ti1
    { ti2 with fTotalErrRows := ti2.fTotalErrRows + errorRowsCount }
  else ti

/-- What the collaborators answer during one run of the finalize sequence:
the return codes of the steps, whether dictionary blocks are flushed
(`!useHdfs() && fDictFlushBlks.size() > 0`), and the extent information that
`getSegFileInfo` reports for the columns. -/
structure FinalizeEnv where
  finishParsingRc : Int
  flushDict : Bool
  synchronizeAutoIncRc : Int
  segFileInfo : List DBRootExtentInfo
  confirmDBFileChangesRc : Int
  finishBRMRc : Int
  changeTableLockStateRc : Int
  releaseTableLockRc : Int
  deriving DecidableEq, Repr

/-- Record a collaborator call in the ghost log. -/
def TableInfo.call (ti : TableInfo) (c : Call) : TableInfo :=
  { ti with fCalls := ti.fCalls ++ [c] }

/-- Leave `setParseComplete` with code `rc` after setting `fStatusTI = ERR`. -/
def TableInfo.failWith (ti : TableInfo) (rc : Int) : Except (Int × TableInfo) TableInfo :=
  .error (rc, { ti with fStatusTI := Status.ERR })

/-- The body of `if (fNumberOfColsParsed >= fNumberOfColumns)` in
`setParseComplete`: the table-wide finalize sequence.  An `error` is an early
`return rc`. -/
def TableInfo.finalize (ec : ErrorCodes) (env : FinalizeEnv) (ti : TableInfo) :
    Except (Int × TableInfo) TableInfo :=
  let ti1 := if env.flushDict then ti.call Call.flushPrimProcAllverBlocks else ti
  let ti2 := ti1.call Call.synchronizeAutoInc
  if env.synchronizeAutoIncRc ≠ NO_ERROR then ti2.failWith env.synchronizeAutoIncRc
  else
    let ti3 := ti2.call Call.validateColumnHWMs
    let rc := validateColumnHWMs ec (ti3.fColumns.map (fun c => c.width)) env.segFileInfo
    if rc ≠ NO_ERROR then ti3.failWith rc
    else
      let ti4 := ti3.call Call.confirmDBFileChanges
      if env.confirmDBFileChangesRc ≠ NO_ERROR then ti4.failWith env.confirmDBFileChangesRc
      else
        let ti5 := ti4.call Call.finishBRM
        if env.finishBRMRc ≠ NO_ERROR then ti5.failWith env.finishBRMRc
        else
          let ti6 := ti5.call Call.changeTableLockState
          if env.changeTableLockStateRc ≠ NO_ERROR then ti6.failWith env.changeTableLockStateRc
          else
            let ti7 := ((ti6.call Call.deleteTempDBFileChanges).call
              Call.deleteMetaDataRollbackFile).call Call.releaseTableLock
            if env.releaseTableLockRc ≠ NO_ERROR then ti7.failWith env.releaseTableLockRc
            else
              let ti8 := ({ ti7 with fStatusTI := Status.PARSE_COMPLETE }).call Call.reportTotals
              .ok (ti8.freeProcessingBuffers.call Call.freeProcessingBuffers)

/-- The loop of `setParseComplete` that decides `allBuffersDoneForAColumn`:
every buffer that is `READ_COMPLETE` or `PARSE_COMPLETE` has column `columnId`
`PARSE_COMPLETE`. -/
def TableInfo.allBuffersDoneForAColumn (ti : TableInfo) (columnId : Nat) : Bool :=
  (List.range ti.fReadBufCount).all fun i =>
    let b := ti.fBuffers.getD i default
    if b.fStatusBLB = Status.READ_COMPLETE ∨ b.fStatusBLB = Status.PARSE_COMPLETE then
      decide (b.getColumnStatus columnId = Status.PARSE_COMPLETE)
    else true

/-- The block `if (fLastBufferId != -1)` of `setParseComplete`. -/
def TableInfo.columnDone (ec : ErrorCodes) (env : FinalizeEnv) (columnId : Nat)
    (ti : TableInfo) : Except (Int × TableInfo) TableInfo :=
  if ti.fLastBufferId ≠ -1 then
    if ti.allBuffersDoneForAColumn columnId then
      let ti1 := ti.call (Call.finishParsing columnId)
      if env.finishParsingRc ≠ NO_ERROR then ti1.failWith env.finishParsingRc
      else
        let ti2 := { ti1 with fNumberOfColsParsed := ti1.fNumberOfColsParsed + 1 }
        if ti2.fNumberOfColsParsed ≥ ti2.fNumberOfColumns then ti2.finalize ec env
        else .ok ti2
    else .ok ti
  else .ok ti

/-- The `while` loop of `setParseComplete` that advances `fCurrentParseBuffer`;
the first argument is fuel, `cur` the local `currentParseBuffer`, the result the
final `fCurrentParseBuffer` (`none` when the fuel runs out). -/
def TableInfo.advanceParseBuffer (ti : TableInfo) : Nat → Nat → Option Nat
  | 0, _ => none
  | fuel + 1, cur =>
    if (ti.fBuffers.getD cur default).fStatusBLB = Status.PARSE_COMPLETE then
      let next := (cur + 1) % ti.fReadBufCount
      if next = ti.fCurrentReadBuffer then some next
      else ti.advanceParseBuffer fuel next
    else some cur

/-- `TableInfo::setParseComplete`: return code and state after the call;
`none` when the advance loop does not end within `fReadBufCount + 1` rounds. -/
def TableInfo.setParseComplete (ec : ErrorCodes) (env : FinalizeEnv) (columnId bufferId : Nat)
    (processingTime : Int) (ti : TableInfo) : Option (Int × TableInfo) :=
  if ti.fStatusTI = Status.ERR then some (ec.ERR_UNKNOWN, ti)
  else
    let ti1 := { ti with
      fColumns := (updateAt ti.fColumns columnId fun c =>
        { c with lastProcessingTime := processingTime }) }
    let ti2 := { ti1 with
      fBuffers := (updateAt ti1.fBuffers bufferId fun b =>
        let r := b.setColumnStatus columnId Status.PARSE_COMPLETE
        if r.1 then r.2.setStatusBLB Status.PARSE_COMPLETE else r.2) }
    match ti2.columnDone ec env columnId with
    | .error r => some r
    | .ok ti3 =>
      if ti3.fStatusTI ≠ Status.PARSE_COMPLETE ∧
          (ti3.fBuffers.getD bufferId default).fStatusBLB = Status.PARSE_COMPLETE then
        if bufferId = ti3.fCurrentParseBuffer then
          (ti3.advanceParseBuffer (ti3.fReadBufCount + 1) ti3.fCurrentParseBuffer).map
            fun cpb => (NO_ERROR, { ti3 with fCurrentParseBuffer := cpb })
        else some (NO_ERROR, ti3)
      else some (NO_ERROR, ti3)

/-- The `for` loop of `getColumnForParse` that picks `columnId` (first
component) while tracking `maxTime` (second component). -/
def TableInfo.selectColumn (ti : TableInfo) (bufferId : Nat) (start : Int × Int) : Int × Int :=
  (List.range ti.fNumberOfColumns).foldl (fun acc k =>
    if (ti.fBuffers.getD bufferId default).getColumnLocker k = -1 then
      if acc.1 = -1 then ((k : Int), acc.2)
      else if (ti.fColumns.getD k default).lastProcessingTime = 0 then
        if (ti.fColumns.getD k default).width ≥ (ti.fColumns.getD acc.1.toNat default).width then
          ((k : Int), acc.2)
        else acc
      else if (ti.fColumns.getD k default).lastProcessingTime > acc.2 then
        ((k : Int), (ti.fColumns.getD k default).lastProcessingTime)
      else acc
    else acc) start

/-- How a call of `getColumnForParse` ends: it returns a column id (`-1` for
none) or throws `SecondaryShutdownException`. -/
inductive ParseOutcome where
  | ret (columnId : Int)
  | threw
  deriving DecidableEq, Repr

/-- `TableInfo::getColumnForParse`; `jobFailed` is what
`BulkStatus::getJobStatus() == EXIT_FAILURE` evaluates to.  `none` stands for
another round of the `while (true)` loop after a refused lock attempt. -/
def TableInfo.getColumnForParse (ti : TableInfo) (id : Int) (bufferId : Nat) (jobFailed : Bool) :
    Option (ParseOutcome × TableInfo) :=
  if jobFailed then some (ParseOutcome.threw, { ti with fStatusTI := Status.ERR })
  else if ¬ ti.bufferReadyForParse bufferId then some (ParseOutcome.ret (-1), ti)
  else
    let columnId := (ti.selectColumn bufferId (-1, 0)).1
    if columnId = -1 then some (ParseOutcome.ret (-1), ti)
    else
      let r := (ti.fBuffers.getD bufferId default).tryAndLockColumn columnId.toNat id
      if r.1 then
        some (ParseOutcome.ret columnId, { ti with fBuffers := ti.fBuffers.set bufferId r.2 })
      else none

/-- Column `k` of buffer `bufferId` is not locked
(`fBuffers[bufferId].getColumnLocker(k) == -1`). -/
def TableInfo.unlocked (ti : TableInfo) (bufferId k : Nat) : Prop :=
  (ti.fBuffers.getD bufferId default).getColumnLocker k = -1

instance (ti : TableInfo) (bufferId k : Nat) : Decidable (ti.unlocked bufferId k) := by
  unfold TableInfo.unlocked; infer_instance

/-- The body of the `for` loop of `getColumnForParse` for column `k`, on the
pair of `columnId` and `maxTime`. -/
def TableInfo.selectStep (ti : TableInfo) (bufferId : Nat) (acc : Int × Int) (k : Nat) :
    Int × Int :=
  if (ti.fBuffers.getD bufferId default).getColumnLocker k = -1 then
    if acc.1 = -1 then ((k : Int), acc.2)
    else if (ti.fColumns.getD k default).lastProcessingTime = 0 then
      if (ti.fColumns.getD k default).width ≥ (ti.fColumns.getD acc.1.toNat default).width then
        ((k : Int), acc.2)
      else acc
    else if (ti.fColumns.getD k default).lastProcessingTime > acc.2 then
      ((k : Int), (ti.fColumns.getD k default).lastProcessingTime)
    else acc
  else acc

/-- A table with the given columns and one row buffer that is `READ_COMPLETE`
with every column cell unlocked. -/
def readyTable (cols : List ColumnInfo) : TableInfo :=
  { (cols.foldl TableInfo.addColumn TableInfo.new).initializeBuffers 1 with
    fBuffers := [⟨Status.READ_COMPLETE, List.replicate cols.length ⟨-1, Status.NEW⟩⟩] }

/-- Where the reader thread stands in `readTableData`. -/
inductive ReaderPC where
  | idle
  | top
  | waiting
  | filling
  | returned (rc : Int)
  | threw
  deriving DecidableEq, Repr

/-- Local variables of `readTableData`; `progressPosts` lists the `rows_so_far`
of the `IT_PROGRESS` events posted. -/
structure ReaderLocals where
  filesTBProcessed : Nat
  fileCounter : Nat
  totalRowsPerInputFile : Nat
  qtSentAt : Nat
  progressPosts : List Nat
  deriving DecidableEq, Repr

/-- What one buffer fill reports back to `readTableData`: the return code of
`fillFromFile`/`fillFromMemory`/`fillFromFileParquet`, the per-file row counter
after the fill, the sizes of the buffer's error-row vectors, the value of the
end-of-input test, and whether the next input file (if any) opens. -/
structure FillResult where
  readRc : Int
  totalRowsPerInputFile : Nat
  errorRows : Nat
  errorDatRows : Nat
  atEof : Bool
  openOk : Bool
  deriving DecidableEq, Repr

/-- Entry of `readTableData` up to the read loop: the first input file is
opened (`openTableFile` returns `NO_ERROR` or `ERR_FILE_OPEN`). -/
def TableInfo.readTableDataStart (ec : ErrorCodes) (filesTBProcessed : Nat) (openOk : Bool)
    (ti : TableInfo) : ReaderPC × TableInfo × ReaderLocals :=
  if ¬ openOk then
    (ReaderPC.returned ec.ERR_FILE_OPEN, { ti with fStatusTI := Status.ERR },
      ⟨filesTBProcessed, 0, 0, 0, []⟩)
  else
    (ReaderPC.top, { ti with fProcessingBegun := true }, ⟨filesTBProcessed, 1, 0, 0, []⟩)

/-- The job-status poll at the top of the read loop. -/
def TableInfo.readTableDataJobCheck (jobFailed : Bool) (ti : TableInfo) : ReaderPC × TableInfo :=
  if jobFailed then (ReaderPC.threw, { ti with fStatusTI := Status.ERR })
  else (ReaderPC.waiting, ti)

/-- One evaluation of `while (!isBufferAvailable(report))` together with the
job-status poll of the loop body. -/
def TableInfo.readTableDataWait (jobFailed : Bool) (ti : TableInfo) : ReaderPC × TableInfo :=
  let r := ti.isBufferAvailable
  if r.1 then (ReaderPC.filling, r.2)
  else if jobFailed then (ReaderPC.threw, { r.2 with fStatusTI := Status.ERR })
  else (ReaderPC.waiting, r.2)

/-- The rest of one round of the read loop, from the fill of buffer
`fCurrentReadBuffer` to the end of the round. -/
def TableInfo.readTableDataFill (ec : ErrorCodes) (r : FillResult) (ti : TableInfo)
    (loc : ReaderLocals) : ReaderPC × TableInfo × ReaderLocals :=
  let readBufNo := ti.fCurrentReadBuffer
  let loc1 := { loc with totalRowsPerInputFile := r.totalRowsPerInputFile }
  if r.readRc ≠ NO_ERROR then
    (ReaderPC.returned r.readRc,
      { ti with
        fStatusTI := Status.ERR
        fBuffers := (updateAt ti.fBuffers readBufNo fun b => b.setStatusBLB Status.ERR) },
      loc1)
  else
    let thisRows := loc1.totalRowsPerInputFile / 1000000
    let loc2 := if thisRows > loc1.qtSentAt then
      { loc1 with qtSentAt := thisRows,
                  progressPosts := loc1.progressPosts ++ [loc1.totalRowsPerInputFile] }
      else loc1
    let ti1 := ti.writeErrorList (some r.errorRows) (some r.errorDatRows) false
    if ti1.fTotalErrRows > ti1.fMaxErrorRows then
      let ti2 := ti1.writeErrorList none none true
      (ReaderPC.returned ec.ERR_BULK_MAX_ERR_NUM,
        { ti2 with
          fStatusTI := Status.ERR
          fBuffers := (updateAt ti2.fBuffers readBufNo fun b => b.setStatusBLB Status.ERR) },
        loc2)
    else
      let ti2 := { ti1 with
        fBuffers := (updateAt ti1.fBuffers readBufNo fun b =>
          b.setStatusBLB Status.READ_COMPLETE)
        fCurrentReadBuffer := (ti1.fCurrentReadBuffer + 1) % ti1.fReadBufCount }
      if r.atEof then
        let ti3 := ti2.writeErrorList none none true
        if loc2.fileCounter < loc2.filesTBProcessed then
          if ¬ r.openOk then
            (ReaderPC.returned ec.ERR_FILE_OPEN, { ti3 with fStatusTI := Status.ERR }, loc2)
          else
            (ReaderPC.top,
              { ti3 with fTotalReadRows := ti3.fTotalReadRows + loc2.totalRowsPerInputFile },
              { loc2 with fileCounter := loc2.fileCounter + 1, totalRowsPerInputFile := 0 })
        else
          (ReaderPC.returned NO_ERROR,
            { ti3 with
              fStatusTI := Status.READ_COMPLETE
              fLastBufferId := readBufNo
              fTotalReadRows := ti3.fTotalReadRows + loc2.totalRowsPerInputFile },
            loc2)
      else (ReaderPC.top, ti2, loc2)

/-- The table together with its reader thread. -/
structure Sys where
  ti : TableInfo
  pc : ReaderPC
  loc : ReaderLocals
  deriving DecidableEq, Repr

/-- The atomic steps of the reader thread and of the parser workers, with the
answers of the environment. -/
inductive Event where
  | lockForRead (locker : Int)
  | readStart (filesTBProcessed : Nat) (openOk : Bool)
  | jobCheck (jobFailed : Bool)
  | waitBuffer (jobFailed : Bool)
  | fill (r : FillResult)
  | getColumnForParse (id : Int) (bufferId : Nat) (jobFailed : Bool)
  | setParseComplete (columnId bufferId : Nat) (processingTime : Int) (env : FinalizeEnv)
  | setParseError
  deriving DecidableEq, Repr

/-- A worker may report column `columnId` of buffer `bufferId` as parsed when
it holds the lock of that cell and has not reported it yet (the parser worker
contract of the spec). -/
def TableInfo.holdsCell (ti : TableInfo) (columnId bufferId : Nat) : Prop :=
  ∃ b c, ti.fBuffers[bufferId]? = some b ∧ b.fColumnLocks[columnId]? = some c ∧
    c.locker ≠ -1 ∧ c.status ≠ Status.PARSE_COMPLETE

instance (ti : TableInfo) (columnId bufferId : Nat) : Decidable (ti.holdsCell columnId bufferId) :=
  match h1 : ti.fBuffers[bufferId]? with
  | none => isFalse (by rintro ⟨b, c, hb, -⟩; rw [h1] at hb; cases hb)
  | some b =>
    match h2 : b.fColumnLocks[columnId]? with
    | none => isFalse (by
        rintro ⟨b2, c, hb, hc, -⟩
        rw [h1] at hb; cases hb; rw [h2] at hc; cases hc)
    | some c =>
      if h3 : c.locker ≠ -1 ∧ c.status ≠ Status.PARSE_COMPLETE then
        isTrue ⟨b, c, h1, h2, h3.1, h3.2⟩
      else isFalse (by
        rintro ⟨b2, c2, hb, hc, h4⟩
        rw [h1] at hb; cases hb; rw [h2] at hc; cases hc; exact h3 h4)

/-- One step of the system; `none` when the event cannot happen in this state
(the reader is elsewhere in its program, or a parser call would break the
worker contract). -/
def step (ec : ErrorCodes) : Event → Sys → Option Sys
  | .lockForRead locker, s => some { s with ti := (s.ti.lockForRead locker).2 }
  | .readStart n openOk, s =>
    if s.pc = ReaderPC.idle then
      let r := s.ti.readTableDataStart ec n openOk
      some ⟨r.2.1, r.1, r.2.2⟩
    else none
  | .jobCheck jobFailed, s =>
    if s.pc = ReaderPC.top then
      let r := s.ti.readTableDataJobCheck jobFailed
      some { s with ti := r.2, pc := r.1 }
    else none
  | .waitBuffer jobFailed, s =>
    if s.pc = ReaderPC.waiting then
      let r := s.ti.readTableDataWait jobFailed
      some { s with ti := r.2, pc := r.1 }
    else none
  | .fill r, s =>
    if s.pc = ReaderPC.filling then
      let x := s.ti.readTableDataFill ec r s.loc
      some ⟨x.2.1, x.1, x.2.2⟩
    else none
  | .getColumnForParse id bufferId jobFailed, s =>
    if id ≠ -1 then
      (s.ti.getColumnForParse id bufferId jobFailed).map fun r => { s with ti := r.2 }
    else none
  | .setParseComplete columnId bufferId processingTime env, s =>
    if s.ti.holdsCell columnId bufferId then
      (s.ti.setParseComplete ec env columnId bufferId processingTime).map
        fun r => { s with ti := r.2 }
    else none
  | .setParseError, s => some { s with ti := s.ti.setParseError }

/-- Run a sequence of events; `none` when one of them cannot happen. -/
def run (ec : ErrorCodes) : List Event → Sys → Option Sys
  | [], s => some s
  | e :: es, s => (step ec e s).bind (run ec es)

/-- A table with the given columns, `noOfBuffers` row buffers and the given
error limit, before any thread has touched it. -/
def Sys.init (cols : List ColumnInfo) (noOfBuffers maxErrorRows : Nat) : Sys :=
  { ti := { (cols.foldl TableInfo.addColumn TableInfo.new).initializeBuffers noOfBuffers with
            fMaxErrorRows := maxErrorRows }
    pc := ReaderPC.idle
    loc := ⟨0, 0, 0, 0, []⟩ }

/-- The statuses of the row buffers, in ring order. -/
def Sys.bufferStatuses (s : Sys) : List Status :=
  s.ti.fBuffers.map fun b => b.fStatusBLB

/-- The moves of a row buffer's status that the reader and the parsers make:
claim of a `NEW` or `PARSE_COMPLETE` buffer by the reader, end of the fill
(`READ_COMPLETE`, or `ERR` when the fill fails or the error limit is passed),
and completion of the parse of all columns. -/
def ringEdge (a b : Status) : Prop :=
  a = b ∨ (a = Status.NEW ∧ b = Status.READ_PROGRESS) ∨
    (a = Status.PARSE_COMPLETE ∧ b = Status.READ_PROGRESS) ∨
    (a = Status.READ_PROGRESS ∧ b = Status.READ_COMPLETE) ∨
    (a = Status.READ_PROGRESS ∧ b = Status.ERR) ∨
    (a = Status.READ_COMPLETE ∧ b = Status.PARSE_COMPLETE)

instance (a b : Status) : Decidable (ringEdge a b) := by
  unfold ringEdge; infer_instance

/-- Invariant of the ring: a cell that a worker holds and has not yet reported
lies in a `READ_COMPLETE` buffer, and while the reader fills, the buffer at
`fCurrentReadBuffer` is `READ_PROGRESS`. -/
structure RingInv (s : Sys) : Prop where
  held : ∀ b ∈ s.ti.fBuffers, ∀ c ∈ b.fColumnLocks, c.locker ≠ -1 →
    c.status ≠ Status.PARSE_COMPLETE → b.fStatusBLB = Status.READ_COMPLETE
  reading : s.pc = ReaderPC.filling → ∀ b, s.ti.fBuffers[s.ti.fCurrentReadBuffer]? = some b →
    b.fStatusBLB = Status.READ_PROGRESS

/-- The error-row counts reported by the buffer fills among the events. -/
def fillErrors : List Event → List Nat
  | [] => []
  | Event.fill r :: es => r.errorRows :: fillErrors es
  | _ :: es => fillErrors es

/-- A successful fill that read `rows` rows of which `errs` were rejected. -/
def goodFill (rows errs : Nat) (atEof : Bool) : FillResult :=
  ⟨NO_ERROR, rows, errs, errs, atEof, true⟩

/-- Collaborator answers for a finalize sequence in which every step succeeds. -/
def okEnv (segFileInfo : List DBRootExtentInfo) : FinalizeEnv :=
  ⟨NO_ERROR, false, NO_ERROR, segFileInfo, NO_ERROR, NO_ERROR, NO_ERROR, NO_ERROR⟩

/-- What `setParseComplete` does to the buffer `bufferId`: the cell of the
column becomes `PARSE_COMPLETE`, and the buffer too when `setColumnStatus`
reports all columns complete. -/
def markParsed (columnId : Nat) (b : BulkLoadBuffer) : BulkLoadBuffer :=
  if (b.setColumnStatus columnId Status.PARSE_COMPLETE).1 then
    (b.setColumnStatus columnId Status.PARSE_COMPLETE).2.setStatusBLB Status.PARSE_COMPLETE
  else (b.setColumnStatus columnId Status.PARSE_COMPLETE).2

/-- The reader has returned `ERR_BULK_MAX_ERR_NUM` exactly when the error total
is over the limit, and then the table status is `ERR`. -/
def BudgetOK (ec : ErrorCodes) (s : Sys) : Prop :=
  (s.pc = ReaderPC.returned ec.ERR_BULK_MAX_ERR_NUM →
    s.ti.fMaxErrorRows < s.ti.fTotalErrRows ∧ s.ti.fStatusTI = Status.ERR) ∧
  (s.pc ≠ ReaderPC.returned ec.ERR_BULK_MAX_ERR_NUM → s.ti.fTotalErrRows ≤ s.ti.fMaxErrorRows)

/-- Scenario S4: limit 2, one column, three buffers; three fills that each
reject one malformed row. -/
def budgetScenario : List Event :=
  [Event.readStart 1 true,
    Event.jobCheck false, Event.waitBuffer false, Event.fill (goodFill 1 1 false),
    Event.jobCheck false, Event.waitBuffer false, Event.fill (goodFill 2 1 false),
    Event.jobCheck false, Event.waitBuffer false, Event.fill (goodFill 3 1 false)]

/-! ## The Parquet value converters (`parquetConvert`), integer branches -/

/-- `WriteEngine::ColType` (`we_type.h` is not among the sources; these are the
enumerators that `parquetConvert` names, the others fall under `default:`). -/
inductive ColType where
  | WR_INT
  | WR_UINT
  | WR_SHORT
  | WR_USHORT
  | WR_BYTE
  | WR_UBYTE
  | WR_LONGLONG
  | WR_ULONGLONG
  | WR_FLOAT
  | WR_DOUBLE
  | WR_CHAR
  | WR_TOKEN
  | WR_BLOB
  | WR_VARBINARY
  | WR_CLOB
  | WR_TEXT
  | WR_MEDINT
  | WR_UMEDINT
  | WR_BINARY
  deriving DecidableEq, Repr

/-- `CalpontSystemCatalog::ColDataType`, as far as `parquetConvert` tests it:
the decimal and the calendar types are told apart, `OTHER` is any other type. -/
inductive ColDataType where
  | DECIMAL
  | UDECIMAL
  | DATE
  | DATETIME
  | TIMESTAMP
  | TIME
  | OTHER
  deriving DecidableEq, Repr

/-- The Arrow type ids that `parquetConvert` tests (`columnData->type_id()`). -/
inductive ArrowType where
  | BOOL
  | TIME32
  | TIME64
  | NA
  | OTHER
  deriving DecidableEq, Repr

/-- The fields of `JobColumn` read by `parquetConvert`.
`fMinIntSat` is `int64_t`, `fMaxIntSat` and `fDefaultUInt` are `uint64_t`,
`fDefaultInt` is `long long`, `fDefaultWideDecimal` is `int128_t`.  The `double`
fields `fDefaultDbl`, `fMinDblSat`, `fMaxDblSat` are held as their 64-bit
patterns, `fDefaultChr` as its bytes. -/
structure JobColumn where
  weType : ColType
  dataType : ColDataType := ColDataType.OTHER
  width : Nat
  autoIncFlag : Bool := false
  fWithDefault : Bool := false
  fDefaultInt : Int := 0
  fDefaultUInt : Nat := 0
  fDefaultWideDecimal : Int := 0
  fMinIntSat : Int
  fMaxIntSat : Nat
  fDefaultDbl : Int := 0
  fMinDblSat : Int := 0
  fMaxDblSat : Int := 0
  definedWidth : Nat := 0
  fDefaultChr : List Nat := []
  deriving DecidableEq, Repr

/-- The null markers of `joblisttypes.h` and `Decimal128Null`, as the values of
the typed temporaries they are assigned to.  The headers are not among the
sources, so the values are parameters. -/
structure NullValues where
  TINYINTNULL : Int
  SMALLINTNULL : Int
  INTNULL : Int
  BIGINTNULL : Int
  UTINYINTNULL : Int
  USMALLINTNULL : Int
  UINTNULL : Int
  UBIGINTNULL : Int
  Decimal128Null : Int
  DATENULL : Int
  FLOATNULL : Int
  DOUBLENULL : Int
  TIMENULL : Int
  DATETIMENULL : Int
  TIMESTAMPNULL : Int
  deriving DecidableEq, Repr

/-- The calendar routines of `dataconvert::DataConvert`, which are not among the
sources and are taken as parameters.  `ConvertArrowColumnDate(dayVal, rc)` and
`convertArrowColumnDatetime(timeVal, rc)` give the returned value and the status
they leave in `rc`. -/
structure DataConvert where
  ConvertArrowColumnDate : Int → Int × Int
  convertArrowColumnTime32 : Int → Int
  convertArrowColumnTime64 : Int → Int
  convertArrowColumnDatetime : Int → Int × Int

/-- The floating-point operations of the branches `WR_FLOAT` and `WR_DOUBLE`, on
bit patterns (a `float` is its 32-bit pattern, a `double` its 64-bit pattern):
the conversion `float x = d` of a `double`, and the comparisons `a > b`, `a < b`
of two `float`s and of two `double`s.  They are parameters of the embedding. -/
structure FloatOps where
  toFloat : Int → Int
  fltGt : Int → Int → Bool
  fltLt : Int → Int → Bool
  dblGt : Int → Int → Bool
  dblLt : Int → Int → Bool

/-- `BLBufferStats`: the min/max accumulator (narrow and wide) and the
saturation counter of one conversion. -/
structure BLBufferStats where
  minBufferVal : Int
  maxBufferVal : Int
  bigMinBufferVal : Int
  bigMaxBufferVal : Int
  satCount : Nat
  deriving DecidableEq, Repr

/-- What the loops of `parquetConvert` carry from element to element:
`bufStats` and the by-reference counter `fAutoIncNextValue` (`uint64_t`). -/
structure ConvState where
  bufStats : BLBufferStats
  fAutoIncNextValue : Nat
  deriving DecidableEq, Repr

/-- The value of a signed integer of `bits` bits with the bit pattern of `x`
(conversion to a signed C++ integer type). -/
def wrapSigned (bits : Nat) (x : Int) : Int :=
  (x + 2 ^ (bits - 1)) % 2 ^ bits - 2 ^ (bits - 1)

/-- The value of an unsigned integer of `bits` bits with the bit pattern of `x`
(conversion to an unsigned C++ integer type). -/
def wrapUnsigned (bits : Nat) (x : Int) : Int :=
  x % 2 ^ bits

/-- The `width` low-order bytes, least significant first, of the two's-complement
pattern of `x`.  For a `width` up to the size of a little-endian integer
temporary holding `x` these are the bytes that `memcpy(p, pVal, width)` copies
from it; for a larger `width` the copy reads past the temporary and these are
not its bytes. -/
def leBytes (width : Nat) (x : Int) : List Nat :=
  (List.range width).map fun k => ((x % 2 ^ (8 * width)).toNat / 256 ^ k) % 256

/-- `origVal = fAutoIncNextValue++`: the value given to the element and the
state with the counter advanced. -/
def ConvState.nextAutoInc (st : ConvState) : Int × ConvState :=
  (wrapSigned 64 st.fAutoIncNextValue,
    { st with fAutoIncNextValue := (st.fAutoIncNextValue + 1) % 2 ^ 64 })

/-- `if (bSatVal) bufStats.satCount++;`. -/
def ConvState.countSat (st : ConvState) (bSatVal : Bool) : ConvState :=
  if bSatVal then { st with bufStats := { st.bufStats with satCount := st.bufStats.satCount + 1 } }
  else st

/-- The signed min/max update
`if (v < minBufferVal) minBufferVal = v; if (v > maxBufferVal) maxBufferVal = v;`. -/
def ConvState.updateMinMax (st : ConvState) (v : Int) : ConvState :=
  let b1 := if v < st.bufStats.minBufferVal then { st.bufStats with minBufferVal := v }
    else st.bufStats
  let b2 := if v > b1.maxBufferVal then { b1 with maxBufferVal := v } else b1
  { st with bufStats := b2 }

/-- The unsigned min/max update: `uVal = origVal` is compared with the
accumulator cast to `uint64_t`, and `origVal` is stored. -/
def ConvState.updateMinMaxUnsigned (st : ConvState) (origVal : Int) : ConvState :=
  let uVal := wrapUnsigned 64 origVal
  let b1 := if uVal < wrapUnsigned 64 st.bufStats.minBufferVal then
    { st.bufStats with minBufferVal := origVal } else st.bufStats
  let b2 := if uVal > wrapUnsigned 64 b1.maxBufferVal then { b1 with maxBufferVal := origVal }
    else b1
  { st with bufStats := b2 }

/-- The saturation test shared by the branches `WR_SHORT`, `WR_USHORT`,
`WR_UBYTE`, `WR_LONGLONG`, `WR_UINT` and `WR_INT`: the clamped value and
`bSatVal`. -/
def saturate (column : JobColumn) (origVal : Int) : Int × Bool :=
  if origVal < column.fMinIntSat then (column.fMinIntSat, true)
  else if origVal > wrapSigned 64 column.fMaxIntSat then (wrapSigned 64 column.fMaxIntSat, true)
  else (origVal, false)

/-- The saturation test of the branch `WR_BYTE`, which does not set `bSatVal`
when the value is below `fMinIntSat`. -/
def saturateByte (column : JobColumn) (origVal : Int) : Int × Bool :=
  if origVal < column.fMinIntSat then (column.fMinIntSat, false)
  else if origVal > wrapSigned 64 column.fMaxIntSat then (wrapSigned 64 column.fMaxIntSat, true)
  else (origVal, false)

/-- Whether the element is read as a 128-bit decimal
(`dataType == DECIMAL || dataType == UDECIMAL`). -/
def JobColumn.isDecimal (column : JobColumn) : Bool :=
  decide (column.dataType = ColDataType.DECIMAL ∨ column.dataType = ColDataType.UDECIMAL)

/-- `origVal` of a non-null element in the branch `WR_SHORT`: read as `int128_t`
for a decimal column, else through `const short*`. -/
def readShort (column : JobColumn) (raw : Int) : Int :=
  if column.isDecimal then wrapSigned 64 (wrapSigned 128 raw) else wrapSigned 16 raw

/-- `origVal` of a non-null element in the branch `WR_USHORT`
(`const uint16_t*`). -/
def readUShort (raw : Int) : Int := wrapUnsigned 16 raw

/-- `origVal` of a non-null element in the branch `WR_BYTE`: read as `int128_t`
for a decimal column, through `boolArray->Value(i)` for a `BOOL` array, else
through `const int8_t*`. -/
def readByte (column : JobColumn) (arrowType : ArrowType) (raw : Int) : Int :=
  if column.isDecimal then wrapSigned 64 (wrapSigned 128 raw)
  else if arrowType = ArrowType.BOOL then (if raw = 0 then 0 else 1)
  else wrapSigned 8 raw

/-- `origVal` of a non-null element in the branch `WR_UBYTE`
(`const uint8_t*`). -/
def readUByte (raw : Int) : Int := wrapUnsigned 8 raw

/-- `llVal` of a non-null element in the branch `WR_LONGLONG`: read as
`int128_t` for a decimal column, else through `const long long*`. -/
def readLongLong (column : JobColumn) (raw : Int) : Int :=
  if column.isDecimal then wrapSigned 64 (wrapSigned 128 raw) else wrapSigned 64 raw

/-- `origVal` of a non-null element in the branch `WR_UINT`/`WR_UMEDINT`
(`const uint32_t*`). -/
def readUInt (raw : Int) : Int := wrapUnsigned 32 raw

/-- `origVal` of a non-null element in the branch `WR_INT`/`WR_MEDINT`: read as
`int128_t` for a decimal column, else through `const int*`. -/
def readInt (column : JobColumn) (raw : Int) : Int :=
  if column.isDecimal then wrapSigned 64 (wrapSigned 128 raw) else wrapSigned 32 raw

/-- One element of the branch `WR_SHORT` (`none` is a null element, `some raw`
the array element): the value of `siVal` that is copied out and the new state. -/
def convertShort (nv : NullValues) (column : JobColumn) (e : Option Int) (st : ConvState) :
    Int × ConvState :=
  let go (origVal : Int) (st : ConvState) : Int × ConvState :=
    let s := saturate column origVal
    (wrapSigned 16 s.1, (st.countSat s.2).updateMinMax s.1)
  match e with
  | none =>
    if ¬ column.autoIncFlag then
      if column.fWithDefault then go column.fDefaultInt st
      else (nv.SMALLINTNULL, st)
    else go st.nextAutoInc.1 st.nextAutoInc.2
  | some raw => go (readShort column raw) st

/-- One element of the branch `WR_USHORT`: the value of `usiVal` and the new
state. -/
def convertUShort (nv : NullValues) (column : JobColumn) (e : Option Int) (st : ConvState) :
    Int × ConvState :=
  let go (origVal : Int) (st : ConvState) : Int × ConvState :=
    let s := saturate column origVal
    (wrapUnsigned 16 s.1, (st.countSat s.2).updateMinMaxUnsigned s.1)
  match e with
  | none =>
    if ¬ column.autoIncFlag then
      if column.fWithDefault then go (wrapSigned 64 column.fDefaultUInt) st
      else (nv.USMALLINTNULL, st)
    else go st.nextAutoInc.1 st.nextAutoInc.2
  | some raw => go (readUShort raw) st

/-- One element of the branch `WR_BYTE`: the value of `biVal` and the new
state.  A `BOOL` array is read through `boolArray->Value(i)`. -/
def convertByte (nv : NullValues) (column : JobColumn) (arrowType : ArrowType) (e : Option Int)
    (st : ConvState) : Int × ConvState :=
  let go (origVal : Int) (st : ConvState) : Int × ConvState :=
    let s := saturateByte column origVal
    (wrapSigned 8 s.1, (st.countSat s.2).updateMinMax s.1)
  match e with
  | none =>
    if ¬ column.autoIncFlag then
      if column.fWithDefault then go column.fDefaultInt st
      else (nv.TINYINTNULL, st)
    else go st.nextAutoInc.1 st.nextAutoInc.2
  | some raw => go (readByte column arrowType raw) st

/-- One element of the branch `WR_UBYTE`: the value of `ubiVal` and the new
state. -/
def convertUByte (nv : NullValues) (column : JobColumn) (e : Option Int) (st : ConvState) :
    Int × ConvState :=
  let go (origVal : Int) (st : ConvState) : Int × ConvState :=
    let s := saturate column origVal
    (wrapUnsigned 8 s.1, (st.countSat s.2).updateMinMaxUnsigned s.1)
  match e with
  | none =>
    if ¬ column.autoIncFlag then
      if column.fWithDefault then go (wrapSigned 64 column.fDefaultUInt) st
      else (nv.UTINYINTNULL, st)
    else go st.nextAutoInc.1 st.nextAutoInc.2
  | some raw => go (readUByte raw) st

/-- One element of the branch `WR_LONGLONG` for a column that is not
`DATETIME`, `TIMESTAMP` or `TIME`: the value of `llVal` and the new state. -/
def convertLongLong (nv : NullValues) (column : JobColumn) (e : Option Int) (st : ConvState) :
    Int × ConvState :=
  let go (llVal : Int) (st : ConvState) : Int × ConvState :=
    let s := saturate column llVal
    (s.1, (st.countSat s.2).updateMinMax s.1)
  match e with
  | none =>
    if ¬ column.autoIncFlag then
      if column.fWithDefault then go column.fDefaultInt st
      else (nv.BIGINTNULL, st)
    else go st.nextAutoInc.1 st.nextAutoInc.2
  | some raw => go (readLongLong column raw) st

/-- One element of the branch `WR_UMEDINT`/`WR_UINT`: the value of `uiVal` and
the new state. -/
def convertUInt (nv : NullValues) (column : JobColumn) (e : Option Int) (st : ConvState) :
    Int × ConvState :=
  let go (origVal : Int) (st : ConvState) : Int × ConvState :=
    let s := saturate column origVal
    (wrapUnsigned 32 s.1, (st.countSat s.2).updateMinMaxUnsigned s.1)
  match e with
  | none =>
    if ¬ column.autoIncFlag then
      if column.fWithDefault then go (wrapSigned 64 column.fDefaultUInt) st
      else (nv.UINTNULL, st)
    else go st.nextAutoInc.1 st.nextAutoInc.2
  | some raw => go (readUInt raw) st

/-- One element of the branch `WR_MEDINT`/`WR_INT`/`default` for a column that
is not `DATE`: the value of `iVal` and the new state. -/
def convertInt (nv : NullValues) (column : JobColumn) (e : Option Int) (st : ConvState) :
    Int × ConvState :=
  let go (origVal : Int) (st : ConvState) : Int × ConvState :=
    let s := saturate column origVal
    (wrapSigned 32 s.1, (st.countSat s.2).updateMinMax s.1)
  match e with
  | none =>
    if ¬ column.autoIncFlag then
      if column.fWithDefault then go column.fDefaultInt st
      else (nv.INTNULL, st)
    else go st.nextAutoInc.1 st.nextAutoInc.2
  | some raw => go (readInt column raw) st

/-- One element of the branch `WR_MEDINT`/`WR_INT`/`default` for a `DATE`
column (`int rc = 0` at the head of each iteration): the value of `iDate` and
the new state.  The limits and the auto-increment flag are not read. -/
def convertDate (nv : NullValues) (dc : DataConvert) (column : JobColumn) (e : Option Int)
    (st : ConvState) : Int × ConvState :=
  let go (iDate : Int) (rc : Int) (st : ConvState) : Int × ConvState :=
    if rc = 0 then (iDate, st.updateMinMax iDate)
    else (0, st.countSat true)
  match e with
  | none =>
    if column.fWithDefault then go (wrapSigned 32 column.fDefaultInt) 0 st
    else (nv.DATENULL, st)
  | some raw =>
    let r := dc.ConvertArrowColumnDate (wrapSigned 32 raw)
    go (wrapSigned 32 r.1) r.2 st

/-- One element of the branch `WR_FLOAT`: the pattern copied out (`fVal`, or
`tmp32` for the null marker) and the new state.  The saturation test stands in
the branch of a non-null element only. -/
def convertFloat (fo : FloatOps) (nv : NullValues) (column : JobColumn) (e : Option Int)
    (st : ConvState) : Int × ConvState :=
  match e with
  | none =>
    if column.fWithDefault then (fo.toFloat column.fDefaultDbl, st)
    else (nv.FLOATNULL, st)
  | some raw =>
    let minFltSat := fo.toFloat column.fMinDblSat
    let maxFltSat := fo.toFloat column.fMaxDblSat
    let fVal := wrapUnsigned 32 raw
    if fo.fltGt fVal maxFltSat then (maxFltSat, st.countSat true)
    else if fo.fltLt fVal minFltSat then (minFltSat, st.countSat true)
    else (fVal, st)

/-- One element of the branch `WR_DOUBLE`: the pattern copied out (`dVal`, or
`tmp64` for the null marker) and the new state. -/
def convertDouble (fo : FloatOps) (nv : NullValues) (column : JobColumn) (e : Option Int)
    (st : ConvState) : Int × ConvState :=
  let go (dVal : Int) (st : ConvState) : Int × ConvState :=
    if fo.dblGt dVal column.fMaxDblSat then (column.fMaxDblSat, st.countSat true)
    else if fo.dblLt dVal column.fMinDblSat then (column.fMinDblSat, st.countSat true)
    else (dVal, st)
  match e with
  | none =>
    if column.fWithDefault then go column.fDefaultDbl st
    else (nv.DOUBLENULL, st)
  | some raw => go (wrapUnsigned 64 raw) st

/-- One element of the branch `WR_LONGLONG` for a `TIME` column read through a
`Time32Array`: the value of `llDate` and the new state. -/
def convertTime32 (nv : NullValues) (dc : DataConvert) (column : JobColumn) (e : Option Int)
    (st : ConvState) : Int × ConvState :=
  match e with
  | none =>
    if column.fWithDefault then (column.fDefaultInt, st.updateMinMax column.fDefaultInt)
    else (nv.TIMENULL, st)
  | some raw =>
    let llDate := wrapSigned 64 (dc.convertArrowColumnTime32 (wrapSigned 32 raw))
    (llDate, st.updateMinMax llDate)

/-- One element of the branch `WR_LONGLONG` for a `TIME` column read through a
`Time64Array`: the value of `llDate` and the new state. -/
def convertTime64 (nv : NullValues) (dc : DataConvert) (column : JobColumn) (e : Option Int)
    (st : ConvState) : Int × ConvState :=
  match e with
  | none =>
    if column.fWithDefault then (column.fDefaultInt, st.updateMinMax column.fDefaultInt)
    else (nv.TIMENULL, st)
  | some raw =>
    let llDate := wrapSigned 64 (dc.convertArrowColumnTime64 (wrapSigned 64 raw))
    (llDate, st.updateMinMax llDate)

/-- One element of the branch `WR_LONGLONG` for a `TIMESTAMP` column: the value
of `llDate` and the new state. -/
def convertTimestamp (nv : NullValues) (column : JobColumn) (e : Option Int)
    (st : ConvState) : Int × ConvState :=
  match e with
  | none =>
    if column.fWithDefault then (column.fDefaultInt, st.updateMinMax column.fDefaultInt)
    else (nv.TIMESTAMPNULL, st)
  | some raw => (wrapSigned 64 raw, st.updateMinMax (wrapSigned 64 raw))

/-- One element of the branch `WR_LONGLONG` for a `DATETIME` column (`int rc = 0`
at the head of each iteration): the value of `llDate` and the new state. -/
def convertDatetime (nv : NullValues) (dc : DataConvert) (column : JobColumn) (e : Option Int)
    (st : ConvState) : Int × ConvState :=
  let go (llDate : Int) (rc : Int) (st : ConvState) : Int × ConvState :=
    if rc = 0 then (llDate, st.updateMinMax llDate)
    else (0, st.countSat true)
  match e with
  | none =>
    if column.fWithDefault then go column.fDefaultInt 0 st
    else (nv.DATETIMENULL, st)
  | some raw =>
    let r := dc.convertArrowColumnDatetime (wrapSigned 64 raw)
    go (wrapSigned 64 r.1) r.2 st

/-- One element of the branch `WR_ULONGLONG`: the value of `ullVal` and the new
state; only `fMaxIntSat` is tested. -/
def convertULongLong (nv : NullValues) (column : JobColumn) (e : Option Int) (st : ConvState) :
    Int × ConvState :=
  let go (ullVal : Int) (st : ConvState) : Int × ConvState :=
    let s : Int × Bool := if ullVal > column.fMaxIntSat then ((column.fMaxIntSat : Int), true)
      else (ullVal, false)
    let st1 := st.countSat s.2
    let b1 := if s.1 < wrapUnsigned 64 st1.bufStats.minBufferVal then
      { st1.bufStats with minBufferVal := wrapSigned 64 s.1 } else st1.bufStats
    let b2 := if s.1 > wrapUnsigned 64 b1.maxBufferVal then
      { b1 with maxBufferVal := wrapSigned 64 s.1 } else b1
    (s.1, { st1 with bufStats := b2 })
  match e with
  | none =>
    if ¬ column.autoIncFlag then
      if column.fWithDefault then go column.fDefaultUInt st
      else (nv.UBIGINTNULL, st)
    else go st.fAutoIncNextValue st.nextAutoInc.2
  | some raw => go (wrapUnsigned 64 raw) st

/-- One element of the branch `WR_BINARY`: the value of `bigllVal` and the new
state; `bSatVal` is never set. -/
def convertBinary (nv : NullValues) (column : JobColumn) (e : Option Int) (st : ConvState) :
    Int × ConvState :=
  let go (bigllVal : Int) (st : ConvState) : Int × ConvState :=
    let b1 := if bigllVal < st.bufStats.bigMinBufferVal then
      { st.bufStats with bigMinBufferVal := bigllVal } else st.bufStats
    let b2 := if bigllVal > b1.bigMaxBufferVal then { b1 with bigMaxBufferVal := bigllVal }
      else b1
    (bigllVal, { st with bufStats := b2 })
  match e with
  | none =>
    if ¬ column.autoIncFlag then
      if column.fWithDefault then go column.fDefaultWideDecimal st
      else (nv.Decimal128Null, st)
    else go st.fAutoIncNextValue st.nextAutoInc.2
  | some raw => go (wrapSigned 128 raw) st

/-- The `for (i = 0; i < cbs; i++)` loop of a branch: the element conversion
`f` is applied to the elements in order; the result is the list of values
copied out, in element order, and the final state. -/
def convertLoop (f : Option Int → ConvState → Int × ConvState) :
    List (Option Int) → ConvState → List Int × ConvState
  | [], st => ([], st)
  | e :: es, st =>
    let r := f e st
    let rest := convertLoop f es r.2
    (r.1 :: rest.1, rest.2)

/-- `TableInfo::parquetConvert` on an array of numbers: `columnData` is the
chunk of `cbs` elements (`none` for a null), the result the values of the typed
temporaries copied to `buf + i * width`, in element order, and the final
`bufStats` and `fAutoIncNextValue`.  A `TIME` column whose array is neither
`TIME32`, `NA` nor `TIME64` runs no loop and copies nothing.  The branch
`WR_CHAR` reads a binary array and is embedded as `parquetConvertChar`
(`none` here). -/
def parquetConvert (nv : NullValues) (dc : DataConvert) (fo : FloatOps)
    (columnData : List (Option Int)) (arrowType : ArrowType) (column : JobColumn)
    (st : ConvState) : Option (List Int × ConvState) :=
  match column.weType with
  | ColType.WR_FLOAT => some (convertLoop (convertFloat fo nv column) columnData st)
  | ColType.WR_DOUBLE => some (convertLoop (convertDouble fo nv column) columnData st)
  | ColType.WR_CHAR => none
  | ColType.WR_SHORT => some (convertLoop (convertShort nv column) columnData st)
  | ColType.WR_USHORT => some (convertLoop (convertUShort nv column) columnData st)
  | ColType.WR_BYTE => some (convertLoop (convertByte nv column arrowType) columnData st)
  | ColType.WR_UBYTE => some (convertLoop (convertUByte nv column) columnData st)
  | ColType.WR_LONGLONG =>
    if column.dataType ≠ ColDataType.DATETIME ∧ column.dataType ≠ ColDataType.TIMESTAMP ∧
        column.dataType ≠ ColDataType.TIME then
      some (convertLoop (convertLongLong nv column) columnData st)
    else if column.dataType = ColDataType.TIME then
      if arrowType = ArrowType.TIME32 ∨ arrowType = ArrowType.NA then
        some (convertLoop (convertTime32 nv dc column) columnData st)
      else if arrowType = ArrowType.TIME64 then
        some (convertLoop (convertTime64 nv dc column) columnData st)
      else some ([], st)
    else if column.dataType = ColDataType.TIMESTAMP then
      some (convertLoop (convertTimestamp nv column) columnData st)
    else some (convertLoop (convertDatetime nv dc column) columnData st)
  | ColType.WR_BINARY => some (convertLoop (convertBinary nv column) columnData st)
  | ColType.WR_ULONGLONG => some (convertLoop (convertULongLong nv column) columnData st)
  | ColType.WR_UMEDINT => some (convertLoop (convertUInt nv column) columnData st)
  | ColType.WR_UINT => some (convertLoop (convertUInt nv column) columnData st)
  | _ =>
    if column.dataType ≠ ColDataType.DATE then
      some (convertLoop (convertInt nv column) columnData st)
    else some (convertLoop (convertDate nv dc column) columnData st)

/-- The bytes written to `buf` for a list of copied-out values, for a `width` up
to the size of the typed temporary: `width` bytes per element at offset
`i * width`. -/
def bufBytes (width : Nat) (vals : List Int) : List Nat :=
  vals.flatMap (leBytes width)

/-- The clamp of `v` to `[lo, hi]`. -/
def clamp (v lo hi : Int) : Int := max lo (min v hi)

/-- The value `v` lies outside the saturation limits of the column. -/
def JobColumn.outOfRange (column : JobColumn) (v : Int) : Prop :=
  v < column.fMinIntSat ∨ v > column.fMaxIntSat

instance (column : JobColumn) (v : Int) : Decidable (column.outOfRange v) := by
  unfold JobColumn.outOfRange; infer_instance

/-- The decoded value `v` of a non-null element, by branch of `parquetConvert`
(the value of `origVal`/`llVal` before the saturation test). -/
def JobColumn.readElem (column : JobColumn) (arrowType : ArrowType) (raw : Int) : Int :=
  match column.weType with
  | ColType.WR_SHORT => readShort column raw
  | ColType.WR_USHORT => readUShort raw
  | ColType.WR_BYTE => readByte column arrowType raw
  | ColType.WR_UBYTE => readUByte raw
  | ColType.WR_LONGLONG => readLongLong column raw
  | ColType.WR_UMEDINT => readUInt raw
  | ColType.WR_UINT => readUInt raw
  | ColType.WR_ULONGLONG => wrapUnsigned 64 raw
  | ColType.WR_BINARY => wrapSigned 128 raw
  | _ => readInt column raw

/-- The default that a null element receives, as the value of `origVal`: the
signed branches take `fDefaultInt`, the unsigned ones
`static_cast<int64_t>(fDefaultUInt)`, `WR_ULONGLONG` takes `fDefaultUInt` and
`WR_BINARY` takes `fDefaultWideDecimal`. -/
def JobColumn.defaultValue (column : JobColumn) : Int :=
  match column.weType with
  | ColType.WR_USHORT => wrapSigned 64 column.fDefaultUInt
  | ColType.WR_UBYTE => wrapSigned 64 column.fDefaultUInt
  | ColType.WR_UMEDINT => wrapSigned 64 column.fDefaultUInt
  | ColType.WR_UINT => wrapSigned 64 column.fDefaultUInt
  | ColType.WR_ULONGLONG => column.fDefaultUInt
  | ColType.WR_BINARY => column.fDefaultWideDecimal
  | _ => column.fDefaultInt

/-- The value of an element that enters the saturation test: the decoded value
of a non-null element; for a null element the auto-increment value, else the
default; `none` for a null element that is written as the null marker. -/
def JobColumn.inputValue (column : JobColumn) (arrowType : ArrowType) (e : Option Int)
    (autoInc : Nat) : Option Int :=
  match e with
  | some raw => some (column.readElem arrowType raw)
  | none =>
    if column.autoIncFlag then some (wrapSigned 64 autoInc)
    else if column.fWithDefault then some column.defaultValue
    else none

/-- The values entering the saturation test for the elements of a chunk, the
auto-increment counter advancing at every null element of an auto-increment
column. -/
def JobColumn.inputValues (column : JobColumn) (arrowType : ArrowType) :
    List (Option Int) → Nat → List (Option Int)
  | [], _ => []
  | e :: es, autoInc =>
    column.inputValue arrowType e autoInc ::
      column.inputValues arrowType es
        (if e = none ∧ column.autoIncFlag = true then (autoInc + 1) % 2 ^ 64 else autoInc)

/-- The range of the typed temporary that a branch copies out (`short`,
`uint16_t`, `uint8_t`, `long long`, `uint32_t`, `int`). -/
def ColType.range : ColType → Int × Int
  | ColType.WR_SHORT => (-2 ^ 15, 2 ^ 15 - 1)
  | ColType.WR_USHORT => (0, 2 ^ 16 - 1)
  | ColType.WR_BYTE => (-2 ^ 7, 2 ^ 7 - 1)
  | ColType.WR_UBYTE => (0, 2 ^ 8 - 1)
  | ColType.WR_LONGLONG => (-2 ^ 63, 2 ^ 63 - 1)
  | ColType.WR_ULONGLONG => (0, 2 ^ 64 - 1)
  | ColType.WR_UMEDINT => (0, 2 ^ 32 - 1)
  | ColType.WR_UINT => (0, 2 ^ 32 - 1)
  | ColType.WR_BINARY => (-2 ^ 127, 2 ^ 127 - 1)
  | _ => (-2 ^ 31, 2 ^ 31 - 1)

/-- The columns of claim C10: `WR_SHORT`, `WR_USHORT`, `WR_UBYTE`,
`WR_INT`/`WR_MEDINT` (not `DATE`), `WR_UINT`/`WR_UMEDINT`, and `WR_LONGLONG`
that is not `DATETIME`, `TIMESTAMP` or `TIME`. -/
def JobColumn.isClampBranch (column : JobColumn) : Prop :=
  column.weType = ColType.WR_SHORT ∨ column.weType = ColType.WR_USHORT ∨
    column.weType = ColType.WR_UBYTE ∨ column.weType = ColType.WR_UMEDINT ∨
    column.weType = ColType.WR_UINT ∨
    ((column.weType = ColType.WR_INT ∨ column.weType = ColType.WR_MEDINT) ∧
      column.dataType ≠ ColDataType.DATE) ∨
    (column.weType = ColType.WR_LONGLONG ∧ column.dataType ≠ ColDataType.DATETIME ∧
      column.dataType ≠ ColDataType.TIMESTAMP ∧ column.dataType ≠ ColDataType.TIME)

instance (column : JobColumn) : Decidable column.isClampBranch := by
  unfold JobColumn.isClampBranch; infer_instance

/-- Sample null markers, used to instantiate the `NullValues` parameter at
concrete inputs. -/
def sampleNulls : NullValues :=
  ⟨-128, -32768, -2147483648, -9223372036854775808, 254, 65534, 4294967294,
    18446744073709551614, -170141183460469231731687303715884105728, -2,
    4289374890, 18445618173802708650, -2, -2, -2⟩

/-- Sample calendar routines (they return their argument and report success),
used to instantiate the `DataConvert` parameter at concrete inputs. -/
def sampleConvert : DataConvert :=
  ⟨fun d => (d, 0), fun t => t, fun t => t, fun t => (t, 0)⟩

/-- Sample calendar routines that reject a negative day count or timestamp
(status 1) and return every other argument with status 0. -/
def strictConvert : DataConvert :=
  ⟨fun d => if d < 0 then (d, 1) else (d, 0), fun t => t, fun t => t,
    fun t => if t < 0 then (t, 1) else (t, 0)⟩

/-- Sample floating-point operations, used to instantiate the `FloatOps`
parameter at concrete inputs: the patterns are compared as integers, which is
the order of the non-negative finite values, and the narrowing keeps the
pattern. -/
def sampleFloatOps : FloatOps :=
  ⟨fun d => d, fun a b => decide (a > b), fun a b => decide (a < b),
    fun a b => decide (a > b), fun a b => decide (a < b)⟩

/-- A `DATE` column (4 bytes wide, weType `WR_INT`) with the given limits. -/
def dateColumn (lo : Int) (hi : Nat) : JobColumn :=
  { weType := ColType.WR_INT, dataType := ColDataType.DATE, width := 4,
    fMinIntSat := lo, fMaxIntSat := hi }

/-- An accumulator with saturation count 0 and an auto-increment counter. -/
def ConvState.start (autoInc : Nat) : ConvState :=
  ⟨⟨9223372036854775807, -9223372036854775806, 0, 0, 0⟩, autoInc⟩

/-- Whether an element value (if any) is counted as a saturation. -/
def JobColumn.saturates (column : JobColumn) (o : Option Int) : Bool :=
  match o with
  | some v => decide (column.outOfRange v)
  | none => false

/-- What the element conversions of the clamping branches have in common. -/
def ElemSpec (column : JobColumn) (arrowType : ArrowType)
    (f : Option Int → ConvState → Int × ConvState) : Prop :=
  ∀ e st,
    (f e st).2.fAutoIncNextValue =
      (if e = none ∧ column.autoIncFlag = true then (st.fAutoIncNextValue + 1) % 2 ^ 64
        else st.fAutoIncNextValue) ∧
    (f e st).2.bufStats.satCount = st.bufStats.satCount +
      (if column.saturates (column.inputValue arrowType e st.fAutoIncNextValue) then 1 else 0) ∧
    (∀ raw, e = some raw →
      (f e st).1 = clamp (column.readElem arrowType raw) column.fMinIntSat column.fMaxIntSat)

/-- The element conversions of the clamping branches, told by their parts: the
conversion `wrap` to the typed temporary, the min/max update `upd`, the read
`rd` of a non-null element, the default `dflt` and the null marker. -/
def shapedElem (column : JobColumn) (wrap : Int → Int) (upd : ConvState → Int → ConvState)
    (rd : Int → Int) (dflt nullMark : Int) (e : Option Int) (st : ConvState) : Int × ConvState :=
  let go (origVal : Int) (st : ConvState) : Int × ConvState :=
    (wrap (saturate column origVal).1,
      upd (st.countSat (saturate column origVal).2) (saturate column origVal).1)
  match e with
  | none =>
    if ¬ column.autoIncFlag then
      if column.fWithDefault then go dflt st
      else (nullMark, st)
    else go st.nextAutoInc.1 st.nextAutoInc.2
  | some raw => go (rd raw) st


/-! ## The integer branches in one shape -/

/-- The integer columns: the branches `WR_BYTE`, `WR_UBYTE`, `WR_SHORT`,
`WR_USHORT`, `WR_UINT`/`WR_UMEDINT`, `WR_ULONGLONG`, `WR_BINARY`,
`WR_INT`/`WR_MEDINT` (not `DATE`) and `WR_LONGLONG` (not `DATETIME`,
`TIMESTAMP` or `TIME`). -/
def JobColumn.isIntegerBranch (column : JobColumn) : Prop :=
  column.weType = ColType.WR_BYTE ∨ column.weType = ColType.WR_UBYTE ∨
    column.weType = ColType.WR_SHORT ∨ column.weType = ColType.WR_USHORT ∨
    column.weType = ColType.WR_UINT ∨ column.weType = ColType.WR_UMEDINT ∨
    column.weType = ColType.WR_ULONGLONG ∨ column.weType = ColType.WR_BINARY ∨
    ((column.weType = ColType.WR_INT ∨ column.weType = ColType.WR_MEDINT) ∧
      column.dataType ≠ ColDataType.DATE) ∨
    (column.weType = ColType.WR_LONGLONG ∧ column.dataType ≠ ColDataType.DATETIME ∧
      column.dataType ≠ ColDataType.TIMESTAMP ∧ column.dataType ≠ ColDataType.TIME)

instance (column : JobColumn) : Decidable column.isIntegerBranch := by
  unfold JobColumn.isIntegerBranch; infer_instance

/-- The saturation test of `WR_ULONGLONG`: only `fMaxIntSat` is tested. -/
def saturateULongLong (column : JobColumn) (ullVal : Int) : Int × Bool :=
  if ullVal > column.fMaxIntSat then ((column.fMaxIntSat : Int), true) else (ullVal, false)

/-- The saturation test of an integer branch: the value after the test and
`bSatVal`.  `WR_BINARY` has no test. -/
def JobColumn.satTest (column : JobColumn) : Int → Int × Bool :=
  match column.weType with
  | ColType.WR_BYTE => saturateByte column
  | ColType.WR_ULONGLONG => saturateULongLong column
  | ColType.WR_BINARY => fun v => (v, false)
  | _ => saturate column

/-- The conversion to the typed temporary that an integer branch copies out
(`biVal`, `ubiVal`, `siVal`, `usiVal`, `iVal`, `uiVal`, `llVal`, `ullVal`,
`bigllVal`). -/
def JobColumn.narrow (column : JobColumn) : Int → Int :=
  match column.weType with
  | ColType.WR_BYTE => wrapSigned 8
  | ColType.WR_UBYTE => wrapUnsigned 8
  | ColType.WR_SHORT => wrapSigned 16
  | ColType.WR_USHORT => wrapUnsigned 16
  | ColType.WR_UINT => wrapUnsigned 32
  | ColType.WR_UMEDINT => wrapUnsigned 32
  | ColType.WR_LONGLONG => id
  | ColType.WR_ULONGLONG => id
  | ColType.WR_BINARY => id
  | _ => wrapSigned 32

/-- The min/max update of `WR_ULONGLONG`: `ullVal` is compared with the
accumulator cast to `uint64_t` and stored as `int64_t`. -/
def ConvState.updateMinMaxULL (st : ConvState) (ullVal : Int) : ConvState :=
  let b1 := if ullVal < wrapUnsigned 64 st.bufStats.minBufferVal then
    { st.bufStats with minBufferVal := wrapSigned 64 ullVal } else st.bufStats
  let b2 := if ullVal > wrapUnsigned 64 b1.maxBufferVal then
    { b1 with maxBufferVal := wrapSigned 64 ullVal } else b1
  { st with bufStats := b2 }

/-- The min/max update of `WR_BINARY`, on the wide accumulator. -/
def ConvState.updateMinMaxWide (st : ConvState) (bigllVal : Int) : ConvState :=
  let b1 := if bigllVal < st.bufStats.bigMinBufferVal then
    { st.bufStats with bigMinBufferVal := bigllVal } else st.bufStats
  let b2 := if bigllVal > b1.bigMaxBufferVal then { b1 with bigMaxBufferVal := bigllVal }
    else b1
  { st with bufStats := b2 }

/-- The weTypes whose branch compares in unsigned order. -/
def JobColumn.isUnsignedBranch (column : JobColumn) : Bool :=
  match column.weType with
  | ColType.WR_UBYTE => true
  | ColType.WR_USHORT => true
  | ColType.WR_UINT => true
  | ColType.WR_UMEDINT => true
  | ColType.WR_ULONGLONG => true
  | _ => false

/-- The min/max update of an integer branch. -/
def JobColumn.cpUpdate (column : JobColumn) : ConvState → Int → ConvState :=
  match column.weType with
  | ColType.WR_UBYTE => ConvState.updateMinMaxUnsigned
  | ColType.WR_USHORT => ConvState.updateMinMaxUnsigned
  | ColType.WR_UINT => ConvState.updateMinMaxUnsigned
  | ColType.WR_UMEDINT => ConvState.updateMinMaxUnsigned
  | ColType.WR_ULONGLONG => ConvState.updateMinMaxULL
  | ColType.WR_BINARY => ConvState.updateMinMaxWide
  | _ => ConvState.updateMinMax

/-- The value that `fAutoIncNextValue++` gives to the element, by the type it is
assigned to: `uint64_t` (`WR_ULONGLONG`) and `int128_t` (`WR_BINARY`) keep the
counter, `long long` takes its bit pattern. -/
def JobColumn.autoValue (column : JobColumn) (counter : Nat) : Int :=
  match column.weType with
  | ColType.WR_ULONGLONG => counter
  | ColType.WR_BINARY => counter
  | _ => wrapSigned 64 counter

/-- The null marker that a branch of `parquetConvert` copies out for a null
element without default. -/
def JobColumn.nullMark (nv : NullValues) (column : JobColumn) : Int :=
  match column.weType with
  | ColType.WR_FLOAT => nv.FLOATNULL
  | ColType.WR_DOUBLE => nv.DOUBLENULL
  | ColType.WR_SHORT => nv.SMALLINTNULL
  | ColType.WR_USHORT => nv.USMALLINTNULL
  | ColType.WR_BYTE => nv.TINYINTNULL
  | ColType.WR_UBYTE => nv.UTINYINTNULL
  | ColType.WR_LONGLONG =>
    match column.dataType with
    | ColDataType.TIME => nv.TIMENULL
    | ColDataType.TIMESTAMP => nv.TIMESTAMPNULL
    | ColDataType.DATETIME => nv.DATETIMENULL
    | _ => nv.BIGINTNULL
  | ColType.WR_BINARY => nv.Decimal128Null
  | ColType.WR_ULONGLONG => nv.UBIGINTNULL
  | ColType.WR_UMEDINT => nv.UINTNULL
  | ColType.WR_UINT => nv.UINTNULL
  | _ =>
    match column.dataType with
    | ColDataType.DATE => nv.DATENULL
    | _ => nv.INTNULL

/-- The element conversions of the integer branches, told by their parts: the
saturation test `sat`, the conversion `wrap` to the typed temporary, the min/max
update `upd`, the read `rd` of a non-null element, the default `dflt`, the null
marker and the value `auto` taken from the auto-increment counter. -/
def genElem (column : JobColumn) (sat : Int → Int × Bool) (wrap : Int → Int)
    (upd : ConvState → Int → ConvState) (rd : Int → Int) (dflt nullMark : Int)
    (auto : Nat → Int) (e : Option Int) (st : ConvState) : Int × ConvState :=
  let go (origVal : Int) (st : ConvState) : Int × ConvState :=
    (wrap (sat origVal).1, upd (st.countSat (sat origVal).2) (sat origVal).1)
  match e with
  | none =>
    if ¬ column.autoIncFlag then
      if column.fWithDefault then go dflt st
      else (nullMark, st)
    else go (auto st.fAutoIncNextValue) st.nextAutoInc.2
  | some raw => go (rd raw) st

/-- The element conversion of an integer branch, by weType. -/
def JobColumn.elemConv (nv : NullValues) (arrowType : ArrowType) (column : JobColumn) :
    Option Int → ConvState → Int × ConvState :=
  genElem column column.satTest column.narrow column.cpUpdate (column.readElem arrowType)
    column.defaultValue (column.nullMark nv) column.autoValue

/-- The element conversion that `parquetConvert` loops over, by branch; `none`
for `WR_CHAR` and for a `TIME` column whose array is neither `TIME32`, `NA` nor
`TIME64`. -/
def JobColumn.branch (nv : NullValues) (dc : DataConvert) (fo : FloatOps)
    (arrowType : ArrowType) (column : JobColumn) :
    Option (Option Int → ConvState → Int × ConvState) :=
  match column.weType with
  | ColType.WR_FLOAT => some (convertFloat fo nv column)
  | ColType.WR_DOUBLE => some (convertDouble fo nv column)
  | ColType.WR_CHAR => none
  | ColType.WR_SHORT => some (convertShort nv column)
  | ColType.WR_USHORT => some (convertUShort nv column)
  | ColType.WR_BYTE => some (convertByte nv column arrowType)
  | ColType.WR_UBYTE => some (convertUByte nv column)
  | ColType.WR_LONGLONG =>
    if column.dataType ≠ ColDataType.DATETIME ∧ column.dataType ≠ ColDataType.TIMESTAMP ∧
        column.dataType ≠ ColDataType.TIME then
      some (convertLongLong nv column)
    else if column.dataType = ColDataType.TIME then
      if arrowType = ArrowType.TIME32 ∨ arrowType = ArrowType.NA then
        some (convertTime32 nv dc column)
      else if arrowType = ArrowType.TIME64 then some (convertTime64 nv dc column)
      else none
    else if column.dataType = ColDataType.TIMESTAMP then some (convertTimestamp nv column)
    else some (convertDatetime nv dc column)
  | ColType.WR_BINARY => some (convertBinary nv column)
  | ColType.WR_ULONGLONG => some (convertULongLong nv column)
  | ColType.WR_UMEDINT => some (convertUInt nv column)
  | ColType.WR_UINT => some (convertUInt nv column)
  | _ =>
    if column.dataType ≠ ColDataType.DATE then some (convertInt nv column)
    else some (convertDate nv dc column)

/-- The array is one that the branch of the column loops over: the column is
not `WR_CHAR`, and the array of a `TIME` column is `TIME32`, `NA` or `TIME64`. -/
def JobColumn.runsLoop (column : JobColumn) (arrowType : ArrowType) : Prop :=
  column.weType ≠ ColType.WR_CHAR ∧
    (column.weType = ColType.WR_LONGLONG → column.dataType = ColDataType.TIME →
      arrowType = ArrowType.TIME32 ∨ arrowType = ArrowType.NA ∨ arrowType = ArrowType.TIME64)

instance (column : JobColumn) (arrowType : ArrowType) : Decidable (column.runsLoop arrowType) := by
  unfold JobColumn.runsLoop; infer_instance

/-- An element that an integer branch writes as the null marker: a null
element of a column without `autoIncFlag` and without default. -/
def JobColumn.writesNull (column : JobColumn) (e : Option Int) : Bool :=
  decide (e = none) && !column.autoIncFlag && !column.fWithDefault

/-- The values copied out for the elements of the chunk that are not written as
the null marker, in element order. -/
def JobColumn.persisted (column : JobColumn) : List (Option Int) → List Int → List Int
  | e :: es, v :: vs =>
    if column.writesNull e then column.persisted es vs else v :: column.persisted es vs
  | _, _ => []

/-- The order in which a branch compares with the accumulator: the unsigned
branches compare the accumulator cast to `uint64_t`. -/
def JobColumn.cpKey (column : JobColumn) (v : Int) : Int :=
  if column.isUnsignedBranch then wrapUnsigned 64 v else v

/-- The minimum of the accumulator that the branch of the column extends, in the
order in which the branch compares: `bigMinBufferVal` for `WR_BINARY` (the
16-byte branch, a signed 128-bit comparison), else `minBufferVal`, cast to
`uint64_t` by the unsigned branches. -/
def JobColumn.cpMin (column : JobColumn) (b : BLBufferStats) : Int :=
  if column.weType = ColType.WR_BINARY then b.bigMinBufferVal else column.cpKey b.minBufferVal

/-- The maximum of the accumulator that the branch of the column extends
(`bigMaxBufferVal` for `WR_BINARY`, else `maxBufferVal`), in the order of the
branch. -/
def JobColumn.cpMax (column : JobColumn) (b : BLBufferStats) : Int :=
  if column.weType = ColType.WR_BINARY then b.bigMaxBufferVal else column.cpKey b.maxBufferVal

/-- The saturation limits that the branch reads lie in the range of the typed
temporary that it copies out: `WR_BINARY` reads no limit, `WR_ULONGLONG` reads
only `fMaxIntSat` (a `uint64_t`), every other integer branch reads both. -/
def JobColumn.LimitsFit (column : JobColumn) : Prop :=
  if column.weType = ColType.WR_BINARY then True
  else if column.weType = ColType.WR_ULONGLONG then (column.fMaxIntSat : Int) ≤ 2 ^ 64 - 1
  else column.weType.range.1 ≤ column.fMinIntSat ∧ column.fMinIntSat ≤ column.weType.range.2 ∧
    (column.fMaxIntSat : Int) ≤ column.weType.range.2

instance (column : JobColumn) : Decidable column.LimitsFit := by
  unfold JobColumn.LimitsFit; infer_instance

/-- The least value that the saturation test of the branch lets through: the
smaller limit; 0 for `WR_ULONGLONG`, which has no lower test; the least
`int128_t` for `WR_BINARY`, which has no test. -/
def JobColumn.cpLow (column : JobColumn) : Int :=
  if column.weType = ColType.WR_BINARY then -2 ^ 127
  else if column.weType = ColType.WR_ULONGLONG then 0
  else min column.fMinIntSat column.fMaxIntSat

/-- The greatest value that the saturation test of the branch lets through: the
larger limit; `fMaxIntSat` for `WR_ULONGLONG`; the greatest `int128_t` for
`WR_BINARY`. -/
def JobColumn.cpHigh (column : JobColumn) : Int :=
  if column.weType = ColType.WR_BINARY then 2 ^ 127 - 1
  else if column.weType = ColType.WR_ULONGLONG then column.fMaxIntSat
  else max column.fMinIntSat column.fMaxIntSat

/-- The accumulator of the branch is an identity for the column: in the order of
the branch its maximum is not above, and its minimum not below, any value that
the saturation test lets through.  The constants `MAX_BIGINT`/`MIN_BIGINT`,
`MAX_UBIGINT`/`MIN_UBIGINT` and the 128-bit extremes, which the identity is
made of, are not among the sources. -/
def JobColumn.IdentityAcc (column : JobColumn) (st : ConvState) : Prop :=
  column.cpMax st.bufStats ≤ column.cpLow ∧ column.cpHigh ≤ column.cpMin st.bufStats

instance (column : JobColumn) (st : ConvState) : Decidable (column.IdentityAcc st) := by
  unfold JobColumn.IdentityAcc; infer_instance

/-- What an element conversion does to the accumulator of its branch.  `C` is
the condition under which the auto-increment counter is kept track of as a
`uint64_t` (it is `weType = WR_BINARY`, where the counter is copied out as it
is).  An element written as the null marker leaves the state as it is; every
other element is copied out as a value between `cpLow` and `cpHigh`, and the
accumulator is extended by that value in the order of the branch. -/
def CpAccSpec (column : JobColumn) (C : Prop)
    (f : Option Int → ConvState → Int × ConvState) : Prop :=
  ∀ e st, (C → st.fAutoIncNextValue < 2 ^ 64) →
    (C → (f e st).2.fAutoIncNextValue < 2 ^ 64) ∧
    (column.writesNull e = true → (f e st).2 = st) ∧
    (column.writesNull e = false →
      column.cpLow ≤ (f e st).1 ∧ (f e st).1 ≤ column.cpHigh ∧
      column.cpMin (f e st).2.bufStats = min (column.cpMin st.bufStats) (f e st).1 ∧
      column.cpMax (f e st).2.bufStats = max (column.cpMax st.bufStats) (f e st).1)

/-- The identity accumulator of an unsigned column with saturation count 0
(`minBufferVal` holds `MAX_UBIGINT` as `int64_t`). -/
def ConvState.startUnsigned (autoInc : Nat) : ConvState :=
  ⟨⟨-3, 0, 0, 0, 0⟩, autoInc⟩


/-! ## The branch `WR_CHAR` -/

/-- What the branch `WR_CHAR` uses and the sources do not have: the constant
`MAX_COLUMN_BOUNDARY` and the function `uint64ToStr`.  They are parameters. -/
structure CharOps where
  MAX_COLUMN_BOUNDARY : Nat
  uint64ToStr : Nat → Nat

/-- A UTF-8 continuation byte (`10xxxxxx`). -/
def isContinuation (b : Nat) : Bool := decide (128 ≤ b ∧ b < 192)

/-- Modelled from the spec: `utf8::utf8_truncate_point(input, length)` of
`utils_utf8.h`, which is not among the sources.  The spec has a long value cut
"at a UTF-8 safe boundary not exceeding `definedWidth`": the result is the
number of bytes to drop from the first `length` bytes of `input` so that the cut
does not fall inside a character, that is, so that the byte after the cut is
not a continuation byte. -/
def utf8_truncate_point (input : List Nat) : Nat → Nat
  | 0 => 0
  | n + 1 =>
    if isContinuation (input.getD (n + 1) 0) then 1 + utf8_truncate_point input n else 0

/-- `memcpy(dest, src, n)` on byte lists: the first `n` bytes of `dest` become
the first `n` bytes of `src`. -/
def memcpy (dest src : List Nat) (n : Nat) : List Nat :=
  src.take n ++ dest.drop n

/-- The value of an unsigned integer read from little-endian bytes
(`*(reinterpret_cast<uint64_t*>(charTmpBuf))` on its first 8 bytes). -/
def leValue (bytes : List Nat) : Nat :=
  bytes.foldr (fun b acc => b + 256 * acc) 0

/-- The tail of the loop body of the branch `WR_CHAR`, after `charTmpBuf` is
filled: the min/max update with `compChar`/`binChar` (both limits are read
before either is written) and the `width` bytes copied out of `charTmpBuf`. -/
def charFinish (co : CharOps) (column : JobColumn) (charTmpBuf : List Nat) (st : ConvState) :
    List Nat × ConvState :=
  let compChar := wrapUnsigned 64 (co.uint64ToStr (leValue (charTmpBuf.take 8)))
  let binChar := wrapSigned 64 compChar
  let minVal := wrapUnsigned 64 st.bufStats.minBufferVal
  let maxVal := wrapUnsigned 64 st.bufStats.maxBufferVal
  let b1 := if compChar < minVal then { st.bufStats with minBufferVal := binChar }
    else st.bufStats
  let b2 := if compChar > maxVal then { b1 with maxBufferVal := binChar } else b1
  (charTmpBuf.take column.width, { st with bufStats := b2 })

/-- One element of the branch `WR_CHAR` (`none` is a null element, `some data`
the `tokenLen` bytes of the value): the `width` bytes copied out of
`charTmpBuf` and the new state.  `charTmpBuf` starts as
`MAX_COLUMN_BOUNDARY + 1` zero bytes.  `idbassert` is not among the sources; a
failed `idbassert(width <= 8)` is taken to abort the conversion (`none`). -/
def convertChar (co : CharOps) (column : JobColumn) (e : Option (List Nat)) (st : ConvState) :
    Option (List Nat × ConvState) :=
  let charTmpBuf := List.replicate (co.MAX_COLUMN_BOUNDARY + 1) 0
  match e with
  | none =>
    if column.fWithDefault then
      if column.fDefaultChr.length > column.definedWidth then
        some (charFinish co column (memcpy charTmpBuf column.fDefaultChr column.definedWidth) st)
      else
        some (charFinish co column
          (memcpy charTmpBuf column.fDefaultChr column.fDefaultChr.length) st)
    else if column.width ≤ 8 then
      some ((List.replicate (column.width - 1) 255 ++ [254]).take column.width, st)
    else none
  | some data =>
    if data.length > column.definedWidth then
      let truncate_point := utf8_truncate_point data column.definedWidth % 256
      some (charFinish co column
        (memcpy charTmpBuf data (column.definedWidth - truncate_point)) (st.countSat true))
    else some (charFinish co column (memcpy charTmpBuf data data.length) st)

/-- The `for (i = 0; i < cbs; i++)` loop of the branch `WR_CHAR`. -/
def convertCharLoop (co : CharOps) (column : JobColumn) :
    List (Option (List Nat)) → ConvState → Option (List (List Nat) × ConvState)
  | [], st => some ([], st)
  | e :: es, st =>
    match convertChar co column e st with
    | none => none
    | some r =>
      match convertCharLoop co column es r.2 with
      | none => none
      | some rest => some (r.1 :: rest.1, rest.2)

/-- `TableInfo::parquetConvert` on a binary array (the branch `WR_CHAR`): the
`width` bytes copied to `buf + width * i` for every element, in element order,
and the final `bufStats`; `none` for another weType and when an assertion
fails. -/
def parquetConvertChar (co : CharOps) (columnData : List (Option (List Nat)))
    (column : JobColumn) (st : ConvState) : Option (List (List Nat) × ConvState) :=
  if column.weType = ColType.WR_CHAR then convertCharLoop co column columnData st else none

/-- Sample parameters of the branch `WR_CHAR`: `MAX_COLUMN_BOUNDARY` is 8 and
`uint64ToStr` keeps its argument. -/
def sampleCharOps : CharOps := ⟨8, fun x => x⟩

/-- The bytes of "héllo" in UTF-8. -/
def hello : List Nat := [0x68, 0xC3, 0xA9, 0x6C, 0x6C, 0x6F]

/-- A value is cut when it is longer than `definedWidth`. -/
def JobColumn.cuts (column : JobColumn) (e : Option (List Nat)) : Bool :=
  match e with
  | some data => decide (data.length > column.definedWidth)
  | none => false


/-! ## The writes to the output buffer -/

/-- The statements of `setParseComplete` before the test of `fLastBufferId`:
the column's `lastProcessingTime` is stored and the cell of column `columnId`
in buffer `bufferId` becomes `PARSE_COMPLETE` (and with it the buffer, when
`setColumnStatus` reports that all its columns are complete). -/
def TableInfo.markParsed (ti : TableInfo) (columnId bufferId : Nat) (processingTime : Int) :
    TableInfo :=
  let ti1 := { ti with
    fColumns := (updateAt ti.fColumns columnId fun c =>
      { c with lastProcessingTime := processingTime }) }
  { ti1 with
    fBuffers := (updateAt ti1.fBuffers bufferId fun b =>
      let r := b.setColumnStatus columnId Status.PARSE_COMPLETE
      if r.1 then r.2.setStatusBLB Status.PARSE_COMPLETE else r.2) }

/-- The loop of `readParquetData` that calls `finishParsing` on the columns in
turn; `finishParsing k` is the code that column `k` returns and an `error` is
the early `return rc`. -/
def TableInfo.finishParsingLoop (finishParsing : Nat → Int) :
    List Nat → TableInfo → Except (Int × TableInfo) TableInfo
  | [], ti => .ok ti
  | k :: ks, ti =>
    let ti1 := ti.call (Call.finishParsing k)
    if finishParsing k ≠ NO_ERROR then .error (finishParsing k, ti1)
    else TableInfo.finishParsingLoop finishParsing ks ti1

/-- The statements of `readParquetData` that follow the loop over the record
batches: the table-wide finalize steps of the Parquet path.  The result is the
returned code and the state at the return. -/
def TableInfo.readParquetDataFinalize (ec : ErrorCodes) (finishParsing : Nat → Int)
    (env : FinalizeEnv) (ti : TableInfo) : Int × TableInfo :=
  match TableInfo.finishParsingLoop finishParsing (List.range ti.fNumberOfColumns) ti with
  | .error r => r
  | .ok ti0 =>
    let ti1 := if env.flushDict then ti0.call Call.flushPrimProcAllverBlocks else ti0
    let ti2 := ti1.call Call.synchronizeAutoInc
    if env.synchronizeAutoIncRc ≠ NO_ERROR then (env.synchronizeAutoIncRc, ti2)
    else
      let ti3 := ti2.call Call.validateColumnHWMs
      let rc := validateColumnHWMs ec (ti3.fColumns.map (fun c => c.width)) env.segFileInfo
      if rc ≠ NO_ERROR then (rc, ti3)
      else
        let ti4 := ti3.call Call.confirmDBFileChanges
        if env.confirmDBFileChangesRc ≠ NO_ERROR then (env.confirmDBFileChangesRc, ti4)
        else
          let ti5 := ti4.call Call.finishBRM
          if env.finishBRMRc ≠ NO_ERROR then (env.finishBRMRc, ti5)
          else
            let ti6 := ti5.call Call.changeTableLockState
            if env.changeTableLockStateRc ≠ NO_ERROR then (env.changeTableLockStateRc, ti6)
            else
              let ti7 := ((ti6.call Call.deleteTempDBFileChanges).call
                Call.deleteMetaDataRollbackFile).call Call.releaseTableLock
              if env.releaseTableLockRc ≠ NO_ERROR then (env.releaseTableLockRc, ti7)
              else
                let ti8 := { ti7 with fStatusTI := Status.PARSE_COMPLETE }
                (env.releaseTableLockRc, ti8.freeProcessingBuffers.call Call.freeProcessingBuffers)

/-- Collaborator answers for a finalize sequence in which `synchronizeAutoInc`
returns `rc` and every other step succeeds. -/
def autoIncFails (rc : Int) : FinalizeEnv :=
  ⟨NO_ERROR, false, rc, [], NO_ERROR, NO_ERROR, NO_ERROR, NO_ERROR⟩

/-! ## Table lock and bulk rollback -/

/-- `BulkModeType`: how the import is run (`BULK_MODE_LOCAL` is mode 3). -/
inductive BulkModeType where
  | BULK_MODE_REMOTE_SINGLE_SRC
  | BULK_MODE_REMOTE_MULTIPLE_SRC
  | BULK_MODE_LOCAL
  deriving DecidableEq, Repr

/-- The error-level messages that the table-lock and rollback functions log. -/
inductive LockMsg where
  | lockError
  | unableToAcquire
  | stateChangeError
  | releaseError
  | deleteMetaError
  | deleteTempError
  | rollbackNotPerformed (dbRoot : Nat)
  | rollbackError
  | lockNotCleared
  deriving DecidableEq, Repr

/-- Calls to collaborators made by the table-lock and rollback functions, in
program order.  A BRM call is recorded with what BRM answered. -/
inductive LockCall where
  | getRootIdList
  | getTableLock (rc : Int) (lockId : Nat)
  | sleepMS (ms : Nat)
  | brmChangeTableLockState (lockId : Nat) (rc : Int) (bChanged : Bool)
  | brmReleaseTableLock (lockId : Nat) (rc : Int) (bReleased : Bool)
  | deleteFile
  | endDbFileListFromMetaFile
  | closeOpenDbFiles
  | rollback (keepMetaFile : Bool)
  | logMsg (msg : LockMsg) (code : Int)
  deriving DecidableEq, Repr

/-- The data members of `TableInfo` that the table-lock and rollback functions
read or write (`fTableLockID` is a `uint64_t`, the DBRoot ids are `uint16_t`).
`fLockCalls` is a ghost log of the collaborator calls made so far. -/
structure LockFields where
  fBulkMode : BulkModeType
  fTableLocked : Bool
  fTableLockID : Nat
  fOrigDbRootIds : List Nat
  fKeepRbMetaFile : Bool
  fProcessingBegun : Bool
  fLockCalls : List LockCall
  deriving DecidableEq, Repr

/-- The values the `TableInfo` constructor gives these members. -/
def LockFields.new (bKeepRbMetaFile : Bool) : LockFields :=
  { fBulkMode := BulkModeType.BULK_MODE_LOCAL, fTableLocked := false, fTableLockID := 0,
    fOrigDbRootIds := [], fKeepRbMetaFile := bKeepRbMetaFile, fProcessingBegun := false,
    fLockCalls := [] }

/-- Record a collaborator call in the ghost log. -/
def LockFields.call (tl : LockFields) (c : LockCall) : LockFields :=
  { tl with fLockCalls := tl.fLockCalls ++ [c] }

/-- The test `(fBulkMode == BULK_MODE_REMOTE_SINGLE_SRC) ||
(fBulkMode == BULK_MODE_REMOTE_MULTIPLE_SRC)`. -/
def LockFields.distributed (tl : LockFields) : Prop :=
  tl.fBulkMode = BulkModeType.BULK_MODE_REMOTE_SINGLE_SRC ∨
    tl.fBulkMode = BulkModeType.BULK_MODE_REMOTE_MULTIPLE_SRC

instance (tl : LockFields) : Decidable tl.distributed := by
  unfold LockFields.distributed; infer_instance

/-- The retry loop of `acquireTableLock`.  `getTableLock n` is what BRM answers
to attempt number `n` of this call (the return code and the value it leaves in
`fTableLockID`), `tryCount` the local `try_count`; the first argument is fuel and
the result is `none` when it runs out. -/
def TableInfo.acquireLoop (ERR_TBLLOCK_GET_LOCK_LOCKED : Int) (disableTimeOut : Bool)
    (NUM_TRIES : Int) (getTableLock : Nat → Int × Nat) :
    Nat → Nat → Int → LockFields → Option (Int × LockFields)
  | 0, _, _, _ => none
  | fuel + 1, n, tryCount, tl =>
    let a := getTableLock n
    let tl1 := ({ tl with fTableLockID := a.2 }).call (LockCall.getTableLock a.1 a.2)
    if a.1 = NO_ERROR ∧ a.2 > 0 then some (NO_ERROR, { tl1 with fTableLocked := true })
    else if a.2 = 0 then
      let tl2 := tl1.call (LockCall.sleepMS 100)
      if disableTimeOut then
        TableInfo.acquireLoop ERR_TBLLOCK_GET_LOCK_LOCKED disableTimeOut NUM_TRIES getTableLock
          fuel (n + 1) tryCount tl2
      else if tryCount + 1 ≥ NUM_TRIES then
        some (ERR_TBLLOCK_GET_LOCK_LOCKED,
          tl2.call (LockCall.logMsg LockMsg.unableToAcquire ERR_TBLLOCK_GET_LOCK_LOCKED))
      else
        TableInfo.acquireLoop ERR_TBLLOCK_GET_LOCK_LOCKED disableTimeOut NUM_TRIES getTableLock
          fuel (n + 1) (tryCount + 1) tl2
    else some (a.1, tl1.call (LockCall.logMsg LockMsg.lockError a.1))

/-- `TableInfo::acquireTableLock`.  `rootIdList` and `waitPeriod` are what
`Config::getRootIdList` and `Config::getWaitPeriod` give; `NUM_TRIES` is an
`int`, so the model is that of the code as long as `10 * waitPeriod` is
representable in 32 bits. -/
def TableInfo.acquireTableLock (ERR_TBLLOCK_GET_LOCK_LOCKED : Int) (rootIdList : List Nat)
    (waitPeriod : Int) (getTableLock : Nat → Int × Nat) (fuel : Nat) (disableTimeOut : Bool)
    (tl : LockFields) : Option (Int × LockFields) :=
  let tl0 := ({ tl with fOrigDbRootIds := rootIdList }).call LockCall.getRootIdList
  if tl0.distributed then some (NO_ERROR, tl0)
  else
    TableInfo.acquireLoop ERR_TBLLOCK_GET_LOCK_LOCKED disableTimeOut (10 * waitPeriod)
      getTableLock fuel 0 0 tl0

/-- `TableInfo::changeTableLockState`; `a` is what BRM's `changeTableLockState`
answers (return code and `bChanged`). -/
def TableInfo.changeTableLockState (a : Int × Bool) (tl : LockFields) : Int × LockFields :=
  if tl.distributed then (NO_ERROR, tl)
  else
    let tl1 := tl.call (LockCall.brmChangeTableLockState tl.fTableLockID a.1 a.2)
    if a.1 = NO_ERROR then (NO_ERROR, tl1)
    else (a.1, tl1.call (LockCall.logMsg LockMsg.stateChangeError a.1))

/-- `TableInfo::releaseTableLock`; `a` is what BRM's `releaseTableLock` answers
(return code and `bReleased`). -/
def TableInfo.releaseTableLock (a : Int × Bool) (tl : LockFields) : Int × LockFields :=
  if tl.distributed then (NO_ERROR, tl)
  else
    let tl1 := tl.call (LockCall.brmReleaseTableLock tl.fTableLockID a.1 a.2)
    if a.1 = NO_ERROR then (NO_ERROR, { tl1 with fTableLocked := false })
    else (a.1, tl1.call (LockCall.logMsg LockMsg.releaseError a.1))

/-- `TableInfo::deleteMetaDataRollbackFile`; `deleteFileErr` is the error code
of the `WeException` that `fRBMetaWriter.deleteFile()` throws, if it throws. -/
def TableInfo.deleteMetaDataRollbackFile (deleteFileErr : Option Int) (tl : LockFields) :
    LockFields :=
  if tl.distributed then tl
  else if ¬ tl.fKeepRbMetaFile then
    let tl1 := tl.call LockCall.deleteFile
    match deleteFileErr with
    | some code => tl1.call (LockCall.logMsg LockMsg.deleteMetaError code)
    | none => tl1
  else tl

/-- `TableInfo::deleteTempDBFileChanges`; `useHdfs` is `IDBPolicy::useHdfs()` and
`rc` what `endDbFileListFromMetaFile` returns. -/
def TableInfo.deleteTempDBFileChanges (useHdfs : Bool) (rc : Int) (tl : LockFields) :
    LockFields :=
  if tl.distributed then tl
  else if useHdfs then
    let tl1 := tl.call LockCall.endDbFileListFromMetaFile
    if rc ≠ NO_ERROR then tl1.call (LockCall.logMsg LockMsg.deleteTempError rc) else tl1
  else tl

/-- The inner loop of `rollbackWork`: `bFound` for the original DBRoot `id`. -/
def bFound (dbRootIds : List Nat) (id : Nat) : Bool :=
  dbRootIds.any fun k => decide (id = k)

/-- `TableInfo::rollbackWork`.  `dbRootIds` is what `Config::getRootIdList`
gives now, `rollbackRc` what `BulkRollbackMgr::rollback` returns, `deleteFileErr`
and `release` the answers to `deleteMetaDataRollbackFile` and
`releaseTableLock`. -/
def TableInfo.rollbackWork (ERR_BULK_ROLLBACK_MISS_ROOT : Int) (dbRootIds : List Nat)
    (rollbackRc : Int) (deleteFileErr : Option Int) (release : Int × Bool) (tl : LockFields) :
    Int × LockFields :=
  let tl1 := (tl.call LockCall.closeOpenDbFiles).call LockCall.getRootIdList
  match tl1.fOrigDbRootIds.find? (fun id => ! bFound dbRootIds id) with
  | some id =>
    (ERR_BULK_ROLLBACK_MISS_ROOT,
      tl1.call (LockCall.logMsg (LockMsg.rollbackNotPerformed id) ERR_BULK_ROLLBACK_MISS_ROOT))
  | none =>
    let tl2 := if tl1.fProcessingBegun then tl1.call (LockCall.rollback tl1.fKeepRbMetaFile)
      else tl1
    if tl1.fProcessingBegun ∧ rollbackRc ≠ NO_ERROR then
      (rollbackRc, tl2.call (LockCall.logMsg LockMsg.rollbackError rollbackRc))
    else
      let tl3 := TableInfo.deleteMetaDataRollbackFile deleteFileErr tl2
      let r := TableInfo.releaseTableLock release tl3
      if r.1 ≠ NO_ERROR then (r.1, r.2.call (LockCall.logMsg LockMsg.lockNotCleared r.1))
      else (r.1, r.2)

/-- Modelled from the spec: `BRMWrapper::releaseTableLock` is not among the
sources.  BRM's lock table is the list of the lock ids that are held;
releasing an id that is held removes it and reports success with
`bReleased = true`, releasing an id that is not held (any more) reports success
with `bReleased = false`.  The result is the answer and the lock table after
the call. -/
def BRMWrapper.releaseTableLock (held : List Nat) (lockId : Nat) : (Int × Bool) × List Nat :=
  if lockId ∈ held then ((NO_ERROR, true), held.filter fun k => decide (k ≠ lockId))
  else ((NO_ERROR, false), held)

/-- What a call of `releaseTableLock` against BRM's lock table leaves: the
returned code, the local `bReleased`, the data members and the lock table. -/
structure ReleaseOutcome where
  rc : Int
  bReleased : Bool
  tl : LockFields
  held : List Nat
  deriving DecidableEq, Repr

/-- `TableInfo::releaseTableLock` with BRM answering from its lock table `held`
(`bReleased` starts as `false` and BRM is not asked in the distributed modes). -/
def TableInfo.releaseTableLockOn (held : List Nat) (tl : LockFields) : ReleaseOutcome :=
  if tl.distributed then ⟨(TableInfo.releaseTableLock (NO_ERROR, false) tl).1, false, tl, held⟩
  else
    let a := BRMWrapper.releaseTableLock held tl.fTableLockID
    let r := TableInfo.releaseTableLock a.1 tl
    ⟨r.1, a.1.2, r.2, a.2⟩

/-! ## StorageManager configuration file -/

/-- How `Config::Config` ends: it throws `runtime_error(what)`, or it goes on
to `read_ini(filename, contents)` with the file name it has selected. -/
inductive ConfigOutcome where
  | runtime_error (what : String)
  | read_ini (filename : String)
  deriving DecidableEq, Repr

/-- The `for` loop of `Config::Config` over `paths`, from index `i` on, on the
member `filename`; `fileExists` is `boost::filesystem::exists`. -/
def Config.search (fileExists : String → Bool) : List String → String → String
  | [], filename => filename
  | p :: ps, filename =>
    if fileExists (p ++ "/storagemanager.cnf") then p ++ "/storagemanager.cnf"
    else Config.search fileExists ps filename

set_option linter.dupNamespace false in
/-- `Config::Config`; `cs_install_dir` is `getenv("COLUMNSTORE_INSTALL_DIR")`
(`none` for a null pointer). -/
def Config.Config (fileExists : String → Bool) (cs_install_dir : Option String) :
    ConfigOutcome :=
  let paths := ["./"] ++ (match cs_install_dir with
    | some d => [d]
    | none => []) ++ ["/etc"]
  let filename := Config.search fileExists paths ""
  if filename.isEmpty then
    ConfigOutcome.runtime_error "Config: Could not find the config file for StorageManager"
  else ConfigOutcome.read_ini filename

/-! ## Calendar columns -/

/-- The column reaches one of the two calendar loops that call a conversion
routine with a status: the `DATE` loop under `WR_MEDINT`/`WR_INT`, or the
`DATETIME` loop under `WR_LONGLONG`. -/
def JobColumn.isCalendarBranch (column : JobColumn) : Prop :=
  ((column.weType = ColType.WR_INT ∨ column.weType = ColType.WR_MEDINT) ∧
      column.dataType = ColDataType.DATE) ∨
    (column.weType = ColType.WR_LONGLONG ∧ column.dataType = ColDataType.DATETIME)

instance (column : JobColumn) : Decidable column.isCalendarBranch := by
  unfold JobColumn.isCalendarBranch; infer_instance

/-- What the calendar routine gives for a non-null element of a calendar
column: the value assigned to `iDate` (an `int`) or `llDate` (a `long long`),
and the status left in `rc`. -/
def JobColumn.calendar (dc : DataConvert) (column : JobColumn) (raw : Int) : Int × Int :=
  if column.dataType = ColDataType.DATE then
    (wrapSigned 32 (dc.ConvertArrowColumnDate (wrapSigned 32 raw)).1,
      (dc.ConvertArrowColumnDate (wrapSigned 32 raw)).2)
  else
    (wrapSigned 64 (dc.convertArrowColumnDatetime (wrapSigned 64 raw)).1,
      (dc.convertArrowColumnDatetime (wrapSigned 64 raw)).2)

/-! ## The aux column of the Parquet path -/

/-- The constants that reset the CP accumulator (`joblisttypes.h`,
`utils::int128Max`, `utils::int128Min`).  The headers are not among the
sources, so the values are parameters. -/
structure CpConsts where
  MAX_UBIGINT : Nat
  MIN_UBIGINT : Nat
  MAX_BIGINT : Int
  MIN_BIGINT : Int
  int128Max : Int
  int128Min : Int
  deriving DecidableEq, Repr

/-- A call of `ColumnInfo::updateCPInfo`: the row passed as
`lastInputRowInExtent` and the minimum and maximum passed. -/
structure CPInfoCall where
  lastInputRowInExtent : Nat
  minVal : Int
  maxVal : Int
  deriving DecidableEq, Repr

/-- The locals of the aux-column block of `readParquetData`, with a ghost log
of the `updateCPInfo` calls and the bytes written to `buf`, row by row. -/
structure AuxLocals where
  bufStats : BLBufferStats
  lastInputRowInExtent : Nat
  updateCPInfoPendingFlag : Bool
  cpCalls : List CPInfoCall
  cells : List Int
  deriving DecidableEq, Repr

/-- The call `columnInfo.updateCPInfo(lastInputRowInExtent, ..)`: the narrow
accumulator is passed for a width of at most 8, the wide one otherwise. -/
def AuxLocals.updateCPInfo (column : JobColumn) (s : AuxLocals) : AuxLocals :=
  { s with cpCalls := s.cpCalls ++
    [if column.width ≤ 8 then
        ⟨s.lastInputRowInExtent, s.bufStats.minBufferVal, s.bufStats.maxBufferVal⟩
      else ⟨s.lastInputRowInExtent, s.bufStats.bigMinBufferVal, s.bufStats.bigMaxBufferVal⟩] }

/-- The reset of the accumulator after a flush; `isUnsigned` is
`isUnsigned(columnInfo.column.dataType)`. -/
def resetBufStats (k : CpConsts) (column : JobColumn) (isUnsigned : Bool) (b : BLBufferStats) :
    BLBufferStats :=
  if isUnsigned then
    if column.width ≤ 8 then
      { b with minBufferVal := wrapSigned 64 k.MAX_UBIGINT,
               maxBufferVal := wrapSigned 64 k.MIN_UBIGINT }
    else { b with bigMinBufferVal := -1, bigMaxBufferVal := 0 }
  else
    if column.width ≤ 8 then { b with minBufferVal := k.MAX_BIGINT, maxBufferVal := k.MIN_BIGINT }
    else { b with bigMinBufferVal := k.int128Max, bigMaxBufferVal := k.int128Min }

/-- The value of `origVal` after the saturation test in the aux-column loop
(the default of the column, the same for every row) and `bSatVal`. -/
def auxValue (column : JobColumn) : Int × Bool :=
  saturate column (wrapSigned 64 column.fDefaultUInt)

/-- The statements of one row of the aux-column loop that update `bufStats`:
the saturation count and the min/max test in unsigned order. -/
def auxAccumulate (column : JobColumn) (b : BLBufferStats) : BLBufferStats :=
  let b0 := if (auxValue column).2 then { b with satCount := b.satCount + 1 } else b
  let uVal := wrapUnsigned 64 (auxValue column).1
  let b1 := if uVal < wrapUnsigned 64 b0.minBufferVal then
    { b0 with minBufferVal := (auxValue column).1 } else b0
  if uVal > wrapUnsigned 64 b1.maxBufferVal then { b1 with maxBufferVal := (auxValue column).1 }
  else b1

/-- One row `i` of the aux-column loop of `readParquetData`; `bs` is the batch
size, `batch_processed` the number of batches before this one and
`rowsPerExtent` what `columnInfo.rowsPerExtent()` returns. -/
def auxRow (k : CpConsts) (column : JobColumn) (isUnsigned : Bool)
    (rowsPerExtent bs batch_processed : Nat) (s : AuxLocals) (i : Nat) : AuxLocals :=
  let s1 := { s with
    bufStats := auxAccumulate column s.bufStats
    cells := s.cells ++ [wrapUnsigned 8 (auxValue column).1]
    updateCPInfoPendingFlag := true }
  if bs * batch_processed + i = s1.lastInputRowInExtent then
    let s2 := s1.updateCPInfo column
    { s2 with
      lastInputRowInExtent := s2.lastInputRowInExtent + rowsPerExtent
      bufStats := resetBufStats k column isUnsigned s2.bufStats
      updateCPInfoPendingFlag := false }
  else s1

/-- The state in which the aux-column loop starts: `bufStats` as its
constructor leaves it (a parameter), `lastInputRowInExtent` as `reserveSection`
returned it, and `updateCPInfoPendingFlag = false`. -/
def auxStart (bufStats : BLBufferStats) (lastInputRowInExtent : Nat) : AuxLocals :=
  ⟨bufStats, lastInputRowInExtent, false, [], []⟩

/-- The aux-column loop over the rows `0 .. n-1` of a batch, from the start
state. -/
def auxLoop (k : CpConsts) (column : JobColumn) (isUnsigned : Bool)
    (rowsPerExtent bs batch_processed : Nat) (bufStats : BLBufferStats)
    (lastInputRowInExtent n : Nat) : AuxLocals :=
  (List.range n).foldl (auxRow k column isUnsigned rowsPerExtent bs batch_processed)
    (auxStart bufStats lastInputRowInExtent)

/-- The aux-column loop followed by `if (updateCPInfoPendingFlag) updateCPInfo(..)`. -/
def auxFlush (k : CpConsts) (column : JobColumn) (isUnsigned : Bool)
    (rowsPerExtent bs batch_processed : Nat) (bufStats : BLBufferStats)
    (lastInputRowInExtent n : Nat) : AuxLocals :=
  let s := auxLoop k column isUnsigned rowsPerExtent bs batch_processed bufStats
    lastInputRowInExtent n
  if s.updateCPInfoPendingFlag then s.updateCPInfo column else s

/-- The min/max test of one row of the aux-column loop, on the pair of
`minBufferVal` and `maxBufferVal`. -/
def auxMinMax (column : JobColumn) (p : Int × Int) : Int × Int :=
  let uVal := wrapUnsigned 64 (auxValue column).1
  let mn := if uVal < wrapUnsigned 64 p.1 then (auxValue column).1 else p.1
  (mn, if uVal > wrapUnsigned 64 p.2 then (auxValue column).1 else p.2)

/-- The accumulator values to which a flush resets a column of width at most 8. -/
def identityPair (k : CpConsts) (isUnsigned : Bool) : Int × Int :=
  if isUnsigned then (wrapSigned 64 k.MAX_UBIGINT, wrapSigned 64 k.MIN_UBIGINT)
  else (k.MAX_BIGINT, k.MIN_BIGINT)

/-- The `updateCPInfo` calls that a split of the rows into segments stands
for: one call per segment, at the boundaries `last`, `last + rowsPerExtent`,
.., each with the minimum and maximum accumulated over the rows of its
segment, the first segment starting from `base` and the others from the reset
accumulator. -/
def segmentFlushes (k : CpConsts) (column : JobColumn) (isUnsigned : Bool) (rowsPerExtent : Nat) :
    Nat → Int × Int → List (List Nat) → List CPInfoCall
  | _, _, [] => []
  | last, base, seg :: rest =>
    ⟨last, ((auxMinMax column)^[seg.length] base).1, ((auxMinMax column)^[seg.length] base).2⟩ ::
      segmentFlushes k column isUnsigned rowsPerExtent (last + rowsPerExtent)
        (identityPair k isUnsigned) rest

/-- Sample reset constants. -/
def sampleCp : CpConsts :=
  ⟨18446744073709551613, 0, 9223372036854775807, -9223372036854775806,
    170141183460469231731687303715884105727, -170141183460469231731687303715884105728⟩

/-! ## The Parquet parsers and the column buffer manager -/

/-- What `ColumnBufferManager::reserveSection` answers (the buffer manager is
not among the sources): the return code, the number of rows granted
(`nRowsParsed`) and `lastInputRowInExtent`. -/
structure Reserved where
  rc : Int
  nRowsParsed : Nat
  lastInputRowInExtent : Nat
  deriving DecidableEq, Repr

/-- Calls that `parseParquetDict` and `parseParquetCol` make, in program order;
`write n` is `section->write(.., n)` on the reserved section. -/
inductive SectionCall where
  | reserveSection (startRow nRows : Nat)
  | updateDctnryStoreParquet (nRows : Nat)
  | reserveAutoIncNums (n : Int)
  | parquetConvert (cbs : Nat)
  | updateCPInfo (lastInputRowInExtent : Nat)
  | incSaturatedCnt (n : Nat)
  | write (nRows : Nat)
  | releaseSection
  deriving DecidableEq, Repr

/-- `TableInfo::parseParquetDict`: the returned code and the calls made.
`r` is the answer of `reserveSection`, `dctnryRc` and `releaseRc` the codes of
`updateDctnryStoreParquet` and `releaseSection`.  `RETURN_ON_ERROR` (a macro of
a header that is not among the sources) returns the code of its statement when
it is not `NO_ERROR`. -/
def TableInfo.parseParquetDict (cbs bs batchProcessed : Nat) (r : Reserved)
    (dctnryRc releaseRc : Int) : Int × List SectionCall :=
  let log := [SectionCall.reserveSection (bs * batchProcessed) cbs]
  if r.rc ≠ NO_ERROR then (r.rc, log)
  else if r.nRowsParsed > 0 then
    let log1 := log ++ [SectionCall.updateDctnryStoreParquet r.nRowsParsed]
    if dctnryRc = NO_ERROR then
      let log2 := log1 ++ [SectionCall.write r.nRowsParsed, SectionCall.releaseSection]
      if releaseRc ≠ NO_ERROR then (releaseRc, log2) else (dctnryRc, log2)
    else (dctnryRc, log1)
  else (NO_ERROR, log)

/-- `TableInfo::parseParquetCol`: the returned code and the calls made.
`nullCount` is `batch->column(k)->null_count()`, `autoIncRc` the code of
`reserveAutoIncNums`, `satCount` the saturation count that `parquetConvert`
leaves in `bufStats`.  The flush that follows the conversion is unconditional,
and it clears `updateCPInfoPendingFlag`, so the second one never runs. -/
def TableInfo.parseParquetCol (cbs bs batchProcessed : Nat) (r : Reserved) (autoIncFlag : Bool)
    (nullCount : Int) (autoIncRc : Int) (satCount : Nat) (releaseRc : Int) :
    Int × List SectionCall :=
  let log := [SectionCall.reserveSection (bs * batchProcessed) cbs]
  if r.rc ≠ NO_ERROR then (r.rc, log)
  else if r.nRowsParsed > 0 then
    let a : Int × List SectionCall :=
      if autoIncFlag = true ∧ nullCount > 0 then
        (autoIncRc, log ++ [SectionCall.reserveAutoIncNums nullCount])
      else (NO_ERROR, log)
    let log1 := a.2 ++ [SectionCall.parquetConvert cbs,
      SectionCall.updateCPInfo r.lastInputRowInExtent]
    let log2 := if satCount ≠ 0 then log1 ++ [SectionCall.incSaturatedCnt satCount] else log1
    let log3 := log2 ++ [SectionCall.write cbs, SectionCall.releaseSection]
    if releaseRc ≠ NO_ERROR then (releaseRc, log3) else (a.1, log3)
  else (NO_ERROR, log)

/-- The rows that the calls write to sections. -/
def rowsWritten : List SectionCall → Nat
  | [] => 0
  | SectionCall.write n :: cs => n + rowsWritten cs
  | _ :: cs => rowsWritten cs

/-- The number of `reserveSection` calls among the calls. -/
def reservations : List SectionCall → Nat
  | [] => 0
  | SectionCall.reserveSection _ _ :: cs => 1 + reservations cs
  | _ :: cs => reservations cs

/-! # Theorems -/

/-! ## Lemmas on the HWM validator -/

theorem widthSwitch_none (f : Firsts) (w : Int) (k : Nat) :
    widthSwitch f w k = none ↔ ¬ supportedWidth w := by
  unfold widthSwitch supportedWidth
  constructor
  · intro h
    split_ifs at h
    simp_all
  · intro h
    push_neg at h
    simp [h.1, h.2.1, h.2.2.1, h.2.2.2.1, h.2.2.2.2]

theorem widthSwitch_some (f f1 : Firsts) (w k1 : Int) (k : Nat)
    (h : widthSwitch f w k = some (f1, k1)) :
    supportedWidth w ∧ f1.get w = k1 ∧ (f.get w = -1 → k1 = k) ∧ (f.get w ≠ -1 → f1 = f) ∧
      ∀ w2, w2 ≠ w → f1.get w2 = f.get w2 := by
  unfold widthSwitch at h
  unfold supportedWidth
  split_ifs at h with h1 h1b h2 h2b h4 h4b h8 h8b h16 h16b <;>
    (simp only [Option.some.injEq, Prod.mk.injEq] at h
     obtain ⟨rfl, rfl⟩ := h
     subst_vars) <;>
    refine ⟨by simp, by simp [Firsts.get], ?_, ?_, ?_⟩ <;>
    (intro hh; simp_all [Firsts.get])


theorem sameWidthBody_ok (ec : ErrorCodes) (widths : List Int) (seg : List DBRootExtentInfo)
    (k : Nat) (f f1 : Firsts) :
    sameWidthBody ec widths seg k f = .ok f1 ↔
      ∃ k1, widthSwitch f (widths.getD k 0) k = some (f1, k1) ∧
        sameExtent (segAt seg k1) (segAt seg k) ∧ samePlace (segAt seg 0) (segAt seg k) := by
  unfold sameWidthBody sameExtent samePlace
  cases hsw : widthSwitch f (widths.getD k 0) k with
  | none => simp
  | some p =>
    obtain ⟨f2, k2⟩ := p
    simp only [Option.some.injEq, Prod.mk.injEq]
    constructor
    · intro h
      split_ifs at h with h1 h2
      · push_neg at h1 h2
        simp only [Except.ok.injEq] at h
        exact ⟨k2, ⟨h, rfl⟩, ⟨⟨h1.1, h1.2.1, h1.2.2.1⟩, h1.2.2.2⟩, h2⟩
    · rintro ⟨k1, ⟨rfl, rfl⟩, ⟨⟨a, b, c⟩, d⟩, e, g, h⟩
      simp [a, b, c, d, e, g, h]

theorem sameWidthBody_error (ec : ErrorCodes) (widths : List Int) (seg : List DBRootExtentInfo)
    (k : Nat) (f : Firsts) (e : Int) (h : sameWidthBody ec widths seg k f = .error e) :
    (e = ec.ERR_BRM_UNSUPP_WIDTH ∧ ¬ supportedWidth (widths.getD k 0)) ∨
      e = ec.ERR_BRM_HWMS_NOT_EQUAL := by
  unfold sameWidthBody at h
  cases hsw : widthSwitch f (widths.getD k 0) k with
  | none =>
    rw [hsw] at h
    simp only [Except.error.injEq] at h
    exact Or.inl ⟨h.symm, (widthSwitch_none _ _ _).1 hsw⟩
  | some p =>
    rw [hsw] at h
    simp only at h
    split_ifs at h <;> simp only [Except.error.injEq] at h <;> exact Or.inr h.symm

theorem loopInv_init (widths : List Int) (seg : List DBRootExtentInfo) :
    LoopInv widths seg 0 Firsts.init := by
  refine ⟨fun w => Or.inl ?_, fun i hi => absurd hi (Nat.not_lt_zero i)⟩
  simp [Firsts.get, Firsts.init]

theorem loopInv_step (ec : ErrorCodes) (widths : List Int) (seg : List DBRootExtentInfo)
    (k : Nat) (f f1 : Firsts) (hinv : LoopInv widths seg k f)
    (h : sameWidthBody ec widths seg k f = .ok f1) : LoopInv widths seg (k + 1) f1 := by
  obtain ⟨k1, hsw, hext, hplace⟩ := (sameWidthBody_ok _ _ _ _ _ _).1 h
  obtain ⟨hsup, hget, hnew, hold, hother⟩ := widthSwitch_some _ _ _ _ _ hsw
  -- the reference column of the width of column `k` after the step
  have hk1 : ∃ j : Nat, j ≤ k ∧ k1 = j ∧ widths.getD j 0 = widths.getD k 0 := by
    by_cases hm : f.get (widths.getD k 0) = -1
    · exact ⟨k, le_refl _, hnew hm, rfl⟩
    · rcases hinv.ref (widths.getD k 0) with h1 | ⟨j, hj, hjf, hjw⟩
      · exact absurd h1 hm
      · refine ⟨j, hj.le, ?_, hjw⟩
        rw [← hget, hold hm, hjf]
  obtain ⟨j0, hj0, hj0k, hj0w⟩ := hk1
  -- entries of widths already recorded are kept
  have hkeep : ∀ w, f.get w ≠ -1 → f1.get w = f.get w := by
    intro w hw
    by_cases hww : w = widths.getD k 0
    · subst hww; rw [hold hw]
    · exact hother w hww
  constructor
  · intro w
    by_cases hww : w = widths.getD k 0
    · subst hww
      exact Or.inr ⟨j0, Nat.lt_succ_of_le hj0, by rw [hget, hj0k], hj0w⟩
    · rw [hother w hww]
      rcases hinv.ref w with h1 | ⟨j, hj, hjf, hjw⟩
      · exact Or.inl h1
      · exact Or.inr ⟨j, Nat.lt_succ_of_lt hj, hjf, hjw⟩
  · intro i hi
    rcases Nat.lt_succ_iff_lt_or_eq.1 hi with hlt | rfl
    · obtain ⟨hs, ⟨j, hji, hjf, hje⟩, hp⟩ := hinv.seen i hlt
      refine ⟨hs, ⟨j, hji, ?_, hje⟩, hp⟩
      rw [hkeep _ (by rw [hjf]; omega), hjf]
    · refine ⟨hsup, ⟨j0, hj0, by rw [hget, hj0k], ?_⟩, hplace⟩
      rw [← hj0k]; exact hext

theorem sameWidthLoop_inv (ec : ErrorCodes) (widths : List Int) (seg : List DBRootExtentInfo)
    (fuel : Nat) : ∀ (k : Nat) (f f1 : Firsts), LoopInv widths seg k f →
      sameWidthLoop ec widths seg fuel k f = .ok f1 → LoopInv widths seg (k + fuel) f1 := by
  induction fuel with
  | zero =>
    intro k f f1 hinv h
    simp only [sameWidthLoop, Except.ok.injEq] at h
    subst h; exact hinv
  | succ n ih =>
    intro k f f1 hinv h
    simp only [sameWidthLoop] at h
    cases hb : sameWidthBody ec widths seg k f with
    | error e => rw [hb] at h; simp at h
    | ok f2 =>
      rw [hb] at h
      have := ih (k + 1) f2 f1 (loopInv_step ec widths seg k f f2 hinv hb) h
      have e : k + (n + 1) = k + 1 + n := by omega
      rw [e]; exact this

theorem sameWidthLoop_error (ec : ErrorCodes) (widths : List Int) (seg : List DBRootExtentInfo)
    (fuel : Nat) : ∀ (k : Nat) (f : Firsts) (e : Int),
      sameWidthLoop ec widths seg fuel k f = .error e →
      (e = ec.ERR_BRM_UNSUPP_WIDTH ∧ ∃ i, k ≤ i ∧ i < k + fuel ∧
        ¬ supportedWidth (widths.getD i 0)) ∨ e = ec.ERR_BRM_HWMS_NOT_EQUAL := by
  induction fuel with
  | zero => intro k f e h; simp [sameWidthLoop] at h
  | succ n ih =>
    intro k f e h
    simp only [sameWidthLoop] at h
    cases hb : sameWidthBody ec widths seg k f with
    | error e2 =>
      rw [hb] at h
      simp only [Except.error.injEq] at h
      subst h
      rcases sameWidthBody_error _ _ _ _ _ _ hb with ⟨h1, h2⟩ | h1
      · exact Or.inl ⟨h1, k, le_refl _, by omega, h2⟩
      · exact Or.inr h1
    | ok f2 =>
      rw [hb] at h
      rcases ih (k + 1) f2 e h with ⟨h1, i, hi1, hi2, hi3⟩ | h1
      · exact Or.inl ⟨h1, i, by omega, by omega, hi3⟩
      · exact Or.inr h1

theorem bind_unit_ok (x : Except Int Unit) (y : Unit → Except Int Unit) :
    (x >>= y) = .ok () ↔ x = .ok () ∧ y () = .ok () := by
  cases x <;> simp [bind, Except.bind]

theorem hwmCheck_ok (ec : ErrorCodes) (seg : List DBRootExtentInfo) (a b : Int) (w1 w2 : Nat) :
    hwmCheck ec seg a b w1 w2 = .ok () ↔ (compareHWMs ec a b w1 w2 seg 0).1 = NO_ERROR := by
  unfold hwmCheck boolToInt
  by_cases h : (compareHWMs ec a b w1 w2 seg 0).1 = NO_ERROR <;> simp [h]

theorem hwmCheck_error (ec : ErrorCodes) (seg : List DBRootExtentInfo) (a b : Int) (w1 w2 : Nat)
    (rc : Int) (h : hwmCheck ec seg a b w1 w2 = .error rc) : rc = 1 := by
  unfold hwmCheck boolToInt at h
  by_cases h1 : (compareHWMs ec a b w1 w2 seg 0).1 = NO_ERROR <;> simp [h1] at h
  exact h.symm

theorem crossWidthChecks_ok (ec : ErrorCodes) (seg : List DBRootExtentInfo) (f : Firsts)
    (h : crossWidthChecks ec seg f = .ok ()) (w1 w2 : Int) (hs1 : supportedWidth w1)
    (hs2 : supportedWidth w2) (hlt : w1 < w2) (h1 : 0 ≤ f.get w1) :
    hwmCheck ec seg (f.get w1) (f.get w2) w1.toNat w2.toNat = .ok () := by
  simp only [crossWidthChecks, bind_unit_ok] at h
  obtain ⟨g1, g2, g4, g8⟩ := h
  unfold supportedWidth at hs1 hs2
  rcases hs1 with rfl | rfl | rfl | rfl | rfl <;>
    rcases hs2 with rfl | rfl | rfl | rfl | rfl <;>
    first
    | (exfalso; omega)
    | (simp only [Firsts.get] at h1 ⊢
       norm_num at h1 ⊢
       first
       | (simp only [ge_iff_le, h1, if_true, bind_unit_ok] at g1; tauto)
       | (simp only [ge_iff_le, h1, if_true, bind_unit_ok] at g2; tauto)
       | (simp only [ge_iff_le, h1, if_true, bind_unit_ok] at g4; tauto)
       | (simp only [ge_iff_le, h1, if_true, bind_unit_ok] at g8; tauto))

theorem ErrorCodes.Valid.ne_zero (ec : ErrorCodes) (h : ec.Valid) :
    ec.ERR_BRM_HWMS_NOT_EQUAL ≠ 0 ∧ ec.ERR_BRM_HWMS_OUT_OF_SYNC ≠ 0 ∧
      ec.ERR_BRM_UNSUPP_WIDTH ≠ 0 ∧ ec.ERR_BULK_MAX_ERR_NUM ≠ 0 ∧ ec.ERR_FILE_OPEN ≠ 0 ∧
      ec.ERR_UNKNOWN ≠ 0 := by
  simp [ErrorCodes.Valid, NO_ERROR] at h
  tauto

theorem segAt_natCast (seg : List DBRootExtentInfo) (i : Nat) :
    segAt seg (i : Int) = seg.getD i default := by
  simp [segAt]

/-- When `compareHWMs` accepts a pair of existing columns, the wider HWM lies
in the range computed modulo 2^32. -/
theorem compareHWMs_ok (ec : ErrorCodes) (h0 : ec.ERR_BRM_HWMS_OUT_OF_SYNC ≠ 0)
    (seg : List DBRootExtentInfo) (a b : Int) (w1 w2 : Nat) (hb : 0 ≤ b)
    (h : (compareHWMs ec a b w1 w2 seg 0).1 = NO_ERROR) :
    ((segAt seg a).fLocalHwm * (w2 / w1)) % 2 ^ 32 ≤ (segAt seg b).fLocalHwm ∧
      (segAt seg b).fLocalHwm ≤
        (((segAt seg a).fLocalHwm * (w2 / w1)) % 2 ^ 32 + w2 / w1 + (2 ^ 32 - 1)) % 2 ^ 32 := by
  unfold compareHWMs at h
  rw [if_neg (by omega)] at h
  simp only at h
  split_ifs at h with hc
  · exact absurd h h0
  · push_neg at hc
    exact hc

/-- Without wrap-around the accepted range is the exact one. -/
theorem compareHWMs_ok_exact (ec : ErrorCodes) (h0 : ec.ERR_BRM_HWMS_OUT_OF_SYNC ≠ 0)
    (seg : List DBRootExtentInfo) (a b : Int) (w1 w2 : Nat) (hb : 0 ≤ b)
    (hm1 : 1 ≤ w2 / w1) (hm : w2 / w1 ≤ 16)
    (hsmall : (segAt seg a).fLocalHwm * 16 + 15 < 2 ^ 32)
    (h : (compareHWMs ec a b w1 w2 seg 0).1 = NO_ERROR) :
    (segAt seg a).fLocalHwm * (w2 / w1) ≤ (segAt seg b).fLocalHwm ∧
      (segAt seg b).fLocalHwm + 1 ≤ (segAt seg a).fLocalHwm * (w2 / w1) + w2 / w1 := by
  have hr := compareHWMs_ok ec h0 seg a b w1 w2 hb h
  have hmul : (segAt seg a).fLocalHwm * (w2 / w1) ≤ (segAt seg a).fLocalHwm * 16 :=
    Nat.mul_le_mul_left _ hm
  have e1 : ((segAt seg a).fLocalHwm * (w2 / w1)) % 2 ^ 32 = (segAt seg a).fLocalHwm * (w2 / w1) :=
    Nat.mod_eq_of_lt (by omega)
  rw [e1] at hr
  have e2 : ((segAt seg a).fLocalHwm * (w2 / w1) + w2 / w1 + (2 ^ 32 - 1)) % 2 ^ 32 =
      (segAt seg a).fLocalHwm * (w2 / w1) + w2 / w1 - 1 := by
    have : (segAt seg a).fLocalHwm * (w2 / w1) + w2 / w1 + (2 ^ 32 - 1) =
        ((segAt seg a).fLocalHwm * (w2 / w1) + w2 / w1 - 1) + 2 ^ 32 := by omega
    rw [this, Nat.add_mod_right]
    exact Nat.mod_eq_of_lt (by omega)
  rw [e2] at hr
  omega

theorem validateColumnHWMs_loop_ok (ec : ErrorCodes) (hec : ec.Valid) (widths : List Int)
    (seg : List DBRootExtentInfo) (h : validateColumnHWMs ec widths seg = NO_ERROR) :
    ∃ f, sameWidthLoop ec widths seg seg.length 0 Firsts.init = .ok f ∧
      crossWidthChecks ec seg f = .ok () := by
  obtain ⟨n1, -, n3, -⟩ := ErrorCodes.Valid.ne_zero ec hec
  unfold validateColumnHWMs at h
  cases hl : sameWidthLoop ec widths seg seg.length 0 Firsts.init with
  | error e =>
    rw [hl] at h
    simp only [NO_ERROR] at h
    rcases sameWidthLoop_error _ _ _ _ _ _ _ hl with ⟨h1, -⟩ | h1
    · rw [h1] at h; exact absurd h n3
    · rw [h1] at h; exact absurd h n1
  | ok f =>
    rw [hl] at h
    simp only at h
    refine ⟨f, rfl, ?_⟩
    cases hc : crossWidthChecks ec seg f with
    | error rc =>
      rw [hc] at h
      simp only [NO_ERROR] at h
      subst h
      exfalso
      simp only [crossWidthChecks] at hc
      have key : ∀ a b w1 w2, hwmCheck ec seg a b w1 w2 ≠ .error 0 := by
        intro a b w1 w2 hh
        have := hwmCheck_error _ _ _ _ _ _ _ hh
        omega
      have bnd : ∀ (x : Except Int Unit) (y : Unit → Except Int Unit),
          x ≠ .error 0 → y () ≠ .error 0 → (x >>= y) ≠ .error 0 := by
        intro x y hx hy
        cases x with
        | error e => simpa [bind, Except.bind] using hx
        | ok u => simpa [bind, Except.bind] using hy
      have okE : (Except.ok () : Except Int Unit) ≠ .error 0 := by simp
      revert hc
      refine bnd _ _ ?_ (bnd _ _ ?_ (bnd _ _ ?_ ?_))
      · split_ifs
        · exact bnd _ _ (key _ _ _ _) (bnd _ _ (key _ _ _ _) (bnd _ _ (key _ _ _ _) (key _ _ _ _)))
        · exact okE
      · split_ifs
        · exact bnd _ _ (key _ _ _ _) (bnd _ _ (key _ _ _ _) (key _ _ _ _))
        · exact okE
      · split_ifs
        · exact bnd _ _ (key _ _ _ _) (key _ _ _ _)
        · exact okE
      · split_ifs
        · exact key _ _ _ _
        · exact okE
    | ok u => rfl

theorem validateColumnHWMs_codes (ec : ErrorCodes) (widths : List Int)
    (seg : List DBRootExtentInfo) :
    validateColumnHWMs ec widths seg = NO_ERROR ∨ validateColumnHWMs ec widths seg = 1 ∨
      validateColumnHWMs ec widths seg = ec.ERR_BRM_HWMS_NOT_EQUAL ∨
      validateColumnHWMs ec widths seg = ec.ERR_BRM_UNSUPP_WIDTH := by
  unfold validateColumnHWMs
  cases hl : sameWidthLoop ec widths seg seg.length 0 Firsts.init with
  | error e =>
    simp only
    rcases sameWidthLoop_error _ _ _ _ _ _ _ hl with ⟨h1, -⟩ | h1
    · exact Or.inr (Or.inr (Or.inr h1))
    · exact Or.inr (Or.inr (Or.inl h1))
  | ok f =>
    simp only
    cases hc : crossWidthChecks ec seg f with
    | ok u => exact Or.inl rfl
    | error rc =>
      simp only
      refine Or.inr (Or.inl ?_)
      simp only [crossWidthChecks] at hc
      have bnd : ∀ (x : Except Int Unit) (y : Unit → Except Int Unit),
          (x >>= y) = .error rc → x = .error rc ∨ y () = .error rc := by
        intro x y hx
        cases x with
        | error e => left; simpa [bind, Except.bind] using hx
        | ok u => right; simpa [bind, Except.bind] using hx
      have key := hwmCheck_error ec seg
      rcases bnd _ _ hc with h1 | h2
      · split_ifs at h1
        rcases bnd _ _ h1 with a | a
        · exact key _ _ _ _ _ a
        rcases bnd _ _ a with a | a
        · exact key _ _ _ _ _ a
        rcases bnd _ _ a with a | a
        · exact key _ _ _ _ _ a
        · exact key _ _ _ _ _ a
      rcases bnd _ _ h2 with h1 | h2
      · split_ifs at h1
        rcases bnd _ _ h1 with a | a
        · exact key _ _ _ _ _ a
        rcases bnd _ _ a with a | a
        · exact key _ _ _ _ _ a
        · exact key _ _ _ _ _ a
      rcases bnd _ _ h2 with h1 | h2
      · split_ifs at h1
        rcases bnd _ _ h1 with a | a
        · exact key _ _ _ _ _ a
        · exact key _ _ _ _ _ a
      · split_ifs at h2
        exact key _ _ _ _ _ h2

/-- C1 (code defect): on the scenario S5 (widths 1 and 2, local HWMs 10 and 25,
`25 ∉ [20,21]`) `validateColumnHWMs` returns 1, the truth value of the
comparison `compareHWMs(..) != NO_ERROR`, and on no input does it return
anything but `NO_ERROR`, 1, `ERR_BRM_HWMS_NOT_EQUAL` or `ERR_BRM_UNSUPP_WIDTH`;
the code `ERR_BRM_HWMS_OUT_OF_SYNC` that `compareHWMs` produces is lost. -/
theorem validateColumnHWMs_out_of_sync_lost (ec : ErrorCodes)
    (h : ec.ERR_BRM_HWMS_OUT_OF_SYNC ≠ NO_ERROR) :
    (compareHWMs ec 0 1 1 2 [segHwm 10, segHwm 25] 0).1 = ec.ERR_BRM_HWMS_OUT_OF_SYNC ∧
    validateColumnHWMs ec [1, 2] [segHwm 10, segHwm 25] = 1 ∧
      ∀ widths seg, validateColumnHWMs ec widths seg = NO_ERROR ∨
        validateColumnHWMs ec widths seg = 1 ∨
        validateColumnHWMs ec widths seg = ec.ERR_BRM_HWMS_NOT_EQUAL ∨
        validateColumnHWMs ec widths seg = ec.ERR_BRM_UNSUPP_WIDTH := by
  refine ⟨?_, ?_, validateColumnHWMs_codes ec⟩
  · simp [compareHWMs, segAt, segHwm]
  · simp only [NO_ERROR] at h
    simp [validateColumnHWMs, sameWidthLoop, sameWidthBody, widthSwitch, segAt, segHwm,
      Firsts.init, crossWidthChecks, hwmCheck, compareHWMs, boolToInt, NO_ERROR, h, bind,
      Except.bind]

theorem validateColumnHWMs_out_of_sync_lost_witness :
    sampleCodes.ERR_BRM_HWMS_OUT_OF_SYNC ≠ NO_ERROR ∧
      validateColumnHWMs sampleCodes [1, 2] [segHwm 10, segHwm 25] = 1 ∧
      sampleCodes.ERR_BRM_HWMS_OUT_OF_SYNC ≠ 1 :=
  ⟨by decide, (validateColumnHWMs_out_of_sync_lost sampleCodes (by decide)).2.1, by decide⟩

/-- C2: when `validateColumnHWMs` returns `NO_ERROR` on columns whose local HWMs
satisfy `hwm * 16 + 15 < 2^32`, then (a) for columns `i`, `j` with
`width i < width j` and `m = width j / width i` the HWM of `j` lies in
`[hwm i * m, hwm i * m + m - 1]`, (b) columns of equal width have equal local
HWM, and (c) all columns share DBRoot, partition and segment. -/
theorem validateColumnHWMs_no_error (ec : ErrorCodes) (hec : ec.Valid) (widths : List Int)
    (seg : List DBRootExtentInfo)
    (hsmall : ∀ s ∈ seg, s.fLocalHwm * 16 + 15 < 2 ^ 32)
    (h : validateColumnHWMs ec widths seg = NO_ERROR) :
    (∀ i j : Nat, i < seg.length → j < seg.length → widths.getD i 0 < widths.getD j 0 →
      ((segAt seg i).fLocalHwm : Int) * (widths.getD j 0 / widths.getD i 0) ≤
          (segAt seg j).fLocalHwm ∧
        ((segAt seg j).fLocalHwm : Int) ≤
          (segAt seg i).fLocalHwm * (widths.getD j 0 / widths.getD i 0) +
            widths.getD j 0 / widths.getD i 0 - 1) ∧
    (∀ i j : Nat, i < seg.length → j < seg.length → widths.getD i 0 = widths.getD j 0 →
      (segAt seg i).fLocalHwm = (segAt seg j).fLocalHwm) ∧
    (∀ i j : Nat, i < seg.length → j < seg.length → samePlace (segAt seg i) (segAt seg j)) := by
  obtain ⟨f, hl, hc⟩ := validateColumnHWMs_loop_ok ec hec widths seg h
  obtain ⟨-, n2, -⟩ := ErrorCodes.Valid.ne_zero ec hec
  have inv := sameWidthLoop_inv ec widths seg seg.length 0 Firsts.init f
    (loopInv_init widths seg) hl
  rw [Nat.zero_add] at inv
  refine ⟨?_, ?_, ?_⟩
  · intro i j hi hj hlt
    obtain ⟨hsi, ⟨ji, hjii, hfi, hei⟩, -⟩ := inv.seen i hi
    obtain ⟨hsj, ⟨jj, hjjj, hfj, hej⟩, -⟩ := inv.seen j hj
    have hck := crossWidthChecks_ok ec seg f hc _ _ hsi hsj hlt (by rw [hfi]; omega)
    rw [hwmCheck_ok, hfi, hfj] at hck
    have hmem : segAt seg (ji : Int) ∈ seg := by
      rw [segAt_natCast, List.getD_eq_getElem _ _ (by omega)]
      exact List.getElem_mem _
    have hsm := hsmall _ hmem
    have hm : 1 ≤ (widths.getD j 0).toNat / (widths.getD i 0).toNat ∧
        (widths.getD j 0).toNat / (widths.getD i 0).toNat ≤ 16 ∧
        (((widths.getD j 0).toNat / (widths.getD i 0).toNat : Nat) : Int) =
          widths.getD j 0 / widths.getD i 0 := by
      unfold supportedWidth at hsi hsj
      rcases hsi with e1 | e1 | e1 | e1 | e1 <;> rcases hsj with e2 | e2 | e2 | e2 | e2 <;>
        rw [e1, e2] at hlt ⊢ <;> first | (exfalso; omega) | decide
    have hr := compareHWMs_ok_exact ec n2 seg ji jj _ _ (by omega) hm.1 hm.2.1 hsm hck
    rw [hei.2, hej.2] at hr
    rw [← hm.2.2]
    constructor
    · exact_mod_cast hr.1
    · have := hr.2
      have h2 : ((segAt seg (j : Int)).fLocalHwm : Int) + 1 ≤
          (segAt seg (i : Int)).fLocalHwm *
            (((widths.getD j 0).toNat / (widths.getD i 0).toNat : Nat) : Int) +
            (((widths.getD j 0).toNat / (widths.getD i 0).toNat : Nat) : Int) := by
        exact_mod_cast this
      omega
  · intro i j hi hj hw
    obtain ⟨-, ⟨ji, -, hfi, hei⟩, -⟩ := inv.seen i hi
    obtain ⟨-, ⟨jj, -, hfj, hej⟩, -⟩ := inv.seen j hj
    rw [hw, hfj] at hfi
    have : jj = ji := by exact_mod_cast hfi
    subst this
    rw [← hei.2, ← hej.2]
  · intro i j hi hj
    obtain ⟨-, -, hpi⟩ := inv.seen i hi
    obtain ⟨-, -, hpj⟩ := inv.seen j hj
    unfold samePlace at *
    exact ⟨hpi.1.symm.trans hpj.1, hpi.2.1.symm.trans hpj.2.1, hpi.2.2.symm.trans hpj.2.2⟩

theorem validateColumnHWMs_no_error_witness :
    validateColumnHWMs sampleCodes [1, 2, 4, 2] [segHwm 10, segHwm 21, segHwm 43, segHwm 21]
        = NO_ERROR ∧
      ((segAt [segHwm 10, segHwm 21, segHwm 43, segHwm 21] (0 : Nat)).fLocalHwm : Int) *
          ([1, 2, 4, 2].getD 2 0 / [1, 2, 4, 2].getD 0 0) ≤
        (segAt [segHwm 10, segHwm 21, segHwm 43, segHwm 21] (2 : Nat)).fLocalHwm :=
  ⟨by decide,
    ((validateColumnHWMs_no_error sampleCodes (by decide) [1, 2, 4, 2]
      [segHwm 10, segHwm 21, segHwm 43, segHwm 21] (by decide) (by decide)).1 0 2
      (by decide) (by decide) (by decide)).1⟩

/-- C3: when all widths are supported and two columns of the same width
differ in DBRoot, partition, segment or local HWM, `validateColumnHWMs` returns
`ERR_BRM_HWMS_NOT_EQUAL`. -/
theorem validateColumnHWMs_not_equal (ec : ErrorCodes) (widths : List Int)
    (seg : List DBRootExtentInfo)
    (hw : ∀ k < seg.length, supportedWidth (widths.getD k 0))
    (i j : Nat) (hi : i < seg.length) (hj : j < seg.length)
    (hsame : widths.getD i 0 = widths.getD j 0)
    (hdiff : ¬ sameExtent (segAt seg i) (segAt seg j)) :
    validateColumnHWMs ec widths seg = ec.ERR_BRM_HWMS_NOT_EQUAL := by
  unfold validateColumnHWMs
  cases hl : sameWidthLoop ec widths seg seg.length 0 Firsts.init with
  | error e =>
    simp only
    rcases sameWidthLoop_error _ _ _ _ _ _ _ hl with ⟨-, k, -, hk, hbad⟩ | h1
    · exact absurd (hw k (by omega)) hbad
    · exact h1
  | ok f =>
    exfalso
    have inv := sameWidthLoop_inv ec widths seg seg.length 0 Firsts.init f
      (loopInv_init widths seg) hl
    rw [Nat.zero_add] at inv
    obtain ⟨-, ⟨ji, -, hfi, hei⟩, -⟩ := inv.seen i hi
    obtain ⟨-, ⟨jj, -, hfj, hej⟩, -⟩ := inv.seen j hj
    rw [hsame, hfj] at hfi
    have : jj = ji := by exact_mod_cast hfi
    subst this
    apply hdiff
    unfold sameExtent samePlace at *
    refine ⟨⟨?_, ?_, ?_⟩, ?_⟩
    · exact hei.1.1.symm.trans hej.1.1
    · exact hei.1.2.1.symm.trans hej.1.2.1
    · exact hei.1.2.2.symm.trans hej.1.2.2
    · exact hei.2.symm.trans hej.2

theorem validateColumnHWMs_not_equal_witness :
    validateColumnHWMs sampleCodes [2, 4, 2] [segHwm 10, segHwm 20, segHwm 11]
      = sampleCodes.ERR_BRM_HWMS_NOT_EQUAL :=
  validateColumnHWMs_not_equal sampleCodes [2, 4, 2] [segHwm 10, segHwm 20, segHwm 11]
    (by decide) 0 2 (by decide) (by decide) (by decide) (by decide)

theorem sameWidthLoop_append (ec : ErrorCodes) (widths : List Int) (seg : List DBRootExtentInfo)
    (a b : Nat) : ∀ (k : Nat) (f : Firsts),
      sameWidthLoop ec widths seg (a + b) k f =
        match sameWidthLoop ec widths seg a k f with
        | .error e => .error e
        | .ok f1 => sameWidthLoop ec widths seg b (k + a) f1 := by
  induction a with
  | zero => intro k f; simp [sameWidthLoop]
  | succ n ih =>
    intro k f
    have e : n + 1 + b = (n + b) + 1 := by omega
    rw [e]
    simp only [sameWidthLoop]
    cases hb : sameWidthBody ec widths seg k f with
    | error e2 => rfl
    | ok f2 =>
      simp only
      rw [ih (k + 1) f2]
      have e3 : k + 1 + n = k + (n + 1) := by omega
      rw [e3]

/-- The first loop passes every stretch of columns that are supported and
consistent with the columns before them. -/
theorem sameWidthLoop_complete (ec : ErrorCodes) (widths : List Int)
    (seg : List DBRootExtentInfo) (fuel : Nat) : ∀ (k : Nat) (f : Firsts),
      LoopInv widths seg k f →
      (∀ i, i < k + fuel → supportedWidth (widths.getD i 0) ∧
        samePlace (segAt seg 0) (segAt seg i) ∧
        ∀ j < i, widths.getD j 0 = widths.getD i 0 → sameExtent (segAt seg j) (segAt seg i)) →
      ∃ f1, sameWidthLoop ec widths seg fuel k f = .ok f1 := by
  induction fuel with
  | zero => intro k f _ _; exact ⟨f, rfl⟩
  | succ n ih =>
    intro k f hinv hall
    obtain ⟨hsup, hplace, hprev⟩ := hall k (by omega)
    have hb : ∃ f2, sameWidthBody ec widths seg k f = .ok f2 := by
      cases hsw : widthSwitch f (widths.getD k 0) k with
      | none => exact absurd hsup ((widthSwitch_none _ _ _).1 hsw)
      | some p =>
        obtain ⟨f2, k1⟩ := p
        refine ⟨f2, (sameWidthBody_ok _ _ _ _ _ _).2 ⟨k1, hsw, ?_, hplace⟩⟩
        obtain ⟨-, hget, hnew, hold, -⟩ := widthSwitch_some _ _ _ _ _ hsw
        by_cases hm : f.get (widths.getD k 0) = -1
        · rw [hnew hm]
          exact ⟨⟨rfl, rfl, rfl⟩, rfl⟩
        · rcases hinv.ref (widths.getD k 0) with h1 | ⟨j, hj, hjf, hjw⟩
          · exact absurd h1 hm
          · have : k1 = j := by rw [← hget, hold hm, hjf]
            rw [this]
            exact hprev j hj hjw
    obtain ⟨f2, hf2⟩ := hb
    have hinv2 := loopInv_step ec widths seg k f f2 hinv hf2
    obtain ⟨f1, hf1⟩ := ih (k + 1) f2 hinv2 (fun i hi => hall i (by omega))
    exact ⟨f1, by simp only [sameWidthLoop, hf2, hf1]⟩

/-- C4 (counterexample): a column list with an unsupported width (3) for which
`validateColumnHWMs` returns `ERR_BRM_HWMS_NOT_EQUAL`, because two earlier
1-byte columns have different HWMs. -/
theorem validateColumnHWMs_unsupp_counterexample :
    ¬ ∀ (ec : ErrorCodes) (widths : List Int) (seg : List DBRootExtentInfo),
      ec.Valid → widths.length = seg.length →
      (∃ k < seg.length, ¬ supportedWidth (widths.getD k 0)) →
      validateColumnHWMs ec widths seg = ec.ERR_BRM_UNSUPP_WIDTH := by
  intro h
  have := h sampleCodes [1, 1, 3] [segHwm 10, segHwm 21, segHwm 3] (by decide) rfl
    ⟨2, by decide, by decide⟩
  revert this
  decide

/-- C4 (amended): if column `k` is the first column with an unsupported width,
`validateColumnHWMs` returns `ERR_BRM_UNSUPP_WIDTH` when the columns before `k`
pass the equality checks (they share DBRoot, partition and segment with
column 0, and same-width columns have the same extent), and
`ERR_BRM_HWMS_NOT_EQUAL` otherwise. -/
theorem validateColumnHWMs_unsupp (ec : ErrorCodes) (widths : List Int)
    (seg : List DBRootExtentInfo) (k : Nat) (hk : k < seg.length)
    (hbad : ¬ supportedWidth (widths.getD k 0))
    (hfirst : ∀ i < k, supportedWidth (widths.getD i 0)) :
    ((∀ i < k, samePlace (segAt seg 0) (segAt seg i) ∧
        ∀ j < i, widths.getD j 0 = widths.getD i 0 → sameExtent (segAt seg j) (segAt seg i)) →
      validateColumnHWMs ec widths seg = ec.ERR_BRM_UNSUPP_WIDTH) ∧
    ((¬ ∀ i < k, samePlace (segAt seg 0) (segAt seg i) ∧
        ∀ j < i, widths.getD j 0 = widths.getD i 0 → sameExtent (segAt seg j) (segAt seg i)) →
      validateColumnHWMs ec widths seg = ec.ERR_BRM_HWMS_NOT_EQUAL) := by
  have hsplit : seg.length = k + ((seg.length - k - 1) + 1) := by omega
  have hloop := sameWidthLoop_append ec widths seg k ((seg.length - k - 1) + 1) 0 Firsts.init
  rw [← hsplit] at hloop
  constructor
  · intro hcons
    obtain ⟨f1, hf1⟩ := sameWidthLoop_complete ec widths seg k 0 Firsts.init
      (loopInv_init widths seg) (fun i hi => by
        rw [Nat.zero_add] at hi
        exact ⟨hfirst i hi, (hcons i hi).1, (hcons i hi).2⟩)
    rw [hf1] at hloop
    simp only [Nat.zero_add, sameWidthLoop] at hloop
    have hb : sameWidthBody ec widths seg k f1 = .error ec.ERR_BRM_UNSUPP_WIDTH := by
      unfold sameWidthBody
      rw [(widthSwitch_none _ _ _).2 hbad]
    rw [hb] at hloop
    unfold validateColumnHWMs
    rw [hloop]
  · intro hincons
    cases hp : sameWidthLoop ec widths seg k 0 Firsts.init with
    | ok f1 =>
      exfalso
      apply hincons
      have inv := sameWidthLoop_inv ec widths seg k 0 Firsts.init f1 (loopInv_init widths seg) hp
      rw [Nat.zero_add] at inv
      intro i hi
      obtain ⟨-, ⟨ji, -, hfi, hei⟩, hpl⟩ := inv.seen i hi
      refine ⟨hpl, fun j hj hw => ?_⟩
      obtain ⟨-, ⟨jj, -, hfj, hej⟩, -⟩ := inv.seen j (by omega)
      rw [hw, hfi] at hfj
      have : ji = jj := by exact_mod_cast hfj
      subst this
      unfold sameExtent samePlace at *
      refine ⟨⟨?_, ?_, ?_⟩, ?_⟩
      · exact hej.1.1.symm.trans hei.1.1
      · exact hej.1.2.1.symm.trans hei.1.2.1
      · exact hej.1.2.2.symm.trans hei.1.2.2
      · exact hej.2.symm.trans hei.2
    | error e =>
      rw [hp] at hloop
      simp only at hloop
      unfold validateColumnHWMs
      rw [hloop]
      simp only
      rcases sameWidthLoop_error _ _ _ _ _ _ _ hp with ⟨-, i, -, hi, hbadi⟩ | h1
      · exact absurd (hfirst i (by omega)) hbadi
      · exact h1

theorem validateColumnHWMs_unsupp_witness :
    validateColumnHWMs sampleCodes [1, 2, 3, 1] [segHwm 10, segHwm 20, segHwm 3, segHwm 7]
      = sampleCodes.ERR_BRM_UNSUPP_WIDTH :=
  (validateColumnHWMs_unsupp sampleCodes [1, 2, 3, 1]
    [segHwm 10, segHwm 20, segHwm 3, segHwm 7] 2 (by decide) (by decide) (by decide)).1
    (by decide)

/-! ## The reader/parser ring -/

/-- C5 (counterexample): two callers that both pass the id `-1` both get
`true` from `lockForRead` on a fresh table. -/
theorem lockForRead_counterexample :
    TableInfo.new.fStatusTI = Status.NEW ∧ TableInfo.new.fLocker = -1 ∧
      (lockForReadSeq [-1, -1] TableInfo.new).1 = [true, true] := by
  decide

/-- C5 (amended): on a table with status `NEW` and no locker, when the first
caller's id is not `-1` (the value that marks the locker as unset), the first
`lockForRead` returns `true` and every later call, whatever its id, returns
`false`. -/
theorem lockForRead_single (ti : TableInfo) (hs : ti.fStatusTI = Status.NEW)
    (hl : ti.fLocker = -1) (id : Int) (hid : id ≠ -1) (ids : List Int) :
    (lockForReadSeq (id :: ids) ti).1 = true :: List.replicate ids.length false := by
  have hlocked : ∀ (ids : List Int) (t : TableInfo), t.fLocker ≠ -1 →
      (lockForReadSeq ids t).1 = List.replicate ids.length false := by
    intro ids
    induction ids with
    | nil => intro t _; rfl
    | cons a as ih =>
      intro t ht
      simp only [lockForReadSeq, TableInfo.lockForRead, if_neg ht, List.length_cons,
        List.replicate_succ]
      rw [ih t ht]
  simp only [lockForReadSeq, TableInfo.lockForRead, hl, hs, if_true]
  rw [hlocked ids _ (by simpa using hid)]

theorem lockForRead_single_witness :
    (lockForReadSeq [3, 5, -1, 3] TableInfo.new).1 = [true, false, false, false] :=
  lockForRead_single TableInfo.new rfl rfl 3 (by decide) [5, -1, 3]

/-- C6 (code defect): a parser sets the table status to `ERR` with
`setParseError` while the reader fills its last buffer; when the fill ends at
the end of the last input file, `readTableData` assigns
`fStatusTI = READ_COMPLETE` and the `ERR` is gone. -/
theorem readTableData_overwrites_ERR (ec : ErrorCodes) :
    (run ec [Event.readStart 1 true, Event.jobCheck false, Event.waitBuffer false,
        Event.setParseError] (Sys.init [⟨4, 0⟩] 2 5)).map (fun s => s.ti.fStatusTI)
      = some Status.ERR ∧
    (run ec [Event.readStart 1 true, Event.jobCheck false, Event.waitBuffer false,
        Event.setParseError, Event.fill (goodFill 10 0 true)]
        (Sys.init [⟨4, 0⟩] 2 5)).map (fun s => (s.ti.fStatusTI, s.pc))
      = some (Status.READ_COMPLETE, ReaderPC.returned NO_ERROR) := by
  constructor
  · rfl
  · simp [run, step, Sys.init, TableInfo.readTableDataStart, TableInfo.readTableDataJobCheck,
      TableInfo.readTableDataWait, TableInfo.isBufferAvailable, TableInfo.setParseError,
      TableInfo.readTableDataFill, TableInfo.writeErrorList, TableInfo.writeErrReason,
      TableInfo.writeBadRows, TableInfo.initializeBuffers, TableInfo.addColumn, TableInfo.new,
      goodFill, updateAt, BulkLoadBuffer.setStatusBLB, BulkLoadBuffer.resetColumnLocks,
      NO_ERROR]

/-- C7 (counterexample): a failed fill leaves a row buffer in status `ERR`,
which is none of `NEW`, `READ_PROGRESS`, `READ_COMPLETE`, `PARSE_COMPLETE`; and
a parsed buffer is claimed again by the reader straight from `PARSE_COMPLETE`,
without passing through `NEW`. -/
theorem ring_counterexample :
    (run sampleCodes [Event.readStart 1 true, Event.jobCheck false, Event.waitBuffer false,
        Event.fill ⟨1052, 0, 0, 0, false, true⟩]
        (Sys.init [⟨4, 0⟩] 2 5)).map Sys.bufferStatuses
      = some [Status.ERR, Status.NEW] ∧
    (run sampleCodes [Event.readStart 1 true, Event.jobCheck false, Event.waitBuffer false,
        Event.fill (goodFill 10 0 false), Event.getColumnForParse 7 0 false,
        Event.setParseComplete 0 0 3 (okEnv []), Event.jobCheck false, Event.waitBuffer false,
        Event.fill (goodFill 20 0 false), Event.jobCheck false]
        (Sys.init [⟨4, 0⟩] 2 5)).map Sys.bufferStatuses
      = some [Status.PARSE_COMPLETE, Status.READ_COMPLETE] ∧
    (run sampleCodes [Event.readStart 1 true, Event.jobCheck false, Event.waitBuffer false,
        Event.fill (goodFill 10 0 false), Event.getColumnForParse 7 0 false,
        Event.setParseComplete 0 0 3 (okEnv []), Event.jobCheck false, Event.waitBuffer false,
        Event.fill (goodFill 20 0 false), Event.jobCheck false, Event.waitBuffer false]
        (Sys.init [⟨4, 0⟩] 2 5)).map Sys.bufferStatuses
      = some [Status.READ_PROGRESS, Status.READ_COMPLETE] := by
  refine ⟨?_, ?_, ?_⟩ <;> decide

theorem updateAt_getElem? {α : Type} (l : List α) (i j : Nat) (f : α → α) :
    (updateAt l i f)[j]? = if i = j then (l[j]?).map f else l[j]? := by
  unfold updateAt
  cases h : l[i]? with
  | none =>
    by_cases hij : i = j
    · subst hij; simp [h]
    · simp [hij]
  | some a =>
    by_cases hij : i = j
    · subst hij
      simp only [if_true, h, Option.map_some']
      rw [List.getElem?_set_self']
      simp [h]
    · simp [hij, List.getElem?_set_ne hij]

theorem mem_updateAt {α : Type} (l : List α) (i : Nat) (f : α → α) (x : α)
    (h : x ∈ updateAt l i f) : x ∈ l ∨ ∃ a, l[i]? = some a ∧ x = f a := by
  obtain ⟨n, hn⟩ := List.mem_iff_getElem?.1 h
  rw [updateAt_getElem?] at hn
  split_ifs at hn with hij
  · subst hij
    cases ha : l[i]? with
    | none => rw [ha] at hn; simp at hn
    | some a =>
      rw [ha] at hn
      simp only [Option.map_some', Option.some.injEq] at hn
      exact Or.inr ⟨a, rfl, hn.symm⟩
  · exact Or.inl (List.mem_iff_getElem?.2 ⟨n, hn⟩)

theorem writeErrorList_frame (ti : TableInfo) (a b : Option Nat) (c : Bool) :
    (ti.writeErrorList a b c).fBuffers = ti.fBuffers ∧
      (ti.writeErrorList a b c).fCurrentReadBuffer = ti.fCurrentReadBuffer ∧
      (ti.writeErrorList a b c).fStatusTI = ti.fStatusTI ∧
      (ti.writeErrorList a b c).fReadBufCount = ti.fReadBufCount ∧
      (ti.writeErrorList a b c).fMaxErrorRows = ti.fMaxErrorRows ∧
      (ti.writeErrorList a b c).fTotalErrRows = ti.fTotalErrRows + a.getD 0 := by
  unfold TableInfo.writeErrorList TableInfo.writeErrReason TableInfo.writeBadRows
  by_cases h : a.getD 0 > 0 ∨ b.getD 0 > 0 ∨ c = true
  · simp only [h, if_true]
    split_ifs <;> simp
  · simp only [h, if_false]
    push_neg at h
    simp only [true_and]
    omega

theorem finalize_frame (ec : ErrorCodes) (env : FinalizeEnv) (ti : TableInfo) :
    (∀ t, ti.finalize ec env = .ok t →
      t.fBuffers = [] ∧ t.fCurrentReadBuffer = ti.fCurrentReadBuffer ∧
        t.fTotalErrRows = ti.fTotalErrRows ∧ t.fMaxErrorRows = ti.fMaxErrorRows) ∧
    (∀ rc t, ti.finalize ec env = .error (rc, t) →
      t.fBuffers = ti.fBuffers ∧ t.fCurrentReadBuffer = ti.fCurrentReadBuffer ∧
        t.fTotalErrRows = ti.fTotalErrRows ∧ t.fMaxErrorRows = ti.fMaxErrorRows ∧
        t.fStatusTI = Status.ERR) := by
  unfold TableInfo.finalize
  simp only [TableInfo.failWith, TableInfo.call, TableInfo.freeProcessingBuffers]
  constructor
  · intro t h
    split_ifs at h <;> simp only [Except.ok.injEq] at h <;> subst h <;> simp
  · intro rc t h
    split_ifs at h <;> simp only [Except.error.injEq, Prod.mk.injEq] at h <;>
      obtain ⟨-, rfl⟩ := h <;> simp

theorem columnDone_frame (ec : ErrorCodes) (env : FinalizeEnv) (columnId : Nat)
    (ti : TableInfo) :
    (∀ t, ti.columnDone ec env columnId = .ok t →
      (t.fBuffers = ti.fBuffers ∨ t.fBuffers = []) ∧
        t.fCurrentReadBuffer = ti.fCurrentReadBuffer ∧
        t.fTotalErrRows = ti.fTotalErrRows ∧ t.fMaxErrorRows = ti.fMaxErrorRows) ∧
    (∀ rc t, ti.columnDone ec env columnId = .error (rc, t) →
      t.fBuffers = ti.fBuffers ∧ t.fCurrentReadBuffer = ti.fCurrentReadBuffer ∧
        t.fTotalErrRows = ti.fTotalErrRows ∧ t.fMaxErrorRows = ti.fMaxErrorRows ∧
        t.fStatusTI = Status.ERR) := by
  unfold TableInfo.columnDone
  by_cases h1 : ti.fLastBufferId ≠ -1
  · rw [if_pos h1]
    by_cases h2 : ti.allBuffersDoneForAColumn columnId = true
    · rw [if_pos h2]
      by_cases h3 : env.finishParsingRc ≠ NO_ERROR
      · rw [if_pos h3]
        refine ⟨fun t h => ?_, fun rc t h => ?_⟩
        · simp [TableInfo.failWith] at h
        · simp only [TableInfo.failWith, Except.error.injEq, Prod.mk.injEq] at h
          obtain ⟨-, rfl⟩ := h
          simp [TableInfo.call]
      · simp only [if_neg h3]
        split_ifs
        · have hf := finalize_frame ec env
            { ti.call (Call.finishParsing columnId) with
              fNumberOfColsParsed := (ti.call (Call.finishParsing columnId)).fNumberOfColsParsed + 1 }
          simp only [TableInfo.call] at hf ⊢
          refine ⟨fun t h => ?_, fun rc t h => ?_⟩
          · have := hf.1 t h
            exact ⟨Or.inr this.1, this.2.1, this.2.2.1, this.2.2.2⟩
          · exact hf.2 rc t h
        · refine ⟨fun t h => ?_, fun rc t h => by cases h⟩
          simp only [Except.ok.injEq] at h
          subst h
          simp [TableInfo.call]
    · rw [if_neg h2]
      refine ⟨fun t h => ?_, fun rc t h => by cases h⟩
      simp only [Except.ok.injEq] at h
      subst h
      simp
  · rw [if_neg h1]
    refine ⟨fun t h => ?_, fun rc t h => by cases h⟩
    simp only [Except.ok.injEq] at h
    subst h
    simp

theorem set_getD_eq_updateAt {α : Type} (l : List α) (i : Nat) (d : α) (f : α → α) :
    l.set i (f (l.getD i d)) = updateAt l i f := by
  unfold updateAt
  cases h : l[i]? with
  | none =>
    simp only
    exact List.set_eq_of_length_le (List.getElem?_eq_none_iff.1 h)
  | some a => simp [h]

theorem getD_of_getElem? {α : Type} (l : List α) (i : Nat) (d a : α) (h : l[i]? = some a) :
    l.getD i d = a := by
  simp [h]

theorem ringEdge_refl (a : Status) : ringEdge a a := Or.inl rfl

theorem RingInv.of_same (s t : Sys) (hinv : RingInv s) (hb : t.ti.fBuffers = s.ti.fBuffers)
    (hc : t.ti.fCurrentReadBuffer = s.ti.fCurrentReadBuffer)
    (hpc : t.pc = ReaderPC.filling → s.pc = ReaderPC.filling) : RingInv t := by
  refine ⟨?_, ?_⟩
  · rw [hb]; exact hinv.held
  · intro h
    rw [hb, hc]
    exact hinv.reading (hpc h)

theorem RingInv.of_nil (t : Sys) (hb : t.ti.fBuffers = []) : RingInv t := by
  refine ⟨?_, ?_⟩
  · rw [hb]; intro b hb; cases hb
  · intro _ b h
    rw [hb] at h
    simp at h

theorem edges_of_update (l : List BulkLoadBuffer) (i : Nat) (g : BulkLoadBuffer → BulkLoadBuffer)
    (hedge : ∀ b, l[i]? = some b → ringEdge b.fStatusBLB (g b).fStatusBLB) :
    ∀ (j : Nat) (b c : BulkLoadBuffer), l[j]? = some b → (updateAt l i g)[j]? = some c →
      ringEdge b.fStatusBLB c.fStatusBLB := by
  intro j b c hb hc
  rw [updateAt_getElem?] at hc
  split_ifs at hc with hi
  · subst hi
    rw [hb] at hc
    simp only [Option.map_some', Option.some.injEq] at hc
    subst hc
    exact hedge b hb
  · rw [hb] at hc
    simp only [Option.some.injEq] at hc
    subst hc
    exact ringEdge_refl _

theorem setParseComplete_frame (ec : ErrorCodes) (env : FinalizeEnv) (columnId bufferId : Nat)
    (pt : Int) (ti t : TableInfo) (rc : Int)
    (h : ti.setParseComplete ec env columnId bufferId pt = some (rc, t)) :
    (ti.fStatusTI = Status.ERR ∧ t = ti) ∨
      (ti.fStatusTI ≠ Status.ERR ∧
        (t.fBuffers = updateAt ti.fBuffers bufferId (markParsed columnId) ∨ t.fBuffers = []) ∧
        t.fCurrentReadBuffer = ti.fCurrentReadBuffer ∧ t.fTotalErrRows = ti.fTotalErrRows ∧
        t.fMaxErrorRows = ti.fMaxErrorRows) := by
  unfold TableInfo.setParseComplete at h
  by_cases hs : ti.fStatusTI = Status.ERR
  · rw [if_pos hs] at h
    simp only [Option.some.injEq, Prod.mk.injEq] at h
    exact Or.inl ⟨hs, h.2.symm⟩
  · rw [if_neg hs] at h
    refine Or.inr ⟨hs, ?_⟩
    simp only at h
    have hfr := columnDone_frame ec env columnId
      { ti with
        fColumns := (updateAt ti.fColumns columnId fun c => { c with lastProcessingTime := pt })
        fBuffers := (updateAt ti.fBuffers bufferId fun b =>
          if (b.setColumnStatus columnId Status.PARSE_COMPLETE).1 then
            (b.setColumnStatus columnId Status.PARSE_COMPLETE).2.setStatusBLB
              Status.PARSE_COMPLETE
          else (b.setColumnStatus columnId Status.PARSE_COMPLETE).2) }
    revert h
    cases hcd : TableInfo.columnDone ec env columnId _ with
    | error r =>
      intro h
      simp only [Option.some.injEq] at h
      subst h
      have := hfr.2 rc t hcd
      exact ⟨Or.inl this.1, this.2.1, this.2.2.1, this.2.2.2.1⟩
    | ok t3 =>
      intro h
      have h3 := hfr.1 t3 hcd
      have key : t.fBuffers = t3.fBuffers ∧ t.fCurrentReadBuffer = t3.fCurrentReadBuffer ∧
          t.fTotalErrRows = t3.fTotalErrRows ∧ t.fMaxErrorRows = t3.fMaxErrorRows := by
        simp only at h
        split_ifs at h
        · cases hadv : t3.advanceParseBuffer (t3.fReadBufCount + 1) t3.fCurrentParseBuffer with
          | none => rw [hadv] at h; simp at h
          | some cpb =>
            rw [hadv] at h
            simp only [Option.map_some', Option.some.injEq, Prod.mk.injEq] at h
            obtain ⟨-, rfl⟩ := h
            simp
        all_goals
          simp only [Option.some.injEq, Prod.mk.injEq] at h
          obtain ⟨-, rfl⟩ := h
          simp
      rw [key.1, key.2.1, key.2.2.1, key.2.2.2]
      exact ⟨h3.1, h3.2.1, h3.2.2.1, h3.2.2.2⟩

theorem holdsCell_readComplete (s : Sys) (hinv : RingInv s) (columnId bufferId : Nat)
    (h : s.ti.holdsCell columnId bufferId) :
    ∀ b, s.ti.fBuffers[bufferId]? = some b → b.fStatusBLB = Status.READ_COMPLETE := by
  obtain ⟨b, c, hb, hc, h1, h2⟩ := h
  intro b2 hb2
  rw [hb] at hb2
  cases hb2
  exact hinv.held b (List.mem_iff_getElem?.2 ⟨bufferId, hb⟩) c
    (List.mem_iff_getElem?.2 ⟨columnId, hc⟩) h1 h2

theorem markParsed_status (columnId : Nat) (b : BulkLoadBuffer) :
    ((markParsed columnId b).fStatusBLB = b.fStatusBLB ∨
      ((markParsed columnId b).fStatusBLB = Status.PARSE_COMPLETE ∧
        ∀ c ∈ (markParsed columnId b).fColumnLocks, c.status = Status.PARSE_COMPLETE)) := by
  unfold markParsed
  split_ifs with h
  · right
    refine ⟨rfl, ?_⟩
    simp only [BulkLoadBuffer.setColumnStatus, BulkLoadBuffer.setStatusBLB] at h ⊢
    intro c hc
    have := List.all_eq_true.1 h c hc
    simpa using this
  · left
    rfl

theorem RingInv.of_update (s t : Sys) (i : Nat) (g : BulkLoadBuffer → BulkLoadBuffer)
    (hinv : RingInv s) (hb : t.ti.fBuffers = updateAt s.ti.fBuffers i g)
    (hc : t.pc = ReaderPC.filling → t.ti.fCurrentReadBuffer = s.ti.fCurrentReadBuffer)
    (hg : ∀ b, s.ti.fBuffers[i]? = some b → ∀ c ∈ (g b).fColumnLocks, c.locker ≠ -1 →
      c.status ≠ Status.PARSE_COMPLETE → (g b).fStatusBLB = Status.READ_COMPLETE)
    (hr : t.pc = ReaderPC.filling → i = s.ti.fCurrentReadBuffer →
      ∀ b, s.ti.fBuffers[i]? = some b → (g b).fStatusBLB = Status.READ_PROGRESS)
    (hpc : t.pc = ReaderPC.filling → i ≠ s.ti.fCurrentReadBuffer → s.pc = ReaderPC.filling) :
    RingInv t := by
  refine ⟨?_, ?_⟩
  · intro b hbm
    rw [hb] at hbm
    rcases mem_updateAt _ _ _ _ hbm with h | ⟨a, ha, rfl⟩
    · exact hinv.held b h
    · exact hg a ha
  · intro hfill b hbm
    rw [hb, hc hfill, updateAt_getElem?] at hbm
    split_ifs at hbm with hi
    · cases ha : s.ti.fBuffers[s.ti.fCurrentReadBuffer]? with
      | none => rw [ha] at hbm; simp at hbm
      | some a =>
        rw [ha] at hbm
        simp only [Option.map_some', Option.some.injEq] at hbm
        subst hbm
        exact hr hfill hi a (by rw [hi]; exact ha)
    · exact hinv.reading (hpc hfill hi) b hbm

set_option linter.unusedTactic false in
theorem readTableDataFill_frame (ec : ErrorCodes) (r : FillResult) (ti : TableInfo)
    (loc : ReaderLocals) :
    (ti.readTableDataFill ec r loc).1 ≠ ReaderPC.filling ∧
      ∃ st, (st = Status.ERR ∨ st = Status.READ_COMPLETE) ∧
        (ti.readTableDataFill ec r loc).2.1.fBuffers =
          updateAt ti.fBuffers ti.fCurrentReadBuffer (fun b => b.setStatusBLB st) := by
  unfold TableInfo.readTableDataFill
  simp only
  split_ifs
  all_goals
    refine ⟨by simp, ?_⟩
    first
    | (refine ⟨Status.ERR, Or.inl rfl, ?_⟩
       simp only [(writeErrorList_frame _ _ _ _).1]
       done)
    | (refine ⟨Status.READ_COMPLETE, Or.inr rfl, ?_⟩
       simp only [(writeErrorList_frame _ _ _ _).1]
       done)

/-- Preservation of the ring invariant, and the moves of the buffer statuses,
for one step. -/
theorem step_ring (ec : ErrorCodes) (e : Event) (s t : Sys) (hinv : RingInv s)
    (h : step ec e s = some t) :
    RingInv t ∧ ∀ (j : Nat) (b c : BulkLoadBuffer), s.ti.fBuffers[j]? = some b →
      t.ti.fBuffers[j]? = some c → ringEdge b.fStatusBLB c.fStatusBLB := by
  have same : ∀ t : Sys, t.ti.fBuffers = s.ti.fBuffers →
      t.ti.fCurrentReadBuffer = s.ti.fCurrentReadBuffer →
      (t.pc = ReaderPC.filling → s.pc = ReaderPC.filling) →
      RingInv t ∧ ∀ (j : Nat) (b c : BulkLoadBuffer), s.ti.fBuffers[j]? = some b →
        t.ti.fBuffers[j]? = some c → ringEdge b.fStatusBLB c.fStatusBLB := by
    intro t hb hc hpc
    refine ⟨RingInv.of_same s t hinv hb hc hpc, ?_⟩
    intro j b c h1 h2
    rw [hb, h1] at h2
    cases h2
    exact ringEdge_refl _
  have cleared : ∀ t : Sys, t.ti.fBuffers = [] →
      RingInv t ∧ ∀ (j : Nat) (b c : BulkLoadBuffer), s.ti.fBuffers[j]? = some b →
        t.ti.fBuffers[j]? = some c → ringEdge b.fStatusBLB c.fStatusBLB := by
    intro t hb
    refine ⟨RingInv.of_nil t hb, ?_⟩
    intro j b c _ h2
    rw [hb] at h2
    simp at h2
  cases e with
  | lockForRead locker =>
    simp only [step, Option.some.injEq] at h
    subst h
    apply same
    · simp only [TableInfo.lockForRead]; split_ifs <;> rfl
    · simp only [TableInfo.lockForRead]; split_ifs <;> rfl
    · exact id
  | readStart n openOk =>
    simp only [step] at h
    split_ifs at h with hpc
    simp only [Option.some.injEq] at h
    subst h
    apply same
    · simp only [TableInfo.readTableDataStart]; split_ifs <;> rfl
    · simp only [TableInfo.readTableDataStart]; split_ifs <;> rfl
    · simp only [TableInfo.readTableDataStart]; split_ifs <;> simp
  | jobCheck jobFailed =>
    simp only [step] at h
    split_ifs at h with hpc
    simp only [Option.some.injEq] at h
    subst h
    apply same
    · simp only [TableInfo.readTableDataJobCheck]; split_ifs <;> rfl
    · simp only [TableInfo.readTableDataJobCheck]; split_ifs <;> rfl
    · simp only [TableInfo.readTableDataJobCheck]; split_ifs <;> simp
  | setParseError =>
    simp only [step, Option.some.injEq] at h
    subst h
    exact same _ rfl rfl id
  | waitBuffer jobFailed =>
    simp only [step] at h
    split_ifs at h with hpc
    simp only [Option.some.injEq] at h
    subst h
    simp only [TableInfo.readTableDataWait, TableInfo.isBufferAvailable]
    by_cases hg : (s.ti.fBuffers.getD s.ti.fCurrentReadBuffer default).fStatusBLB
        = Status.PARSE_COMPLETE ∨
      (s.ti.fBuffers.getD s.ti.fCurrentReadBuffer default).fStatusBLB = Status.NEW
    · simp only [if_pos hg, if_true]
      refine ⟨RingInv.of_update s _ s.ti.fCurrentReadBuffer _ hinv rfl (fun _ => rfl) ?_ ?_ ?_, ?_⟩
      · intro b _ c hc hl
        simp only [BulkLoadBuffer.resetColumnLocks, BulkLoadBuffer.setStatusBLB,
          List.mem_map] at hc
        obtain ⟨_, _, rfl⟩ := hc
        exact absurd rfl hl
      · intro _ _ b _
        rfl
      · intro _ hne
        exact absurd rfl hne
      · apply edges_of_update
        intro b hb
        rw [getD_of_getElem? _ _ _ _ hb] at hg
        simp only [BulkLoadBuffer.resetColumnLocks, BulkLoadBuffer.setStatusBLB]
        rcases hg with hg | hg
        · exact Or.inr (Or.inr (Or.inl ⟨hg, rfl⟩))
        · exact Or.inr (Or.inl ⟨hg, rfl⟩)
    · simp only [if_neg hg, Bool.false_eq_true, if_false]
      cases jobFailed
      · exact same _ rfl rfl (by simp)
      · exact same _ rfl rfl (by simp)
  | fill r =>
    simp only [step] at h
    split_ifs at h with hpc
    simp only [Option.some.injEq] at h
    subst h
    obtain ⟨hne, st, hst, hbuf⟩ := readTableDataFill_frame ec r s.ti s.loc
    have hread := hinv.reading hpc
    refine ⟨RingInv.of_update s _ s.ti.fCurrentReadBuffer _ hinv hbuf ?_ ?_ ?_ ?_, ?_⟩
    · intro hf; exact absurd hf hne
    · intro b hb c hc h1 h2
      have hrp := hread b hb
      have := hinv.held b (List.mem_iff_getElem?.2 ⟨_, hb⟩) c hc h1 h2
      rw [hrp] at this
      cases this
    · intro hf; exact absurd hf hne
    · intro hf; exact absurd hf hne
    · simp only [hbuf]
      apply edges_of_update
      intro b hb
      rw [hread b hb]
      simp only [BulkLoadBuffer.setStatusBLB]
      rcases hst with rfl | rfl
      · exact Or.inr (Or.inr (Or.inr (Or.inr (Or.inl ⟨rfl, rfl⟩))))
      · exact Or.inr (Or.inr (Or.inr (Or.inl ⟨rfl, rfl⟩)))
  | getColumnForParse wid bufferId jobFailed =>
    simp only [step] at h
    split_ifs at h with hid
    cases hg : s.ti.getColumnForParse wid bufferId jobFailed with
    | none => rw [hg] at h; simp at h
    | some r =>
      rw [hg] at h
      simp only [Option.map_some', Option.some.injEq] at h
      subst h
      unfold TableInfo.getColumnForParse at hg
      by_cases h1 : jobFailed = true
      · rw [if_pos h1] at hg
        simp only [Option.some.injEq] at hg; subst hg; exact same _ rfl rfl (fun x => x)
      rw [if_neg h1] at hg
      by_cases h2 : ¬ s.ti.bufferReadyForParse bufferId = true
      · rw [if_pos h2] at hg
        simp only [Option.some.injEq] at hg; subst hg; exact same _ rfl rfl (fun x => x)
      rw [if_neg h2] at hg
      simp only at hg
      by_cases h3 : (s.ti.selectColumn bufferId (-1, 0)).1 = -1
      · rw [if_pos h3] at hg
        simp only [Option.some.injEq] at hg; subst hg; exact same _ rfl rfl (fun x => x)
      rw [if_neg h3] at hg
      split_ifs at hg with h4
      simp only [Option.some.injEq] at hg
      subst hg
      simp only
      have hready : (s.ti.fBuffers.getD bufferId default).fStatusBLB = Status.READ_COMPLETE := by
        simp only [TableInfo.bufferReadyForParse, not_not] at h2
        split_ifs at h2
        simpa using h2
      have hset := set_getD_eq_updateAt s.ti.fBuffers bufferId default
        (fun b => (b.tryAndLockColumn (s.ti.selectColumn bufferId (-1, 0)).1.toNat wid).2)
      simp only at hset
      have hstat : ∀ b : BulkLoadBuffer,
          (b.tryAndLockColumn (s.ti.selectColumn bufferId (-1, 0)).1.toNat wid).2.fStatusBLB
            = b.fStatusBLB := by
        intro b
        simp only [BulkLoadBuffer.tryAndLockColumn]
        split_ifs <;> rfl
      refine ⟨RingInv.of_update s _ bufferId _ hinv hset (fun _ => rfl) ?_ ?_ ?_, ?_⟩
      · intro b hb c _ _ _
        rw [hstat, ← getD_of_getElem? _ _ default _ hb]
        exact hready
      · intro hf hi b hb
        rw [hstat]
        exact hinv.reading hf b (by rw [← hi]; exact hb)
      · intro hf _; exact hf
      · simp only [hset]
        apply edges_of_update
        intro b _
        rw [hstat]
        exact ringEdge_refl _
  | setParseComplete columnId bufferId pt env =>
    simp only [step] at h
    split_ifs at h with hold
    cases hg : s.ti.setParseComplete ec env columnId bufferId pt with
    | none => rw [hg] at h; simp at h
    | some r =>
      rw [hg] at h
      simp only [Option.map_some', Option.some.injEq] at h
      subst h
      obtain ⟨rc, t⟩ := r
      have hrc := holdsCell_readComplete s hinv columnId bufferId hold
      rcases setParseComplete_frame ec env columnId bufferId pt s.ti t rc hg with
        ⟨-, rfl⟩ | ⟨-, hb | hb, hc, -, -⟩
      · exact same _ rfl rfl (fun x => x)
      · refine ⟨RingInv.of_update s _ bufferId _ hinv hb (fun _ => hc) ?_ ?_ ?_, ?_⟩
        · intro b hbb c hcm _ h2
          rcases markParsed_status columnId b with h3 | ⟨-, h3⟩
          · rw [h3]; exact hrc b hbb
          · exact absurd (h3 c hcm) h2
        · intro hf hi b hbb
          have h1 := hinv.reading hf b (by rw [← hi]; exact hbb)
          rw [hrc b hbb] at h1
          cases h1
        · intro hf _; exact hf
        · simp only [hb]
          apply edges_of_update
          intro b hbb
          rcases markParsed_status columnId b with h3 | ⟨h3, -⟩
          · rw [h3]; exact ringEdge_refl _
          · rw [h3, hrc b hbb]
            exact Or.inr (Or.inr (Or.inr (Or.inr (Or.inr ⟨rfl, rfl⟩))))
      · exact cleared _ hb


theorem ringInv_init (cols : List ColumnInfo) (n m : Nat) : RingInv (Sys.init cols n m) := by
  refine ⟨?_, ?_⟩
  · intro b hb c hc hl
    simp only [Sys.init, TableInfo.initializeBuffers] at hb
    have hnew : (List.foldl TableInfo.addColumn TableInfo.new cols).fBuffers = [] := by
      have : ∀ (l : List ColumnInfo) (t : TableInfo), t.fBuffers = [] →
          (List.foldl TableInfo.addColumn t l).fBuffers = [] := by
        intro l
        induction l with
        | nil => intro t ht; exact ht
        | cons a as ih => intro t ht; exact ih _ (by simpa [TableInfo.addColumn] using ht)
      exact this cols _ rfl
    rw [hnew, List.nil_append] at hb
    obtain ⟨-, rfl⟩ := List.mem_replicate.1 hb
    simp only at hc
    obtain ⟨-, rfl⟩ := List.mem_replicate.1 hc
    exact absurd rfl hl
  · intro h
    simp [Sys.init] at h

theorem run_ring (ec : ErrorCodes) (evs : List Event) : ∀ (s t : Sys), RingInv s →
    run ec evs s = some t → RingInv t := by
  induction evs with
  | nil =>
    intro s t hinv h
    simp only [run, Option.some.injEq] at h
    subst h; exact hinv
  | cons e es ih =>
    intro s t hinv h
    simp only [run] at h
    cases hs : step ec e s with
    | none => rw [hs] at h; simp at h
    | some u =>
      rw [hs] at h
      simp only [Option.some_bind] at h
      exact ih u t (step_ring ec e s u hinv hs).1 h

/-- C7 (amended): in every state reachable from a fresh table, one step of the
reader or of a parser leaves the status of each row buffer unchanged or moves
it along `NEW → READ_PROGRESS`, `PARSE_COMPLETE → READ_PROGRESS`,
`READ_PROGRESS → READ_COMPLETE`, `READ_PROGRESS → ERR` or
`READ_COMPLETE → PARSE_COMPLETE`; the status is always one of the five values
`NEW`, `READ_PROGRESS`, `READ_COMPLETE`, `PARSE_COMPLETE`, `ERR`. -/
theorem ring_moves (ec : ErrorCodes) (cols : List ColumnInfo) (n m : Nat) (evs : List Event)
    (s : Sys) (h : run ec evs (Sys.init cols n m) = some s) (e : Event) (t : Sys)
    (hstep : step ec e s = some t) (j : Nat) (b c : BulkLoadBuffer)
    (hb : s.ti.fBuffers[j]? = some b) (hc : t.ti.fBuffers[j]? = some c) :
    ringEdge b.fStatusBLB c.fStatusBLB ∧
      (c.fStatusBLB = Status.NEW ∨ c.fStatusBLB = Status.READ_PROGRESS ∨
        c.fStatusBLB = Status.READ_COMPLETE ∨ c.fStatusBLB = Status.PARSE_COMPLETE ∨
        c.fStatusBLB = Status.ERR) := by
  have hinv := run_ring ec evs _ s (ringInv_init cols n m) h
  refine ⟨(step_ring ec e s t hinv hstep).2 j b c hb hc, ?_⟩
  cases c.fStatusBLB <;> simp

theorem ring_moves_witness : ringEdge Status.NEW Status.READ_PROGRESS :=
  (ring_moves sampleCodes [⟨4, 0⟩] 2 5 [Event.readStart 1 true, Event.jobCheck false]
    { ti := { (Sys.init [⟨4, 0⟩] 2 5).ti with fProcessingBegun := true }
      pc := ReaderPC.waiting
      loc := ⟨1, 1, 0, 0, []⟩ } (by decide) (Event.waitBuffer false)
    { ti := { (Sys.init [⟨4, 0⟩] 2 5).ti with
                fProcessingBegun := true
                fBuffers := [⟨Status.READ_PROGRESS, [⟨-1, Status.NEW⟩]⟩,
                  ⟨Status.NEW, [⟨-1, Status.NEW⟩]⟩] }
      pc := ReaderPC.filling
      loc := ⟨1, 1, 0, 0, []⟩ } (by decide) 0 ⟨Status.NEW, [⟨-1, Status.NEW⟩]⟩
    ⟨Status.READ_PROGRESS, [⟨-1, Status.NEW⟩]⟩ (by decide) (by decide)).1

theorem getColumnForParse_frame (ti t : TableInfo) (wid : Int) (bufferId : Nat) (jobFailed : Bool)
    (o : ParseOutcome) (h : ti.getColumnForParse wid bufferId jobFailed = some (o, t)) :
    t.fTotalErrRows = ti.fTotalErrRows ∧ t.fMaxErrorRows = ti.fMaxErrorRows ∧
      (t.fStatusTI = ti.fStatusTI ∨ t.fStatusTI = Status.ERR) := by
  unfold TableInfo.getColumnForParse at h
  by_cases h1 : jobFailed = true
  · rw [if_pos h1] at h
    simp only [Option.some.injEq, Prod.mk.injEq] at h
    obtain ⟨-, rfl⟩ := h
    simp
  rw [if_neg h1] at h
  by_cases h2 : ¬ ti.bufferReadyForParse bufferId = true
  · rw [if_pos h2] at h
    simp only [Option.some.injEq, Prod.mk.injEq] at h
    obtain ⟨-, rfl⟩ := h
    simp
  rw [if_neg h2] at h
  simp only at h
  by_cases h3 : (ti.selectColumn bufferId (-1, 0)).1 = -1
  · rw [if_pos h3] at h
    simp only [Option.some.injEq, Prod.mk.injEq] at h
    obtain ⟨-, rfl⟩ := h
    simp
  rw [if_neg h3] at h
  split_ifs at h
  simp only [Option.some.injEq, Prod.mk.injEq] at h
  obtain ⟨-, rfl⟩ := h
  simp

set_option linter.unusedTactic false in
theorem step_budget (ec : ErrorCodes) (hec : ec.Valid) (e : Event) (s t : Sys)
    (hok : ∀ r, e = Event.fill r → r.readRc = NO_ERROR)
    (hinv : BudgetOK ec s) (h : step ec e s = some t) :
    BudgetOK ec t ∧ t.ti.fTotalErrRows = s.ti.fTotalErrRows + (fillErrors [e]).sum ∧
      t.ti.fMaxErrorRows = s.ti.fMaxErrorRows := by
  have hv : ec.ERR_BULK_MAX_ERR_NUM ≠ ec.ERR_FILE_OPEN ∧ ec.ERR_BULK_MAX_ERR_NUM ≠ NO_ERROR := by
    simp [ErrorCodes.Valid] at hec
    tauto
  -- steps that leave the counters alone and do not return the budget code
  have quiet : ∀ t : Sys, t.ti.fTotalErrRows = s.ti.fTotalErrRows →
      t.ti.fMaxErrorRows = s.ti.fMaxErrorRows →
      s.pc ≠ ReaderPC.returned ec.ERR_BULK_MAX_ERR_NUM →
      t.pc ≠ ReaderPC.returned ec.ERR_BULK_MAX_ERR_NUM → BudgetOK ec t := by
    intro t h1 h2 h3 h4
    refine ⟨fun hh => absurd hh h4, fun _ => ?_⟩
    rw [h1, h2]; exact hinv.2 h3
  -- steps of the parsers: the reader stays where it is
  have parser : ∀ t : Sys, t.ti.fTotalErrRows = s.ti.fTotalErrRows →
      t.ti.fMaxErrorRows = s.ti.fMaxErrorRows → t.pc = s.pc →
      (t.ti.fStatusTI = s.ti.fStatusTI ∨ t.ti.fStatusTI = Status.ERR) → BudgetOK ec t := by
    intro t h1 h2 h3 h4
    refine ⟨fun hh => ?_, fun hh => ?_⟩
    · rw [h3] at hh
      rw [h1, h2]
      refine ⟨(hinv.1 hh).1, ?_⟩
      rcases h4 with h4 | h4
      · rw [h4]; exact (hinv.1 hh).2
      · exact h4
    · rw [h3] at hh
      rw [h1, h2]; exact hinv.2 hh
  cases e with
  | lockForRead locker =>
    simp only [step, Option.some.injEq] at h
    subst h
    refine ⟨parser _ ?_ ?_ rfl ?_, ?_, ?_⟩ <;>
      simp only [TableInfo.lockForRead, fillErrors, List.sum_nil, Nat.add_zero] <;>
      split_ifs <;> simp
  | readStart n openOk =>
    simp only [step] at h
    split_ifs at h with hpc
    simp only [Option.some.injEq] at h
    subst h
    have hs : s.pc ≠ ReaderPC.returned ec.ERR_BULK_MAX_ERR_NUM := by rw [hpc]; simp
    refine ⟨quiet _ ?_ ?_ hs ?_, ?_, ?_⟩ <;>
      simp only [TableInfo.readTableDataStart, fillErrors, List.sum_nil, Nat.add_zero] <;>
      split_ifs <;> simp
    exact fun hh => hv.1 hh.symm
  | jobCheck jobFailed =>
    simp only [step] at h
    split_ifs at h with hpc
    simp only [Option.some.injEq] at h
    subst h
    have hs : s.pc ≠ ReaderPC.returned ec.ERR_BULK_MAX_ERR_NUM := by rw [hpc]; simp
    refine ⟨quiet _ ?_ ?_ hs ?_, ?_, ?_⟩ <;>
      simp only [TableInfo.readTableDataJobCheck, fillErrors, List.sum_nil, Nat.add_zero] <;>
      split_ifs <;> simp
  | waitBuffer jobFailed =>
    simp only [step] at h
    split_ifs at h with hpc
    simp only [Option.some.injEq] at h
    subst h
    have hs : s.pc ≠ ReaderPC.returned ec.ERR_BULK_MAX_ERR_NUM := by rw [hpc]; simp
    refine ⟨quiet _ ?_ ?_ hs ?_, ?_, ?_⟩ <;>
      simp only [TableInfo.readTableDataWait, TableInfo.isBufferAvailable, fillErrors,
        List.sum_nil, Nat.add_zero] <;>
      split_ifs <;> simp
  | setParseError =>
    simp only [step, Option.some.injEq] at h
    subst h
    exact ⟨parser _ rfl rfl rfl (Or.inr rfl), by simp [fillErrors, TableInfo.setParseError], rfl⟩
  | getColumnForParse wid bufferId jobFailed =>
    simp only [step] at h
    split_ifs at h with hid
    cases hg : s.ti.getColumnForParse wid bufferId jobFailed with
    | none => rw [hg] at h; simp at h
    | some r =>
      rw [hg] at h
      simp only [Option.map_some', Option.some.injEq] at h
      subst h
      obtain ⟨o, t⟩ := r
      obtain ⟨h1, h2, h3⟩ := getColumnForParse_frame _ _ _ _ _ _ hg
      exact ⟨parser _ h1 h2 rfl h3, by simpa [fillErrors] using h1, h2⟩
  | setParseComplete columnId bufferId pt env =>
    simp only [step] at h
    split_ifs at h with hold
    cases hg : s.ti.setParseComplete ec env columnId bufferId pt with
    | none => rw [hg] at h; simp at h
    | some r =>
      rw [hg] at h
      simp only [Option.map_some', Option.some.injEq] at h
      subst h
      obtain ⟨rc, t⟩ := r
      rcases setParseComplete_frame ec env columnId bufferId pt s.ti t rc hg with
        ⟨-, rfl⟩ | ⟨hne, -, -, h1, h2⟩
      · exact ⟨parser _ rfl rfl rfl (Or.inl rfl), by simp [fillErrors], rfl⟩
      · refine ⟨⟨fun hh => ?_, fun hh => ?_⟩, by simpa [fillErrors] using h1, h2⟩
        · exact absurd (hinv.1 hh).2 hne
        · simp only [h1, h2]; exact hinv.2 hh
  | fill r =>
    have hr := hok r rfl
    simp only [step] at h
    split_ifs at h with hpc
    simp only [Option.some.injEq] at h
    subst h
    have hf := writeErrorList_frame s.ti (some r.errorRows) (some r.errorDatRows) false
    simp only [Option.getD_some] at hf
    simp only [TableInfo.readTableDataFill, hr, ne_eq, not_true_eq_false, if_false, fillErrors,
      List.sum_cons, List.sum_nil, Nat.add_zero]
    by_cases hex : (s.ti.writeErrorList (some r.errorRows) (some r.errorDatRows) false).fTotalErrRows
        > (s.ti.writeErrorList (some r.errorRows) (some r.errorDatRows) false).fMaxErrorRows
    · simp only [if_pos hex]
      have hf2 := writeErrorList_frame
        (s.ti.writeErrorList (some r.errorRows) (some r.errorDatRows) false) none none true
      simp only [Option.getD_none, Nat.add_zero] at hf2
      refine ⟨⟨fun _ => ⟨?_, rfl⟩, fun hh => absurd rfl hh⟩, ?_, ?_⟩
      · simp only [hf2.2.2.2.2.1, hf2.2.2.2.2.2]; exact hex
      · simp only [hf2.2.2.2.2.2, hf.2.2.2.2.2]
      · simp only [hf2.2.2.2.2.1, hf.2.2.2.2.1]
    · simp only [if_neg hex]
      have hle : s.ti.fTotalErrRows + r.errorRows ≤ s.ti.fMaxErrorRows := by
        rw [hf.2.2.2.2.2, hf.2.2.2.2.1] at hex
        omega
      have hf3 : ∀ t : TableInfo, (t.writeErrorList none none true).fTotalErrRows
            = t.fTotalErrRows ∧
          (t.writeErrorList none none true).fMaxErrorRows = t.fMaxErrorRows := by
        intro t
        have := writeErrorList_frame t none none true
        simp only [Option.getD_none, Nat.add_zero] at this
        exact ⟨this.2.2.2.2.2, this.2.2.2.2.1⟩
      split_ifs
      all_goals
        refine ⟨⟨fun hh => ?_, fun _ => ?_⟩, ?_, ?_⟩
      all_goals
        first
        | (exfalso
           simp only [reduceCtorEq] at hh
           done)
        | (exfalso
           simp only [ReaderPC.returned.injEq] at hh
           first
           | exact hv.1 hh.symm
           | exact hv.2 hh.symm)
        | (simp only [(hf3 _).1, (hf3 _).2, hf.2.2.2.2.2, hf.2.2.2.2.1]
           done)
        | (simp only [(hf3 _).1, (hf3 _).2, hf.2.2.2.2.2, hf.2.2.2.2.1]
           exact hle)


theorem fillErrors_cons_sum (e : Event) (es : List Event) :
    (fillErrors (e :: es)).sum = (fillErrors [e]).sum + (fillErrors es).sum := by
  cases e <;> simp [fillErrors]

theorem fillErrors_append_sum (a b : List Event) :
    (fillErrors (a ++ b)).sum = (fillErrors a).sum + (fillErrors b).sum := by
  induction a with
  | nil => simp [fillErrors]
  | cons e es ih =>
    rw [List.cons_append, fillErrors_cons_sum, ih, fillErrors_cons_sum e es]
    omega

theorem run_append (ec : ErrorCodes) (a b : List Event) :
    ∀ s, run ec (a ++ b) s = (run ec a s).bind (run ec b) := by
  induction a with
  | nil => intro s; simp [run]
  | cons e es ih =>
    intro s
    simp only [List.cons_append, run]
    cases step ec e s with
    | none => simp
    | some u => simp [ih u]

theorem run_budget (ec : ErrorCodes) (hec : ec.Valid) (evs : List Event) :
    ∀ s t, (∀ r, Event.fill r ∈ evs → r.readRc = NO_ERROR) → BudgetOK ec s →
      run ec evs s = some t →
      BudgetOK ec t ∧ t.ti.fTotalErrRows = s.ti.fTotalErrRows + (fillErrors evs).sum ∧
        t.ti.fMaxErrorRows = s.ti.fMaxErrorRows := by
  induction evs with
  | nil =>
    intro s t _ hinv h
    simp only [run, Option.some.injEq] at h
    subst h
    exact ⟨hinv, by simp [fillErrors], rfl⟩
  | cons e es ih =>
    intro s t hok hinv h
    simp only [run] at h
    cases hs : step ec e s with
    | none => rw [hs] at h; simp at h
    | some u =>
      rw [hs] at h
      simp only [Option.some_bind] at h
      obtain ⟨h1, h2, h3⟩ := step_budget ec hec e s u
        (fun r hr => hok r (by rw [hr]; exact List.mem_cons_self _ _)) hinv hs
      obtain ⟨h4, h5, h6⟩ := ih u t (fun r hr => hok r (List.mem_cons_of_mem _ hr)) h1 h
      refine ⟨h4, ?_, h6.trans h3⟩
      rw [h5, h2, fillErrors_cons_sum e es]
      omega

theorem init_counters (cols : List ColumnInfo) (n m : Nat) :
    (Sys.init cols n m).ti.fTotalErrRows = 0 ∧ (Sys.init cols n m).ti.fMaxErrorRows = m ∧
      (Sys.init cols n m).pc = ReaderPC.idle := by
  have : ∀ (l : List ColumnInfo) (t : TableInfo),
      (List.foldl TableInfo.addColumn t l).fTotalErrRows = t.fTotalErrRows := by
    intro l
    induction l with
    | nil => intro t; rfl
    | cons a as ih => intro t; simp only [List.foldl_cons]; rw [ih]; rfl
  refine ⟨?_, rfl, rfl⟩
  simp only [Sys.init, TableInfo.initializeBuffers]
  rw [this]
  rfl

theorem budgetOK_init (ec : ErrorCodes) (cols : List ColumnInfo) (n m : Nat) :
    BudgetOK ec (Sys.init cols n m) := by
  obtain ⟨h1, h2, h3⟩ := init_counters cols n m
  refine ⟨fun hh => ?_, fun _ => ?_⟩
  · rw [h3] at hh; cases hh
  · rw [h1]; exact Nat.zero_le _

/-- C8: along every run of the system from a fresh table in which all buffer
fills succeed, `fTotalErrRows` is the sum of the error-row counts of the fills
so far; the reader has returned `ERR_BULK_MAX_ERR_NUM` exactly when that sum
exceeds `maxErrorRows`, and then the table status is `ERR`; and before each
fill the sum was still within the limit, so the code is returned at the first
fill that takes the sum over the limit. -/
theorem error_budget (ec : ErrorCodes) (hec : ec.Valid) (cols : List ColumnInfo)
    (n maxErrorRows : Nat) (evs : List Event) (s : Sys)
    (hok : ∀ r, Event.fill r ∈ evs → r.readRc = NO_ERROR)
    (h : run ec evs (Sys.init cols n maxErrorRows) = some s) :
    s.ti.fTotalErrRows = (fillErrors evs).sum ∧
    (s.pc = ReaderPC.returned ec.ERR_BULK_MAX_ERR_NUM ↔ maxErrorRows < (fillErrors evs).sum) ∧
    (s.pc = ReaderPC.returned ec.ERR_BULK_MAX_ERR_NUM → s.ti.fStatusTI = Status.ERR) ∧
    (∀ evs1 r evs2, evs = evs1 ++ Event.fill r :: evs2 →
      (fillErrors evs1).sum ≤ maxErrorRows) := by
  obtain ⟨h1, h2, h3⟩ := init_counters cols n maxErrorRows
  obtain ⟨hb, ht, hm⟩ := run_budget ec hec evs _ s hok (budgetOK_init ec cols n maxErrorRows) h
  rw [h1, Nat.zero_add] at ht
  rw [h2] at hm
  refine ⟨ht, ⟨fun hh => ?_, fun hh => ?_⟩, fun hh => (hb.1 hh).2, ?_⟩
  · have := (hb.1 hh).1
    rw [ht, hm] at this
    exact this
  · by_contra hne
    have := hb.2 hne
    rw [ht, hm] at this
    omega
  · intro evs1 r evs2 hsplit
    subst hsplit
    rw [run_append] at h
    cases h1s : run ec evs1 (Sys.init cols n maxErrorRows) with
    | none => rw [h1s] at h; simp at h
    | some u =>
      rw [h1s] at h
      simp only [Option.some_bind, run] at h
      obtain ⟨hb1, ht1, hm1⟩ := run_budget ec hec evs1 _ u
        (fun r hr => hok r (List.mem_append_left _ hr)) (budgetOK_init ec cols n maxErrorRows) h1s
      rw [h1, Nat.zero_add] at ht1
      rw [h2] at hm1
      have hpc : u.pc = ReaderPC.filling := by
        by_contra hne
        simp [step, hne] at h
      have := hb1.2 (by rw [hpc]; simp)
      rw [ht1, hm1] at this
      exact this

theorem error_budget_witness :
    (fillErrors budgetScenario).sum = 3 ∧
      (run sampleCodes budgetScenario (Sys.init [⟨4, 0⟩] 3 2)).map
          (fun s => (s.pc, s.ti.fStatusTI))
        = some (ReaderPC.returned sampleCodes.ERR_BULK_MAX_ERR_NUM, Status.ERR) ∧
      (fillErrors (budgetScenario.take 9)).sum ≤ 2 := by
  have hs : (run sampleCodes budgetScenario (Sys.init [⟨4, 0⟩] 3 2)).isSome = true := by decide
  have h := error_budget sampleCodes (by decide) [⟨4, 0⟩] 3 2 budgetScenario
    ((run sampleCodes budgetScenario (Sys.init [⟨4, 0⟩] 3 2)).get hs)
    (by
      intro r hr
      simp only [budgetScenario, List.mem_cons, Event.fill.injEq, reduceCtorEq, false_or,
        List.mem_nil_iff, or_false] at hr
      rcases hr with rfl | rfl | rfl <;> rfl)
    (Option.some_get hs).symm
  refine ⟨by decide, ?_, h.2.2.2 (budgetScenario.take 9) (goodFill 3 1 false) [] (by decide)⟩
  have hpc := h.2.1.2 (by decide)
  have hst := h.2.2.1 hpc
  rw [← Option.some_get hs, Option.map_some', hpc, hst]

/-! ## The Parquet value converters -/

set_option maxRecDepth 100000 in
/-- C9 (code defect): in the branch `WR_BYTE` a value below `fMinIntSat` is
clamped but not counted.  On scenario S2 (limits -128..127, decoded inputs
200, -300, 5) the values copied out are 127, -128, 5 and `satCount` is 1, not
2; a plain `int8_t` input -128 on limits -126..127 is copied out as -126 with
`satCount` 0; the branch `WR_SHORT` counts both values of S2. -/
theorem parquetConvert_byte_low_not_counted (nv : NullValues) (dc : DataConvert)
    (fo : FloatOps) :
    (parquetConvert nv dc fo [some 200, some (-300), some 5] ArrowType.OTHER
        { weType := ColType.WR_BYTE, dataType := ColDataType.DECIMAL, width := 1,
          fMinIntSat := -128, fMaxIntSat := 127 } (ConvState.start 0)).map
        (fun r => (r.1, r.2.bufStats.satCount)) = some ([127, -128, 5], 1) ∧
    (parquetConvert nv dc fo [some (-128), some 5] ArrowType.OTHER
        { weType := ColType.WR_BYTE, width := 1, fMinIntSat := -126, fMaxIntSat := 127 }
        (ConvState.start 0)).map
        (fun r => (r.1, r.2.bufStats.satCount)) = some ([-126, 5], 0) ∧
    (parquetConvert nv dc fo [some 200, some (-300), some 5] ArrowType.OTHER
        { weType := ColType.WR_SHORT, dataType := ColDataType.DECIMAL, width := 2,
          fMinIntSat := -128, fMaxIntSat := 127 } (ConvState.start 0)).map
        (fun r => (r.1, r.2.bufStats.satCount)) = some ([127, -128, 5], 2) := by
  refine ⟨?_, ?_, ?_⟩ <;> rfl


theorem wrapSigned_of_mem (bits : Nat) (hb : 0 < bits) (x : Int)
    (h1 : -2 ^ (bits - 1) ≤ x) (h2 : x < 2 ^ (bits - 1)) : wrapSigned bits x = x := by
  unfold wrapSigned
  have hp : (2 : Int) ^ bits = 2 ^ (bits - 1) * 2 := by
    rw [← pow_succ]
    congr 1
    omega
  have hpos : (0 : Int) < 2 ^ (bits - 1) := by positivity
  rw [Int.emod_eq_of_lt (by omega) (by omega)]
  omega

theorem wrapUnsigned_of_mem (bits : Nat) (x : Int) (h1 : 0 ≤ x) (h2 : x < 2 ^ bits) :
    wrapUnsigned bits x = x := by
  unfold wrapUnsigned
  exact Int.emod_eq_of_lt h1 h2

theorem clamp_mem (v lo hi : Int) (h : lo ≤ hi) : lo ≤ clamp v lo hi ∧ clamp v lo hi ≤ hi := by
  unfold clamp
  constructor
  · exact le_max_left _ _
  · exact max_le h (min_le_right _ _)

/-- With `fMinIntSat ≤ fMaxIntSat` and `fMaxIntSat` a positive `int64_t`, the
saturation test is the clamp, and `bSatVal` tells whether the value was outside
the limits. -/
theorem saturate_eq (column : JobColumn) (v : Int)
    (hle : column.fMinIntSat ≤ (column.fMaxIntSat : Int))
    (hmax : (column.fMaxIntSat : Int) < 2 ^ 63) :
    saturate column v = (clamp v column.fMinIntSat column.fMaxIntSat,
      decide (column.outOfRange v)) := by
  have hw : wrapSigned 64 (column.fMaxIntSat : Int) = column.fMaxIntSat :=
    wrapSigned_of_mem 64 (by norm_num) _ (by
      have : (0 : Int) ≤ column.fMaxIntSat := Int.natCast_nonneg _
      have : (0 : Int) < 2 ^ (64 - 1) := by positivity
      omega) (by simpa using hmax)
  unfold saturate clamp JobColumn.outOfRange
  rw [hw]
  by_cases h1 : v < column.fMinIntSat
  · rw [if_pos h1, min_eq_left (by omega), max_eq_left (by omega)]
    simp [h1]
  · rw [if_neg h1]
    by_cases h2 : v > (column.fMaxIntSat : Int)
    · rw [if_pos h2, min_eq_right (by omega), max_eq_right hle]
      simp [h2]
    · rw [if_neg h2, min_eq_left (by omega), max_eq_right (by omega)]
      simp [h1, h2]

@[simp] theorem countSat_fields (st : ConvState) (b : Bool) :
    (st.countSat b).fAutoIncNextValue = st.fAutoIncNextValue ∧
      (st.countSat b).bufStats.satCount = st.bufStats.satCount + (if b then 1 else 0) := by
  unfold ConvState.countSat
  cases b <;> simp

@[simp] theorem updateMinMax_fields (st : ConvState) (v : Int) :
    (st.updateMinMax v).fAutoIncNextValue = st.fAutoIncNextValue ∧
      (st.updateMinMax v).bufStats.satCount = st.bufStats.satCount := by
  unfold ConvState.updateMinMax
  constructor
  · rfl
  · simp only
    split_ifs <;> rfl

@[simp] theorem updateMinMaxUnsigned_fields (st : ConvState) (v : Int) :
    (st.updateMinMaxUnsigned v).fAutoIncNextValue = st.fAutoIncNextValue ∧
      (st.updateMinMaxUnsigned v).bufStats.satCount = st.bufStats.satCount := by
  unfold ConvState.updateMinMaxUnsigned
  constructor
  · rfl
  · simp only
    split_ifs <;> rfl

theorem convertLoop_spec (column : JobColumn) (arrowType : ArrowType)
    (f : Option Int → ConvState → Int × ConvState) (hf : ElemSpec column arrowType f)
    (chunk : List (Option Int)) : ∀ st : ConvState,
    (convertLoop f chunk st).1.length = chunk.length ∧
    (∀ (i : Nat) (raw : Int), chunk[i]? = some (some raw) →
      (convertLoop f chunk st).1[i]? =
        some (clamp (column.readElem arrowType raw) column.fMinIntSat column.fMaxIntSat)) ∧
    (convertLoop f chunk st).2.bufStats.satCount = st.bufStats.satCount +
      ((column.inputValues arrowType chunk st.fAutoIncNextValue).countP column.saturates) := by
  induction chunk with
  | nil => intro st; simp [convertLoop, JobColumn.inputValues]
  | cons e es ih =>
    intro st
    obtain ⟨h1, h2, h3⟩ := hf e st
    obtain ⟨i1, i2, i3⟩ := ih (f e st).2
    simp only [convertLoop, JobColumn.inputValues, List.length_cons]
    refine ⟨by rw [i1], ?_, ?_⟩
    · intro i raw hi
      cases i with
      | zero =>
        simp only [List.getElem?_cons_zero, Option.some.injEq] at hi ⊢
        exact h3 raw hi
      | succ k =>
        simp only [List.getElem?_cons_succ] at hi ⊢
        exact i2 k raw hi
    · rw [i3, h2, h1, List.countP_cons]
      omega


theorem shapedElem_spec (column : JobColumn) (arrowType : ArrowType) (wrap : Int → Int)
    (upd : ConvState → Int → ConvState) (rd : Int → Int) (dflt nullMark : Int)
    (hle : column.fMinIntSat ≤ (column.fMaxIntSat : Int))
    (hmax : (column.fMaxIntSat : Int) < 2 ^ 63)
    (hwrap : ∀ x, column.fMinIntSat ≤ x → x ≤ (column.fMaxIntSat : Int) → wrap x = x)
    (hupd : ∀ st v, (upd st v).fAutoIncNextValue = st.fAutoIncNextValue ∧
      (upd st v).bufStats.satCount = st.bufStats.satCount)
    (hrd : ∀ raw, column.readElem arrowType raw = rd raw)
    (hdflt : column.defaultValue = dflt) :
    ElemSpec column arrowType (shapedElem column wrap upd rd dflt nullMark) := by
  intro e st
  have hgo : ∀ (v : Int) (s : ConvState),
      (wrap (saturate column v).1 = clamp v column.fMinIntSat column.fMaxIntSat) ∧
      (upd (s.countSat (saturate column v).2) (saturate column v).1).fAutoIncNextValue
        = s.fAutoIncNextValue ∧
      (upd (s.countSat (saturate column v).2) (saturate column v).1).bufStats.satCount
        = s.bufStats.satCount + (if column.saturates (some v) then 1 else 0) := by
    intro v s
    rw [saturate_eq column v hle hmax]
    obtain ⟨c1, c2⟩ := clamp_mem v column.fMinIntSat column.fMaxIntSat hle
    refine ⟨hwrap _ c1 c2, ?_, ?_⟩
    · rw [(hupd _ _).1, (countSat_fields _ _).1]
    · rw [(hupd _ _).2, (countSat_fields _ _).2]
      rfl
  cases e with
  | some raw =>
    simp only [shapedElem, JobColumn.inputValue, hrd, reduceCtorEq, false_and, if_false]
    obtain ⟨g1, g2, g3⟩ := hgo (rd raw) st
    exact ⟨g2, g3, fun r hr => by cases hr; exact g1⟩
  | none =>
    cases ha : column.autoIncFlag with
    | true =>
      simp only [shapedElem, JobColumn.inputValue, ha, not_true_eq_false, if_false, if_true,
        true_and, and_self]
      obtain ⟨-, g2, g3⟩ := hgo st.nextAutoInc.1 st.nextAutoInc.2
      refine ⟨g2, ?_, fun r hr => by cases hr⟩
      rw [g3]
      rfl
    | false =>
      cases hd : column.fWithDefault with
      | true =>
        simp only [shapedElem, JobColumn.inputValue, ha, hd, Bool.false_eq_true,
          not_false_eq_true, if_true, and_false, if_false, hdflt]
        obtain ⟨-, g2, g3⟩ := hgo dflt st
        exact ⟨g2, g3, fun r hr => by cases hr⟩
      | false =>
        simp only [shapedElem, JobColumn.inputValue, ha, hd, Bool.false_eq_true,
          not_false_eq_true, if_true, and_false, if_false, JobColumn.saturates]
        exact ⟨trivial, by simp, fun r hr => by cases hr⟩


theorem convertShort_shape (nv : NullValues) (column : JobColumn) :
    convertShort nv column = shapedElem column (wrapSigned 16) ConvState.updateMinMax
      (readShort column) column.fDefaultInt nv.SMALLINTNULL := by
  funext e st; cases e <;> rfl

theorem convertUShort_shape (nv : NullValues) (column : JobColumn) :
    convertUShort nv column = shapedElem column (wrapUnsigned 16) ConvState.updateMinMaxUnsigned
      readUShort (wrapSigned 64 column.fDefaultUInt) nv.USMALLINTNULL := by
  funext e st; cases e <;> rfl

theorem convertUByte_shape (nv : NullValues) (column : JobColumn) :
    convertUByte nv column = shapedElem column (wrapUnsigned 8) ConvState.updateMinMaxUnsigned
      readUByte (wrapSigned 64 column.fDefaultUInt) nv.UTINYINTNULL := by
  funext e st; cases e <;> rfl

theorem convertUInt_shape (nv : NullValues) (column : JobColumn) :
    convertUInt nv column = shapedElem column (wrapUnsigned 32) ConvState.updateMinMaxUnsigned
      readUInt (wrapSigned 64 column.fDefaultUInt) nv.UINTNULL := by
  funext e st; cases e <;> rfl

theorem convertInt_shape (nv : NullValues) (column : JobColumn) :
    convertInt nv column = shapedElem column (wrapSigned 32) ConvState.updateMinMax
      (readInt column) column.fDefaultInt nv.INTNULL := by
  funext e st; cases e <;> rfl

theorem convertLongLong_shape (nv : NullValues) (column : JobColumn) :
    convertLongLong nv column = shapedElem column id ConvState.updateMinMax
      (readLongLong column) column.fDefaultInt nv.BIGINTNULL := by
  funext e st; cases e <;> rfl

theorem inputValues_nonnull (column : JobColumn) (arrowType : ArrowType)
    (chunk : List (Option Int)) (hnn : ∀ e ∈ chunk, e ≠ none) : ∀ a : Nat,
    (column.inputValues arrowType chunk a).countP column.saturates =
      chunk.countP (fun e => column.saturates (e.map (column.readElem arrowType))) := by
  induction chunk with
  | nil => intro a; rfl
  | cons e es ih =>
    intro a
    have he : e ≠ none := hnn e (List.mem_cons_self _ _)
    obtain ⟨raw, rfl⟩ := Option.ne_none_iff_exists'.1 he
    simp only [JobColumn.inputValues, List.countP_cons, reduceCtorEq, false_and, if_false,
      JobColumn.inputValue, Option.map_some']
    rw [ih (fun x hx => hnn x (List.mem_cons_of_mem _ hx))]

/-- C10 (counterexample): a `DATE` column has weType `WR_INT`, and its elements
go through the calendar conversion, which does not read the limits.  Whatever
`ConvertArrowColumnDate` computes, the value copied out for the non-null element
of a one-element chunk is the same for the limits 0..0 and 1..1, so it is not
`clamp v` for every `WR_INT` column with ordered limits in range. -/
theorem parquetConvert_clamp_counterexample :
    ¬ ∃ dc : DataConvert, ∀ (nv : NullValues) (fo : FloatOps) (column : JobColumn)
        (arrowType : ArrowType) (chunk : List (Option Int)) (st : ConvState),
        (column.weType = ColType.WR_SHORT ∨ column.weType = ColType.WR_USHORT ∨
          column.weType = ColType.WR_UBYTE ∨ column.weType = ColType.WR_INT ∨
          column.weType = ColType.WR_MEDINT ∨ column.weType = ColType.WR_UINT ∨
          column.weType = ColType.WR_UMEDINT ∨
          (column.weType = ColType.WR_LONGLONG ∧ column.dataType ≠ ColDataType.DATETIME ∧
            column.dataType ≠ ColDataType.TIMESTAMP ∧ column.dataType ≠ ColDataType.TIME)) →
        column.fMinIntSat ≤ (column.fMaxIntSat : Int) →
        column.weType.range.1 ≤ column.fMinIntSat →
        (column.fMaxIntSat : Int) ≤ column.weType.range.2 →
        ∃ out st2, parquetConvert nv dc fo chunk arrowType column st = some (out, st2) ∧
          ∀ (i : Nat) (raw : Int), chunk[i]? = some (some raw) →
            out[i]? = some (clamp (column.readElem arrowType raw)
              column.fMinIntSat column.fMaxIntSat) := by
  rintro ⟨dc, h⟩
  obtain ⟨out0, s0, h0, g0⟩ := h sampleNulls sampleFloatOps
    (dateColumn 0 0)
    ArrowType.OTHER [some 5] (ConvState.start 0) (by decide) (by decide) (by decide) (by decide)
  obtain ⟨out1, s1, h1, g1⟩ := h sampleNulls sampleFloatOps
    (dateColumn 1 1)
    ArrowType.OTHER [some 5] (ConvState.start 0) (by decide) (by decide) (by decide) (by decide)
  have e0 := g0 0 5 rfl
  have e1 := g1 0 5 rfl
  have p0 : parquetConvert sampleNulls dc sampleFloatOps [some 5] ArrowType.OTHER (dateColumn 0 0)
      (ConvState.start 0) = some (convertLoop (convertDate sampleNulls dc (dateColumn 0 0))
        [some 5] (ConvState.start 0)) := rfl
  have p1 : parquetConvert sampleNulls dc sampleFloatOps [some 5] ArrowType.OTHER (dateColumn 1 1)
      (ConvState.start 0) = some (convertLoop (convertDate sampleNulls dc (dateColumn 0 0))
        [some 5] (ConvState.start 0)) := rfl
  have c0 : clamp ((dateColumn 0 0).readElem ArrowType.OTHER 5) (dateColumn 0 0).fMinIntSat
      (dateColumn 0 0).fMaxIntSat = 0 := by decide
  have c1 : clamp ((dateColumn 1 1).readElem ArrowType.OTHER 5) (dateColumn 1 1).fMinIntSat
      (dateColumn 1 1).fMaxIntSat = 1 := by decide
  rw [c0] at e0
  rw [c1] at e1
  have hout : out0 = out1 := by
    have := h0.symm.trans (p0.trans (p1.symm.trans h1))
    simp only [Option.some.injEq, Prod.mk.injEq] at this
    exact this.1
  rw [hout, e1] at e0
  exact absurd e0 (by decide)

/-- C10 (amended): for a column of weType `WR_SHORT`, `WR_USHORT`, `WR_UBYTE`,
`WR_INT`/`WR_MEDINT` with a data type other than `DATE`, `WR_UINT`/`WR_UMEDINT`
or non-temporal `WR_LONGLONG` whose
limits satisfy `fMinIntSat ≤ fMaxIntSat` and lie in the range of the column's
typed temporary, `parquetConvert` returns, copies out `clamp v` for every
non-null element with decoded value `v`, and adds to `satCount` the number of
elements whose value (decoded value; auto-increment value or default for a
substituted null) is below `fMinIntSat` or above `fMaxIntSat`; on a chunk
without nulls that is the number of elements with `v` outside the limits. -/
theorem parquetConvert_clamp (nv : NullValues) (dc : DataConvert) (fo : FloatOps)
    (column : JobColumn) (arrowType : ArrowType) (chunk : List (Option Int)) (st : ConvState)
    (hbranch : column.isClampBranch)
    (hle : column.fMinIntSat ≤ (column.fMaxIntSat : Int))
    (hlo : column.weType.range.1 ≤ column.fMinIntSat)
    (hhi : (column.fMaxIntSat : Int) ≤ column.weType.range.2) :
    ∃ out st2, parquetConvert nv dc fo chunk arrowType column st = some (out, st2) ∧
      out.length = chunk.length ∧
      (∀ (i : Nat) (raw : Int), chunk[i]? = some (some raw) →
        out[i]? = some (clamp (column.readElem arrowType raw)
          column.fMinIntSat column.fMaxIntSat)) ∧
      st2.bufStats.satCount = st.bufStats.satCount +
        (column.inputValues arrowType chunk st.fAutoIncNextValue).countP column.saturates ∧
      ((∀ e ∈ chunk, e ≠ none) → st2.bufStats.satCount = st.bufStats.satCount +
        chunk.countP (fun e => column.saturates (e.map (column.readElem arrowType)))) := by
  have key : ∀ f : Option Int → ConvState → Int × ConvState, ElemSpec column arrowType f →
      parquetConvert nv dc fo chunk arrowType column st = some (convertLoop f chunk st) →
      ∃ out st2, parquetConvert nv dc fo chunk arrowType column st = some (out, st2) ∧
      out.length = chunk.length ∧
      (∀ (i : Nat) (raw : Int), chunk[i]? = some (some raw) →
        out[i]? = some (clamp (column.readElem arrowType raw)
          column.fMinIntSat column.fMaxIntSat)) ∧
      st2.bufStats.satCount = st.bufStats.satCount +
        (column.inputValues arrowType chunk st.fAutoIncNextValue).countP column.saturates ∧
      ((∀ e ∈ chunk, e ≠ none) → st2.bufStats.satCount = st.bufStats.satCount +
        chunk.countP (fun e => column.saturates (e.map (column.readElem arrowType)))) := by
    intro f hf hp
    obtain ⟨h1, h2, h3⟩ := convertLoop_spec column arrowType f hf chunk st
    refine ⟨_, _, hp, h1, h2, h3, fun hnn => ?_⟩
    rw [h3, inputValues_nonnull column arrowType chunk hnn]
  have hmin0 : (0 : Int) ≤ column.fMaxIntSat := Int.natCast_nonneg _
  unfold JobColumn.isClampBranch at hbranch
  rcases hbranch with h | h | h | h | h | ⟨h | h, hd⟩ | ⟨h, hd⟩
  · -- WR_SHORT
    simp only [h, ColType.range] at hlo hhi
    refine key (convertShort nv column) ?_ (by simp only [parquetConvert, h])
    rw [convertShort_shape]
    refine shapedElem_spec column arrowType _ _ _ _ _ hle (by omega) ?_
      (fun s v => updateMinMax_fields s v) (fun raw => by simp only [JobColumn.readElem, h])
      (by simp only [JobColumn.defaultValue, h])
    intro x hx1 hx2
    exact wrapSigned_of_mem 16 (by norm_num) x (by norm_num; omega) (by norm_num; omega)
  · -- WR_USHORT
    simp only [h, ColType.range] at hlo hhi
    refine key (convertUShort nv column) ?_ (by simp only [parquetConvert, h])
    rw [convertUShort_shape]
    refine shapedElem_spec column arrowType _ _ _ _ _ hle (by omega) ?_
      (fun s v => updateMinMaxUnsigned_fields s v)
      (fun raw => by simp only [JobColumn.readElem, h])
      (by simp only [JobColumn.defaultValue, h])
    intro x hx1 hx2
    exact wrapUnsigned_of_mem 16 x (by omega) (by norm_num; omega)
  · -- WR_UBYTE
    simp only [h, ColType.range] at hlo hhi
    refine key (convertUByte nv column) ?_ (by simp only [parquetConvert, h])
    rw [convertUByte_shape]
    refine shapedElem_spec column arrowType _ _ _ _ _ hle (by omega) ?_
      (fun s v => updateMinMaxUnsigned_fields s v)
      (fun raw => by simp only [JobColumn.readElem, h])
      (by simp only [JobColumn.defaultValue, h])
    intro x hx1 hx2
    exact wrapUnsigned_of_mem 8 x (by omega) (by norm_num; omega)
  · -- WR_UMEDINT
    simp only [h, ColType.range] at hlo hhi
    refine key (convertUInt nv column) ?_ (by simp only [parquetConvert, h])
    rw [convertUInt_shape]
    refine shapedElem_spec column arrowType _ _ _ _ _ hle (by omega) ?_
      (fun s v => updateMinMaxUnsigned_fields s v)
      (fun raw => by simp only [JobColumn.readElem, h])
      (by simp only [JobColumn.defaultValue, h])
    intro x hx1 hx2
    exact wrapUnsigned_of_mem 32 x (by omega) (by norm_num; omega)
  · -- WR_UINT
    simp only [h, ColType.range] at hlo hhi
    refine key (convertUInt nv column) ?_ (by simp only [parquetConvert, h])
    rw [convertUInt_shape]
    refine shapedElem_spec column arrowType _ _ _ _ _ hle (by omega) ?_
      (fun s v => updateMinMaxUnsigned_fields s v)
      (fun raw => by simp only [JobColumn.readElem, h])
      (by simp only [JobColumn.defaultValue, h])
    intro x hx1 hx2
    exact wrapUnsigned_of_mem 32 x (by omega) (by norm_num; omega)
  · -- WR_INT
    simp only [h, ColType.range] at hlo hhi
    refine key (convertInt nv column) ?_ (by simp only [parquetConvert, h, ne_eq, hd,
      not_false_eq_true, if_true])
    rw [convertInt_shape]
    refine shapedElem_spec column arrowType _ _ _ _ _ hle (by omega) ?_
      (fun s v => updateMinMax_fields s v) (fun raw => by simp only [JobColumn.readElem, h])
      (by simp only [JobColumn.defaultValue, h])
    intro x hx1 hx2
    exact wrapSigned_of_mem 32 (by norm_num) x (by norm_num; omega) (by norm_num; omega)
  · -- WR_MEDINT
    simp only [h, ColType.range] at hlo hhi
    refine key (convertInt nv column) ?_ (by simp only [parquetConvert, h, ne_eq, hd,
      not_false_eq_true, if_true])
    rw [convertInt_shape]
    refine shapedElem_spec column arrowType _ _ _ _ _ hle (by omega) ?_
      (fun s v => updateMinMax_fields s v) (fun raw => by simp only [JobColumn.readElem, h])
      (by simp only [JobColumn.defaultValue, h])
    intro x hx1 hx2
    exact wrapSigned_of_mem 32 (by norm_num) x (by norm_num; omega) (by norm_num; omega)
  · -- WR_LONGLONG
    simp only [h, ColType.range] at hlo hhi
    refine key (convertLongLong nv column) ?_ (by simp only [parquetConvert, h, ne_eq, hd,
      not_false_eq_true, and_self, if_true])
    rw [convertLongLong_shape]
    refine shapedElem_spec column arrowType _ _ _ _ _ hle (by omega) ?_
      (fun s v => updateMinMax_fields s v) (fun raw => by simp only [JobColumn.readElem, h])
      (by simp only [JobColumn.defaultValue, h])
    intro x _ _
    rfl


set_option maxRecDepth 100000 in
theorem parquetConvert_clamp_witness :
    (parquetConvert sampleNulls sampleConvert sampleFloatOps [some 200, none, some (-300), some 5]
        ArrowType.OTHER
        { weType := ColType.WR_SHORT, width := 2, fMinIntSat := -100, fMaxIntSat := 100 }
        (ConvState.start 0)).map (fun r => r.2.bufStats.satCount) = some 2 := by
  obtain ⟨out, st2, h1, -, -, h4, -⟩ := parquetConvert_clamp sampleNulls sampleConvert sampleFloatOps
    { weType := ColType.WR_SHORT, width := 2, fMinIntSat := -100, fMaxIntSat := 100 }
    ArrowType.OTHER [some 200, none, some (-300), some 5] (ConvState.start 0)
    (by decide) (by decide) (by decide) (by decide)
  rw [h1, Option.map_some', h4]
  rfl

/-! ## The branches of `parquetConvert` in one shape -/

theorem parquetConvert_branch (nv : NullValues) (dc : DataConvert) (fo : FloatOps)
    (chunk : List (Option Int)) (arrowType : ArrowType) (column : JobColumn) (st : ConvState)
    (f : Option Int → ConvState → Int × ConvState)
    (h : column.branch nv dc fo arrowType = some f) :
    parquetConvert nv dc fo chunk arrowType column st = some (convertLoop f chunk st) := by
  unfold JobColumn.branch at h
  unfold parquetConvert
  split at h <;> (try split_ifs at h) <;> simp_all

theorem branch_of_runsLoop (nv : NullValues) (dc : DataConvert) (fo : FloatOps)
    (arrowType : ArrowType) (column : JobColumn) (h : column.runsLoop arrowType) :
    ∃ f, column.branch nv dc fo arrowType = some f := by
  unfold JobColumn.runsLoop at h
  unfold JobColumn.branch
  obtain ⟨h1, h2⟩ := h
  split <;> (try split_ifs) <;> simp_all

theorem branch_integer (nv : NullValues) (dc : DataConvert) (fo : FloatOps)
    (arrowType : ArrowType) (column : JobColumn) (h : column.isIntegerBranch) :
    column.branch nv dc fo arrowType = some (column.elemConv nv arrowType) := by
  unfold JobColumn.isIntegerBranch at h
  unfold JobColumn.branch JobColumn.elemConv JobColumn.satTest JobColumn.narrow JobColumn.cpUpdate
    JobColumn.readElem JobColumn.defaultValue JobColumn.nullMark JobColumn.autoValue
  rcases h with h | h | h | h | h | h | h | h | ⟨h | h, hd⟩ | ⟨h, hd⟩
  all_goals simp only [h, Option.some.injEq]
  iterate 8 (funext e st; cases e <;> rfl)
  all_goals
    cases hdt : column.dataType <;> simp_all <;> (funext e st; cases e <;> rfl)


theorem convertLoop_length (f : Option Int → ConvState → Int × ConvState)
    (chunk : List (Option Int)) : ∀ st, (convertLoop f chunk st).1.length = chunk.length := by
  induction chunk with
  | nil => intro st; rfl
  | cons e es ih => intro st; simp only [convertLoop, List.length_cons, ih]

theorem convertLoop_getElem (f : Option Int → ConvState → Int × ConvState)
    (chunk : List (Option Int)) : ∀ (st : ConvState) (i : Nat) (e : Option Int),
    chunk[i]? = some e →
    (convertLoop f chunk st).1[i]? = some (f e (convertLoop f (chunk.take i) st).2).1 := by
  induction chunk with
  | nil => intro st i e h; simp at h
  | cons x xs ih =>
    intro st i e h
    cases i with
    | zero =>
      simp only [List.getElem?_cons_zero, Option.some.injEq] at h
      subst h
      simp [convertLoop]
    | succ k =>
      simp only [List.getElem?_cons_succ] at h
      simp only [convertLoop, List.getElem?_cons_succ, List.take_succ_cons]
      exact ih (f x st).2 k e h

theorem convertLoop_take_succ (f : Option Int → ConvState → Int × ConvState)
    (chunk : List (Option Int)) : ∀ (st : ConvState) (i : Nat) (e : Option Int),
    chunk[i]? = some e →
    (convertLoop f (chunk.take (i + 1)) st).2 = (f e (convertLoop f (chunk.take i) st).2).2 := by
  induction chunk with
  | nil => intro st i e h; simp at h
  | cons x xs ih =>
    intro st i e h
    cases i with
    | zero =>
      simp only [List.getElem?_cons_zero, Option.some.injEq] at h
      subst h
      simp [convertLoop]
    | succ k =>
      simp only [List.getElem?_cons_succ] at h
      simp only [convertLoop, List.take_succ_cons]
      exact ih (f x st).2 k e h

theorem convertLoop_idem (f : Option Int → ConvState → Int × ConvState)
    (hf : ∀ raw st st', (f (some (f (some raw) st).1) st').1 = (f (some raw) st).1 ∧
      (f (some (f (some raw) st).1) st').2.bufStats.satCount = st'.bufStats.satCount)
    (raws : List Int) : ∀ st st',
    (convertLoop f ((convertLoop f (raws.map some) st).1.map some) st').1 =
        (convertLoop f (raws.map some) st).1 ∧
      (convertLoop f ((convertLoop f (raws.map some) st).1.map some) st').2.bufStats.satCount =
        st'.bufStats.satCount := by
  induction raws with
  | nil => intro st st'; simp [convertLoop]
  | cons r rs ih =>
    intro st st'
    obtain ⟨h1, h2⟩ := hf r st st'
    obtain ⟨i1, i2⟩ := ih (f (some r) st).2 (f (some (f (some r) st).1) st').2
    simp only [List.map_cons, convertLoop]
    refine ⟨?_, ?_⟩
    · rw [h1, i1]
    · rw [i2, h2]

theorem wrapSigned_mem (bits : Nat) (hb : 0 < bits) (x : Int) :
    -2 ^ (bits - 1) ≤ wrapSigned bits x ∧ wrapSigned bits x < 2 ^ (bits - 1) := by
  unfold wrapSigned
  have hp : (2 : Int) ^ bits = 2 ^ (bits - 1) * 2 := by
    rw [← pow_succ]
    congr 1
    omega
  have hpos : (0 : Int) < 2 ^ (bits - 1) := by positivity
  have h1 := Int.emod_nonneg (x + 2 ^ (bits - 1)) (by omega : (2 : Int) ^ bits ≠ 0)
  have h2 := Int.emod_lt_of_pos (x + 2 ^ (bits - 1)) (by omega : (0 : Int) < 2 ^ bits)
  constructor <;> omega

theorem wrapUnsigned_mem (bits : Nat) (x : Int) :
    0 ≤ wrapUnsigned bits x ∧ wrapUnsigned bits x < 2 ^ bits := by
  unfold wrapUnsigned
  have hpos : (0 : Int) < 2 ^ bits := by positivity
  exact ⟨Int.emod_nonneg _ (by omega), Int.emod_lt_of_pos _ hpos⟩

theorem readDecimal_of_mem (y : Int) (h1 : -2 ^ 63 ≤ y) (h2 : y < 2 ^ 63) :
    wrapSigned 64 (wrapSigned 128 y) = y := by
  rw [wrapSigned_of_mem 128 (by norm_num) y (by norm_num; omega) (by norm_num; omega)]
  exact wrapSigned_of_mem 64 (by norm_num) y (by norm_num; omega) (by norm_num; omega)

theorem saturateByte_eq (column : JobColumn) (v : Int)
    (hle : column.fMinIntSat ≤ (column.fMaxIntSat : Int))
    (hmax : (column.fMaxIntSat : Int) < 2 ^ 63) :
    saturateByte column v = (clamp v column.fMinIntSat column.fMaxIntSat,
      decide (v > (column.fMaxIntSat : Int))) := by
  have hw : wrapSigned 64 (column.fMaxIntSat : Int) = column.fMaxIntSat :=
    wrapSigned_of_mem 64 (by norm_num) _ (by
      have : (0 : Int) ≤ column.fMaxIntSat := Int.natCast_nonneg _
      have : (0 : Int) < 2 ^ (64 - 1) := by positivity
      omega) (by simpa using hmax)
  unfold saturateByte clamp
  rw [hw]
  by_cases h1 : v < column.fMinIntSat
  · rw [if_pos h1, min_eq_left (by omega), max_eq_left (by omega)]
    simp only [gt_iff_lt, Prod.mk.injEq, true_and]
    symm
    rw [decide_eq_false_iff_not]
    omega
  · rw [if_neg h1]
    by_cases h2 : v > (column.fMaxIntSat : Int)
    · rw [if_pos h2, min_eq_right (by omega), max_eq_right hle]
      simp [h2]
    · rw [if_neg h2, min_eq_left (by omega), max_eq_right (by omega)]
      simp [h2]

theorem clamp_of_mem (v lo hi : Int) (h1 : lo ≤ v) (h2 : v ≤ hi) : clamp v lo hi = v := by
  unfold clamp
  rw [min_eq_left h2, max_eq_right h1]

@[simp] theorem cpUpdate_fields (column : JobColumn) (st : ConvState) (v : Int) :
    (column.cpUpdate st v).fAutoIncNextValue = st.fAutoIncNextValue ∧
      (column.cpUpdate st v).bufStats.satCount = st.bufStats.satCount := by
  cases hw : column.weType <;> simp only [JobColumn.cpUpdate, hw] <;> first
    | exact updateMinMaxUnsigned_fields st v
    | exact updateMinMax_fields st v
    | (unfold ConvState.updateMinMaxULL; constructor; rfl; simp only; split_ifs <;> rfl)
    | (unfold ConvState.updateMinMaxWide; constructor; rfl; simp only; split_ifs <;> rfl)


theorem clampShape_facts (column : JobColumn) (sat : Int → Int × Bool) (wrap rd : Int → Int)
    (hle : column.fMinIntSat ≤ (column.fMaxIntSat : Int))
    (hsat : ∀ v, (sat v).1 = clamp v column.fMinIntSat column.fMaxIntSat)
    (hsat2 : ∀ v, column.fMinIntSat ≤ v → v ≤ (column.fMaxIntSat : Int) → sat v = (v, false))
    (hw : ∀ x, column.fMinIntSat ≤ x → x ≤ (column.fMaxIntSat : Int) → wrap x = x)
    (hrd : ∀ x, column.fMinIntSat ≤ x → x ≤ (column.fMaxIntSat : Int) → rd x = x) (v : Int) :
    rd (wrap (sat v).1) = wrap (sat v).1 ∧ sat (wrap (sat v).1) = (wrap (sat v).1, false) ∧
      wrap (wrap (sat v).1) = wrap (sat v).1 := by
  obtain ⟨c1, c2⟩ := clamp_mem v column.fMinIntSat column.fMaxIntSat hle
  rw [hsat v, hw _ c1 c2]
  exact ⟨hrd _ c1 c2, hsat2 _ c1 c2, hw _ c1 c2⟩

theorem saturate_fst (column : JobColumn) (hle : column.fMinIntSat ≤ (column.fMaxIntSat : Int))
    (hmax : (column.fMaxIntSat : Int) < 2 ^ 63) (v : Int) :
    (saturate column v).1 = clamp v column.fMinIntSat column.fMaxIntSat := by
  rw [saturate_eq column v hle hmax]

theorem saturate_of_mem (column : JobColumn) (hle : column.fMinIntSat ≤ (column.fMaxIntSat : Int))
    (hmax : (column.fMaxIntSat : Int) < 2 ^ 63) (v : Int) (h1 : column.fMinIntSat ≤ v)
    (h2 : v ≤ (column.fMaxIntSat : Int)) : saturate column v = (v, false) := by
  rw [saturate_eq column v hle hmax, clamp_of_mem v _ _ h1 h2]
  simp only [JobColumn.outOfRange, Prod.mk.injEq, true_and, decide_eq_false_iff_not]
  omega

theorem saturateByte_fst (column : JobColumn)
    (hle : column.fMinIntSat ≤ (column.fMaxIntSat : Int))
    (hmax : (column.fMaxIntSat : Int) < 2 ^ 63) (v : Int) :
    (saturateByte column v).1 = clamp v column.fMinIntSat column.fMaxIntSat := by
  rw [saturateByte_eq column v hle hmax]

theorem saturateByte_of_mem (column : JobColumn)
    (hle : column.fMinIntSat ≤ (column.fMaxIntSat : Int))
    (hmax : (column.fMaxIntSat : Int) < 2 ^ 63) (v : Int) (h1 : column.fMinIntSat ≤ v)
    (h2 : v ≤ (column.fMaxIntSat : Int)) : saturateByte column v = (v, false) := by
  rw [saturateByte_eq column v hle hmax, clamp_of_mem v _ _ h1 h2]
  simp only [Prod.mk.injEq, true_and, decide_eq_false_iff_not]
  omega

/-- When the limits of an integer column lie in the range of its typed
temporary, a value that was copied out is read back unchanged, passes the
saturation test unchanged and uncounted, and is copied out unchanged. -/
theorem elem_facts (column : JobColumn) (arrowType : ArrowType)
    (hint : column.isIntegerBranch)
    (hle : column.fMinIntSat ≤ (column.fMaxIntSat : Int))
    (hlo : column.weType.range.1 ≤ column.fMinIntSat)
    (hhi : (column.fMaxIntSat : Int) ≤ column.weType.range.2)
    (hbool : column.weType = ColType.WR_BYTE → arrowType ≠ ArrowType.BOOL) (raw : Int) :
    column.readElem arrowType
        (column.narrow (column.satTest (column.readElem arrowType raw)).1) =
      column.narrow (column.satTest (column.readElem arrowType raw)).1 ∧
    column.satTest (column.narrow (column.satTest (column.readElem arrowType raw)).1) =
      (column.narrow (column.satTest (column.readElem arrowType raw)).1, false) ∧
    column.narrow (column.narrow (column.satTest (column.readElem arrowType raw)).1) =
      column.narrow (column.satTest (column.readElem arrowType raw)).1 := by
  have h0 : (0 : Int) ≤ column.fMaxIntSat := Int.natCast_nonneg _
  unfold JobColumn.isIntegerBranch at hint
  unfold JobColumn.satTest JobColumn.narrow JobColumn.readElem
  rcases hint with h | h | h | h | h | h | h | h | ⟨h | h, -⟩ | ⟨h, -⟩
  · -- WR_BYTE
    simp only [h, ColType.range] at hlo hhi ⊢
    have hb := hbool h
    refine clampShape_facts column _ _ _ hle (saturateByte_fst column hle (by omega))
      (saturateByte_of_mem column hle (by omega))
      (fun x h1 h2 => wrapSigned_of_mem 8 (by norm_num) x (by norm_num; omega)
        (by norm_num; omega)) (fun x h1 h2 => ?_) _
    unfold readByte
    split_ifs
    · exact readDecimal_of_mem x (by omega) (by omega)
    · exact wrapSigned_of_mem 8 (by norm_num) x (by norm_num; omega) (by norm_num; omega)
  · -- WR_UBYTE
    simp only [h, ColType.range] at hlo hhi ⊢
    exact clampShape_facts column _ _ _ hle (saturate_fst column hle (by omega))
      (saturate_of_mem column hle (by omega))
      (fun x h1 h2 => wrapUnsigned_of_mem 8 x (by omega) (by norm_num; omega))
      (fun x h1 h2 => wrapUnsigned_of_mem 8 x (by omega) (by norm_num; omega)) _
  · -- WR_SHORT
    simp only [h, ColType.range] at hlo hhi ⊢
    refine clampShape_facts column _ _ _ hle (saturate_fst column hle (by omega))
      (saturate_of_mem column hle (by omega))
      (fun x h1 h2 => wrapSigned_of_mem 16 (by norm_num) x (by norm_num; omega)
        (by norm_num; omega)) (fun x h1 h2 => ?_) _
    unfold readShort
    split_ifs
    · exact readDecimal_of_mem x (by omega) (by omega)
    · exact wrapSigned_of_mem 16 (by norm_num) x (by norm_num; omega) (by norm_num; omega)
  · -- WR_USHORT
    simp only [h, ColType.range] at hlo hhi ⊢
    exact clampShape_facts column _ _ _ hle (saturate_fst column hle (by omega))
      (saturate_of_mem column hle (by omega))
      (fun x h1 h2 => wrapUnsigned_of_mem 16 x (by omega) (by norm_num; omega))
      (fun x h1 h2 => wrapUnsigned_of_mem 16 x (by omega) (by norm_num; omega)) _
  · -- WR_UINT
    simp only [h, ColType.range] at hlo hhi ⊢
    exact clampShape_facts column _ _ _ hle (saturate_fst column hle (by omega))
      (saturate_of_mem column hle (by omega))
      (fun x h1 h2 => wrapUnsigned_of_mem 32 x (by omega) (by norm_num; omega))
      (fun x h1 h2 => wrapUnsigned_of_mem 32 x (by omega) (by norm_num; omega)) _
  · -- WR_UMEDINT
    simp only [h, ColType.range] at hlo hhi ⊢
    exact clampShape_facts column _ _ _ hle (saturate_fst column hle (by omega))
      (saturate_of_mem column hle (by omega))
      (fun x h1 h2 => wrapUnsigned_of_mem 32 x (by omega) (by norm_num; omega))
      (fun x h1 h2 => wrapUnsigned_of_mem 32 x (by omega) (by norm_num; omega)) _
  · -- WR_ULONGLONG
    simp only [h, ColType.range] at hlo hhi ⊢
    obtain ⟨m1, m2⟩ := wrapUnsigned_mem 64 raw
    unfold saturateULongLong
    simp only [id]
    by_cases hv : wrapUnsigned 64 raw > (column.fMaxIntSat : Int)
    · simp only [hv, if_true, gt_iff_lt, lt_self_iff_false, if_false, and_true]
      exact wrapUnsigned_of_mem 64 _ h0 (by norm_num; omega)
    · simp only [hv, if_false, and_true]
      exact wrapUnsigned_of_mem 64 _ m1 m2
  · -- WR_BINARY
    simp only [h, id, and_true]
    obtain ⟨m1, m2⟩ := wrapSigned_mem 128 (by norm_num) raw
    exact wrapSigned_of_mem 128 (by norm_num) _ m1 m2
  · -- WR_INT
    simp only [h, ColType.range] at hlo hhi ⊢
    refine clampShape_facts column _ _ _ hle (saturate_fst column hle (by omega))
      (saturate_of_mem column hle (by omega))
      (fun x h1 h2 => wrapSigned_of_mem 32 (by norm_num) x (by norm_num; omega)
        (by norm_num; omega)) (fun x h1 h2 => ?_) _
    unfold readInt
    split_ifs
    · exact readDecimal_of_mem x (by omega) (by omega)
    · exact wrapSigned_of_mem 32 (by norm_num) x (by norm_num; omega) (by norm_num; omega)
  · -- WR_MEDINT
    simp only [h, ColType.range] at hlo hhi ⊢
    refine clampShape_facts column _ _ _ hle (saturate_fst column hle (by omega))
      (saturate_of_mem column hle (by omega))
      (fun x h1 h2 => wrapSigned_of_mem 32 (by norm_num) x (by norm_num; omega)
        (by norm_num; omega)) (fun x h1 h2 => ?_) _
    unfold readInt
    split_ifs
    · exact readDecimal_of_mem x (by omega) (by omega)
    · exact wrapSigned_of_mem 32 (by norm_num) x (by norm_num; omega) (by norm_num; omega)
  · -- WR_LONGLONG
    simp only [h, ColType.range] at hlo hhi ⊢
    refine clampShape_facts column _ id _ hle (saturate_fst column hle (by omega))
      (saturate_of_mem column hle (by omega))
      (fun x h1 h2 => rfl) (fun x h1 h2 => ?_) _
    unfold readLongLong
    split_ifs
    · exact readDecimal_of_mem x (by omega) (by omega)
    · exact wrapSigned_of_mem 64 (by norm_num) x (by norm_num; omega) (by norm_num; omega)


theorem elemConv_some (nv : NullValues) (arrowType : ArrowType) (column : JobColumn) (raw : Int)
    (st : ConvState) :
    column.elemConv nv arrowType (some raw) st =
      (column.narrow (column.satTest (column.readElem arrowType raw)).1,
        column.cpUpdate (st.countSat (column.satTest (column.readElem arrowType raw)).2)
          (column.satTest (column.readElem arrowType raw)).1) := rfl

set_option maxRecDepth 100000 in
/-- C11 (counterexample): with limits outside the range of the typed temporary
the second pass counts again.  A `WR_SHORT` column with limits 40000..50000
copies out the value 5 as 40000, which `short` holds as -25536; fed back, -25536
is below the lower limit and is counted. -/
theorem parquetConvert_idempotent_counterexample :
    ¬ ∀ (nv : NullValues) (dc : DataConvert) (fo : FloatOps) (column : JobColumn)
        (arrowType : ArrowType) (raws : List Int) (st st' : ConvState),
        column.isIntegerBranch → column.fMinIntSat ≤ (column.fMaxIntSat : Int) →
        ∃ out st1 st2,
          parquetConvert nv dc fo (raws.map some) arrowType column st = some (out, st1) ∧
          parquetConvert nv dc fo (out.map some) arrowType column st' = some (out, st2) ∧
          st2.bufStats.satCount = st'.bufStats.satCount := by
  intro h
  obtain ⟨out, st1, st2, h1, h2, h3⟩ := h sampleNulls sampleConvert sampleFloatOps
    { weType := ColType.WR_SHORT, width := 2, fMinIntSat := 40000, fMaxIntSat := 50000 }
    ArrowType.OTHER [5] (ConvState.start 0) (ConvState.start 0) (by decide) (by decide)
  have e1 : (parquetConvert sampleNulls sampleConvert sampleFloatOps ([5].map some)
      ArrowType.OTHER
      { weType := ColType.WR_SHORT, width := 2, fMinIntSat := 40000, fMaxIntSat := 50000 }
      (ConvState.start 0)).map Prod.fst = some [-25536] := rfl
  rw [h1] at e1
  simp only [Option.map_some', Option.some.injEq] at e1
  subst e1
  have e2 : (parquetConvert sampleNulls sampleConvert sampleFloatOps ([-25536].map some)
      ArrowType.OTHER
      { weType := ColType.WR_SHORT, width := 2, fMinIntSat := 40000, fMaxIntSat := 50000 }
      (ConvState.start 0)).map (fun r => r.2.bufStats.satCount) = some 1 := rfl
  rw [h2] at e2
  simp only [Option.map_some', Option.some.injEq] at e2
  rw [e2] at h3
  exact absurd h3 (by decide)


/-- C11 (amended): for an integer column whose limits satisfy
`fMinIntSat ≤ fMaxIntSat` and lie in the range of the column's typed temporary,
and a chunk of non-null integer values (not a `BOOL` array), feeding the values
copied out by one run of `parquetConvert` into a second run gives the same
values, hence the same bytes, and adds nothing to `satCount`. -/
theorem parquetConvert_idempotent (nv : NullValues) (dc : DataConvert) (fo : FloatOps)
    (column : JobColumn) (arrowType : ArrowType) (raws : List Int) (st st' : ConvState)
    (hint : column.isIntegerBranch)
    (hle : column.fMinIntSat ≤ (column.fMaxIntSat : Int))
    (hlo : column.weType.range.1 ≤ column.fMinIntSat)
    (hhi : (column.fMaxIntSat : Int) ≤ column.weType.range.2)
    (hbool : column.weType = ColType.WR_BYTE → arrowType ≠ ArrowType.BOOL) :
    ∃ out st1 st2,
      parquetConvert nv dc fo (raws.map some) arrowType column st = some (out, st1) ∧
      parquetConvert nv dc fo (out.map some) arrowType column st' = some (out, st2) ∧
      st2.bufStats.satCount = st'.bufStats.satCount := by
  have hb := branch_integer nv dc fo arrowType column hint
  have key := convertLoop_idem (column.elemConv nv arrowType) (fun raw s s' => by
    obtain ⟨f1, f2, f3⟩ := elem_facts column arrowType hint hle hlo hhi hbool raw
    rw [elemConv_some nv arrowType column raw s]
    simp only
    rw [elemConv_some, f1, f2, f3]
    refine ⟨rfl, ?_⟩
    simp only
    rw [(cpUpdate_fields _ _ _).2, (countSat_fields _ _).2]
    rfl) raws st st'
  refine ⟨_, _, _, parquetConvert_branch nv dc fo _ arrowType column st _ hb, ?_, key.2⟩
  rw [parquetConvert_branch nv dc fo _ arrowType column st' _ hb]
  exact congrArg some (Prod.ext key.1 rfl)

set_option maxRecDepth 100000 in
theorem parquetConvert_idempotent_witness :
    ∃ st2, parquetConvert sampleNulls sampleConvert sampleFloatOps
        [some 100, some (-100), some 5] ArrowType.OTHER
        { weType := ColType.WR_SHORT, width := 2, fMinIntSat := -100, fMaxIntSat := 100 }
        (ConvState.start 0) = some ([100, -100, 5], st2) ∧ st2.bufStats.satCount = 0 := by
  obtain ⟨out, st1, st2, h1, h2, h4⟩ := parquetConvert_idempotent sampleNulls sampleConvert
    sampleFloatOps
    { weType := ColType.WR_SHORT, width := 2, fMinIntSat := -100, fMaxIntSat := 100 }
    ArrowType.OTHER [200, -300, 5] (ConvState.start 0) (ConvState.start 0)
    (by decide) (by decide) (by decide) (by decide) (by decide)
  have e1 : (parquetConvert sampleNulls sampleConvert sampleFloatOps ([200, -300, 5].map some)
      ArrowType.OTHER
      { weType := ColType.WR_SHORT, width := 2, fMinIntSat := -100, fMaxIntSat := 100 }
      (ConvState.start 0)).map Prod.fst = some [100, -100, 5] := rfl
  rw [h1] at e1
  simp only [Option.map_some', Option.some.injEq] at e1
  subst e1
  exact ⟨st2, h2, h4⟩

/-! ## Null markers -/

theorem branch_null (nv : NullValues) (dc : DataConvert) (fo : FloatOps)
    (arrowType : ArrowType) (column : JobColumn)
    (f : Option Int → ConvState → Int × ConvState)
    (h : column.branch nv dc fo arrowType = some f)
    (hauto : column.autoIncFlag = false) (hdef : column.fWithDefault = false) (st : ConvState) :
    f none st = (column.nullMark nv, st) := by
  unfold JobColumn.branch at h
  unfold JobColumn.nullMark
  cases hw : column.weType <;> cases hdt : column.dataType <;>
    simp only [hw, hdt, reduceCtorEq, ne_eq, not_true_eq_false, not_false_eq_true, and_self,
      and_true, and_false, false_and, true_and, if_true, if_false, Option.some.injEq] at h ⊢ <;>
    (try split_ifs at h) <;>
    (try simp only [Option.some.injEq, reduceCtorEq] at h) <;>
    (try subst h) <;>
    simp [convertFloat, convertDouble, convertShort, convertUShort, convertByte,
      convertUByte, convertLongLong, convertTime32, convertTime64, convertTimestamp,
      convertDatetime, convertBinary, convertULongLong, convertUInt, convertInt, convertDate,
      hauto, hdef]


/-- C12 (counterexample): a `TIME` column (weType `WR_LONGLONG`) whose array is
neither `TIME32`, `NA` nor `TIME64` runs no loop, so its null element is not
copied out at all. -/
theorem parquetConvert_null_sentinel_counterexample :
    ¬ ∀ (nv : NullValues) (dc : DataConvert) (fo : FloatOps) (column : JobColumn)
        (arrowType : ArrowType) (chunk : List (Option Int)) (st : ConvState),
        column.weType ≠ ColType.WR_CHAR → column.autoIncFlag = false →
        column.fWithDefault = false →
        ∃ out st2, parquetConvert nv dc fo chunk arrowType column st = some (out, st2) ∧
          ∀ i : Nat, chunk[i]? = some none → out[i]? = some (column.nullMark nv) := by
  intro h
  obtain ⟨out, st2, h1, h2⟩ := h sampleNulls sampleConvert sampleFloatOps
    { weType := ColType.WR_LONGLONG, dataType := ColDataType.TIME, width := 8,
      fMinIntSat := 0, fMaxIntSat := 0 }
    ArrowType.OTHER [none] (ConvState.start 0) (by decide) rfl rfl
  have e1 : parquetConvert sampleNulls sampleConvert sampleFloatOps [none] ArrowType.OTHER
      { weType := ColType.WR_LONGLONG, dataType := ColDataType.TIME, width := 8,
        fMinIntSat := 0, fMaxIntSat := 0 } (ConvState.start 0)
      = some ([], ConvState.start 0) := rfl
  rw [e1] at h1
  simp only [Option.some.injEq, Prod.mk.injEq] at h1
  have := h2 0 rfl
  rw [← h1.1] at this
  simp at this

/-- C12 (amended): for every branch of `parquetConvert` over an array of numbers
(every weType but `WR_CHAR`; for a `TIME` column the array is `TIME32`, `NA` or
`TIME64`), a null element of a column without default and with `autoIncFlag`
unset is copied out as the null marker of the branch (`TINYINTNULL`,
`SMALLINTNULL`, `INTNULL`, `BIGINTNULL`, the unsigned ones, `FLOATNULL`,
`DOUBLENULL`, `DATENULL`, `TIMENULL`, `DATETIMENULL`, `TIMESTAMPNULL`,
`Decimal128Null`), and the state after that element (`satCount`, the min/max
accumulator, the counter) is the state before it. -/
theorem parquetConvert_null_sentinel (nv : NullValues) (dc : DataConvert) (fo : FloatOps)
    (column : JobColumn) (arrowType : ArrowType) (chunk : List (Option Int)) (st : ConvState)
    (hloop : column.runsLoop arrowType) (hauto : column.autoIncFlag = false)
    (hdef : column.fWithDefault = false) :
    ∃ out st2, parquetConvert nv dc fo chunk arrowType column st = some (out, st2) ∧
      out.length = chunk.length ∧
      ∀ i : Nat, chunk[i]? = some none →
        out[i]? = some (column.nullMark nv) ∧
        (parquetConvert nv dc fo (chunk.take (i + 1)) arrowType column st).map Prod.snd =
          (parquetConvert nv dc fo (chunk.take i) arrowType column st).map Prod.snd := by
  obtain ⟨f, hf⟩ := branch_of_runsLoop nv dc fo arrowType column hloop
  refine ⟨_, _, parquetConvert_branch nv dc fo chunk arrowType column st f hf,
    convertLoop_length f chunk st, fun i hi => ⟨?_, ?_⟩⟩
  · rw [convertLoop_getElem f chunk st i none hi, branch_null nv dc fo arrowType column f hf
      hauto hdef]
  · rw [parquetConvert_branch nv dc fo _ arrowType column st f hf,
      parquetConvert_branch nv dc fo _ arrowType column st f hf, Option.map_some',
      Option.map_some', convertLoop_take_succ f chunk st i none hi,
      branch_null nv dc fo arrowType column f hf hauto hdef]

set_option maxRecDepth 100000 in
theorem parquetConvert_null_sentinel_witness :
    (parquetConvert sampleNulls sampleConvert sampleFloatOps [some 7, none] ArrowType.TIME64
        { weType := ColType.WR_LONGLONG, dataType := ColDataType.TIME, width := 8,
          fMinIntSat := 0, fMaxIntSat := 0 } (ConvState.start 0)).map
        (fun r => r.1[1]?) = some (some sampleNulls.TIMENULL) := by
  obtain ⟨out, st2, h1, -, h3⟩ := parquetConvert_null_sentinel sampleNulls sampleConvert
    sampleFloatOps
    { weType := ColType.WR_LONGLONG, dataType := ColDataType.TIME, width := 8,
      fMinIntSat := 0, fMaxIntSat := 0 }
    ArrowType.TIME64 [some 7, none] (ConvState.start 0) (by decide) rfl rfl
  rw [h1, Option.map_some', (h3 1 rfl).1]
  rfl

/-! ## Defaults of null elements -/

set_option maxRecDepth 100000 in
/-- C13 (code defect): in the branch `WR_FLOAT` the saturation test stands in the
branch of a non-null element only, so the default of a null element is copied
out unclamped and uncounted, whatever the limits are.  With sample operations
(patterns ordered as integers) and limits 1..5, the non-null value 9 is clamped
to 5 and counted while the default 9 is copied out as 9; `WR_DOUBLE` on the same
input clamps and counts both, and so does `WR_SHORT` with limits -100..100 and
default 200. -/
theorem parquetConvert_float_default_not_clamped (nv : NullValues) (dc : DataConvert)
    (fo : FloatOps) (d lo hi : Int) (st : ConvState) :
    parquetConvert nv dc fo [none] ArrowType.OTHER
        { weType := ColType.WR_FLOAT, width := 4, fWithDefault := true, fDefaultDbl := d,
          fMinDblSat := lo, fMaxDblSat := hi, fMinIntSat := 0, fMaxIntSat := 0 } st
      = some ([fo.toFloat d], st) ∧
    (parquetConvert nv dc sampleFloatOps [some 9, none] ArrowType.OTHER
        { weType := ColType.WR_FLOAT, width := 4, fWithDefault := true, fDefaultDbl := 9,
          fMinDblSat := 1, fMaxDblSat := 5, fMinIntSat := 0, fMaxIntSat := 0 }
        (ConvState.start 0)).map (fun r => (r.1, r.2.bufStats.satCount)) = some ([5, 9], 1) ∧
    (parquetConvert nv dc sampleFloatOps [some 9, none] ArrowType.OTHER
        { weType := ColType.WR_DOUBLE, width := 8, fWithDefault := true, fDefaultDbl := 9,
          fMinDblSat := 1, fMaxDblSat := 5, fMinIntSat := 0, fMaxIntSat := 0 }
        (ConvState.start 0)).map (fun r => (r.1, r.2.bufStats.satCount)) = some ([5, 5], 2) ∧
    (parquetConvert nv dc fo [some 200, none] ArrowType.OTHER
        { weType := ColType.WR_SHORT, width := 2, fWithDefault := true, fDefaultInt := 200,
          fMinIntSat := -100, fMaxIntSat := 100 }
        (ConvState.start 0)).map (fun r => (r.1, r.2.bufStats.satCount))
      = some ([100, 100], 2) := by
  refine ⟨rfl, rfl, rfl, rfl⟩


/-! ## Auto-increment values -/

theorem elemConv_counter (nv : NullValues) (arrowType : ArrowType) (column : JobColumn)
    (hauto : column.autoIncFlag = true) (e : Option Int) (st : ConvState) :
    (column.elemConv nv arrowType e st).2.fAutoIncNextValue =
      if e = none then (st.fAutoIncNextValue + 1) % 2 ^ 64 else st.fAutoIncNextValue := by
  cases e with
  | none =>
    simp only [JobColumn.elemConv, genElem, hauto, not_true_eq_false, if_false, if_true]
    rw [(cpUpdate_fields _ _ _).1, (countSat_fields _ _).1]
    rfl
  | some raw =>
    simp only [JobColumn.elemConv, genElem, reduceCtorEq, if_false]
    rw [(cpUpdate_fields _ _ _).1, (countSat_fields _ _).1]

theorem elemConv_auto_value (nv : NullValues) (arrowType : ArrowType) (column : JobColumn)
    (hauto : column.autoIncFlag = true) (st : ConvState) :
    (column.elemConv nv arrowType none st).1 =
      column.narrow (column.satTest (column.autoValue st.fAutoIncNextValue)).1 := by
  simp only [JobColumn.elemConv, genElem, hauto, not_true_eq_false, if_false]

theorem autoValue_of_lt (column : JobColumn) (n : Nat) (h : n < 2 ^ 63) :
    column.autoValue n = n := by
  have e63 : (2 : Nat) ^ 63 = 9223372036854775808 := by norm_num
  rw [e63] at h
  have hw : wrapSigned 64 (n : Int) = n :=
    wrapSigned_of_mem 64 (by norm_num) _ (by norm_num; omega) (by norm_num; omega)
  cases hw2 : column.weType <;> simp only [JobColumn.autoValue, hw2] <;> rw [hw]

theorem convertLoop_counter (nv : NullValues) (arrowType : ArrowType) (column : JobColumn)
    (hauto : column.autoIncFlag = true) (chunk : List (Option Int)) : ∀ st : ConvState,
    st.fAutoIncNextValue + chunk.count none ≤ 2 ^ 63 →
    (convertLoop (column.elemConv nv arrowType) chunk st).2.fAutoIncNextValue =
      st.fAutoIncNextValue + chunk.count none := by
  have e63 : (2 : Nat) ^ 63 = 9223372036854775808 := by norm_num
  have e64 : (2 : Nat) ^ 64 = 18446744073709551616 := by norm_num
  rw [e63]
  induction chunk with
  | nil => intro st _; rfl
  | cons e es ih =>
    intro st hb
    simp only [convertLoop]
    have hc := elemConv_counter nv arrowType column hauto e st
    cases e with
    | none =>
      simp only [if_true] at hc
      simp only [List.count_cons_self] at hb ⊢
      rw [e64, Nat.mod_eq_of_lt (by omega)] at hc
      rw [ih _ (by rw [hc]; omega), hc]
      omega
    | some raw =>
      simp only [reduceCtorEq, if_false] at hc
      have hn : List.count none (some raw :: es) = List.count none es := by
        simp [List.count_cons]
      rw [hn] at hb ⊢
      rw [ih _ (by rw [hc]; exact hb), hc]


set_option maxRecDepth 100000 in
/-- C14 (counterexample): the counter is a `uint64_t` and wraps, and the calendar
branches do not read `autoIncFlag`.  On a `WR_LONGLONG` column a null element at
counter 2^64 - 1 leaves the counter at 0; on a `DATE` column (weType `WR_INT`)
a null element is copied out as the null marker and the counter stays. -/
theorem parquetConvert_autoInc_counterexample :
    (¬ ∀ (nv : NullValues) (dc : DataConvert) (fo : FloatOps) (column : JobColumn)
        (arrowType : ArrowType) (chunk : List (Option Int)) (st : ConvState),
        column.isIntegerBranch → column.autoIncFlag = true →
        st.fAutoIncNextValue < 18446744073709551616 →
        ∃ out st2, parquetConvert nv dc fo chunk arrowType column st = some (out, st2) ∧
          st2.fAutoIncNextValue = st.fAutoIncNextValue + chunk.count none) ∧
    (¬ ∀ (nv : NullValues) (dc : DataConvert) (fo : FloatOps) (column : JobColumn)
        (arrowType : ArrowType) (chunk : List (Option Int)) (st : ConvState),
        (column.weType = ColType.WR_BYTE ∨ column.weType = ColType.WR_UBYTE ∨
          column.weType = ColType.WR_SHORT ∨ column.weType = ColType.WR_USHORT ∨
          column.weType = ColType.WR_INT ∨ column.weType = ColType.WR_UINT ∨
          column.weType = ColType.WR_LONGLONG ∨ column.weType = ColType.WR_ULONGLONG ∨
          column.weType = ColType.WR_BINARY) → column.autoIncFlag = true →
        st.fAutoIncNextValue + chunk.count none ≤ 9223372036854775808 →
        ∃ out st2, parquetConvert nv dc fo chunk arrowType column st = some (out, st2) ∧
          st2.fAutoIncNextValue = st.fAutoIncNextValue + chunk.count none) := by
  constructor
  · intro h
    obtain ⟨out, st2, h1, h2⟩ := h sampleNulls sampleConvert sampleFloatOps
      { weType := ColType.WR_LONGLONG, width := 8, autoIncFlag := true,
        fMinIntSat := -100, fMaxIntSat := 100 }
      ArrowType.OTHER [none] (ConvState.start 18446744073709551615) (by decide) rfl (by decide)
    have e1 : (parquetConvert sampleNulls sampleConvert sampleFloatOps [none] ArrowType.OTHER
        { weType := ColType.WR_LONGLONG, width := 8, autoIncFlag := true,
          fMinIntSat := -100, fMaxIntSat := 100 }
        (ConvState.start 18446744073709551615)).map (fun r => r.2.fAutoIncNextValue)
        = some 0 := rfl
    rw [h1] at e1
    simp only [Option.map_some', Option.some.injEq] at e1
    rw [e1] at h2
    exact absurd h2 (by decide)
  · intro h
    obtain ⟨out, st2, h1, h2⟩ := h sampleNulls sampleConvert sampleFloatOps
      { weType := ColType.WR_INT, dataType := ColDataType.DATE, width := 4,
        autoIncFlag := true, fMinIntSat := -100, fMaxIntSat := 100 }
      ArrowType.OTHER [none] (ConvState.start 7) (by decide) rfl (by decide)
    have e1 : (parquetConvert sampleNulls sampleConvert sampleFloatOps [none] ArrowType.OTHER
        { weType := ColType.WR_INT, dataType := ColDataType.DATE, width := 4,
          autoIncFlag := true, fMinIntSat := -100, fMaxIntSat := 100 }
        (ConvState.start 7)).map (fun r => r.2.fAutoIncNextValue) = some 7 := rfl
    rw [h1] at e1
    simp only [Option.map_some', Option.some.injEq] at e1
    rw [e1] at h2
    exact absurd h2 (by decide)

/-- C14 (amended): for an integer column (no calendar data type) with
`autoIncFlag` set and a counter that stays below 2^63 over the chunk,
`parquetConvert` returns, leaves the counter at `start` plus the number of null
elements, and copies out for the `j`-th null element (`j` nulls stand before
it) the value `start + j` passed through the saturation test and the conversion
to the typed temporary of the branch, whether or not a default is set. -/
theorem parquetConvert_autoInc (nv : NullValues) (dc : DataConvert) (fo : FloatOps)
    (column : JobColumn) (arrowType : ArrowType) (chunk : List (Option Int)) (st : ConvState)
    (hint : column.isIntegerBranch) (hauto : column.autoIncFlag = true)
    (hbound : st.fAutoIncNextValue + chunk.count none ≤ 2 ^ 63) :
    ∃ out st2, parquetConvert nv dc fo chunk arrowType column st = some (out, st2) ∧
      st2.fAutoIncNextValue = st.fAutoIncNextValue + chunk.count none ∧
      ∀ i : Nat, chunk[i]? = some none →
        out[i]? = some (column.narrow (column.satTest
          ((st.fAutoIncNextValue + (chunk.take i).count none : Nat) : Int)).1) := by
  have hb := branch_integer nv dc fo arrowType column hint
  refine ⟨_, _, parquetConvert_branch nv dc fo chunk arrowType column st _ hb,
    convertLoop_counter nv arrowType column hauto chunk st hbound, fun i hi => ?_⟩
  have hlt : i < chunk.length := by
    by_contra hcon
    rw [List.getElem?_eq_none (by omega)] at hi
    cases hi
  have hsplit : chunk = chunk.take i ++ none :: chunk.drop (i + 1) := by
    have h1 : chunk.drop i = none :: chunk.drop (i + 1) := by
      rw [List.drop_eq_getElem_cons hlt]
      congr 1
      rw [List.getElem?_eq_getElem hlt] at hi
      exact Option.some.inj hi
    rw [← h1, List.take_append_drop]
  have hcount : (chunk.take i).count none + 1 ≤ chunk.count none := by
    conv_rhs => rw [hsplit]
    rw [List.count_append, List.count_cons_self]
    omega
  have hpre := convertLoop_counter nv arrowType column hauto (chunk.take i) st (by omega)
  rw [convertLoop_getElem _ chunk st i none hi, elemConv_auto_value nv arrowType column hauto,
    hpre, autoValue_of_lt column _ (by omega)]

set_option maxRecDepth 100000 in
theorem parquetConvert_autoInc_witness :
    (parquetConvert sampleNulls sampleConvert sampleFloatOps [none, some 3, none]
        ArrowType.OTHER
        { weType := ColType.WR_SHORT, width := 2, autoIncFlag := true, fWithDefault := true,
          fMinIntSat := -100, fMaxIntSat := 100 }
        (ConvState.start 99)).map (fun r => (r.1[2]?, r.2.fAutoIncNextValue))
      = some (some 100, 101) := by
  obtain ⟨out, st2, h1, h2, h3⟩ := parquetConvert_autoInc sampleNulls sampleConvert
    sampleFloatOps
    { weType := ColType.WR_SHORT, width := 2, autoIncFlag := true, fWithDefault := true,
      fMinIntSat := -100, fMaxIntSat := 100 }
    ArrowType.OTHER [none, some 3, none] (ConvState.start 99) (by decide) rfl (by decide)
  rw [h1, Option.map_some', h3 2 rfl, h2]
  rfl

/-! ## The min/max accumulator -/

theorem foldl_min_spec (l : List Int) : ∀ a : Int,
    l.foldl min a ≤ a ∧ (∀ v ∈ l, l.foldl min a ≤ v) ∧ (l.foldl min a = a ∨ l.foldl min a ∈ l) := by
  induction l with
  | nil => intro a; simp
  | cons x xs ih =>
    intro a
    obtain ⟨h1, h2, h3⟩ := ih (min a x)
    simp only [List.foldl_cons, List.mem_cons, forall_eq_or_imp]
    refine ⟨le_trans h1 (min_le_left _ _), ⟨le_trans h1 (min_le_right _ _), h2⟩, ?_⟩
    rcases h3 with h | h
    · rw [h]
      rcases min_choice a x with hc | hc
      · exact Or.inl hc
      · exact Or.inr (Or.inl hc)
    · exact Or.inr (Or.inr h)

theorem foldl_max_spec (l : List Int) : ∀ a : Int,
    a ≤ l.foldl max a ∧ (∀ v ∈ l, v ≤ l.foldl max a) ∧ (l.foldl max a = a ∨ l.foldl max a ∈ l) := by
  induction l with
  | nil => intro a; simp
  | cons x xs ih =>
    intro a
    obtain ⟨h1, h2, h3⟩ := ih (max a x)
    simp only [List.foldl_cons, List.mem_cons, forall_eq_or_imp]
    refine ⟨le_trans (le_max_left _ _) h1, ⟨le_trans (le_max_right _ _) h1, h2⟩, ?_⟩
    rcases h3 with h | h
    · rw [h]
      rcases max_choice a x with hc | hc
      · exact Or.inl hc
      · exact Or.inr (Or.inl hc)
    · exact Or.inr (Or.inr h)

theorem foldl_min_mem (l : List Int) (a : Int) (hne : l ≠ []) (ha : ∀ v ∈ l, v ≤ a) :
    l.foldl min a ∈ l ∧ ∀ v ∈ l, l.foldl min a ≤ v := by
  obtain ⟨-, h2, h3⟩ := foldl_min_spec l a
  refine ⟨?_, h2⟩
  rcases h3 with h | h
  · obtain ⟨x, hx⟩ := List.exists_mem_of_ne_nil l hne
    have : x = a := le_antisymm (ha x hx) (h ▸ h2 x hx)
    rw [h, ← this]
    exact hx
  · exact h

theorem foldl_max_mem (l : List Int) (a : Int) (hne : l ≠ []) (ha : ∀ v ∈ l, a ≤ v) :
    l.foldl max a ∈ l ∧ ∀ v ∈ l, v ≤ l.foldl max a := by
  obtain ⟨-, h2, h3⟩ := foldl_max_spec l a
  refine ⟨?_, h2⟩
  rcases h3 with h | h
  · obtain ⟨x, hx⟩ := List.exists_mem_of_ne_nil l hne
    have : x = a := le_antisymm (h ▸ h2 x hx) (ha x hx)
    rw [h, ← this]
    exact hx
  · exact h


theorem countSat_minmax (st : ConvState) (b : Bool) :
    (st.countSat b).bufStats.minBufferVal = st.bufStats.minBufferVal ∧
      (st.countSat b).bufStats.maxBufferVal = st.bufStats.maxBufferVal := by
  unfold ConvState.countSat
  cases b <;> simp

theorem updateMinMax_minmax (st : ConvState) (v : Int) :
    (st.updateMinMax v).bufStats.minBufferVal = min st.bufStats.minBufferVal v ∧
      (st.updateMinMax v).bufStats.maxBufferVal = max st.bufStats.maxBufferVal v := by
  unfold ConvState.updateMinMax
  simp only
  constructor
  · by_cases h1 : v < st.bufStats.minBufferVal
    · rw [if_pos h1, min_eq_right (le_of_lt h1)]
      split_ifs <;> rfl
    · rw [if_neg h1, min_eq_left (by omega)]
      split_ifs <;> rfl
  · by_cases h1 : v < st.bufStats.minBufferVal
    · rw [if_pos h1]
      simp only
      by_cases h2 : v > st.bufStats.maxBufferVal
      · rw [if_pos h2, max_eq_right (le_of_lt h2)]
      · rw [if_neg h2, max_eq_left (by omega)]
    · rw [if_neg h1]
      by_cases h2 : v > st.bufStats.maxBufferVal
      · rw [if_pos h2, max_eq_right (le_of_lt h2)]
      · rw [if_neg h2, max_eq_left (by omega)]

theorem updateMinMaxUnsigned_key (st : ConvState) (v : Int) (h1 : 0 ≤ v) (h2 : v < 2 ^ 64) :
    wrapUnsigned 64 (st.updateMinMaxUnsigned v).bufStats.minBufferVal =
        min (wrapUnsigned 64 st.bufStats.minBufferVal) v ∧
      wrapUnsigned 64 (st.updateMinMaxUnsigned v).bufStats.maxBufferVal =
        max (wrapUnsigned 64 st.bufStats.maxBufferVal) v := by
  have hv : wrapUnsigned 64 v = v := wrapUnsigned_of_mem 64 v h1 h2
  unfold ConvState.updateMinMaxUnsigned
  simp only [hv]
  constructor
  · by_cases c1 : v < wrapUnsigned 64 st.bufStats.minBufferVal
    · rw [if_pos c1, min_eq_right (le_of_lt c1)]
      split_ifs <;> exact hv
    · rw [if_neg c1, min_eq_left (by omega)]
      split_ifs <;> rfl
  · by_cases c1 : v < wrapUnsigned 64 st.bufStats.minBufferVal
    · rw [if_pos c1]
      simp only
      by_cases c2 : v > wrapUnsigned 64 st.bufStats.maxBufferVal
      · rw [if_pos c2, max_eq_right (le_of_lt c2)]
        exact hv
      · rw [if_neg c2, max_eq_left (by omega)]
    · rw [if_neg c1]
      by_cases c2 : v > wrapUnsigned 64 st.bufStats.maxBufferVal
      · rw [if_pos c2, max_eq_right (le_of_lt c2)]
        exact hv
      · rw [if_neg c2, max_eq_left (by omega)]

theorem wrapUnsigned_wrapSigned (v : Int) (h1 : 0 ≤ v) (h2 : v < 2 ^ 64) :
    wrapUnsigned 64 (wrapSigned 64 v) = v := by
  unfold wrapUnsigned wrapSigned
  norm_num at h2 ⊢
  omega

theorem updateMinMaxULL_key (st : ConvState) (v : Int) (h1 : 0 ≤ v) (h2 : v < 2 ^ 64) :
    wrapUnsigned 64 (st.updateMinMaxULL v).bufStats.minBufferVal =
        min (wrapUnsigned 64 st.bufStats.minBufferVal) v ∧
      wrapUnsigned 64 (st.updateMinMaxULL v).bufStats.maxBufferVal =
        max (wrapUnsigned 64 st.bufStats.maxBufferVal) v := by
  have hv : wrapUnsigned 64 (wrapSigned 64 v) = v := wrapUnsigned_wrapSigned v h1 h2
  unfold ConvState.updateMinMaxULL
  simp only
  constructor
  · by_cases c1 : v < wrapUnsigned 64 st.bufStats.minBufferVal
    · rw [if_pos c1, min_eq_right (le_of_lt c1)]
      split_ifs <;> exact hv
    · rw [if_neg c1, min_eq_left (by omega)]
      split_ifs <;> rfl
  · by_cases c1 : v < wrapUnsigned 64 st.bufStats.minBufferVal
    · rw [if_pos c1]
      simp only
      by_cases c2 : v > wrapUnsigned 64 st.bufStats.maxBufferVal
      · rw [if_pos c2, max_eq_right (le_of_lt c2)]
        exact hv
      · rw [if_neg c2, max_eq_left (by omega)]
    · rw [if_neg c1]
      by_cases c2 : v > wrapUnsigned 64 st.bufStats.maxBufferVal
      · rw [if_pos c2, max_eq_right (le_of_lt c2)]
        exact hv
      · rw [if_neg c2, max_eq_left (by omega)]

/-- The value that the saturation test lets through lies between the smaller and
the larger limit, whatever their order. -/
theorem saturate_range (column : JobColumn) (hmax : (column.fMaxIntSat : Int) < 2 ^ 63)
    (v : Int) :
    min column.fMinIntSat (column.fMaxIntSat : Int) ≤ (saturate column v).1 ∧
      (saturate column v).1 ≤ max column.fMinIntSat (column.fMaxIntSat : Int) := by
  have hw : wrapSigned 64 (column.fMaxIntSat : Int) = column.fMaxIntSat :=
    wrapSigned_of_mem 64 (by norm_num) _ (by
      have : (0 : Int) ≤ column.fMaxIntSat := Int.natCast_nonneg _
      norm_num; omega) (by norm_num; omega)
  unfold saturate
  rw [hw]
  split_ifs <;> simp only [le_max_iff, min_le_iff] <;> omega

theorem saturateByte_range (column : JobColumn) (hmax : (column.fMaxIntSat : Int) < 2 ^ 63)
    (v : Int) :
    min column.fMinIntSat (column.fMaxIntSat : Int) ≤ (saturateByte column v).1 ∧
      (saturateByte column v).1 ≤ max column.fMinIntSat (column.fMaxIntSat : Int) := by
  have hw : wrapSigned 64 (column.fMaxIntSat : Int) = column.fMaxIntSat :=
    wrapSigned_of_mem 64 (by norm_num) _ (by
      have : (0 : Int) ≤ column.fMaxIntSat := Int.natCast_nonneg _
      norm_num; omega) (by norm_num; omega)
  unfold saturateByte
  rw [hw]
  split_ifs <;> simp only [le_max_iff, min_le_iff] <;> omega

theorem countSat_bufStats (st : ConvState) (b : Bool) :
    (st.countSat b).bufStats.bigMinBufferVal = st.bufStats.bigMinBufferVal ∧
      (st.countSat b).bufStats.bigMaxBufferVal = st.bufStats.bigMaxBufferVal := by
  unfold ConvState.countSat
  cases b <;> simp

theorem updateMinMaxWide_minmax (st : ConvState) (v : Int) :
    (st.updateMinMaxWide v).bufStats.bigMinBufferVal = min st.bufStats.bigMinBufferVal v ∧
      (st.updateMinMaxWide v).bufStats.bigMaxBufferVal = max st.bufStats.bigMaxBufferVal v := by
  obtain ⟨⟨mn, mx, bmn, bmx, sc⟩, a⟩ := st
  simp only [ConvState.updateMinMaxWide]
  by_cases h1 : v < bmn
  · rw [if_pos h1]
    by_cases h2 : v > bmx
    · simp only [h2, if_true, min_eq_right (le_of_lt h1), max_eq_right (le_of_lt h2), and_self]
    · simp only [h2, if_false, min_eq_right (le_of_lt h1), max_eq_left (not_lt.mp h2), and_self]
  · rw [if_neg h1]
    by_cases h2 : v > bmx
    · simp only [h2, if_true, min_eq_left (not_lt.mp h1), max_eq_right (le_of_lt h2), and_self]
    · simp only [h2, if_false, min_eq_left (not_lt.mp h1), max_eq_left (not_lt.mp h2), and_self]

/-- The element conversions built by `genElem` meet `CpAccSpec` when the part
after the read does. -/
theorem genElem_acc (column : JobColumn) (C : Prop) (sat : Int → Int × Bool)
    (wrap : Int → Int) (upd : ConvState → Int → ConvState) (rd : Int → Int)
    (dflt nullMark : Int) (auto : Nat → Int) (vOK : Int → Prop)
    (hctr : ∀ s v, (upd s v).fAutoIncNextValue = s.fAutoIncNextValue)
    (hgo : ∀ (v : Int) (s : ConvState), vOK v →
      column.cpLow ≤ wrap (sat v).1 ∧ wrap (sat v).1 ≤ column.cpHigh ∧
      column.cpMin (upd (s.countSat (sat v).2) (sat v).1).bufStats =
        min (column.cpMin s.bufStats) (wrap (sat v).1) ∧
      column.cpMax (upd (s.countSat (sat v).2) (sat v).1).bufStats =
        max (column.cpMax s.bufStats) (wrap (sat v).1))
    (hrd : ∀ raw, vOK (rd raw)) (hd : vOK dflt)
    (ha : ∀ n : Nat, (C → n < 2 ^ 64) → vOK (auto n)) :
    CpAccSpec column C (genElem column sat wrap upd rd dflt nullMark auto) := by
  intro e st hst
  have hkeep : ∀ (s : ConvState) (b : Bool) (x : Int),
      (upd (s.countSat b) x).fAutoIncNextValue = s.fAutoIncNextValue := by
    intro s b x
    rw [hctr, (countSat_fields _ _).1]
  cases e with
  | some raw =>
    refine ⟨fun hc => ?_, fun h => ?_, fun _ => hgo (rd raw) st (hrd raw)⟩
    · simp only [genElem]
      rw [hkeep]
      exact hst hc
    · simp [JobColumn.writesNull] at h
  | none =>
    cases hauto : column.autoIncFlag with
    | true =>
      refine ⟨fun _ => ?_, fun h => ?_, fun _ => ?_⟩
      · simp only [genElem, hauto, not_true_eq_false, if_false]
        rw [hkeep]
        simp only [ConvState.nextAutoInc]
        exact Nat.mod_lt _ (by norm_num)
      · simp [JobColumn.writesNull, hauto] at h
      · simp only [genElem, hauto, not_true_eq_false, if_false]
        exact hgo (auto st.fAutoIncNextValue) st.nextAutoInc.2 (ha _ hst)
    | false =>
      cases hdef : column.fWithDefault with
      | true =>
        refine ⟨fun hc => ?_, fun h => ?_, fun _ => ?_⟩
        · simp only [genElem, hauto, hdef, Bool.false_eq_true, not_false_eq_true, if_true]
          rw [hkeep]
          exact hst hc
        · simp [JobColumn.writesNull, hauto, hdef] at h
        · simp only [genElem, hauto, hdef, Bool.false_eq_true, not_false_eq_true, if_true]
          exact hgo dflt st hd
      | false =>
        refine ⟨fun hc => ?_, fun _ => ?_, fun h => ?_⟩
        · simp only [genElem, hauto, hdef, Bool.false_eq_true, not_false_eq_true, if_true,
            if_false]
          exact hst hc
        · simp only [genElem, hauto, hdef, Bool.false_eq_true, not_false_eq_true, if_true,
            if_false]
        · simp [JobColumn.writesNull, hauto, hdef] at h

/-- The part after the read, for a signed branch with the narrow accumulator. -/
theorem hgo_signed_fit (column : JobColumn) (sat : Int → Int × Bool) (wrap : Int → Int)
    (hk : column.isUnsignedBranch = false) (hnb : column.weType ≠ ColType.WR_BINARY)
    (hnu : column.weType ≠ ColType.WR_ULONGLONG)
    (hsat : ∀ v, min column.fMinIntSat (column.fMaxIntSat : Int) ≤ (sat v).1 ∧
      (sat v).1 ≤ max column.fMinIntSat (column.fMaxIntSat : Int))
    (hw : ∀ x, min column.fMinIntSat (column.fMaxIntSat : Int) ≤ x →
      x ≤ max column.fMinIntSat (column.fMaxIntSat : Int) → wrap x = x)
    (v : Int) (s : ConvState) (_ : True) :
    column.cpLow ≤ wrap (sat v).1 ∧ wrap (sat v).1 ≤ column.cpHigh ∧
      column.cpMin ((s.countSat (sat v).2).updateMinMax (sat v).1).bufStats =
        min (column.cpMin s.bufStats) (wrap (sat v).1) ∧
      column.cpMax ((s.countSat (sat v).2).updateMinMax (sat v).1).bufStats =
        max (column.cpMax s.bufStats) (wrap (sat v).1) := by
  obtain ⟨c1, c2⟩ := hsat v
  rw [hw _ c1 c2]
  simp only [JobColumn.cpLow, JobColumn.cpHigh, JobColumn.cpMin, JobColumn.cpMax, hnb, hnu,
    if_false, JobColumn.cpKey, hk, Bool.false_eq_true]
  rw [(updateMinMax_minmax _ _).1, (updateMinMax_minmax _ _).2, (countSat_minmax _ _).1,
    (countSat_minmax _ _).2]
  exact ⟨c1, c2, rfl, rfl⟩

/-- The part after the read, for an unsigned branch other than `WR_ULONGLONG`. -/
theorem hgo_unsigned_fit (column : JobColumn) (sat : Int → Int × Bool) (wrap : Int → Int)
    (hk : column.isUnsignedBranch = true) (hnb : column.weType ≠ ColType.WR_BINARY)
    (hnu : column.weType ≠ ColType.WR_ULONGLONG)
    (h0 : 0 ≤ column.fMinIntSat)
    (hmax : max column.fMinIntSat (column.fMaxIntSat : Int) < 2 ^ 64)
    (hsat : ∀ v, min column.fMinIntSat (column.fMaxIntSat : Int) ≤ (sat v).1 ∧
      (sat v).1 ≤ max column.fMinIntSat (column.fMaxIntSat : Int))
    (hw : ∀ x, min column.fMinIntSat (column.fMaxIntSat : Int) ≤ x →
      x ≤ max column.fMinIntSat (column.fMaxIntSat : Int) → wrap x = x)
    (v : Int) (s : ConvState) (_ : True) :
    column.cpLow ≤ wrap (sat v).1 ∧ wrap (sat v).1 ≤ column.cpHigh ∧
      column.cpMin ((s.countSat (sat v).2).updateMinMaxUnsigned (sat v).1).bufStats =
        min (column.cpMin s.bufStats) (wrap (sat v).1) ∧
      column.cpMax ((s.countSat (sat v).2).updateMinMaxUnsigned (sat v).1).bufStats =
        max (column.cpMax s.bufStats) (wrap (sat v).1) := by
  obtain ⟨c1, c2⟩ := hsat v
  rw [hw _ c1 c2]
  have hf : (0 : Int) ≤ column.fMaxIntSat := Int.natCast_nonneg _
  have hlo : 0 ≤ (sat v).1 := le_trans (le_min h0 hf) c1
  simp only [JobColumn.cpLow, JobColumn.cpHigh, JobColumn.cpMin, JobColumn.cpMax, hnb, hnu,
    if_false, JobColumn.cpKey, hk, if_true]
  obtain ⟨u1, u2⟩ := updateMinMaxUnsigned_key (s.countSat (sat v).2) (sat v).1 hlo
    (lt_of_le_of_lt c2 hmax)
  rw [u1, u2, (countSat_minmax _ _).1, (countSat_minmax _ _).2]
  exact ⟨c1, c2, rfl, rfl⟩

/-- The part after the read, for `WR_ULONGLONG`. -/
theorem hgo_ull_fit (column : JobColumn) (hw : column.weType = ColType.WR_ULONGLONG)
    (hmax : (column.fMaxIntSat : Int) < 2 ^ 64)
    (v : Int) (s : ConvState) (hv : 0 ≤ v) :
    column.cpLow ≤ id (saturateULongLong column v).1 ∧
      id (saturateULongLong column v).1 ≤ column.cpHigh ∧
      column.cpMin ((s.countSat (saturateULongLong column v).2).updateMinMaxULL
          (saturateULongLong column v).1).bufStats =
        min (column.cpMin s.bufStats) (id (saturateULongLong column v).1) ∧
      column.cpMax ((s.countSat (saturateULongLong column v).2).updateMinMaxULL
          (saturateULongLong column v).1).bufStats =
        max (column.cpMax s.bufStats) (id (saturateULongLong column v).1) := by
  have h0 : (0 : Int) ≤ column.fMaxIntSat := Int.natCast_nonneg _
  have hc : 0 ≤ (saturateULongLong column v).1 ∧
      (saturateULongLong column v).1 ≤ (column.fMaxIntSat : Int) := by
    unfold saturateULongLong
    split_ifs with h
    · exact ⟨h0, le_refl _⟩
    · exact ⟨hv, by simpa using h⟩
  have hk : column.isUnsignedBranch = true := by simp [JobColumn.isUnsignedBranch, hw]
  simp only [JobColumn.cpLow, JobColumn.cpHigh, JobColumn.cpMin, JobColumn.cpMax, hw,
    reduceCtorEq, if_false, if_true, JobColumn.cpKey, hk, id]
  obtain ⟨u1, u2⟩ := updateMinMaxULL_key (s.countSat (saturateULongLong column v).2)
    (saturateULongLong column v).1 hc.1 (by omega)
  rw [u1, u2, (countSat_minmax _ _).1, (countSat_minmax _ _).2]
  exact ⟨hc.1, hc.2, rfl, rfl⟩

/-- The part after the read, for `WR_BINARY`: the value is copied out as it is
and extends the wide accumulator. -/
theorem hgo_wide (column : JobColumn) (hw : column.weType = ColType.WR_BINARY)
    (v : Int) (s : ConvState) (hv : -2 ^ 127 ≤ v ∧ v ≤ 2 ^ 127 - 1) :
    column.cpLow ≤ id ((fun v : Int => (v, false)) v).1 ∧
      id ((fun v : Int => (v, false)) v).1 ≤ column.cpHigh ∧
      column.cpMin ((s.countSat ((fun v : Int => (v, false)) v).2).updateMinMaxWide
          ((fun v : Int => (v, false)) v).1).bufStats =
        min (column.cpMin s.bufStats) (id ((fun v : Int => (v, false)) v).1) ∧
      column.cpMax ((s.countSat ((fun v : Int => (v, false)) v).2).updateMinMaxWide
          ((fun v : Int => (v, false)) v).1).bufStats =
        max (column.cpMax s.bufStats) (id ((fun v : Int => (v, false)) v).1) := by
  simp only [JobColumn.cpLow, JobColumn.cpHigh, JobColumn.cpMin, JobColumn.cpMax, hw, if_true, id]
  rw [(updateMinMaxWide_minmax _ _).1, (updateMinMaxWide_minmax _ _).2,
    (countSat_bufStats _ _).1, (countSat_bufStats _ _).2]
  exact ⟨hv.1, hv.2, rfl, rfl⟩

/-- Every integer branch whose limits fit its typed temporary meets
`CpAccSpec`. -/
theorem elemConv_acc (nv : NullValues) (arrowType : ArrowType) (column : JobColumn)
    (hint : column.isIntegerBranch) (hfit : column.LimitsFit)
    (hdef : column.weType = ColType.WR_BINARY →
      -2 ^ 127 ≤ column.fDefaultWideDecimal ∧ column.fDefaultWideDecimal ≤ 2 ^ 127 - 1) :
    CpAccSpec column (column.weType = ColType.WR_BINARY) (column.elemConv nv arrowType) := by
  have hctr : ∀ s v, (column.cpUpdate s v).fAutoIncNextValue = s.fAutoIncNextValue :=
    fun s v => (cpUpdate_fields column s v).1
  unfold JobColumn.isIntegerBranch at hint
  unfold JobColumn.LimitsFit at hfit
  unfold JobColumn.elemConv
  rcases hint with h | h | h | h | h | h | h | h | ⟨h | h, -⟩ | ⟨h, -⟩
  · -- WR_BYTE
    simp only [h, reduceCtorEq, if_false, ColType.range] at hfit
    have hk : column.isUnsignedBranch = false := by simp [JobColumn.isUnsignedBranch, h]
    have hg := hgo_signed_fit column (saturateByte column) (wrapSigned 8) hk (by simp [h])
      (by simp [h]) (saturateByte_range column (by omega))
      (fun x h1 h2 => wrapSigned_of_mem 8 (by norm_num) x
        (by norm_num; have := min_le_iff.1 h1; omega)
        (by norm_num; have := le_max_iff.1 h2; omega))
    refine genElem_acc column _ _ _ _ _ _ _ _ (fun _ => True) hctr ?_ (fun _ => trivial) trivial
      (fun _ _ => trivial)
    simpa only [JobColumn.satTest, JobColumn.narrow, JobColumn.cpUpdate, h] using hg
  · -- WR_UBYTE
    simp only [h, reduceCtorEq, if_false, ColType.range] at hfit
    have hk : column.isUnsignedBranch = true := by simp [JobColumn.isUnsignedBranch, h]
    have hf : (0 : Int) ≤ column.fMaxIntSat := Int.natCast_nonneg _
    have hg := hgo_unsigned_fit column (saturate column) (wrapUnsigned 8) hk (by simp [h])
      (by simp [h]) hfit.1 (by rw [max_lt_iff]; omega) (saturate_range column (by omega))
      (fun x h1 h2 => wrapUnsigned_of_mem 8 x
        (by have := min_le_iff.1 h1; omega)
        (by norm_num; have := le_max_iff.1 h2; omega))
    refine genElem_acc column _ _ _ _ _ _ _ _ (fun _ => True) hctr ?_ (fun _ => trivial) trivial
      (fun _ _ => trivial)
    simpa only [JobColumn.satTest, JobColumn.narrow, JobColumn.cpUpdate, h] using hg
  · -- WR_SHORT
    simp only [h, reduceCtorEq, if_false, ColType.range] at hfit
    have hk : column.isUnsignedBranch = false := by simp [JobColumn.isUnsignedBranch, h]
    have hg := hgo_signed_fit column (saturate column) (wrapSigned 16) hk (by simp [h])
      (by simp [h]) (saturate_range column (by omega))
      (fun x h1 h2 => wrapSigned_of_mem 16 (by norm_num) x
        (by norm_num; have := min_le_iff.1 h1; omega)
        (by norm_num; have := le_max_iff.1 h2; omega))
    refine genElem_acc column _ _ _ _ _ _ _ _ (fun _ => True) hctr ?_ (fun _ => trivial) trivial
      (fun _ _ => trivial)
    simpa only [JobColumn.satTest, JobColumn.narrow, JobColumn.cpUpdate, h] using hg
  · -- WR_USHORT
    simp only [h, reduceCtorEq, if_false, ColType.range] at hfit
    have hk : column.isUnsignedBranch = true := by simp [JobColumn.isUnsignedBranch, h]
    have hf : (0 : Int) ≤ column.fMaxIntSat := Int.natCast_nonneg _
    have hg := hgo_unsigned_fit column (saturate column) (wrapUnsigned 16) hk (by simp [h])
      (by simp [h]) hfit.1 (by rw [max_lt_iff]; omega) (saturate_range column (by omega))
      (fun x h1 h2 => wrapUnsigned_of_mem 16 x
        (by have := min_le_iff.1 h1; omega)
        (by norm_num; have := le_max_iff.1 h2; omega))
    refine genElem_acc column _ _ _ _ _ _ _ _ (fun _ => True) hctr ?_ (fun _ => trivial) trivial
      (fun _ _ => trivial)
    simpa only [JobColumn.satTest, JobColumn.narrow, JobColumn.cpUpdate, h] using hg
  · -- WR_UINT
    simp only [h, reduceCtorEq, if_false, ColType.range] at hfit
    have hk : column.isUnsignedBranch = true := by simp [JobColumn.isUnsignedBranch, h]
    have hf : (0 : Int) ≤ column.fMaxIntSat := Int.natCast_nonneg _
    have hg := hgo_unsigned_fit column (saturate column) (wrapUnsigned 32) hk (by simp [h])
      (by simp [h]) hfit.1 (by rw [max_lt_iff]; omega) (saturate_range column (by omega))
      (fun x h1 h2 => wrapUnsigned_of_mem 32 x
        (by have := min_le_iff.1 h1; omega)
        (by norm_num; have := le_max_iff.1 h2; omega))
    refine genElem_acc column _ _ _ _ _ _ _ _ (fun _ => True) hctr ?_ (fun _ => trivial) trivial
      (fun _ _ => trivial)
    simpa only [JobColumn.satTest, JobColumn.narrow, JobColumn.cpUpdate, h] using hg
  · -- WR_UMEDINT
    simp only [h, reduceCtorEq, if_false, ColType.range] at hfit
    have hk : column.isUnsignedBranch = true := by simp [JobColumn.isUnsignedBranch, h]
    have hf : (0 : Int) ≤ column.fMaxIntSat := Int.natCast_nonneg _
    have hg := hgo_unsigned_fit column (saturate column) (wrapUnsigned 32) hk (by simp [h])
      (by simp [h]) hfit.1 (by rw [max_lt_iff]; omega) (saturate_range column (by omega))
      (fun x h1 h2 => wrapUnsigned_of_mem 32 x
        (by have := min_le_iff.1 h1; omega)
        (by norm_num; have := le_max_iff.1 h2; omega))
    refine genElem_acc column _ _ _ _ _ _ _ _ (fun _ => True) hctr ?_ (fun _ => trivial) trivial
      (fun _ _ => trivial)
    simpa only [JobColumn.satTest, JobColumn.narrow, JobColumn.cpUpdate, h] using hg
  · -- WR_ULONGLONG
    simp only [h, reduceCtorEq, if_false, if_true] at hfit
    refine genElem_acc column _ _ _ _ _ _ _ _ (fun v => 0 ≤ v) hctr ?_ (fun raw => ?_) ?_
      (fun n _ => ?_)
    · simpa only [JobColumn.satTest, JobColumn.narrow, JobColumn.cpUpdate, h] using
        hgo_ull_fit column h (by omega)
    · simp only [JobColumn.readElem, h]
      exact (wrapUnsigned_mem 64 raw).1
    · simp only [JobColumn.defaultValue, h]
      exact Int.natCast_nonneg _
    · simp only [JobColumn.autoValue, h]
      exact Int.natCast_nonneg _
  · -- WR_BINARY
    refine genElem_acc column _ _ _ _ _ _ _ _ (fun v => -2 ^ 127 ≤ v ∧ v ≤ 2 ^ 127 - 1) hctr ?_
      (fun raw => ?_) ?_ (fun n hn => ?_)
    · simpa only [JobColumn.satTest, JobColumn.narrow, JobColumn.cpUpdate, h] using
        hgo_wide column h
    · simp only [JobColumn.readElem, h]
      have := wrapSigned_mem 128 (by norm_num) raw
      norm_num at this ⊢
      omega
    · simp only [JobColumn.defaultValue, h]
      exact hdef h
    · simp only [JobColumn.autoValue, h]
      have := hn h
      have h2 : (n : Int) < 2 ^ 64 := by exact_mod_cast this
      norm_num at h2 ⊢
      omega
  · -- WR_INT
    simp only [h, reduceCtorEq, if_false, ColType.range] at hfit
    have hk : column.isUnsignedBranch = false := by simp [JobColumn.isUnsignedBranch, h]
    have hg := hgo_signed_fit column (saturate column) (wrapSigned 32) hk (by simp [h])
      (by simp [h]) (saturate_range column (by omega))
      (fun x h1 h2 => wrapSigned_of_mem 32 (by norm_num) x
        (by norm_num; have := min_le_iff.1 h1; omega)
        (by norm_num; have := le_max_iff.1 h2; omega))
    refine genElem_acc column _ _ _ _ _ _ _ _ (fun _ => True) hctr ?_ (fun _ => trivial) trivial
      (fun _ _ => trivial)
    simpa only [JobColumn.satTest, JobColumn.narrow, JobColumn.cpUpdate, h] using hg
  · -- WR_MEDINT
    simp only [h, reduceCtorEq, if_false, ColType.range] at hfit
    have hk : column.isUnsignedBranch = false := by simp [JobColumn.isUnsignedBranch, h]
    have hg := hgo_signed_fit column (saturate column) (wrapSigned 32) hk (by simp [h])
      (by simp [h]) (saturate_range column (by omega))
      (fun x h1 h2 => wrapSigned_of_mem 32 (by norm_num) x
        (by norm_num; have := min_le_iff.1 h1; omega)
        (by norm_num; have := le_max_iff.1 h2; omega))
    refine genElem_acc column _ _ _ _ _ _ _ _ (fun _ => True) hctr ?_ (fun _ => trivial) trivial
      (fun _ _ => trivial)
    simpa only [JobColumn.satTest, JobColumn.narrow, JobColumn.cpUpdate, h] using hg
  · -- WR_LONGLONG
    simp only [h, reduceCtorEq, if_false, ColType.range] at hfit
    have hk : column.isUnsignedBranch = false := by simp [JobColumn.isUnsignedBranch, h]
    have hg := hgo_signed_fit column (saturate column) id hk (by simp [h])
      (by simp [h]) (saturate_range column (by omega))
      (fun x _ _ => rfl)
    refine genElem_acc column _ _ _ _ _ _ _ _ (fun _ => True) hctr ?_ (fun _ => trivial) trivial
      (fun _ _ => trivial)
    simpa only [JobColumn.satTest, JobColumn.narrow, JobColumn.cpUpdate, h] using hg

/-- The loop of a branch that meets `CpAccSpec`: the accumulator of the branch
after the loop is the fold of `min` and of `max` over the values copied out for
the elements not written as the null marker; without such an element the state
is the one before the loop; and these values lie between `cpLow` and `cpHigh`. -/
theorem convertLoop_acc (column : JobColumn) (C : Prop)
    (f : Option Int → ConvState → Int × ConvState) (hf : CpAccSpec column C f)
    (chunk : List (Option Int)) : ∀ st : ConvState, (C → st.fAutoIncNextValue < 2 ^ 64) →
    column.cpMin (convertLoop f chunk st).2.bufStats =
      (column.persisted chunk (convertLoop f chunk st).1).foldl min
        (column.cpMin st.bufStats) ∧
    column.cpMax (convertLoop f chunk st).2.bufStats =
      (column.persisted chunk (convertLoop f chunk st).1).foldl max
        (column.cpMax st.bufStats) ∧
    (column.persisted chunk (convertLoop f chunk st).1 = [] → (convertLoop f chunk st).2 = st) ∧
    ∀ v ∈ column.persisted chunk (convertLoop f chunk st).1,
      column.cpLow ≤ v ∧ v ≤ column.cpHigh := by
  induction chunk with
  | nil => intro st _; simp [convertLoop, JobColumn.persisted]
  | cons e es ih =>
    intro st hst
    obtain ⟨hc, hn, hv⟩ := hf e st hst
    obtain ⟨i1, i2, i3, i4⟩ := ih (f e st).2 hc
    simp only [convertLoop, JobColumn.persisted]
    cases hw : column.writesNull e with
    | true =>
      have hs := hn hw
      simp only [if_true]
      rw [hs] at i1 i2 i3 i4 ⊢
      exact ⟨i1, i2, i3, i4⟩
    | false =>
      obtain ⟨v1, v2, v3, v4⟩ := hv hw
      simp only [Bool.false_eq_true, if_false, List.foldl_cons, reduceCtorEq, false_implies,
        List.mem_cons, forall_eq_or_imp, true_and]
      refine ⟨?_, ?_, ⟨v1, v2⟩, i4⟩
      · rw [i1, v3]
      · rw [i2, v4]

set_option maxRecDepth 100000 in
/-- C15 (counterexample): with limits outside the range of the typed temporary
the accumulator holds the clamped value while the value copied out is its
narrowing: `WR_SHORT` with the limits 40000..50000 accumulates 5 as 40000 and
copies it out as -25536, so the minimum of the accumulator is not among the
values copied out. -/
theorem parquetConvert_minmax_counterexample :
    ¬ ∀ (nv : NullValues) (dc : DataConvert) (fo : FloatOps) (column : JobColumn)
        (arrowType : ArrowType) (chunk : List (Option Int)),
        column.isIntegerBranch → column.isUnsignedBranch = false →
        column.fMinIntSat ≤ (column.fMaxIntSat : Int) →
        ∃ out st2, parquetConvert nv dc fo chunk arrowType column (ConvState.start 0)
            = some (out, st2) ∧
          (column.persisted chunk out ≠ [] →
            column.cpMin st2.bufStats ∈ column.persisted chunk out) := by
  intro h
  obtain ⟨out, st2, h1, h2⟩ := h sampleNulls sampleConvert sampleFloatOps
    { weType := ColType.WR_SHORT, width := 2, fMinIntSat := 40000, fMaxIntSat := 50000 }
    ArrowType.OTHER [some 5] (by decide) rfl (by decide)
  have e1 : parquetConvert sampleNulls sampleConvert sampleFloatOps [some 5] ArrowType.OTHER
      { weType := ColType.WR_SHORT, width := 2, fMinIntSat := 40000, fMaxIntSat := 50000 }
      (ConvState.start 0)
      = some ([-25536], ⟨⟨40000, 40000, 0, 0, 1⟩, 0⟩) := rfl
  rw [e1] at h1
  simp only [Option.some.injEq, Prod.mk.injEq] at h1
  obtain ⟨rfl, rfl⟩ := h1
  exact absurd (h2 (by decide)) (by decide)

/-- C15 (amended): for every integer column whose saturation limits, as far as
its branch reads them, lie in the range of the typed temporary (the wide
default of `WR_BINARY` being an `int128_t` and its counter a `uint64_t`),
starting from an identity accumulator, `parquetConvert` returns, and the
minimum and the maximum of the accumulator of the branch (`minBufferVal` and
`maxBufferVal`, read as `uint64_t` for the unsigned branches; `bigMinBufferVal`
and `bigMaxBufferVal` for `WR_BINARY`) are the least and the greatest of the
values copied out for the elements not written as the null marker; when there
is no such element the state is unchanged, so the accumulator is still the
identity. -/
theorem parquetConvert_minmax (nv : NullValues) (dc : DataConvert) (fo : FloatOps)
    (column : JobColumn) (arrowType : ArrowType) (chunk : List (Option Int)) (st : ConvState)
    (hint : column.isIntegerBranch) (hfit : column.LimitsFit)
    (htyp : column.weType = ColType.WR_BINARY →
      (-2 ^ 127 ≤ column.fDefaultWideDecimal ∧ column.fDefaultWideDecimal ≤ 2 ^ 127 - 1) ∧
        st.fAutoIncNextValue < 2 ^ 64)
    (hid : column.IdentityAcc st) :
    ∃ out st2, parquetConvert nv dc fo chunk arrowType column st = some (out, st2) ∧
      (column.persisted chunk out = [] → st2 = st) ∧
      (column.persisted chunk out ≠ [] →
        column.cpMin st2.bufStats ∈ column.persisted chunk out ∧
        column.cpMax st2.bufStats ∈ column.persisted chunk out ∧
        ∀ v ∈ column.persisted chunk out,
          column.cpMin st2.bufStats ≤ v ∧ v ≤ column.cpMax st2.bufStats) := by
  have hb := branch_integer nv dc fo arrowType column hint
  have hspec := elemConv_acc nv arrowType column hint hfit (fun h => (htyp h).1)
  obtain ⟨k1, k2, k3, k4⟩ := convertLoop_acc column _ _ hspec chunk st (fun h => (htyp h).2)
  refine ⟨_, _, parquetConvert_branch nv dc fo chunk arrowType column st _ hb, k3, fun hne => ?_⟩
  obtain ⟨m1, m2⟩ := foldl_min_mem _ _ hne (fun v hv => le_trans (k4 v hv).2 hid.2)
  obtain ⟨n1, n2⟩ := foldl_max_mem _ _ hne (fun v hv => le_trans hid.1 (k4 v hv).1)
  rw [k1, k2]
  exact ⟨m1, n1, fun v hv => ⟨m2 v hv, n2 v hv⟩⟩

set_option maxRecDepth 100000 in
theorem parquetConvert_minmax_witness :
    (∃ out st2, parquetConvert sampleNulls sampleConvert sampleFloatOps
        [some 7, none, some 255, some 2] ArrowType.OTHER
        { weType := ColType.WR_UBYTE, width := 1, fMinIntSat := 0, fMaxIntSat := 253 }
        (ConvState.startUnsigned 0) = some (out, st2) ∧
      wrapUnsigned 64 st2.bufStats.minBufferVal = 2 ∧
      wrapUnsigned 64 st2.bufStats.maxBufferVal = 253) ∧
    (∃ out st2, parquetConvert sampleNulls sampleConvert sampleFloatOps
        [some 7, none, some (-4), some 2] ArrowType.OTHER
        { weType := ColType.WR_BINARY, width := 16, fMinIntSat := 0, fMaxIntSat := 0 }
        ⟨⟨0, 0, 2 ^ 127 - 1, -2 ^ 127, 0⟩, 0⟩ = some (out, st2) ∧
      st2.bufStats.bigMinBufferVal = -4 ∧ st2.bufStats.bigMaxBufferVal = 7) := by
  constructor
  · obtain ⟨out, st2, h1, -, h3⟩ := parquetConvert_minmax sampleNulls sampleConvert
      sampleFloatOps
      { weType := ColType.WR_UBYTE, width := 1, fMinIntSat := 0, fMaxIntSat := 253 }
      ArrowType.OTHER [some 7, none, some 255, some 2] (ConvState.startUnsigned 0)
      (by decide) (by decide) (by decide) (by decide)
    have e1 : (parquetConvert sampleNulls sampleConvert sampleFloatOps
        [some 7, none, some 255, some 2] ArrowType.OTHER
        { weType := ColType.WR_UBYTE, width := 1, fMinIntSat := 0, fMaxIntSat := 253 }
        (ConvState.startUnsigned 0)).map
          (fun r => (r.2.bufStats.minBufferVal, r.2.bufStats.maxBufferVal))
        = some (2, 253) := rfl
    rw [h1] at e1
    simp only [Option.map_some', Option.some.injEq, Prod.mk.injEq] at e1
    refine ⟨out, st2, h1, ?_, ?_⟩
    · rw [e1.1]; rfl
    · rw [e1.2]; rfl
  · obtain ⟨out, st2, h1, -, h3⟩ := parquetConvert_minmax sampleNulls sampleConvert
      sampleFloatOps
      { weType := ColType.WR_BINARY, width := 16, fMinIntSat := 0, fMaxIntSat := 0 }
      ArrowType.OTHER [some 7, none, some (-4), some 2] ⟨⟨0, 0, 2 ^ 127 - 1, -2 ^ 127, 0⟩, 0⟩
      (by decide) (by decide) (by decide) (by decide)
    have e1 : (parquetConvert sampleNulls sampleConvert sampleFloatOps
        [some 7, none, some (-4), some 2] ArrowType.OTHER
        { weType := ColType.WR_BINARY, width := 16, fMinIntSat := 0, fMaxIntSat := 0 }
        ⟨⟨0, 0, 2 ^ 127 - 1, -2 ^ 127, 0⟩, 0⟩).map
          (fun r => (r.2.bufStats.bigMinBufferVal, r.2.bufStats.bigMaxBufferVal))
        = some (-4, 7) := by decide
    rw [h1] at e1
    simp only [Option.map_some', Option.some.injEq, Prod.mk.injEq] at e1
    exact ⟨out, st2, h1, e1.1, e1.2⟩

/-! ## The branch `WR_CHAR` -/

theorem convertChar_isSome (co : CharOps) (column : JobColumn) (e : Option (List Nat))
    (st : ConvState) (h : column.fWithDefault = true ∨ column.width ≤ 8 ∨ e ≠ none) :
    ∃ r, convertChar co column e st = some r := by
  unfold convertChar
  cases e with
  | some data => simp only; split_ifs <;> exact ⟨_, rfl⟩
  | none =>
    simp only
    split_ifs with h1 h2 h3
    · exact ⟨_, rfl⟩
    · exact ⟨_, rfl⟩
    · exact ⟨_, rfl⟩
    · rcases h with h | h | h
      · exact absurd h h1
      · exact absurd h h3
      · exact absurd rfl h

theorem convertCharLoop_total (co : CharOps) (column : JobColumn)
    (h : column.fWithDefault = true ∨ column.width ≤ 8)
    (chunk : List (Option (List Nat))) : ∀ st : ConvState,
    ∃ r, convertCharLoop co column chunk st = some r ∧ r.1.length = chunk.length := by
  induction chunk with
  | nil => intro st; exact ⟨_, rfl, rfl⟩
  | cons e es ih =>
    intro st
    obtain ⟨r, hr⟩ := convertChar_isSome co column e st
      (h.elim Or.inl (fun x => Or.inr (Or.inl x)))
    obtain ⟨rest, hrest, hlen⟩ := ih r.2
    refine ⟨(r.1 :: rest.1, rest.2), ?_, by simp [hlen]⟩
    simp only [convertCharLoop, hr, hrest]

theorem convertCharLoop_getElem (co : CharOps) (column : JobColumn)
    (chunk : List (Option (List Nat))) : ∀ (st : ConvState) (out : List (List Nat))
    (st2 : ConvState) (i : Nat) (e : Option (List Nat)),
    convertCharLoop co column chunk st = some (out, st2) → chunk[i]? = some e →
    ∃ pre sA r, convertCharLoop co column (chunk.take i) st = some (pre, sA) ∧
      convertChar co column e sA = some r ∧ out[i]? = some r.1 ∧
      convertCharLoop co column (chunk.take (i + 1)) st = some (pre ++ [r.1], r.2) := by
  induction chunk with
  | nil => intro st out st2 i e _ h; simp at h
  | cons x xs ih =>
    intro st out st2 i e hrun hi
    simp only [convertCharLoop] at hrun
    cases hx : convertChar co column x st with
    | none => rw [hx] at hrun; cases hrun
    | some r =>
      rw [hx] at hrun
      simp only at hrun
      cases hrest : convertCharLoop co column xs r.2 with
      | none => rw [hrest] at hrun; cases hrun
      | some rest =>
        rw [hrest] at hrun
        simp only [Option.some.injEq, Prod.mk.injEq] at hrun
        obtain ⟨rfl, rfl⟩ := hrun
        cases i with
        | zero =>
          simp only [List.getElem?_cons_zero, Option.some.injEq] at hi
          subst hi
          refine ⟨[], st, r, rfl, hx, by simp, ?_⟩
          simp [convertCharLoop, hx]
        | succ k =>
          simp only [List.getElem?_cons_succ] at hi
          obtain ⟨pre, sA, r2, p1, p2, p3, p4⟩ := ih r.2 rest.1 rest.2 k e
            (by rw [hrest]) hi
          refine ⟨r.1 :: pre, sA, r2, ?_, p2, ?_, ?_⟩
          · simp only [List.take_succ_cons, convertCharLoop, hx, p1]
          · simpa using p3
          · simp only [List.take_succ_cons, convertCharLoop, hx, p4, List.cons_append]

theorem convertChar_null (co : CharOps) (column : JobColumn) (st : ConvState)
    (h1 : 1 ≤ column.width) (h8 : column.width ≤ 8) (hdef : column.fWithDefault = false) :
    convertChar co column none st =
      some (List.replicate (column.width - 1) 255 ++ [254], st) := by
  simp only [convertChar, hdef, Bool.false_eq_true, if_false, h8, if_true, Option.some.injEq,
    Prod.mk.injEq, and_true]
  apply List.take_of_length_le
  simp only [List.length_append, List.length_replicate, List.length_singleton]
  omega

/-- C16: for a `WR_CHAR` column of width `w`, `1 ≤ w ≤ 8`, without default,
`parquetConvert` returns, and every null element is copied out as `w - 1` bytes
`0xFF` followed by one byte `0xFE`; the state after the element (`satCount`,
the min/max accumulator) is the state before it. -/
theorem parquetConvertChar_null (co : CharOps) (column : JobColumn)
    (chunk : List (Option (List Nat))) (st : ConvState)
    (hw : column.weType = ColType.WR_CHAR) (h1 : 1 ≤ column.width) (h8 : column.width ≤ 8)
    (hdef : column.fWithDefault = false) :
    ∃ out st2, parquetConvertChar co chunk column st = some (out, st2) ∧
      out.length = chunk.length ∧
      ∀ i : Nat, chunk[i]? = some none →
        out[i]? = some (List.replicate (column.width - 1) 0xFF ++ [0xFE]) ∧
        (parquetConvertChar co (chunk.take (i + 1)) column st).map Prod.snd =
          (parquetConvertChar co (chunk.take i) column st).map Prod.snd := by
  obtain ⟨r, hr, hlen⟩ := convertCharLoop_total co column (Or.inr h8) chunk st
  refine ⟨r.1, r.2, by simp only [parquetConvertChar, hw, if_true, hr], hlen, fun i hi => ?_⟩
  obtain ⟨pre, sA, r2, p1, p2, p3, p4⟩ := convertCharLoop_getElem co column chunk st r.1 r.2 i
    none hr hi
  rw [convertChar_null co column sA h1 h8 hdef] at p2
  simp only [Option.some.injEq] at p2
  subst p2
  refine ⟨p3, ?_⟩
  simp only [parquetConvertChar, hw, if_true, p1, p4, Option.map_some']

theorem parquetConvertChar_null_witness :
    (parquetConvertChar sampleCharOps [some hello, none]
        { weType := ColType.WR_CHAR, width := 4, definedWidth := 3, fMinIntSat := 0,
          fMaxIntSat := 0 } (ConvState.start 0)).map (fun r => r.1[1]?)
      = some (some [0xFF, 0xFF, 0xFF, 0xFE]) := by
  obtain ⟨out, st2, h1, -, h3⟩ := parquetConvertChar_null sampleCharOps
    { weType := ColType.WR_CHAR, width := 4, definedWidth := 3, fMinIntSat := 0,
      fMaxIntSat := 0 } [some hello, none] (ConvState.start 0) rfl (by decide) (by decide) rfl
  rw [h1, Option.map_some', (h3 1 rfl).1]
  rfl


theorem utf8_truncate_point_spec (data : List Nat) (n : Nat) :
    utf8_truncate_point data n ≤ n ∧
      (n - utf8_truncate_point data n = 0 ∨
        isContinuation (data.getD (n - utf8_truncate_point data n) 0) = false) := by
  induction n with
  | zero => simp [utf8_truncate_point]
  | succ k ih =>
    unfold utf8_truncate_point
    by_cases hc : isContinuation (data.getD (k + 1) 0) = true
    · rw [if_pos hc]
      obtain ⟨i1, i2⟩ := ih
      refine ⟨by omega, ?_⟩
      have he : k + 1 - (1 + utf8_truncate_point data k) = k - utf8_truncate_point data k := by
        omega
      rw [he]
      exact i2
    · rw [if_neg hc]
      refine ⟨by omega, Or.inr ?_⟩
      simpa using hc

theorem memcpy_take (bsize width n : Nat) (data : List Nat) (hn : n ≤ data.length)
    (hw : width ≤ bsize) :
    (memcpy (List.replicate bsize 0) data n).take width =
      (data.take n ++ List.replicate (width - n) 0).take width := by
  unfold memcpy
  have hl : (data.take n).length = n := by simp [hn]
  rw [List.take_append_eq_append_take, List.take_append_eq_append_take, hl,
    List.drop_replicate, List.take_replicate, List.take_replicate]
  congr 2
  omega

theorem charFinish_fst (co : CharOps) (column : JobColumn) (buf : List Nat) (st : ConvState) :
    (charFinish co column buf st).1 = buf.take column.width := rfl

theorem charFinish_satCount (co : CharOps) (column : JobColumn) (buf : List Nat)
    (st : ConvState) :
    (charFinish co column buf st).2.bufStats.satCount = st.bufStats.satCount := by
  unfold charFinish
  simp only
  split_ifs <;> rfl

theorem convertChar_satCount (co : CharOps) (column : JobColumn) (e : Option (List Nat))
    (st : ConvState) (r : List Nat × ConvState) (h : convertChar co column e st = some r) :
    r.2.bufStats.satCount = st.bufStats.satCount + (if column.cuts e then 1 else 0) := by
  unfold convertChar at h
  cases e with
  | none =>
    simp only at h
    split_ifs at h <;> simp only [Option.some.injEq] at h <;> subst h <;>
      simp [JobColumn.cuts, charFinish_satCount]
  | some data =>
    simp only at h
    split_ifs at h with hc <;> simp only [Option.some.injEq] at h <;> subst h <;>
      simp [JobColumn.cuts, charFinish_satCount, hc, (countSat_fields _ _).2]

theorem convertCharLoop_satCount (co : CharOps) (column : JobColumn)
    (chunk : List (Option (List Nat))) : ∀ (st : ConvState) (r : List (List Nat) × ConvState),
    convertCharLoop co column chunk st = some r →
    r.2.bufStats.satCount = st.bufStats.satCount + chunk.countP column.cuts := by
  induction chunk with
  | nil =>
    intro st r h
    simp only [convertCharLoop, Option.some.injEq] at h
    subst h
    simp
  | cons x xs ih =>
    intro st r hrun
    simp only [convertCharLoop] at hrun
    cases hx : convertChar co column x st with
    | none => rw [hx] at hrun; cases hrun
    | some r1 =>
      rw [hx] at hrun
      simp only at hrun
      cases hrest : convertCharLoop co column xs r1.2 with
      | none => rw [hrest] at hrun; cases hrun
      | some rest =>
        rw [hrest] at hrun
        simp only [Option.some.injEq] at hrun
        subst hrun
        simp only
        rw [ih r1.2 rest hrest, convertChar_satCount co column x st r1 hx, List.countP_cons]
        omega

/-- C17: for a `WR_CHAR` column whose `width` and `definedWidth` fit
`charTmpBuf` (at most 8, with `MAX_COLUMN_BOUNDARY` at least 8), a non-null value
longer than `definedWidth` bytes is copied out as its first
`n = definedWidth - utf8_truncate_point(value, definedWidth)` bytes, zero-padded
to `width`, where `n ≤ definedWidth` and the cut is on a character boundary (the
byte after it is not a continuation byte, or nothing is kept); a value of at
most `definedWidth` bytes is copied out whole, zero-padded to `width`; and
`satCount` grows by the number of values that were cut. -/
theorem parquetConvertChar_truncate (co : CharOps) (column : JobColumn)
    (chunk : List (Option (List Nat))) (st : ConvState)
    (hw : column.weType = ColType.WR_CHAR) (h8 : column.width ≤ 8)
    (hd8 : column.definedWidth ≤ 8) (hB : 8 ≤ co.MAX_COLUMN_BOUNDARY) :
    ∃ out st2, parquetConvertChar co chunk column st = some (out, st2) ∧
      (∀ (i : Nat) (data : List Nat), chunk[i]? = some (some data) →
        data.length > column.definedWidth →
        out[i]? = some ((data.take
            (column.definedWidth - utf8_truncate_point data column.definedWidth) ++
          List.replicate (column.width -
            (column.definedWidth - utf8_truncate_point data column.definedWidth)) 0).take
              column.width) ∧
        column.definedWidth - utf8_truncate_point data column.definedWidth
          ≤ column.definedWidth ∧
        (column.definedWidth - utf8_truncate_point data column.definedWidth = 0 ∨
          isContinuation (data.getD
            (column.definedWidth - utf8_truncate_point data column.definedWidth) 0) = false) ∧
        (column.definedWidth ≤ column.width →
          out[i]? = some (data.take
              (column.definedWidth - utf8_truncate_point data column.definedWidth) ++
            List.replicate (column.width -
              (column.definedWidth - utf8_truncate_point data column.definedWidth)) 0))) ∧
      (∀ (i : Nat) (data : List Nat), chunk[i]? = some (some data) →
        data.length ≤ column.definedWidth →
        out[i]? = some ((data ++ List.replicate (column.width - data.length) 0).take
          column.width) ∧
        (column.definedWidth ≤ column.width →
          out[i]? = some (data ++ List.replicate (column.width - data.length) 0))) ∧
      st2.bufStats.satCount = st.bufStats.satCount + chunk.countP column.cuts := by
  obtain ⟨r, hr, -⟩ := convertCharLoop_total co column (Or.inr h8) chunk st
  refine ⟨r.1, r.2, by simp only [parquetConvertChar, hw, if_true, hr], ?_, ?_,
    convertCharLoop_satCount co column chunk st r hr⟩
  · intro i data hi hlen
    obtain ⟨pre, sA, r2, -, p2, p3, -⟩ := convertCharLoop_getElem co column chunk st r.1 r.2 i
      (some data) hr hi
    obtain ⟨t1, t2⟩ := utf8_truncate_point_spec data column.definedWidth
    have hmod : utf8_truncate_point data column.definedWidth % 256 =
        utf8_truncate_point data column.definedWidth := Nat.mod_eq_of_lt (by omega)
    simp only [convertChar, hlen, if_true, hmod, Option.some.injEq] at p2
    subst p2
    rw [charFinish_fst, memcpy_take _ _ _ data (by omega) (by omega)] at p3
    refine ⟨p3, Nat.sub_le _ _, t2, fun hdw => ?_⟩
    rw [p3]
    congr 1
    apply List.take_of_length_le
    simp only [List.length_append, List.length_take, List.length_replicate]
    omega
  · intro i data hi hlen
    obtain ⟨pre, sA, r2, -, p2, p3, -⟩ := convertCharLoop_getElem co column chunk st r.1 r.2 i
      (some data) hr hi
    simp only [convertChar, gt_iff_lt, not_lt.2 hlen, if_false, Option.some.injEq] at p2
    subst p2
    rw [charFinish_fst, memcpy_take _ _ _ data (le_refl _) (by omega),
      List.take_length] at p3
    refine ⟨p3, fun hdw => ?_⟩
    rw [p3]
    congr 1
    apply List.take_of_length_le
    simp only [List.length_append, List.length_replicate]
    omega

theorem parquetConvertChar_truncate_witness :
    (parquetConvertChar sampleCharOps [some hello]
        { weType := ColType.WR_CHAR, width := 4, definedWidth := 3, fMinIntSat := 0,
          fMaxIntSat := 0 } (ConvState.start 0)).map
        (fun r => (r.1[0]?, r.2.bufStats.satCount))
      = some (some [0x68, 0xC3, 0xA9, 0], 1) := by
  obtain ⟨out, st2, h1, h2, -, h4⟩ := parquetConvertChar_truncate sampleCharOps
    { weType := ColType.WR_CHAR, width := 4, definedWidth := 3, fMinIntSat := 0,
      fMaxIntSat := 0 } [some hello] (ConvState.start 0) rfl (by decide) (by decide)
    (by decide)
  rw [h1, Option.map_some', (h2 0 hello rfl (by decide)).2.2.2 (by decide), h4]
  decide

/-! ## The branch `WR_BINARY` -/

theorem convertLoop_satCount_const (f : Option Int → ConvState → Int × ConvState)
    (hf : ∀ e st, (f e st).2.bufStats.satCount = st.bufStats.satCount)
    (chunk : List (Option Int)) : ∀ st : ConvState,
    (convertLoop f chunk st).2.bufStats.satCount = st.bufStats.satCount := by
  induction chunk with
  | nil => intro st; rfl
  | cons e es ih => intro st; simp only [convertLoop]; rw [ih, hf]

theorem genElem_satCount_const (column : JobColumn) (sat : Int → Int × Bool) (wrap : Int → Int)
    (upd : ConvState → Int → ConvState) (rd : Int → Int) (dflt nullMark : Int)
    (auto : Nat → Int) (hsat : ∀ v, (sat v).2 = false)
    (hupd : ∀ s v, (upd s v).bufStats.satCount = s.bufStats.satCount)
    (e : Option Int) (st : ConvState) :
    (genElem column sat wrap upd rd dflt nullMark auto e st).2.bufStats.satCount =
      st.bufStats.satCount := by
  have hgo : ∀ (v : Int) (s : ConvState),
      (upd (s.countSat (sat v).2) (sat v).1).bufStats.satCount = s.bufStats.satCount := by
    intro v s
    rw [hupd, (countSat_fields _ _).2, hsat]
    rfl
  cases e with
  | some raw => exact hgo _ _
  | none =>
    simp only [genElem]
    split_ifs
    all_goals first | exact hgo _ _ | rfl

theorem convertBinary_satCount (nv : NullValues) (column : JobColumn) (e : Option Int)
    (st : ConvState) :
    (convertBinary nv column e st).2.bufStats.satCount = st.bufStats.satCount := by
  have hs : convertBinary nv column = genElem column (fun v => (v, false)) id
      ConvState.updateMinMaxWide (fun raw => wrapSigned 128 raw) column.fDefaultWideDecimal
      nv.Decimal128Null (fun n => (n : Int)) := by
    funext e st; cases e <;> rfl
  rw [hs]
  refine genElem_satCount_const column _ _ _ _ _ _ _ (fun _ => rfl) (fun s v => ?_) e st
  unfold ConvState.updateMinMaxWide
  simp only
  split_ifs <;> rfl

/-- C18 (code defect): the branch `WR_BINARY` copies the 128-bit input out as it
is.  No scale is read, `bSatVal` is never set: for every chunk `satCount` stays
as it was and every non-null element is copied out with its own value. -/
theorem parquetConvert_binary_not_rescaled (nv : NullValues) (dc : DataConvert)
    (fo : FloatOps) (column : JobColumn) (arrowType : ArrowType) (chunk : List (Option Int))
    (st : ConvState) (hw : column.weType = ColType.WR_BINARY) :
    ∃ out st2, parquetConvert nv dc fo chunk arrowType column st = some (out, st2) ∧
      st2.bufStats.satCount = st.bufStats.satCount ∧
      ∀ (i : Nat) (raw : Int), chunk[i]? = some (some raw) →
        out[i]? = some (wrapSigned 128 raw) := by
  refine ⟨(convertLoop (convertBinary nv column) chunk st).1,
    (convertLoop (convertBinary nv column) chunk st).2, by simp only [parquetConvert, hw],
    convertLoop_satCount_const _ (convertBinary_satCount nv column) chunk st, fun i raw hi => ?_⟩
  rw [convertLoop_getElem _ chunk st i (some raw) hi]
  rfl

set_option maxRecDepth 100000 in
theorem parquetConvert_binary_not_rescaled_witness :
    (parquetConvert sampleNulls sampleConvert sampleFloatOps [some 5] ArrowType.OTHER
        { weType := ColType.WR_BINARY, dataType := ColDataType.DECIMAL, width := 16,
          fMinIntSat := 0, fMaxIntSat := 0 } (ConvState.start 0)).map
        (fun r => (r.1[0]?, r.2.bufStats.satCount)) = some (some 5, 0) := by
  obtain ⟨out, st2, h1, h2, h3⟩ := parquetConvert_binary_not_rescaled sampleNulls
    sampleConvert sampleFloatOps
    { weType := ColType.WR_BINARY, dataType := ColDataType.DECIMAL, width := 16,
      fMinIntSat := 0, fMaxIntSat := 0 } ArrowType.OTHER [some 5] (ConvState.start 0) rfl
  rw [h1, Option.map_some', h3 0 5 rfl, h2]
  rfl

/-! ## The writes to the output buffer -/

theorem selectColumn_eq (ti : TableInfo) (bufferId : Nat) (start : Int × Int) :
    ti.selectColumn bufferId start =
      (List.range ti.fNumberOfColumns).foldl (ti.selectStep bufferId) start := rfl

theorem select_inv (ti : TableInfo) (bufferId : Nat) (m : Nat) :
    ((∀ k < m, ¬ ti.unlocked bufferId k) →
      (List.range m).foldl (ti.selectStep bufferId) (-1, 0) = (-1, 0)) ∧
    ((∃ k < m, ti.unlocked bufferId k) →
      ∃ c : Nat, ((List.range m).foldl (ti.selectStep bufferId) (-1, 0)).1 = (c : Int) ∧
        c < m ∧ ti.unlocked bufferId c ∧
        ((∀ k < m, ti.unlocked bufferId k → (ti.fColumns.getD k default).lastProcessingTime = 0) →
          ∀ k < m, ti.unlocked bufferId k →
            (ti.fColumns.getD k default).width ≤ (ti.fColumns.getD c default).width) ∧
        ((∀ k < m, ti.unlocked bufferId k →
            0 < (ti.fColumns.getD k default).lastProcessingTime) →
          ∀ u0 : Nat, ti.unlocked bufferId u0 → (∀ j < u0, ¬ ti.unlocked bufferId j) →
            (∀ k < m, ti.unlocked bufferId k → k ≠ u0 →
              (ti.fColumns.getD k default).lastProcessingTime ≤
                ((List.range m).foldl (ti.selectStep bufferId) (-1, 0)).2) ∧
            ((c = u0 ∧ ((List.range m).foldl (ti.selectStep bufferId) (-1, 0)).2 = 0) ∨
              (ti.fColumns.getD c default).lastProcessingTime =
                ((List.range m).foldl (ti.selectStep bufferId) (-1, 0)).2))) := by
  induction m with
  | zero =>
    refine ⟨fun _ => rfl, fun h => ?_⟩
    obtain ⟨k, hk, -⟩ := h
    omega
  | succ m ih =>
    obtain ⟨ih1, ih2⟩ := ih
    rw [List.range_succ, List.foldl_append, List.foldl_cons, List.foldl_nil]
    by_cases hU : ti.unlocked bufferId m
    · -- column m is unlocked
      have hUm := hU
      unfold TableInfo.unlocked at hUm
      refine ⟨fun h => absurd hU (h m (by omega)), fun _ => ?_⟩
      by_cases hprev : ∃ k < m, ti.unlocked bufferId k
      · obtain ⟨c, hc1, hc2, hc3, hc4, hc5⟩ := ih2 hprev
        have hne : ((List.range m).foldl (ti.selectStep bufferId) (-1, 0)).1 ≠ -1 := by
          rw [hc1]; omega
        have htn : ((List.range m).foldl (ti.selectStep bufferId) (-1, 0)).1.toNat = c := by
          rw [hc1]; exact Int.toNat_natCast c
        by_cases hT0 : (ti.fColumns.getD m default).lastProcessingTime = 0
        · by_cases hW : (ti.fColumns.getD m default).width ≥ (ti.fColumns.getD c default).width
          · -- take m by width
            have hstep : ti.selectStep bufferId
                ((List.range m).foldl (ti.selectStep bufferId) (-1, 0)) m =
                ((m : Int), ((List.range m).foldl (ti.selectStep bufferId) (-1, 0)).2) := by
              simp only [TableInfo.selectStep, hUm, if_true, hne, if_false, hT0, htn, hW]
            rw [hstep]
            refine ⟨m, rfl, by omega, hU, fun hall k hk hUk => ?_, fun hall => ?_⟩
            · rcases Nat.lt_succ_iff_lt_or_eq.1 hk with hlt | rfl
              · exact le_trans (hc4 (fun j hj hUj => hall j (by omega) hUj) k hlt hUk) hW
              · exact le_refl _
            · have := hall m (by omega) hU
              omega
          · have hstep : ti.selectStep bufferId
                ((List.range m).foldl (ti.selectStep bufferId) (-1, 0)) m =
                (List.range m).foldl (ti.selectStep bufferId) (-1, 0) := by
              simp only [TableInfo.selectStep, hUm, if_true, hne, if_false, hT0, htn, hW]
            rw [hstep]
            refine ⟨c, hc1, by omega, hc3, fun hall k hk hUk => ?_, fun hall => ?_⟩
            · rcases Nat.lt_succ_iff_lt_or_eq.1 hk with hlt | rfl
              · exact hc4 (fun j hj hUj => hall j (by omega) hUj) k hlt hUk
              · omega
            · have := hall m (by omega) hU
              omega
        · by_cases hgt : (ti.fColumns.getD m default).lastProcessingTime >
              ((List.range m).foldl (ti.selectStep bufferId) (-1, 0)).2
          · have hstep : ti.selectStep bufferId
                ((List.range m).foldl (ti.selectStep bufferId) (-1, 0)) m =
                ((m : Int), (ti.fColumns.getD m default).lastProcessingTime) := by
              simp only [TableInfo.selectStep, hUm, if_true, hne, if_false, hT0, hgt]
            rw [hstep]
            refine ⟨m, rfl, by omega, hU, fun hall => ?_, fun hall u0 hu0 hfirst => ?_⟩
            · exact absurd (hall m (by omega) hU) hT0
            · obtain ⟨g1, -⟩ := hc5 (fun j hj hUj => hall j (by omega) hUj) u0 hu0 hfirst
              refine ⟨fun k hk hUk hne0 => ?_, Or.inr rfl⟩
              rcases Nat.lt_succ_iff_lt_or_eq.1 hk with hlt | rfl
              · exact le_trans (g1 k hlt hUk hne0) (le_of_lt hgt)
              · exact le_refl _
          · have hstep : ti.selectStep bufferId
                ((List.range m).foldl (ti.selectStep bufferId) (-1, 0)) m =
                (List.range m).foldl (ti.selectStep bufferId) (-1, 0) := by
              simp only [TableInfo.selectStep, hUm, if_true, hne, if_false, hT0, hgt]
            rw [hstep]
            refine ⟨c, hc1, by omega, hc3, fun hall => ?_, fun hall u0 hu0 hfirst => ?_⟩
            · exact absurd (hall m (by omega) hU) hT0
            · obtain ⟨g1, g2⟩ := hc5 (fun j hj hUj => hall j (by omega) hUj) u0 hu0 hfirst
              refine ⟨fun k hk hUk hne0 => ?_, g2⟩
              rcases Nat.lt_succ_iff_lt_or_eq.1 hk with hlt | rfl
              · exact g1 k hlt hUk hne0
              · omega
      · -- m is the first unlocked column
        have hnone : ∀ k < m, ¬ ti.unlocked bufferId k := fun k hk hUk => hprev ⟨k, hk, hUk⟩
        rw [ih1 hnone]
        have hstep : ti.selectStep bufferId (-1, 0) m = ((m : Int), 0) := by
          simp only [TableInfo.selectStep, hUm, if_true]
        rw [hstep]
        refine ⟨m, rfl, by omega, hU, fun _ k hk hUk => ?_, fun hall u0 hu0 hfirst => ?_⟩
        · rcases Nat.lt_succ_iff_lt_or_eq.1 hk with hlt | rfl
          · exact absurd hUk (hnone k hlt)
          · exact le_refl _
        · have hu : u0 = m := by
            rcases Nat.lt_trichotomy u0 m with h | h | h
            · exact absurd hu0 (hnone u0 h)
            · exact h
            · exact absurd hU (hfirst m h)
          refine ⟨fun k hk hUk hne0 => ?_, Or.inl ⟨hu.symm, rfl⟩⟩
          rcases Nat.lt_succ_iff_lt_or_eq.1 hk with hlt | rfl
          · exact absurd hUk (hnone k hlt)
          · exact absurd hu.symm hne0
    · -- column m is locked
      have hUm := hU
      unfold TableInfo.unlocked at hUm
      have hstep : ∀ acc, ti.selectStep bufferId acc m = acc := by
        intro acc
        simp only [TableInfo.selectStep, hUm, if_false]
      rw [hstep]
      refine ⟨fun h => ih1 (fun k hk => h k (by omega)), fun h => ?_⟩
      have hprev : ∃ k < m, ti.unlocked bufferId k := by
        obtain ⟨k, hk, hUk⟩ := h
        rcases Nat.lt_succ_iff_lt_or_eq.1 hk with hlt | rfl
        · exact ⟨k, hlt, hUk⟩
        · exact absurd hUk hU
      obtain ⟨c, hc1, hc2, hc3, hc4, hc5⟩ := ih2 hprev
      refine ⟨c, hc1, by omega, hc3, fun hall k hk hUk => ?_, fun hall u0 hu0 hfirst => ?_⟩
      · rcases Nat.lt_succ_iff_lt_or_eq.1 hk with hlt | rfl
        · exact hc4 (fun j hj hUj => hall j (by omega) hUj) k hlt hUk
        · exact absurd hUk hU
      · obtain ⟨g1, g2⟩ := hc5 (fun j hj hUj => hall j (by omega) hUj) u0 hu0 hfirst
        refine ⟨fun k hk hUk hne0 => ?_, g2⟩
        rcases Nat.lt_succ_iff_lt_or_eq.1 hk with hlt | rfl
        · exact g1 k hlt hUk hne0
        · exact absurd hUk hU


/-- C20 (counterexample): the scan takes the first unlocked column without
recording its time, and lets a parsed column displace a never-parsed one.  With
columns (width 8, never parsed) and (width 1, time 5) the second is returned;
with times 10 and 5 the column with time 5 is returned. -/
theorem getColumnForParse_selection_counterexample :
    (¬ ∀ (ti : TableInfo) (id : Int) (bufferId : Nat),
        ti.bufferReadyForParse bufferId = true →
        (∃ k < ti.fNumberOfColumns, ti.unlocked bufferId k) →
        ∃ (c : Nat) (ti2 : TableInfo),
          ti.getColumnForParse id bufferId false = some (ParseOutcome.ret c, ti2) ∧
          ((∃ k < ti.fNumberOfColumns, ti.unlocked bufferId k ∧
              (ti.fColumns.getD k default).lastProcessingTime = 0) →
            (ti.fColumns.getD c default).lastProcessingTime = 0)) ∧
    (¬ ∀ (ti : TableInfo) (id : Int) (bufferId : Nat),
        ti.bufferReadyForParse bufferId = true →
        (∃ k < ti.fNumberOfColumns, ti.unlocked bufferId k) →
        ∃ (c : Nat) (ti2 : TableInfo),
          ti.getColumnForParse id bufferId false = some (ParseOutcome.ret c, ti2) ∧
          ((¬ ∃ k < ti.fNumberOfColumns, ti.unlocked bufferId k ∧
              (ti.fColumns.getD k default).lastProcessingTime = 0) →
            ∀ k < ti.fNumberOfColumns, ti.unlocked bufferId k →
              (ti.fColumns.getD k default).lastProcessingTime ≤
                (ti.fColumns.getD c default).lastProcessingTime)) := by
  constructor
  · intro h
    obtain ⟨c, ti2, h1, h2⟩ := h (readyTable [⟨8, 0⟩, ⟨1, 5⟩]) 3 0 (by decide)
      ⟨0, by decide, by decide⟩
    have e1 : ((readyTable [⟨8, 0⟩, ⟨1, 5⟩]).getColumnForParse 3 0 false).map Prod.fst
        = some (ParseOutcome.ret 1) := by decide
    rw [h1] at e1
    simp only [Option.map_some', Option.some.injEq, ParseOutcome.ret.injEq] at e1
    have hc : c = 1 := by exact_mod_cast e1
    subst hc
    exact absurd (h2 ⟨0, by decide, by decide, by decide⟩) (by decide)
  · intro h
    obtain ⟨c, ti2, h1, h2⟩ := h (readyTable [⟨1, 10⟩, ⟨1, 5⟩]) 3 0 (by decide)
      ⟨0, by decide, by decide⟩
    have e1 : ((readyTable [⟨1, 10⟩, ⟨1, 5⟩]).getColumnForParse 3 0 false).map Prod.fst
        = some (ParseOutcome.ret 1) := by decide
    rw [h1] at e1
    simp only [Option.map_some', Option.some.injEq, ParseOutcome.ret.injEq] at e1
    have hc : c = 1 := by exact_mod_cast e1
    subst hc
    exact absurd (h2 (by decide) 0 (by decide) (by decide)) (by decide)

/-- C20 (amended): for a `READ_COMPLETE` buffer with an unlocked column,
`getColumnForParse` returns and locks an unlocked column.  When every unlocked
column has never been parsed (`lastProcessingTime == 0`), the returned column is
a widest one among them.  When every unlocked column has been parsed
(`lastProcessingTime > 0`) and the first unlocked column is not slower than
every other one, the returned column has the largest `lastProcessingTime` among
the unlocked columns. -/
theorem getColumnForParse_selection (ti : TableInfo) (id : Int) (bufferId : Nat)
    (hready : ti.bufferReadyForParse bufferId = true)
    (hex : ∃ k < ti.fNumberOfColumns, ti.unlocked bufferId k) :
    ∃ (c : Nat) (ti2 : TableInfo),
      ti.getColumnForParse id bufferId false = some (ParseOutcome.ret c, ti2) ∧
      c < ti.fNumberOfColumns ∧ ti.unlocked bufferId c ∧
      ((∀ k < ti.fNumberOfColumns, ti.unlocked bufferId k →
          (ti.fColumns.getD k default).lastProcessingTime = 0) →
        ∀ k < ti.fNumberOfColumns, ti.unlocked bufferId k →
          (ti.fColumns.getD k default).width ≤ (ti.fColumns.getD c default).width) ∧
      ((∀ k < ti.fNumberOfColumns, ti.unlocked bufferId k →
          0 < (ti.fColumns.getD k default).lastProcessingTime) →
        (∃ u0 k : Nat, ti.unlocked bufferId u0 ∧ (∀ j < u0, ¬ ti.unlocked bufferId j) ∧
          k < ti.fNumberOfColumns ∧ ti.unlocked bufferId k ∧ k ≠ u0 ∧
          (ti.fColumns.getD u0 default).lastProcessingTime ≤
            (ti.fColumns.getD k default).lastProcessingTime) →
        ∀ k < ti.fNumberOfColumns, ti.unlocked bufferId k →
          (ti.fColumns.getD k default).lastProcessingTime ≤
            (ti.fColumns.getD c default).lastProcessingTime) := by
  obtain ⟨c, hc1, hc2, hc3, hc4, hc5⟩ := (select_inv ti bufferId ti.fNumberOfColumns).2 hex
  have hsel : (ti.selectColumn bufferId (-1, 0)).1 = (c : Int) := by
    rw [selectColumn_eq]; exact hc1
  have hlock := hc3
  unfold TableInfo.unlocked at hlock
  refine ⟨c, { ti with fBuffers := (ti.fBuffers.set bufferId
      ((ti.fBuffers.getD bufferId default).tryAndLockColumn c id).2) }, ?_, hc2, hc3, hc4,
    fun hall hH k hk hUk => ?_⟩
  · have hne : ((c : Int) = -1) = False := by
      apply eq_false
      omega
    simp only [TableInfo.getColumnForParse, Bool.false_eq_true, if_false, hready,
      not_true_eq_false, hsel, hne, Int.toNat_natCast, BulkLoadBuffer.tryAndLockColumn, hlock,
      if_true]
  · obtain ⟨u0, k1, hu0, hfirst, hk1, hUk1, hne1, hle⟩ := hH
    obtain ⟨g1, g2⟩ := hc5 hall u0 hu0 hfirst
    have hk1le := g1 k1 hk1 hUk1 hne1
    rcases g2 with ⟨-, hz⟩ | hT
    · have := hall k1 hk1 hUk1
      omega
    · by_cases hku : k = u0
      · subst hku
        omega
      · have := g1 k hk hUk hku
        omega

theorem getColumnForParse_selection_witness :
    ∃ (c : Nat) (ti2 : TableInfo),
      (readyTable [⟨1, 0⟩, ⟨8, 0⟩, ⟨8, 0⟩, ⟨2, 0⟩]).getColumnForParse 3 0 false
        = some (ParseOutcome.ret c, ti2) ∧
      ∀ k < 4, ((readyTable [⟨1, 0⟩, ⟨8, 0⟩, ⟨8, 0⟩, ⟨2, 0⟩]).fColumns.getD k default).width ≤
        ((readyTable [⟨1, 0⟩, ⟨8, 0⟩, ⟨8, 0⟩, ⟨2, 0⟩]).fColumns.getD c default).width := by
  obtain ⟨c, ti2, h1, -, -, h4, -⟩ := getColumnForParse_selection
    (readyTable [⟨1, 0⟩, ⟨8, 0⟩, ⟨8, 0⟩, ⟨2, 0⟩]) 3 0 (by decide) ⟨0, by decide, by decide⟩
  exact ⟨c, ti2, h1, fun k hk => h4 (by decide) k hk (by
    have : ∀ j < 4, (readyTable [⟨1, 0⟩, ⟨8, 0⟩, ⟨8, 0⟩, ⟨2, 0⟩]).unlocked 0 j := by decide
    exact this k hk)⟩

/-- `setParseComplete` in terms of `markParsed`. -/
theorem setParseComplete_eq (ec : ErrorCodes) (env : FinalizeEnv) (columnId bufferId : Nat)
    (pt : Int) (ti : TableInfo) (hs : ti.fStatusTI ≠ Status.ERR) :
    ti.setParseComplete ec env columnId bufferId pt =
      match (ti.markParsed columnId bufferId pt).columnDone ec env columnId with
      | .error r => some r
      | .ok ti3 =>
        if ti3.fStatusTI ≠ Status.PARSE_COMPLETE ∧
            (ti3.fBuffers.getD bufferId default).fStatusBLB = Status.PARSE_COMPLETE then
          if bufferId = ti3.fCurrentParseBuffer then
            (ti3.advanceParseBuffer (ti3.fReadBufCount + 1) ti3.fCurrentParseBuffer).map
              fun cpb => (NO_ERROR, { ti3 with fCurrentParseBuffer := cpb })
          else some (NO_ERROR, ti3)
        else some (NO_ERROR, ti3) := by
  simp only [TableInfo.setParseComplete, if_neg hs]
  rfl

/-- `updateAt` with a function that keeps the width keeps the widths. -/
theorem updateAt_widths (l : List ColumnInfo) (i : Nat) (f : ColumnInfo → ColumnInfo)
    (hf : ∀ c, (f c).width = c.width) :
    (updateAt l i f).map (fun c => c.width) = l.map (fun c => c.width) := by
  unfold updateAt
  cases h : l[i]? with
  | none => rfl
  | some a =>
    simp only
    rw [List.map_set, hf]
    have hi : i < l.length := by
      by_contra hc
      rw [List.getElem?_eq_none (by omega)] at h
      cases h
    have ha : l[i] = a := by
      rw [List.getElem?_eq_getElem hi] at h
      exact Option.some.inj h
    apply List.ext_getElem
    · simp
    · intro n h1 h2
      simp only [List.getElem_set, List.getElem_map]
      split_ifs with hn
      · subst hn; rw [ha]
      · rfl

/-- The widths of the columns after `markParsed`. -/
theorem markParsed_widths (ti : TableInfo) (columnId bufferId : Nat) (pt : Int) :
    (ti.markParsed columnId bufferId pt).fColumns.map (fun c => c.width) =
      ti.fColumns.map (fun c => c.width) := by
  simp only [TableInfo.markParsed]
  exact updateAt_widths _ _ _ (fun c => rfl)


/-- The seven ways the finalize sequence of `setParseComplete` can end: the
code `rc`, the state `t` and the calls `log` made after the optional cache
flush. -/
theorem finalize_cases (ec : ErrorCodes) (env : FinalizeEnv) (ti : TableInfo) :
    ∃ rc t log,
      (ti.finalize ec env = .error (rc, t) ∧ rc ≠ NO_ERROR ∧ t.fStatusTI = Status.ERR ∨
        ti.finalize ec env = .ok t ∧ rc = NO_ERROR ∧ t.fStatusTI = Status.PARSE_COMPLETE) ∧
      t.fCalls = ti.fCalls ++
        ((if env.flushDict then [Call.flushPrimProcAllverBlocks] else []) ++ log) ∧
      ((env.synchronizeAutoIncRc ≠ NO_ERROR ∧ rc = env.synchronizeAutoIncRc ∧
          log = [Call.synchronizeAutoInc]) ∨
        (env.synchronizeAutoIncRc = NO_ERROR ∧
          validateColumnHWMs ec (ti.fColumns.map (fun c => c.width)) env.segFileInfo ≠ NO_ERROR ∧
          rc = validateColumnHWMs ec (ti.fColumns.map (fun c => c.width)) env.segFileInfo ∧
          log = [Call.synchronizeAutoInc, Call.validateColumnHWMs]) ∨
        (env.synchronizeAutoIncRc = NO_ERROR ∧
          validateColumnHWMs ec (ti.fColumns.map (fun c => c.width)) env.segFileInfo = NO_ERROR ∧
          env.confirmDBFileChangesRc ≠ NO_ERROR ∧ rc = env.confirmDBFileChangesRc ∧
          log = [Call.synchronizeAutoInc, Call.validateColumnHWMs, Call.confirmDBFileChanges]) ∨
        (env.synchronizeAutoIncRc = NO_ERROR ∧
          validateColumnHWMs ec (ti.fColumns.map (fun c => c.width)) env.segFileInfo = NO_ERROR ∧
          env.confirmDBFileChangesRc = NO_ERROR ∧ env.finishBRMRc ≠ NO_ERROR ∧
          rc = env.finishBRMRc ∧
          log = [Call.synchronizeAutoInc, Call.validateColumnHWMs, Call.confirmDBFileChanges,
            Call.finishBRM]) ∨
        (env.synchronizeAutoIncRc = NO_ERROR ∧
          validateColumnHWMs ec (ti.fColumns.map (fun c => c.width)) env.segFileInfo = NO_ERROR ∧
          env.confirmDBFileChangesRc = NO_ERROR ∧ env.finishBRMRc = NO_ERROR ∧
          env.changeTableLockStateRc ≠ NO_ERROR ∧ rc = env.changeTableLockStateRc ∧
          log = [Call.synchronizeAutoInc, Call.validateColumnHWMs, Call.confirmDBFileChanges,
            Call.finishBRM, Call.changeTableLockState]) ∨
        (env.synchronizeAutoIncRc = NO_ERROR ∧
          validateColumnHWMs ec (ti.fColumns.map (fun c => c.width)) env.segFileInfo = NO_ERROR ∧
          env.confirmDBFileChangesRc = NO_ERROR ∧ env.finishBRMRc = NO_ERROR ∧
          env.changeTableLockStateRc = NO_ERROR ∧ env.releaseTableLockRc ≠ NO_ERROR ∧
          rc = env.releaseTableLockRc ∧
          log = [Call.synchronizeAutoInc, Call.validateColumnHWMs, Call.confirmDBFileChanges,
            Call.finishBRM, Call.changeTableLockState, Call.deleteTempDBFileChanges,
            Call.deleteMetaDataRollbackFile, Call.releaseTableLock]) ∨
        (env.synchronizeAutoIncRc = NO_ERROR ∧
          validateColumnHWMs ec (ti.fColumns.map (fun c => c.width)) env.segFileInfo = NO_ERROR ∧
          env.confirmDBFileChangesRc = NO_ERROR ∧ env.finishBRMRc = NO_ERROR ∧
          env.changeTableLockStateRc = NO_ERROR ∧ env.releaseTableLockRc = NO_ERROR ∧
          rc = NO_ERROR ∧
          log = [Call.synchronizeAutoInc, Call.validateColumnHWMs, Call.confirmDBFileChanges,
            Call.finishBRM, Call.changeTableLockState, Call.deleteTempDBFileChanges,
            Call.deleteMetaDataRollbackFile, Call.releaseTableLock, Call.reportTotals,
            Call.freeProcessingBuffers])) := by
  generalize hv : validateColumnHWMs ec (ti.fColumns.map (fun c => c.width)) env.segFileInfo = v
  obtain ⟨ti1, h1, hc1, hcol⟩ : ∃ ti1 : TableInfo,
      (if env.flushDict then ti.call Call.flushPrimProcAllverBlocks else ti) = ti1 ∧
      ti1.fCalls = ti.fCalls ++ (if env.flushDict then [Call.flushPrimProcAllverBlocks] else []) ∧
      ti1.fColumns = ti.fColumns := by
    refine ⟨_, rfl, ?_, ?_⟩ <;> cases env.flushDict <;> simp [TableInfo.call]
  have hv1 : validateColumnHWMs ec (ti1.fColumns.map (fun c => c.width)) env.segFileInfo = v := by
    rw [hcol, hv]
  simp only [TableInfo.finalize]
  rw [h1]
  simp only [TableInfo.failWith, TableInfo.call, TableInfo.freeProcessingBuffers, hv1, hc1]
  by_cases a1 : env.synchronizeAutoIncRc = NO_ERROR
  swap
  · rw [if_pos a1]
    exact ⟨_, _, [Call.synchronizeAutoInc], Or.inl ⟨rfl, a1, rfl⟩, by simp,
      Or.inl ⟨a1, rfl, rfl⟩⟩
  rw [if_neg (not_not.mpr a1)]
  by_cases a2 : v = NO_ERROR
  swap
  · rw [if_pos a2]
    exact ⟨_, _, [Call.synchronizeAutoInc, Call.validateColumnHWMs], Or.inl ⟨rfl, a2, rfl⟩,
      by simp, Or.inr (Or.inl ⟨a1, a2, rfl, rfl⟩)⟩
  rw [if_neg (not_not.mpr a2)]
  by_cases a3 : env.confirmDBFileChangesRc = NO_ERROR
  swap
  · rw [if_pos a3]
    exact ⟨_, _, [Call.synchronizeAutoInc, Call.validateColumnHWMs, Call.confirmDBFileChanges],
      Or.inl ⟨rfl, a3, rfl⟩, by simp, Or.inr (Or.inr (Or.inl ⟨a1, a2, a3, rfl, rfl⟩))⟩
  rw [if_neg (not_not.mpr a3)]
  by_cases a4 : env.finishBRMRc = NO_ERROR
  swap
  · rw [if_pos a4]
    exact ⟨_, _, [Call.synchronizeAutoInc, Call.validateColumnHWMs, Call.confirmDBFileChanges,
        Call.finishBRM],
      Or.inl ⟨rfl, a4, rfl⟩, by simp, Or.inr (Or.inr (Or.inr (Or.inl ⟨a1, a2, a3, a4, rfl, rfl⟩)))⟩
  rw [if_neg (not_not.mpr a4)]
  by_cases a5 : env.changeTableLockStateRc = NO_ERROR
  swap
  · rw [if_pos a5]
    exact ⟨_, _, [Call.synchronizeAutoInc, Call.validateColumnHWMs, Call.confirmDBFileChanges,
        Call.finishBRM, Call.changeTableLockState],
      Or.inl ⟨rfl, a5, rfl⟩, by simp,
      Or.inr (Or.inr (Or.inr (Or.inr (Or.inl ⟨a1, a2, a3, a4, a5, rfl, rfl⟩))))⟩
  rw [if_neg (not_not.mpr a5)]
  by_cases a6 : env.releaseTableLockRc = NO_ERROR
  swap
  · rw [if_pos a6]
    exact ⟨_, _, [Call.synchronizeAutoInc, Call.validateColumnHWMs, Call.confirmDBFileChanges,
        Call.finishBRM, Call.changeTableLockState, Call.deleteTempDBFileChanges,
        Call.deleteMetaDataRollbackFile, Call.releaseTableLock],
      Or.inl ⟨rfl, a6, rfl⟩, by simp,
      Or.inr (Or.inr (Or.inr (Or.inr (Or.inr (Or.inl ⟨a1, a2, a3, a4, a5, a6, rfl, rfl⟩)))))⟩
  rw [if_neg (not_not.mpr a6)]
  exact ⟨NO_ERROR, _, [Call.synchronizeAutoInc, Call.validateColumnHWMs,
      Call.confirmDBFileChanges, Call.finishBRM, Call.changeTableLockState,
      Call.deleteTempDBFileChanges, Call.deleteMetaDataRollbackFile, Call.releaseTableLock,
      Call.reportTotals, Call.freeProcessingBuffers],
    Or.inr ⟨rfl, rfl, rfl⟩, by simp,
    Or.inr (Or.inr (Or.inr (Or.inr (Or.inr (Or.inr ⟨a1, a2, a3, a4, a5, a6, rfl, rfl⟩)))))⟩


/-- The facts of the first-failure rule, read off the seven cases of
`finalize_cases`; `fl` is the optional cache flush that precedes the steps. -/
theorem finalize_shape_facts (s v c b l r rc : Int) (fl : Bool) (log : List Call)
    (h : (s ≠ NO_ERROR ∧ rc = s ∧ log = [Call.synchronizeAutoInc]) ∨
        (s = NO_ERROR ∧ v ≠ NO_ERROR ∧ rc = v ∧
          log = [Call.synchronizeAutoInc, Call.validateColumnHWMs]) ∨
        (s = NO_ERROR ∧ v = NO_ERROR ∧ c ≠ NO_ERROR ∧ rc = c ∧
          log = [Call.synchronizeAutoInc, Call.validateColumnHWMs, Call.confirmDBFileChanges]) ∨
        (s = NO_ERROR ∧ v = NO_ERROR ∧ c = NO_ERROR ∧ b ≠ NO_ERROR ∧ rc = b ∧
          log = [Call.synchronizeAutoInc, Call.validateColumnHWMs, Call.confirmDBFileChanges,
            Call.finishBRM]) ∨
        (s = NO_ERROR ∧ v = NO_ERROR ∧ c = NO_ERROR ∧ b = NO_ERROR ∧ l ≠ NO_ERROR ∧ rc = l ∧
          log = [Call.synchronizeAutoInc, Call.validateColumnHWMs, Call.confirmDBFileChanges,
            Call.finishBRM, Call.changeTableLockState]) ∨
        (s = NO_ERROR ∧ v = NO_ERROR ∧ c = NO_ERROR ∧ b = NO_ERROR ∧ l = NO_ERROR ∧
          r ≠ NO_ERROR ∧ rc = r ∧
          log = [Call.synchronizeAutoInc, Call.validateColumnHWMs, Call.confirmDBFileChanges,
            Call.finishBRM, Call.changeTableLockState, Call.deleteTempDBFileChanges,
            Call.deleteMetaDataRollbackFile, Call.releaseTableLock]) ∨
        (s = NO_ERROR ∧ v = NO_ERROR ∧ c = NO_ERROR ∧ b = NO_ERROR ∧ l = NO_ERROR ∧
          r = NO_ERROR ∧ rc = NO_ERROR ∧
          log = [Call.synchronizeAutoInc, Call.validateColumnHWMs, Call.confirmDBFileChanges,
            Call.finishBRM, Call.changeTableLockState, Call.deleteTempDBFileChanges,
            Call.deleteMetaDataRollbackFile, Call.releaseTableLock, Call.reportTotals,
            Call.freeProcessingBuffers])) :
    (∀ (k : Nat) (x : Int), [s, v, c, b, l, r][k]? = some x → x ≠ NO_ERROR →
        (∀ (j : Nat) (y : Int), j < k → [s, v, c, b, l, r][j]? = some y → y = NO_ERROR) →
        rc = x ∧
        (∀ (d : Call), [Call.synchronizeAutoInc, Call.validateColumnHWMs,
          Call.confirmDBFileChanges, Call.finishBRM, Call.changeTableLockState,
          Call.releaseTableLock][k]? = some d →
            d ∈ (if fl then [Call.flushPrimProcAllverBlocks] else []) ++ log) ∧
        ∀ (j : Nat) (d : Call), k < j → [Call.synchronizeAutoInc, Call.validateColumnHWMs,
          Call.confirmDBFileChanges, Call.finishBRM, Call.changeTableLockState,
          Call.releaseTableLock][j]? = some d →
            d ∉ (if fl then [Call.flushPrimProcAllverBlocks] else []) ++ log) ∧
    (v ≠ NO_ERROR → Call.finishBRM ∉ (if fl then [Call.flushPrimProcAllverBlocks] else []) ++ log) ∧
    (rc = NO_ERROR ↔ ∀ x ∈ [s, v, c, b, l, r], x = NO_ERROR) := by
  refine ⟨?_, ?_, ?_⟩
  · intro k x hk hx hprev
    have p0 := hprev 0
    have p1 := hprev 1
    have p2 := hprev 2
    have p3 := hprev 3
    have p4 := hprev 4
    clear hprev
    rcases k with _ | _ | _ | _ | _ | _ | k <;>
    simp only [List.getElem?_cons_zero, List.getElem?_cons_succ, List.getElem?_nil,
      Option.some.injEq, reduceCtorEq] at hk <;>
    subst hk <;>
    simp at p0 p1 p2 p3 p4 <;>
    (rcases h with h | h | h | h | h | h | h <;> cases fl <;> simp_all)
    all_goals
      intro j d hj hd
      rcases j with _ | _ | _ | _ | _ | _ | j <;>
      first
        | omega
        | (simp only [List.getElem?_cons_zero, List.getElem?_cons_succ, List.getElem?_nil,
            Option.some.injEq, reduceCtorEq] at hd
           subst hd
           simp)
        | (simp at hd)
  · intro hvne
    rcases h with h | h | h | h | h | h | h <;> cases fl <;> simp_all
  · rcases h with h | h | h | h | h | h | h <;> simp_all


/-- C21: when a call of `setParseComplete` reaches the finalize sequence
(the table is not in `ERR`, the last buffer has been read, the column is done
in every buffer, `finishParsing` succeeds and this was the last column), it
returns a code `rc` in a state `t` after the calls `log`.  For the steps
`synchronizeAutoInc`, `validateColumnHWMs`, `confirmDBFileChanges`, `finishBRM`,
`changeTableLockState`, `releaseTableLock` with their return codes: if step `k`
is the first to return an error `r`, then `rc = r`, which is not zero, the
status is `ERR`, step `k` was called and no later step was.  `finishBRM` is not
called when the HWM validation fails, and the status is `PARSE_COMPLETE` exactly
when every step succeeded. -/
theorem setParseComplete_finalize_first_failure (ec : ErrorCodes) (env : FinalizeEnv)
    (columnId bufferId : Nat) (pt : Int) (ti : TableInfo)
    (hs : ti.fStatusTI ≠ Status.ERR) (hl : ti.fLastBufferId ≠ -1)
    (hd : (ti.markParsed columnId bufferId pt).allBuffersDoneForAColumn columnId = true)
    (hf : env.finishParsingRc = NO_ERROR)
    (hn : ti.fNumberOfColsParsed + 1 ≥ ti.fNumberOfColumns) :
    ∃ rc t log,
      ti.setParseComplete ec env columnId bufferId pt = some (rc, t) ∧
      t.fCalls = ti.fCalls ++ Call.finishParsing columnId :: log ∧
      (∀ (k : Nat) (r : Int),
        [env.synchronizeAutoIncRc,
          validateColumnHWMs ec (ti.fColumns.map (fun c => c.width)) env.segFileInfo,
          env.confirmDBFileChangesRc, env.finishBRMRc, env.changeTableLockStateRc,
          env.releaseTableLockRc][k]? = some r → r ≠ NO_ERROR →
        (∀ (j : Nat) (r2 : Int), j < k →
          [env.synchronizeAutoIncRc,
            validateColumnHWMs ec (ti.fColumns.map (fun c => c.width)) env.segFileInfo,
            env.confirmDBFileChangesRc, env.finishBRMRc, env.changeTableLockStateRc,
            env.releaseTableLockRc][j]? = some r2 → r2 = NO_ERROR) →
        rc = r ∧ rc ≠ 0 ∧ t.fStatusTI = Status.ERR ∧
        (∀ (c : Call), [Call.synchronizeAutoInc, Call.validateColumnHWMs,
            Call.confirmDBFileChanges, Call.finishBRM, Call.changeTableLockState,
            Call.releaseTableLock][k]? = some c → c ∈ log) ∧
        ∀ (j : Nat) (c : Call), k < j →
          [Call.synchronizeAutoInc, Call.validateColumnHWMs, Call.confirmDBFileChanges,
            Call.finishBRM, Call.changeTableLockState, Call.releaseTableLock][j]? = some c →
          c ∉ log) ∧
      (validateColumnHWMs ec (ti.fColumns.map (fun c => c.width)) env.segFileInfo ≠ NO_ERROR →
        Call.finishBRM ∉ log) ∧
      (t.fStatusTI = Status.PARSE_COMPLETE ↔
        ∀ r ∈ [env.synchronizeAutoIncRc,
          validateColumnHWMs ec (ti.fColumns.map (fun c => c.width)) env.segFileInfo,
          env.confirmDBFileChangesRc, env.finishBRMRc, env.changeTableLockStateRc,
          env.releaseTableLockRc], r = NO_ERROR) := by
  obtain ⟨T, hT, hTc, hTw⟩ : ∃ T : TableInfo,
      (ti.markParsed columnId bufferId pt).columnDone ec env columnId = T.finalize ec env ∧
      T.fCalls = ti.fCalls ++ [Call.finishParsing columnId] ∧
      T.fColumns.map (fun c => c.width) = ti.fColumns.map (fun c => c.width) := by
    refine ⟨{ (ti.markParsed columnId bufferId pt).call (Call.finishParsing columnId) with
      fNumberOfColsParsed := ti.fNumberOfColsParsed + 1 }, ?_, rfl, ?_⟩
    · have hl2 : (ti.markParsed columnId bufferId pt).fLastBufferId ≠ -1 := hl
      have hn2 : (ti.markParsed columnId bufferId pt).fNumberOfColsParsed + 1 ≥
          (ti.markParsed columnId bufferId pt).fNumberOfColumns := hn
      simp only [TableInfo.columnDone, if_pos hl2, hd, if_true, hf, ne_eq, not_true_eq_false,
        if_false, TableInfo.call, if_pos hn2]
      rfl
    · exact markParsed_widths ti columnId bufferId pt
  obtain ⟨rc, t, log, hfin, hcalls, hshape⟩ := finalize_cases ec env T
  rw [hTw] at hshape
  obtain ⟨f1, f2, f3⟩ := finalize_shape_facts _ _ _ _ _ _ rc env.flushDict log hshape
  have hres : ti.setParseComplete ec env columnId bufferId pt = some (rc, t) := by
    rw [setParseComplete_eq ec env columnId bufferId pt ti hs, hT]
    rcases hfin with ⟨he, -, -⟩ | ⟨ho, hrc, hst⟩
    · rw [he]
    · rw [ho, hrc]
      simp only [hst, ne_eq, not_true_eq_false, false_and, if_false]
  refine ⟨rc, t, (if env.flushDict then [Call.flushPrimProcAllverBlocks] else []) ++ log,
    hres, ?_, ?_, f2, ?_⟩
  · rw [hcalls, hTc]; simp
  · intro k r hk hr hprev
    obtain ⟨e1, e2, e3⟩ := f1 k r hk hr hprev
    refine ⟨e1, ?_, ?_, e2, e3⟩
    · rw [e1]; simpa [NO_ERROR] using hr
    · rcases hfin with ⟨-, -, hst⟩ | ⟨-, hrc, -⟩
      · exact hst
      · exact absurd (e1 ▸ hrc) hr
  · rw [← f3]
    rcases hfin with ⟨-, hne, hst⟩ | ⟨-, hrc, hst⟩
    · rw [hst]; exact ⟨(fun hh => by cases hh), fun hh => absurd hh hne⟩
    · exact ⟨fun _ => hrc, fun _ => hst⟩


theorem setParseComplete_finalize_first_failure_witness :
    ∃ t log,
      ({ readyTable [⟨4, 0⟩] with fLastBufferId := 0 }).setParseComplete sampleCodes
        { okEnv [⟨1, 0, 0, 0⟩] with finishBRMRc := 7 } 0 0 5 = some (7, t) ∧
      t.fCalls = [Call.finishParsing 0] ++ log ∧ t.fStatusTI = Status.ERR ∧
      Call.finishBRM ∈ log ∧ Call.changeTableLockState ∉ log ∧ Call.releaseTableLock ∉ log := by
  obtain ⟨rc, t, log, h1, h2, h3, -, -⟩ :=
    setParseComplete_finalize_first_failure sampleCodes
      { okEnv [⟨1, 0, 0, 0⟩] with finishBRMRc := 7 } 0 0 5
      { readyTable [⟨4, 0⟩] with fLastBufferId := 0 }
      (by decide) (by decide) (by decide) rfl (by decide)
  obtain ⟨e1, -, e3, e4, e5⟩ := h3 3 7 rfl (by decide) (by
    intro j r2 hj hr
    interval_cases j <;> simp only [List.getElem?_cons_zero, List.getElem?_cons_succ,
      Option.some.injEq] at hr <;> rw [← hr] <;> rfl)
  subst e1
  exact ⟨t, log, h1, h2, e3, e4 _ rfl, e5 4 _ (by decide) rfl, e5 5 _ (by decide) rfl⟩

/-- The loop over the columns leaves the status as it was, whether it ends
early or not. -/
theorem finishParsingLoop_status (finishParsing : Nat → Int) (ks : List Nat) (ti : TableInfo) :
    (∀ rc t, TableInfo.finishParsingLoop finishParsing ks ti = .error (rc, t) →
      t.fStatusTI = ti.fStatusTI) ∧
    (∀ t, TableInfo.finishParsingLoop finishParsing ks ti = .ok t →
      t.fStatusTI = ti.fStatusTI) := by
  induction ks generalizing ti with
  | nil =>
    constructor
    · intro rc t h; simp [TableInfo.finishParsingLoop] at h
    · intro t h
      simp only [TableInfo.finishParsingLoop, Except.ok.injEq] at h
      rw [← h]
  | cons k ks ih =>
    simp only [TableInfo.finishParsingLoop]
    split_ifs with hk
    · constructor
      · intro rc t h
        simp only [Except.error.injEq, Prod.mk.injEq] at h
        rw [← h.2]; rfl
      · intro t h; simp at h
    · exact ih (ti.call (Call.finishParsing k))

/-- Recording a call does not touch the status. -/
theorem call_status (ti : TableInfo) (c : Call) : (ti.call c).fStatusTI = ti.fStatusTI := rfl

/-- C22 (code defect): whenever the finalize steps of `readParquetData` end
with an error code, the table status is what it was before them; it is not set
to `ERR`. -/
theorem readParquetData_failure_keeps_status (ec : ErrorCodes) (finishParsing : Nat → Int)
    (env : FinalizeEnv) (ti : TableInfo)
    (h : (ti.readParquetDataFinalize ec finishParsing env).1 ≠ NO_ERROR) :
    (ti.readParquetDataFinalize ec finishParsing env).2.fStatusTI = ti.fStatusTI := by
  obtain ⟨he, ho⟩ := finishParsingLoop_status finishParsing (List.range ti.fNumberOfColumns) ti
  unfold TableInfo.readParquetDataFinalize at h ⊢
  cases hloop : TableInfo.finishParsingLoop finishParsing (List.range ti.fNumberOfColumns) ti with
  | error r =>
    obtain ⟨rc, t⟩ := r
    simp only [hloop]
    exact he rc t hloop
  | ok t0 =>
    have h0 := ho t0 hloop
    obtain ⟨ti1, h1, hst1⟩ : ∃ ti1 : TableInfo,
        (if env.flushDict then t0.call Call.flushPrimProcAllverBlocks else t0) = ti1 ∧
        ti1.fStatusTI = ti.fStatusTI := by
      refine ⟨_, rfl, ?_⟩
      cases env.flushDict <;> simpa [TableInfo.call] using h0
    simp only [hloop] at h ⊢
    rw [h1] at h ⊢
    by_cases a1 : env.synchronizeAutoIncRc = NO_ERROR
    swap
    · rw [if_pos a1]; simp only [call_status]; exact hst1
    rw [if_neg (not_not.mpr a1)] at h ⊢
    by_cases a2 : validateColumnHWMs ec
        (((ti1.call Call.synchronizeAutoInc).call Call.validateColumnHWMs).fColumns.map
          (fun c => c.width)) env.segFileInfo = NO_ERROR
    swap
    · rw [if_pos a2]; simp only [call_status]; exact hst1
    rw [if_neg (not_not.mpr a2)] at h ⊢
    by_cases a3 : env.confirmDBFileChangesRc = NO_ERROR
    swap
    · rw [if_pos a3]; simp only [call_status]; exact hst1
    rw [if_neg (not_not.mpr a3)] at h ⊢
    by_cases a4 : env.finishBRMRc = NO_ERROR
    swap
    · rw [if_pos a4]; simp only [call_status]; exact hst1
    rw [if_neg (not_not.mpr a4)] at h ⊢
    by_cases a5 : env.changeTableLockStateRc = NO_ERROR
    swap
    · rw [if_pos a5]; simp only [call_status]; exact hst1
    rw [if_neg (not_not.mpr a5)] at h ⊢
    by_cases a6 : env.releaseTableLockRc = NO_ERROR
    swap
    · rw [if_pos a6]; simp only [call_status]; exact hst1
    rw [if_neg (not_not.mpr a6)] at h
    exact absurd a6 h


theorem readParquetData_failure_keeps_status_witness :
    ((readyTable [⟨4, 0⟩]).readParquetDataFinalize sampleCodes (fun _ => NO_ERROR)
        (autoIncFails 7)).1 = 7 ∧
    ((readyTable [⟨4, 0⟩]).readParquetDataFinalize sampleCodes (fun _ => NO_ERROR)
        (autoIncFails 7)).2.fStatusTI = Status.NEW ∧
    ∃ t, (readyTable [⟨4, 0⟩]).finalize sampleCodes (autoIncFails 7) = .error (7, t) ∧
      t.fStatusTI = Status.ERR :=
  ⟨by decide,
    readParquetData_failure_keeps_status sampleCodes (fun _ => NO_ERROR) (autoIncFails 7)
      (readyTable [⟨4, 0⟩]) (by decide),
    ⟨_, rfl, rfl⟩⟩

/-- `bFound` is membership in the current DBRoot list. -/
theorem bFound_iff (dbRootIds : List Nat) (id : Nat) :
    bFound dbRootIds id = true ↔ id ∈ dbRootIds := by
  simp [bFound]

/-- The outer loop of `rollbackWork` stops at an original DBRoot that is
missing, when there is one. -/
theorem find_missing (orig dbRootIds : List Nat) (h : ∃ id ∈ orig, id ∉ dbRootIds) :
    ∃ id, id ∈ orig ∧ id ∉ dbRootIds ∧
      orig.find? (fun id => ! bFound dbRootIds id) = some id := by
  cases hf : orig.find? (fun id => ! bFound dbRootIds id) with
  | none =>
    obtain ⟨id, hid, hmiss⟩ := h
    have := List.find?_eq_none.mp hf id hid
    simp [bFound_iff] at this
    exact absurd this hmiss
  | some id =>
    have h1 := List.find?_some hf
    have h2 := List.mem_of_find?_eq_some hf
    refine ⟨id, h2, ?_, rfl⟩
    intro hmem
    rw [(bFound_iff dbRootIds id).mpr hmem] at h1
    cases h1

/-- The outer loop of `rollbackWork` runs to its end when every original
DBRoot is in the current list. -/
theorem find_none (orig dbRootIds : List Nat) (h : ∀ id ∈ orig, id ∈ dbRootIds) :
    orig.find? (fun id => ! bFound dbRootIds id) = none := by
  rw [List.find?_eq_none]
  intro id hid
  simp [(bFound_iff dbRootIds id).mpr (h id hid)]

/-- The calls that `deleteMetaDataRollbackFile` makes. -/
theorem deleteMetaDataRollbackFile_eq (e : Option Int) (tl : LockFields) :
    TableInfo.deleteMetaDataRollbackFile e tl =
      { tl with fLockCalls := tl.fLockCalls ++
        (if tl.distributed ∨ tl.fKeepRbMetaFile = true then []
          else LockCall.deleteFile :: (match e with
            | some code => [LockCall.logMsg LockMsg.deleteMetaError code]
            | none => [])) } := by
  unfold TableInfo.deleteMetaDataRollbackFile
  obtain ⟨m, l, i, o, k, p, c⟩ := tl
  by_cases hd : LockFields.distributed ⟨m, l, i, o, k, p, c⟩
  · simp [hd]
  · cases k
    · cases e <;> simp [hd, LockFields.call]
    · simp [hd]

/-- The code that `releaseTableLock` returns and the calls it makes. -/
theorem releaseTableLock_eq (a : Int × Bool) (tl : LockFields) :
    TableInfo.releaseTableLock a tl =
      (if tl.distributed then NO_ERROR else a.1,
        { tl with
          fTableLocked := (if ¬ tl.distributed ∧ a.1 = NO_ERROR then false else tl.fTableLocked)
          fLockCalls := tl.fLockCalls ++
            (if tl.distributed then []
              else LockCall.brmReleaseTableLock tl.fTableLockID a.1 a.2 ::
                (if a.1 = NO_ERROR then []
                  else [LockCall.logMsg LockMsg.releaseError a.1])) }) := by
  unfold TableInfo.releaseTableLock
  by_cases hd : tl.distributed
  · simp [hd]
  · by_cases ha : a.1 = NO_ERROR
    · simp [hd, ha, LockFields.call]
    · simp [hd, ha, LockFields.call]

/-- What `rollbackWork` does when every original DBRoot is in the current
list: the returned code and the state, call by call. -/
theorem rollbackWork_eq (E : Int) (dbRootIds : List Nat) (rollbackRc : Int)
    (e : Option Int) (a : Int × Bool) (tl : LockFields)
    (hall : ∀ id ∈ tl.fOrigDbRootIds, id ∈ dbRootIds) :
    TableInfo.rollbackWork E dbRootIds rollbackRc e a tl =
      if tl.fProcessingBegun = true ∧ rollbackRc ≠ NO_ERROR then
        (rollbackRc, { tl with fLockCalls := tl.fLockCalls ++
          [LockCall.closeOpenDbFiles, LockCall.getRootIdList,
            LockCall.rollback tl.fKeepRbMetaFile,
            LockCall.logMsg LockMsg.rollbackError rollbackRc] })
      else
        (if tl.distributed then NO_ERROR else a.1,
          { tl with
            fTableLocked :=
              (if ¬ tl.distributed ∧ a.1 = NO_ERROR then false else tl.fTableLocked)
            fLockCalls := tl.fLockCalls ++
              ([LockCall.closeOpenDbFiles, LockCall.getRootIdList] ++
                (if tl.fProcessingBegun = true then [LockCall.rollback tl.fKeepRbMetaFile]
                  else []) ++
                (if tl.distributed ∨ tl.fKeepRbMetaFile = true then []
                  else LockCall.deleteFile :: (match e with
                    | some code => [LockCall.logMsg LockMsg.deleteMetaError code]
                    | none => [])) ++
                (if tl.distributed then []
                  else LockCall.brmReleaseTableLock tl.fTableLockID a.1 a.2 ::
                    (if a.1 = NO_ERROR then []
                      else [LockCall.logMsg LockMsg.releaseError a.1,
                        LockCall.logMsg LockMsg.lockNotCleared a.1]))) }) := by
  have h3 := find_none tl.fOrigDbRootIds dbRootIds hall
  unfold TableInfo.rollbackWork
  simp only [LockFields.call, h3, deleteMetaDataRollbackFile_eq, releaseTableLock_eq]
  obtain ⟨m, l, i, o, k, p, c⟩ := tl
  have hdist : ∀ (l2 : Bool) (i2 : Nat) (o2 : List Nat) (k2 p2 : Bool) (c2 : List LockCall),
      LockFields.distributed ⟨m, l2, i2, o2, k2, p2, c2⟩ ↔
        LockFields.distributed ⟨m, l, i, o, k, p, c⟩ := fun _ _ _ _ _ _ => Iff.rfl
  by_cases hd : LockFields.distributed ⟨m, l, i, o, k, p, c⟩ <;>
  by_cases ha : a.1 = NO_ERROR <;>
  by_cases hr : rollbackRc = NO_ERROR <;>
  cases p <;> cases k <;> cases e <;>
  simp [hdist, hd, ha, hr]


/-- C23: if some original DBRoot is not in the current DBRoot list,
`rollbackWork` returns `ERR_BULK_ROLLBACK_MISS_ROOT`; all it has done is close
the open files, read the DBRoot list and log the refusal for a missing id
(no rollback, no deletion of the meta-data file, no release of the lock, and
every data member as before).  If every original id is in the current list,
the calls made by `rollbackWork` contain no refusal message. -/
theorem rollbackWork_refuses_missing_root (ERR_BULK_ROLLBACK_MISS_ROOT : Int)
    (dbRootIds : List Nat) (rollbackRc : Int) (deleteFileErr : Option Int)
    (release : Int × Bool) (tl : LockFields) :
    ((∃ id ∈ tl.fOrigDbRootIds, id ∉ dbRootIds) →
      ∃ id, id ∈ tl.fOrigDbRootIds ∧ id ∉ dbRootIds ∧
        TableInfo.rollbackWork ERR_BULK_ROLLBACK_MISS_ROOT dbRootIds rollbackRc deleteFileErr
            release tl =
          (ERR_BULK_ROLLBACK_MISS_ROOT,
            { tl with fLockCalls := tl.fLockCalls ++
              [LockCall.closeOpenDbFiles, LockCall.getRootIdList,
                LockCall.logMsg (LockMsg.rollbackNotPerformed id)
                  ERR_BULK_ROLLBACK_MISS_ROOT] })) ∧
    ((∀ id ∈ tl.fOrigDbRootIds, id ∈ dbRootIds) →
      ∀ (id : Nat) (code : Int),
        LockCall.logMsg (LockMsg.rollbackNotPerformed id) code ∉
          (TableInfo.rollbackWork ERR_BULK_ROLLBACK_MISS_ROOT dbRootIds rollbackRc deleteFileErr
            release tl).2.fLockCalls.drop tl.fLockCalls.length) := by
  constructor
  · intro h
    obtain ⟨id, h1, h2, h3⟩ := find_missing tl.fOrigDbRootIds dbRootIds h
    refine ⟨id, h1, h2, ?_⟩
    simp [TableInfo.rollbackWork, LockFields.call, h3]
  · intro h id code
    rw [rollbackWork_eq _ _ _ _ _ _ h]
    by_cases hb : tl.fProcessingBegun = true ∧ rollbackRc ≠ NO_ERROR
    · rw [if_pos hb]; simp
    · rw [if_neg hb]
      dsimp only
      rw [List.drop_left]
      cases deleteFileErr <;> simp

theorem rollbackWork_refuses_missing_root_witness :
    (∃ id, id ∈ [1, 2, 3] ∧ id ∉ [1, 3] ∧
      TableInfo.rollbackWork 1503 [1, 3] 0 none (NO_ERROR, true)
          { LockFields.new false with
            fOrigDbRootIds := [1, 2, 3], fTableLocked := true, fTableLockID := 9,
            fProcessingBegun := true } =
        (1503,
          { LockFields.new false with
            fOrigDbRootIds := [1, 2, 3], fTableLocked := true, fTableLockID := 9,
            fProcessingBegun := true,
            fLockCalls := [LockCall.closeOpenDbFiles, LockCall.getRootIdList,
              LockCall.logMsg (LockMsg.rollbackNotPerformed id) 1503] })) ∧
    ∀ (id : Nat) (code : Int),
      LockCall.logMsg (LockMsg.rollbackNotPerformed id) code ∉
        (TableInfo.rollbackWork 1503 [1, 2, 3] 0 none (NO_ERROR, true)
          { LockFields.new false with
            fOrigDbRootIds := [1, 3], fTableLocked := true, fTableLockID := 9,
            fProcessingBegun := true }).2.fLockCalls.drop 0 :=
  ⟨(rollbackWork_refuses_missing_root 1503 [1, 3] 0 none (NO_ERROR, true)
      { LockFields.new false with
        fOrigDbRootIds := [1, 2, 3], fTableLocked := true, fTableLockID := 9,
        fProcessingBegun := true }).1 ⟨2, by decide, by decide⟩,
    (rollbackWork_refuses_missing_root 1503 [1, 2, 3] 0 none (NO_ERROR, true)
      { LockFields.new false with
        fOrigDbRootIds := [1, 3], fTableLocked := true, fTableLockID := 9,
        fProcessingBegun := true }).2 (by decide)⟩


/-- C24 (counterexample): every original DBRoot is still local and no rollback
is needed, yet the meta-data file is not deleted: with `fKeepRbMetaFile` set,
`rollbackWork` releases the table lock and returns `NO_ERROR` without a call of
`deleteFile`; and in a distributed mode it neither deletes the file nor calls
BRM to release the lock. -/
theorem rollbackWork_counterexample :
    ((∀ id ∈ [1], id ∈ [1]) ∧
      TableInfo.rollbackWork 1503 [1] 0 none (NO_ERROR, true)
          { LockFields.new true with
            fOrigDbRootIds := [1], fTableLocked := true, fTableLockID := 9 } =
        (NO_ERROR,
          { LockFields.new true with
            fOrigDbRootIds := [1], fTableLocked := false, fTableLockID := 9,
            fLockCalls := [LockCall.closeOpenDbFiles, LockCall.getRootIdList,
              LockCall.brmReleaseTableLock 9 NO_ERROR true] })) ∧
    TableInfo.rollbackWork 1503 [1] 0 none (NO_ERROR, true)
        { LockFields.new false with
          fBulkMode := BulkModeType.BULK_MODE_REMOTE_SINGLE_SRC, fOrigDbRootIds := [1] } =
      (NO_ERROR,
        { LockFields.new false with
          fBulkMode := BulkModeType.BULK_MODE_REMOTE_SINGLE_SRC, fOrigDbRootIds := [1],
          fLockCalls := [LockCall.closeOpenDbFiles, LockCall.getRootIdList] }) := by
  decide

/-- C24 (amended): in local mode, when every original DBRoot is in the current
list, `rollbackWork` calls `BulkRollbackMgr::rollback` exactly when processing
had begun.  If that rollback fails, its code is returned and nothing but the
error message follows it (no deletion, no release, `fTableLocked` as before).
Otherwise the meta-data file is deleted unless `fKeepRbMetaFile` is set, then
BRM is asked to release the lock, and the returned code is that of
`releaseTableLock`. -/
theorem rollbackWork_roots_present (ERR_BULK_ROLLBACK_MISS_ROOT : Int)
    (dbRootIds : List Nat) (rollbackRc : Int) (deleteFileErr : Option Int)
    (release : Int × Bool) (tl : LockFields)
    (hall : ∀ id ∈ tl.fOrigDbRootIds, id ∈ dbRootIds) (hlocal : ¬ tl.distributed) :
    (LockCall.rollback tl.fKeepRbMetaFile ∈
        (TableInfo.rollbackWork ERR_BULK_ROLLBACK_MISS_ROOT dbRootIds rollbackRc deleteFileErr
          release tl).2.fLockCalls.drop tl.fLockCalls.length ↔ tl.fProcessingBegun = true) ∧
    (tl.fProcessingBegun = true → rollbackRc ≠ NO_ERROR →
      TableInfo.rollbackWork ERR_BULK_ROLLBACK_MISS_ROOT dbRootIds rollbackRc deleteFileErr
          release tl =
        (rollbackRc, { tl with fLockCalls := tl.fLockCalls ++
          [LockCall.closeOpenDbFiles, LockCall.getRootIdList,
            LockCall.rollback tl.fKeepRbMetaFile,
            LockCall.logMsg LockMsg.rollbackError rollbackRc] })) ∧
    (¬ (tl.fProcessingBegun = true ∧ rollbackRc ≠ NO_ERROR) →
      (TableInfo.rollbackWork ERR_BULK_ROLLBACK_MISS_ROOT dbRootIds rollbackRc deleteFileErr
          release tl).1 = (TableInfo.releaseTableLock release tl).1 ∧
      (TableInfo.rollbackWork ERR_BULK_ROLLBACK_MISS_ROOT dbRootIds rollbackRc deleteFileErr
          release tl).2 =
        { tl with
          fTableLocked := (if release.1 = NO_ERROR then false else tl.fTableLocked)
          fLockCalls := tl.fLockCalls ++
            ([LockCall.closeOpenDbFiles, LockCall.getRootIdList] ++
              (if tl.fProcessingBegun = true then [LockCall.rollback tl.fKeepRbMetaFile]
                else []) ++
              (if tl.fKeepRbMetaFile = true then []
                else LockCall.deleteFile :: (match deleteFileErr with
                  | some code => [LockCall.logMsg LockMsg.deleteMetaError code]
                  | none => [])) ++
              LockCall.brmReleaseTableLock tl.fTableLockID release.1 release.2 ::
                (if release.1 = NO_ERROR then []
                  else [LockCall.logMsg LockMsg.releaseError release.1,
                    LockCall.logMsg LockMsg.lockNotCleared release.1])) }) := by
  rw [rollbackWork_eq _ _ _ _ _ _ hall, releaseTableLock_eq]
  refine ⟨?_, ?_, ?_⟩
  · by_cases hb : tl.fProcessingBegun = true ∧ rollbackRc ≠ NO_ERROR
    · rw [if_pos hb]; simp [hb.1]
    · rw [if_neg hb]
      dsimp only
      rw [List.drop_left]
      by_cases hp : tl.fProcessingBegun = true
      · simp [hp]
      · cases deleteFileErr <;> simp [hp, hlocal]
  · intro hp hr
    rw [if_pos ⟨hp, hr⟩]
  · intro hb
    rw [if_neg hb]
    simp [hlocal]


theorem rollbackWork_roots_present_witness :
    (TableInfo.rollbackWork 1503 [2, 1, 3] 0 none (NO_ERROR, true)
        { LockFields.new false with
          fOrigDbRootIds := [1, 2], fTableLocked := true, fTableLockID := 9,
          fProcessingBegun := true }).1 = NO_ERROR ∧
    (TableInfo.rollbackWork 1503 [2, 1, 3] 0 none (NO_ERROR, true)
        { LockFields.new false with
          fOrigDbRootIds := [1, 2], fTableLocked := true, fTableLockID := 9,
          fProcessingBegun := true }).2 =
      { LockFields.new false with
        fOrigDbRootIds := [1, 2], fTableLocked := false, fTableLockID := 9,
        fProcessingBegun := true,
        fLockCalls := [LockCall.closeOpenDbFiles, LockCall.getRootIdList,
          LockCall.rollback false, LockCall.deleteFile,
          LockCall.brmReleaseTableLock 9 NO_ERROR true] } := by
  have h := (rollbackWork_roots_present 1503 [2, 1, 3] 0 none (NO_ERROR, true)
    { LockFields.new false with
      fOrigDbRootIds := [1, 2], fTableLocked := true, fTableLockID := 9,
      fProcessingBegun := true } (by decide) (by decide)).2.2 (by decide)
  exact ⟨h.1.trans (by decide), h.2.trans (by decide)⟩

/-- The retry loop when BRM keeps answering "locked": `m` attempts are made,
where the `m`-th is the first at which `try_count` reaches `NUM_TRIES`, and the
loop ends in the timeout. -/
theorem acquireLoop_locked (E T : Int) (g : Nat → Int × Nat) (hg : ∀ n, (g n).2 = 0) :
    ∀ (m fuel n : Nat) (c : Int) (tl : LockFields), 1 ≤ m → m ≤ fuel → T ≤ c + m →
      (m = 1 ∨ c + m ≤ T) →
      TableInfo.acquireLoop E false T g fuel n c tl =
        some (E, { tl with
          fTableLockID := 0
          fLockCalls := tl.fLockCalls ++
            ((List.range m).flatMap (fun i =>
              [LockCall.getTableLock (g (n + i)).1 0, LockCall.sleepMS 100]) ++
              [LockCall.logMsg LockMsg.unableToAcquire E]) }) := by
  intro m
  induction m with
  | zero => intro fuel n c tl h; omega
  | succ m ih =>
    intro fuel n c tl _ hfuel hT hle
    obtain ⟨fuel, rfl⟩ : ∃ f, fuel = f + 1 := ⟨fuel - 1, by omega⟩
    have hgn := hg n
    by_cases hm : m = 0
    · subst hm
      have hc : c + 1 ≥ T := by simpa using hT
      simp only [TableInfo.acquireLoop, hgn, gt_iff_lt, lt_self_iff_false, and_false, if_false,
        if_true, Bool.false_eq_true, hc, LockFields.call]
      simp [List.range_succ_eq_map]
    · have hc : ¬ (c + 1 ≥ T) := by
        rcases hle with h | h
        · omega
        · push_cast at h; omega
      simp only [TableInfo.acquireLoop, hgn, gt_iff_lt, lt_self_iff_false, and_false, if_false,
        if_true, Bool.false_eq_true, hc]
      rw [ih fuel (n + 1) (c + 1) _ (by omega) (by omega) (by push_cast at hT; omega)
        (by right; rcases hle with h | h
            · omega
            · push_cast at h; omega)]
      simp only [LockFields.call, List.range_succ_eq_map, List.flatMap_cons, List.flatMap_map,
        Option.some.injEq, Prod.mk.injEq, true_and, hgn]
      simp [Nat.add_assoc, Nat.add_comm 1]


/-- The retry loop when BRM answers "locked" `k` times and then grants the
lock `id`: the loop ends in success at attempt `k + 1`, provided the timeout
is disabled or not yet reached. -/
theorem acquireLoop_granted (E T : Int) (g : Nat → Int × Nat) (d : Bool) (id : Nat)
    (hid : id ≠ 0) :
    ∀ (k fuel n : Nat) (c : Int) (tl : LockFields), k + 1 ≤ fuel →
      (∀ i, i < k → (g (n + i)).2 = 0) → g (n + k) = (NO_ERROR, id) →
      (d = true ∨ k = 0 ∨ c + k < T) →
      TableInfo.acquireLoop E d T g fuel n c tl =
        some (NO_ERROR, { tl with
          fTableLocked := true
          fTableLockID := id
          fLockCalls := tl.fLockCalls ++
            ((List.range k).flatMap (fun i =>
              [LockCall.getTableLock (g (n + i)).1 0, LockCall.sleepMS 100]) ++
              [LockCall.getTableLock NO_ERROR id]) }) := by
  intro k
  induction k with
  | zero =>
    intro fuel n c tl hfuel _ hk _
    obtain ⟨fuel, rfl⟩ : ∃ f, fuel = f + 1 := ⟨fuel - 1, by omega⟩
    have hk2 : g n = (NO_ERROR, id) := by simpa using hk
    have hpos : id > 0 := Nat.pos_of_ne_zero hid
    simp [TableInfo.acquireLoop, hk2, hpos, LockFields.call]
  | succ k ih =>
    intro fuel n c tl hfuel hlocked hk hT
    obtain ⟨fuel, rfl⟩ : ∃ f, fuel = f + 1 := ⟨fuel - 1, by omega⟩
    have hgn : (g n).2 = 0 := by simpa using hlocked 0 (by omega)
    have hrec : ∀ c2 : Int, (d = true ∨ k = 0 ∨ c2 + k < T) →
        TableInfo.acquireLoop E d T g fuel (n + 1) c2
            (({ tl with fTableLockID := (g n).2 }).call
              (LockCall.getTableLock (g n).1 (g n).2) |>.call (LockCall.sleepMS 100)) =
          some (NO_ERROR, { tl with
            fTableLocked := true
            fTableLockID := id
            fLockCalls := tl.fLockCalls ++
              ((List.range (k + 1)).flatMap (fun i =>
                [LockCall.getTableLock (g (n + i)).1 0, LockCall.sleepMS 100]) ++
                [LockCall.getTableLock NO_ERROR id]) }) := by
      intro c2 hc2
      rw [ih fuel (n + 1) c2 _ (by omega)
        (fun i hi => by have := hlocked (i + 1) (by omega); rwa [Nat.add_assoc, Nat.add_comm 1])
        (by rw [Nat.add_assoc, Nat.add_comm 1]; exact hk) hc2]
      simp only [LockFields.call, List.range_succ_eq_map, List.flatMap_cons, List.flatMap_map,
        Option.some.injEq, Prod.mk.injEq, true_and, hgn]
      simp [Nat.add_assoc, Nat.add_comm 1]
    simp only [TableInfo.acquireLoop, hgn, gt_iff_lt, lt_self_iff_false, and_false, if_false,
      if_true]
    cases d with
    | true =>
      simp only [if_true]
      have := hrec c (Or.inl rfl)
      simp only [hgn] at this
      exact this
    | false =>
      have hT2 : c + (k + 1 : Nat) < T := by
        rcases hT with h | h | h
        · cases h
        · omega
        · exact h
      have hc : ¬ (c + 1 ≥ T) := by push_cast at hT2; omega
      simp only [Bool.false_eq_true, if_false, hc]
      have := hrec (c + 1) (Or.inr (Or.inr (by push_cast at hT2; omega)))
      simp only [hgn] at this
      exact this


/-- C25: `acquireTableLock` in local mode, with `10 * waitPeriod` in the range
of `int` and `N = max(1, 10 * waitPeriod)`.  If every `getTableLock` attempt
leaves lock id 0 and the timeout is enabled, the call ends (with any fuel of
at least `N`) after exactly `N` attempts, each followed by a sleep of 100 ms,
returns `ERR_TBLLOCK_GET_LOCK_LOCKED` and leaves `fTableLocked` as it was.  If
the attempts before attempt `k` leave lock id 0 and attempt `k` returns
`NO_ERROR` with a lock id other than 0, before the timeout or with the timeout
disabled, the call returns `NO_ERROR` right after that attempt with
`fTableLocked` set and the lock id stored. -/
theorem acquireTableLock_timeout (ERR_TBLLOCK_GET_LOCK_LOCKED : Int) (rootIdList : List Nat)
    (waitPeriod : Int) (getTableLock : Nat → Int × Nat) (tl : LockFields) (N : Nat)
    (hlocal : ¬ tl.distributed)
    (_hrange : -2147483648 ≤ 10 * waitPeriod ∧ 10 * waitPeriod ≤ 2147483647)
    (hN : (N : Int) = max 1 (10 * waitPeriod)) :
    ((∀ n, (getTableLock n).2 = 0) → ∀ fuel, N ≤ fuel →
      ∃ t, TableInfo.acquireTableLock ERR_TBLLOCK_GET_LOCK_LOCKED rootIdList waitPeriod
            getTableLock fuel false tl = some (ERR_TBLLOCK_GET_LOCK_LOCKED, t) ∧
        t.fTableLocked = tl.fTableLocked ∧
        t.fLockCalls = tl.fLockCalls ++ (LockCall.getRootIdList ::
          ((List.range N).flatMap (fun i =>
            [LockCall.getTableLock (getTableLock i).1 0, LockCall.sleepMS 100]) ++
            [LockCall.logMsg LockMsg.unableToAcquire ERR_TBLLOCK_GET_LOCK_LOCKED]))) ∧
    (∀ (k id : Nat) (disableTimeOut : Bool), (∀ i, i < k → (getTableLock i).2 = 0) →
      getTableLock k = (NO_ERROR, id) → id ≠ 0 → (disableTimeOut = true ∨ k < N) →
      ∀ fuel, k + 1 ≤ fuel →
      ∃ t, TableInfo.acquireTableLock ERR_TBLLOCK_GET_LOCK_LOCKED rootIdList waitPeriod
            getTableLock fuel disableTimeOut tl = some (NO_ERROR, t) ∧
        t.fTableLocked = true ∧ t.fTableLockID = id ∧
        t.fLockCalls = tl.fLockCalls ++ (LockCall.getRootIdList ::
          ((List.range k).flatMap (fun i =>
            [LockCall.getTableLock (getTableLock i).1 0, LockCall.sleepMS 100]) ++
            [LockCall.getTableLock NO_ERROR id]))) := by
  have hloc : ¬ (({ tl with fOrigDbRootIds := rootIdList }).call
      LockCall.getRootIdList).distributed := hlocal
  have hN2 : (N : Int) ≤ 10 * waitPeriod ∨ N = 1 := by
    by_cases h1 : 10 * waitPeriod ≤ 1
    · right
      have : (N : Int) = 1 := by rw [hN]; exact max_eq_left h1
      exact_mod_cast this
    · left; rw [hN, max_eq_right (by omega)]
  constructor
  · intro hg fuel hfuel
    have hN1 : 1 ≤ N := by
      have : (1 : Int) ≤ N := by rw [hN]; exact le_max_left _ _
      exact_mod_cast this
    have hres := acquireLoop_locked ERR_TBLLOCK_GET_LOCK_LOCKED (10 * waitPeriod) getTableLock
      hg N fuel 0 0 (({ tl with fOrigDbRootIds := rootIdList }).call LockCall.getRootIdList)
      hN1 hfuel (by rw [zero_add, hN]; exact le_max_right _ _)
      (by rcases hN2 with h | h
          · right; rw [zero_add]; exact h
          · left; exact h)
    simp only [TableInfo.acquireTableLock, if_neg hloc]
    rw [hres]
    exact ⟨_, rfl, rfl, by simp [LockFields.call]⟩
  · intro k id d hlocked hk hid hT fuel hfuel
    have hres := acquireLoop_granted ERR_TBLLOCK_GET_LOCK_LOCKED (10 * waitPeriod) getTableLock
      d id hid k fuel 0 0 (({ tl with fOrigDbRootIds := rootIdList }).call LockCall.getRootIdList)
      hfuel (fun i hi => by simpa using hlocked i hi) (by simpa using hk)
      (by
        rcases hT with h | h
        · exact Or.inl h
        · right
          rcases hN2 with h3 | h3
          · right
            have h2 : (k : Int) < N := by exact_mod_cast h
            omega
          · left; omega)
    simp only [TableInfo.acquireTableLock, if_neg hloc]
    rw [hres]
    exact ⟨_, rfl, rfl, rfl, by simp [LockFields.call]⟩


theorem acquireTableLock_timeout_witness :
    (∃ t, TableInfo.acquireTableLock 1500 [1] 1 (fun _ => (NO_ERROR, 0)) 10 false
          (LockFields.new false) = some (1500, t) ∧
        t.fTableLocked = (LockFields.new false).fTableLocked ∧
        t.fLockCalls = (LockFields.new false).fLockCalls ++ (LockCall.getRootIdList ::
          ((List.range 10).flatMap (fun i =>
            [LockCall.getTableLock ((fun _ => (NO_ERROR, 0)) i : Int × Nat).1 0,
              LockCall.sleepMS 100]) ++
            [LockCall.logMsg LockMsg.unableToAcquire 1500]))) ∧
    (∃ t, TableInfo.acquireTableLock 1500 [1] 1
          (fun n => if n < 3 then (NO_ERROR, 0) else (NO_ERROR, 42)) 4 false
          (LockFields.new false) = some (NO_ERROR, t) ∧
        t.fTableLocked = true ∧ t.fTableLockID = 42 ∧
        t.fLockCalls = (LockFields.new false).fLockCalls ++ (LockCall.getRootIdList ::
          ((List.range 3).flatMap (fun i =>
            [LockCall.getTableLock
              ((fun n => if n < 3 then (NO_ERROR, 0) else (NO_ERROR, 42)) i : Int × Nat).1 0,
              LockCall.sleepMS 100]) ++
            [LockCall.getTableLock NO_ERROR 42]))) :=
  ⟨(acquireTableLock_timeout 1500 [1] 1 (fun _ => (NO_ERROR, 0)) (LockFields.new false) 10
      (by decide) (by decide) (by decide)).1 (fun _ => rfl) 10 le_rfl,
    (acquireTableLock_timeout 1500 [1] 1
      (fun n => if n < 3 then (NO_ERROR, 0) else (NO_ERROR, 42)) (LockFields.new false) 10
      (by decide) (by decide) (by decide)).2 3 42 false
      (by intro i hi; interval_cases i <;> rfl) rfl (by decide) (Or.inr (by decide)) 4 le_rfl⟩

/-- C26: in the distributed modes `acquireTableLock`, `changeTableLockState`
and `releaseTableLock` return `NO_ERROR` with no BRM call; `acquireTableLock`
only stores the DBRoot list, the other two leave every data member as it was
(so `fTableLocked` and `fTableLockID` are unchanged by all three); and
`deleteMetaDataRollbackFile` and `deleteTempDBFileChanges` do nothing. -/
theorem distributed_lock_noop (ERR_TBLLOCK_GET_LOCK_LOCKED : Int) (rootIdList : List Nat)
    (waitPeriod : Int) (getTableLock : Nat → Int × Nat) (fuel : Nat) (disableTimeOut : Bool)
    (a : Int × Bool) (deleteFileErr : Option Int) (useHdfs : Bool) (rc : Int)
    (tl : LockFields)
    (hmode : tl.fBulkMode = BulkModeType.BULK_MODE_REMOTE_SINGLE_SRC ∨
      tl.fBulkMode = BulkModeType.BULK_MODE_REMOTE_MULTIPLE_SRC) :
    TableInfo.acquireTableLock ERR_TBLLOCK_GET_LOCK_LOCKED rootIdList waitPeriod getTableLock
        fuel disableTimeOut tl =
      some (NO_ERROR, { tl with
        fOrigDbRootIds := rootIdList
        fLockCalls := tl.fLockCalls ++ [LockCall.getRootIdList] }) ∧
    TableInfo.changeTableLockState a tl = (NO_ERROR, tl) ∧
    TableInfo.releaseTableLock a tl = (NO_ERROR, tl) ∧
    TableInfo.deleteMetaDataRollbackFile deleteFileErr tl = tl ∧
    TableInfo.deleteTempDBFileChanges useHdfs rc tl = tl := by
  have hd : tl.distributed := hmode
  have hd0 : (({ tl with fOrigDbRootIds := rootIdList }).call
      LockCall.getRootIdList).distributed := hmode
  refine ⟨?_, ?_, ?_, ?_, ?_⟩
  · simp only [TableInfo.acquireTableLock, if_pos hd0]
    rfl
  · simp only [TableInfo.changeTableLockState, if_pos hd]
  · simp only [TableInfo.releaseTableLock, if_pos hd]
  · simp only [TableInfo.deleteMetaDataRollbackFile, if_pos hd]
  · simp only [TableInfo.deleteTempDBFileChanges, if_pos hd]

theorem distributed_lock_noop_witness :
    TableInfo.acquireTableLock 1500 [1, 2] 10 (fun _ => (NO_ERROR, 7)) 0 false
        { LockFields.new false with
          fBulkMode := BulkModeType.BULK_MODE_REMOTE_MULTIPLE_SRC } =
      some (NO_ERROR, { LockFields.new false with
        fBulkMode := BulkModeType.BULK_MODE_REMOTE_MULTIPLE_SRC
        fOrigDbRootIds := [1, 2]
        fLockCalls := [LockCall.getRootIdList] }) ∧
    TableInfo.releaseTableLock (NO_ERROR, true)
        { LockFields.new false with
          fBulkMode := BulkModeType.BULK_MODE_REMOTE_MULTIPLE_SRC } =
      (NO_ERROR, { LockFields.new false with
          fBulkMode := BulkModeType.BULK_MODE_REMOTE_MULTIPLE_SRC }) :=
  have h := distributed_lock_noop 1500 [1, 2] 10 (fun _ => (NO_ERROR, 7)) 0 false
    (NO_ERROR, true) none true 0
    { LockFields.new false with fBulkMode := BulkModeType.BULK_MODE_REMOTE_MULTIPLE_SRC }
    (Or.inr rfl)
  ⟨h.1, h.2.2.1⟩

/-- C27: in local mode, whenever BRM's release reports success,
`releaseTableLock` returns `NO_ERROR` and leaves `fTableLocked = false`,
whatever `bReleased` is.  With BRM's lock table, two calls in a row both
return `NO_ERROR`, and BRM answers the second with `bReleased = false`. -/
theorem releaseTableLock_idempotent (tl : LockFields) (hlocal : ¬ tl.distributed) :
    (∀ bReleased : Bool,
      TableInfo.releaseTableLock (NO_ERROR, bReleased) tl =
        (NO_ERROR, { tl with
          fTableLocked := false
          fLockCalls := tl.fLockCalls ++
            [LockCall.brmReleaseTableLock tl.fTableLockID NO_ERROR bReleased] })) ∧
    (∀ held : List Nat,
      (TableInfo.releaseTableLockOn held tl).rc = NO_ERROR ∧
      (TableInfo.releaseTableLockOn (TableInfo.releaseTableLockOn held tl).held
        (TableInfo.releaseTableLockOn held tl).tl).rc = NO_ERROR ∧
      (TableInfo.releaseTableLockOn (TableInfo.releaseTableLockOn held tl).held
        (TableInfo.releaseTableLockOn held tl).tl).bReleased = false ∧
      (TableInfo.releaseTableLockOn (TableInfo.releaseTableLockOn held tl).held
        (TableInfo.releaseTableLockOn held tl).tl).tl.fTableLocked = false) := by
  constructor
  · intro b
    simp [TableInfo.releaseTableLock, hlocal, LockFields.call]
  · intro held
    have hl2 : ∀ (x : Bool) (c : List LockCall),
        ¬ LockFields.distributed { tl with fTableLocked := x, fLockCalls := c } :=
      fun _ _ => hlocal
    by_cases hm : tl.fTableLockID ∈ held <;>
    simp [TableInfo.releaseTableLockOn, TableInfo.releaseTableLock, BRMWrapper.releaseTableLock,
      hlocal, hl2, hm, LockFields.call]

theorem releaseTableLock_idempotent_witness :
    (TableInfo.releaseTableLockOn [4, 9]
        { LockFields.new false with fTableLocked := true, fTableLockID := 9 }).bReleased = true ∧
    (TableInfo.releaseTableLockOn [4, 9]
        { LockFields.new false with fTableLocked := true, fTableLockID := 9 }).rc = NO_ERROR ∧
    (TableInfo.releaseTableLockOn
        (TableInfo.releaseTableLockOn [4, 9]
          { LockFields.new false with fTableLocked := true, fTableLockID := 9 }).held
        (TableInfo.releaseTableLockOn [4, 9]
          { LockFields.new false with fTableLocked := true, fTableLockID := 9 }).tl).rc =
      NO_ERROR ∧
    (TableInfo.releaseTableLockOn
        (TableInfo.releaseTableLockOn [4, 9]
          { LockFields.new false with fTableLocked := true, fTableLockID := 9 }).held
        (TableInfo.releaseTableLockOn [4, 9]
          { LockFields.new false with fTableLocked := true, fTableLockID := 9 }).tl).bReleased =
      false :=
  have h := (releaseTableLock_idempotent
    { LockFields.new false with fTableLocked := true, fTableLockID := 9 } (by decide)).2 [4, 9]
  ⟨by decide, h.1, h.2.1, h.2.2.1⟩

/-- A path followed by `/storagemanager.cnf` is not the empty string. -/
theorem cnf_not_empty (p : String) : (p ++ "/storagemanager.cnf").isEmpty = false := by
  have h : (p ++ "/storagemanager.cnf").length = p.length + 19 := by
    rw [String.length_append]; rfl
  cases hE : (p ++ "/storagemanager.cnf").isEmpty
  · rfl
  · have : (p ++ "/storagemanager.cnf") = "" := by
      simpa [String.isEmpty_iff] using hE
    rw [this] at h
    simp at h

/-- C28: `Config::Config` goes on to read `.//storagemanager.cnf` when that
file exists; otherwise, when `COLUMNSTORE_INSTALL_DIR` is set to `d` and the
file exists under `d`, that one; otherwise, when it exists under `/etc`, that
one; and it throws `runtime_error` exactly when the file exists under none of
the directories searched. -/
theorem Config_resolution (fileExists : String → Bool) (cs_install_dir : Option String) :
    (fileExists ".//storagemanager.cnf" = true →
      Config.Config fileExists cs_install_dir =
        ConfigOutcome.read_ini ".//storagemanager.cnf") ∧
    (∀ d, fileExists ".//storagemanager.cnf" = false → cs_install_dir = some d →
      fileExists (d ++ "/storagemanager.cnf") = true →
      Config.Config fileExists cs_install_dir =
        ConfigOutcome.read_ini (d ++ "/storagemanager.cnf")) ∧
    (fileExists ".//storagemanager.cnf" = false →
      (∀ d, cs_install_dir = some d → fileExists (d ++ "/storagemanager.cnf") = false) →
      fileExists "/etc/storagemanager.cnf" = true →
      Config.Config fileExists cs_install_dir =
        ConfigOutcome.read_ini "/etc/storagemanager.cnf") ∧
    ((∃ what, Config.Config fileExists cs_install_dir = ConfigOutcome.runtime_error what) ↔
      fileExists ".//storagemanager.cnf" = false ∧
      (∀ d, cs_install_dir = some d → fileExists (d ++ "/storagemanager.cnf") = false) ∧
      fileExists "/etc/storagemanager.cnf" = false) := by
  have hne := cnf_not_empty
  have he : "".isEmpty = true := by decide
  have hdot : ".//storagemanager.cnf".isEmpty = false := by decide
  have hetc : "/etc/storagemanager.cnf".isEmpty = false := by decide
  cases cs_install_dir with
  | none =>
    cases h1 : fileExists ".//storagemanager.cnf" <;>
    cases h3 : fileExists "/etc/storagemanager.cnf" <;>
    simp [Config.Config, Config.search, h1, h3, hne, he, hdot, hetc]
  | some d =>
    cases h1 : fileExists ".//storagemanager.cnf" <;>
    cases h2 : fileExists (d ++ "/storagemanager.cnf") <;>
    cases h3 : fileExists "/etc/storagemanager.cnf" <;>
    simp [Config.Config, Config.search, h1, h2, h3, hne, he, hdot, hetc]


set_option maxRecDepth 100000 in
/-- C29 (code defect): a load of two input files.  The first file is read in
two buffers of 1,000,000 rows each, and a progress event is posted after each
(rows 1,000,000 and 2,000,000).  The reader then opens the second file and the
per-file count restarts at 0; the next buffer brings the count of the second
file to 1,000,000, a new multiple of 1,000,000 for that file, and no event is
posted, because `qtSentAt` still holds the 2 of the first file. -/
theorem progress_not_posted_for_second_file :
    (run sampleCodes [Event.readStart 2 true,
        Event.jobCheck false, Event.waitBuffer false, Event.fill (goodFill 1000000 0 false),
        Event.jobCheck false, Event.waitBuffer false, Event.fill (goodFill 2000000 0 true)]
        (Sys.init [⟨4, 0⟩] 4 5)).map
        (fun s => (s.pc, s.loc.fileCounter, s.loc.totalRowsPerInputFile, s.loc.qtSentAt,
          s.loc.progressPosts))
      = some (ReaderPC.top, 2, 0, 2, [1000000, 2000000]) ∧
    (run sampleCodes [Event.readStart 2 true,
        Event.jobCheck false, Event.waitBuffer false, Event.fill (goodFill 1000000 0 false),
        Event.jobCheck false, Event.waitBuffer false, Event.fill (goodFill 2000000 0 true),
        Event.jobCheck false, Event.waitBuffer false, Event.fill (goodFill 1000000 0 false)]
        (Sys.init [⟨4, 0⟩] 4 5)).map
        (fun s => (s.pc, s.loc.fileCounter, s.loc.totalRowsPerInputFile, s.loc.qtSentAt,
          s.loc.progressPosts))
      = some (ReaderPC.top, 2, 1000000, 2, [1000000, 2000000]) := by
  refine ⟨?_, ?_⟩ <;> decide

/-- C30: `lockForRead` returns `true` exactly when `fLocker` is `-1` and the
status is `NEW`; when it returns `false` the state is unchanged, and when it
returns `true` the state differs from the old one in `fLocker` only, which is
the caller's id. -/
theorem lockForRead_frame (ti : TableInfo) (locker : Int) :
    ((ti.lockForRead locker).1 = true ↔ ti.fLocker = -1 ∧ ti.fStatusTI = Status.NEW) ∧
    ((ti.lockForRead locker).1 = false → (ti.lockForRead locker).2 = ti) ∧
    ((ti.lockForRead locker).1 = true →
      (ti.lockForRead locker).2 = { ti with fLocker := locker }) := by
  unfold TableInfo.lockForRead
  split_ifs with h1 h2
  · simp [h1, h2]
  · simp [h2]
  · simp [h1]

/-- The min/max fields after the `bufStats` update of an aux row are the pair
update of the min/max fields before. -/
theorem auxAccumulate_pair (column : JobColumn) (b : BLBufferStats) :
    ((auxAccumulate column b).minBufferVal, (auxAccumulate column b).maxBufferVal) =
      auxMinMax column (b.minBufferVal, b.maxBufferVal) := by
  unfold auxAccumulate auxMinMax
  cases (auxValue column).2 <;> simp only [Bool.false_eq_true, if_false, if_true] <;>
    split_ifs <;> rfl

/-- After a reset a column of width at most 8 holds the identity pair. -/
theorem resetBufStats_pair (k : CpConsts) (column : JobColumn) (isUnsigned : Bool)
    (b : BLBufferStats) (hw : column.width ≤ 8) :
    ((resetBufStats k column isUnsigned b).minBufferVal,
      (resetBufStats k column isUnsigned b).maxBufferVal) = identityPair k isUnsigned := by
  unfold resetBufStats identityPair
  cases isUnsigned <;> simp [hw]

/-- A boundary row: the accumulator with the row's value is flushed with the
boundary, the boundary moves on and the accumulator is reset. -/
theorem auxRow_boundary (k : CpConsts) (column : JobColumn) (isUnsigned : Bool)
    (rowsPerExtent bs batch_processed : Nat) (s : AuxLocals) (i : Nat)
    (hw : column.width ≤ 8) (hb : bs * batch_processed + i = s.lastInputRowInExtent) :
    auxRow k column isUnsigned rowsPerExtent bs batch_processed s i =
      { bufStats := resetBufStats k column isUnsigned (auxAccumulate column s.bufStats)
        lastInputRowInExtent := s.lastInputRowInExtent + rowsPerExtent
        updateCPInfoPendingFlag := false
        cpCalls := s.cpCalls ++ [⟨s.lastInputRowInExtent,
          (auxAccumulate column s.bufStats).minBufferVal,
          (auxAccumulate column s.bufStats).maxBufferVal⟩]
        cells := s.cells ++ [wrapUnsigned 8 (auxValue column).1] } := by
  simp only [auxRow, hb, if_true, AuxLocals.updateCPInfo, if_pos hw]

/-- A row that is not a boundary row: its value enters the accumulator and
nothing is flushed. -/
theorem auxRow_inner (k : CpConsts) (column : JobColumn) (isUnsigned : Bool)
    (rowsPerExtent bs batch_processed : Nat) (s : AuxLocals) (i : Nat)
    (hb : bs * batch_processed + i ≠ s.lastInputRowInExtent) :
    auxRow k column isUnsigned rowsPerExtent bs batch_processed s i =
      { s with
        bufStats := auxAccumulate column s.bufStats
        cells := s.cells ++ [wrapUnsigned 8 (auxValue column).1]
        updateCPInfoPendingFlag := true } := by
  simp only [auxRow, hb, if_false]


/-- The flushes of a split with one more segment at the end. -/
theorem segmentFlushes_snoc (k : CpConsts) (column : JobColumn) (isUnsigned : Bool)
    (rowsPerExtent : Nat) (segs : List (List Nat)) (t : List Nat) :
    ∀ (last : Nat) (base : Int × Int),
    segmentFlushes k column isUnsigned rowsPerExtent last base (segs ++ [t]) =
      segmentFlushes k column isUnsigned rowsPerExtent last base segs ++
        [⟨last + segs.length * rowsPerExtent,
          ((auxMinMax column)^[t.length]
            (if segs = [] then base else identityPair k isUnsigned)).1,
          ((auxMinMax column)^[t.length]
            (if segs = [] then base else identityPair k isUnsigned)).2⟩] := by
  induction segs with
  | nil => intro last base; simp [segmentFlushes]
  | cons seg rest ih =>
    intro last base
    have e : last + rowsPerExtent + rest.length * rowsPerExtent =
        last + (rest.length + 1) * rowsPerExtent := by ring
    rw [List.cons_append, segmentFlushes, ih]
    simp only [segmentFlushes, List.length_cons, reduceCtorEq, if_false, ite_self, e,
      List.cons_append]

/-- The aux-column rows `rows`, run from any state `s`, split into segments
that each end with a flush, and a tail that has not been flushed yet. -/
theorem auxRows_split (k : CpConsts) (column : JobColumn) (isUnsigned : Bool)
    (rowsPerExtent bs batch_processed : Nat) (hw : column.width ≤ 8) (rows : List Nat) :
    ∀ s : AuxLocals, ∃ (segs : List (List Nat)) (tail : List Nat),
      segs.flatten ++ tail = rows ∧ (∀ seg ∈ segs, seg ≠ []) ∧
      (rows.foldl (auxRow k column isUnsigned rowsPerExtent bs batch_processed) s).cpCalls =
        s.cpCalls ++ segmentFlushes k column isUnsigned rowsPerExtent s.lastInputRowInExtent
          (s.bufStats.minBufferVal, s.bufStats.maxBufferVal) segs ∧
      (rows.foldl (auxRow k column isUnsigned rowsPerExtent bs batch_processed)
          s).lastInputRowInExtent = s.lastInputRowInExtent + segs.length * rowsPerExtent ∧
      ((rows.foldl (auxRow k column isUnsigned rowsPerExtent bs batch_processed)
            s).bufStats.minBufferVal,
          (rows.foldl (auxRow k column isUnsigned rowsPerExtent bs batch_processed)
            s).bufStats.maxBufferVal) =
        (auxMinMax column)^[tail.length]
          (if segs = [] then (s.bufStats.minBufferVal, s.bufStats.maxBufferVal)
            else identityPair k isUnsigned) ∧
      (rows.foldl (auxRow k column isUnsigned rowsPerExtent bs batch_processed)
          s).updateCPInfoPendingFlag =
        (if tail = [] then (if segs = [] then s.updateCPInfoPendingFlag else false)
          else true) := by
  induction rows with
  | nil =>
    intro s
    exact ⟨[], [], rfl, by simp, by simp [segmentFlushes], by simp, by simp, by simp⟩
  | cons r rs ih =>
    intro s
    rw [List.foldl_cons]
    by_cases hb : bs * batch_processed + r = s.lastInputRowInExtent
    · rw [auxRow_boundary k column isUnsigned rowsPerExtent bs batch_processed s r hw hb]
      obtain ⟨segs, tail, h1, h2, h3, h4, h5, h6⟩ := ih
        { bufStats := resetBufStats k column isUnsigned (auxAccumulate column s.bufStats)
          lastInputRowInExtent := s.lastInputRowInExtent + rowsPerExtent
          updateCPInfoPendingFlag := false
          cpCalls := s.cpCalls ++ [⟨s.lastInputRowInExtent,
            (auxAccumulate column s.bufStats).minBufferVal,
            (auxAccumulate column s.bufStats).maxBufferVal⟩]
          cells := s.cells ++ [wrapUnsigned 8 (auxValue column).1] }
      have hid := resetBufStats_pair k column isUnsigned (auxAccumulate column s.bufStats) hw
      have hacc := auxAccumulate_pair column s.bufStats
      simp only at h3 h4 h5 h6
      rw [hid] at h3 h5
      refine ⟨[r] :: segs, tail, by simp [h1], ?_, ?_, ?_, ?_, ?_⟩
      · intro seg hseg
        rcases List.mem_cons.mp hseg with h | h
        · rw [h]; simp
        · exact h2 seg h
      · rw [h3]
        simp only [segmentFlushes, List.length_singleton, Function.iterate_one,
          List.append_assoc, List.singleton_append, ← hacc]
      · rw [h4]; simp only [List.length_cons]; ring
      · rw [h5]; simp
      · rw [h6]; simp
    · rw [auxRow_inner k column isUnsigned rowsPerExtent bs batch_processed s r hb]
      obtain ⟨segs, tail, h1, h2, h3, h4, h5, h6⟩ := ih
        { s with
          bufStats := auxAccumulate column s.bufStats
          cells := s.cells ++ [wrapUnsigned 8 (auxValue column).1]
          updateCPInfoPendingFlag := true }
      have hacc := auxAccumulate_pair column s.bufStats
      simp only at h3 h4 h5 h6
      rw [hacc] at h3 h5
      cases segs with
      | nil =>
        simp only [List.flatten_nil, List.nil_append] at h1
        refine ⟨[], r :: tail, by simp [h1], by simp, ?_, ?_, ?_, ?_⟩
        · rw [h3]; rfl
        · rw [h4]
        · rw [h5]
          simp only [if_true, List.length_cons, Function.iterate_succ, Function.comp_apply]
        · rw [h6]; simp
      | cons seg rest =>
        refine ⟨(r :: seg) :: rest, tail, by simpa using h1, ?_, ?_, ?_, ?_, ?_⟩
        · intro x hx
          rcases List.mem_cons.mp hx with h | h
          · rw [h]; simp
          · exact h2 x (List.mem_cons_of_mem _ h)
        · rw [h3]
          simp only [segmentFlushes, List.length_cons, Function.iterate_succ,
            Function.comp_apply]
        · rw [h4]; simp
        · rw [h5]; simp
        · rw [h6]; simp


/-- Row `i` of the loop runs from the state that the rows before it leave. -/
theorem auxLoop_succ (k : CpConsts) (column : JobColumn) (isUnsigned : Bool)
    (rowsPerExtent bs batch_processed : Nat) (bufStats : BLBufferStats) (last i : Nat) :
    auxLoop k column isUnsigned rowsPerExtent bs batch_processed bufStats last (i + 1) =
      auxRow k column isUnsigned rowsPerExtent bs batch_processed
        (auxLoop k column isUnsigned rowsPerExtent bs batch_processed bufStats last i) i := by
  simp only [auxLoop, List.range_succ, List.foldl_append, List.foldl_cons, List.foldl_nil]

/-- The pending flag after the loop: set exactly when there was a last row and
it was not a boundary row. -/
theorem auxLoop_pending (k : CpConsts) (column : JobColumn) (isUnsigned : Bool)
    (rowsPerExtent bs batch_processed : Nat) (bufStats : BLBufferStats) (last n : Nat) :
    (auxLoop k column isUnsigned rowsPerExtent bs batch_processed bufStats last
        n).updateCPInfoPendingFlag = true ↔
      0 < n ∧ bs * batch_processed + (n - 1) ≠
        (auxLoop k column isUnsigned rowsPerExtent bs batch_processed bufStats last
          (n - 1)).lastInputRowInExtent := by
  cases n with
  | zero => simp [auxLoop, auxStart]
  | succ m =>
    rw [auxLoop_succ]
    simp only [Nat.add_sub_cancel, Nat.succ_pos, true_and]
    by_cases hb : bs * batch_processed + m =
        (auxLoop k column isUnsigned rowsPerExtent bs batch_processed bufStats last
          m).lastInputRowInExtent
    · simp [auxRow, hb]
    · simp [auxRow, hb]

/-- C32: the aux-column loop of `readParquetData` for a column of width at most
8 (the aux column is one byte wide).  Row `i` runs from the state left by the
rows before it.  If its global index `bs * batch_processed + i` equals
`lastInputRowInExtent`, the accumulator with the row's value is passed to
`updateCPInfo` together with that boundary, `lastInputRowInExtent` grows by
`rowsPerExtent` and the accumulator is reset to the identity of the type;
otherwise nothing is flushed and the row's value stays in the accumulator.
After the loop one more flush is made exactly when there was a last row and it
was not a boundary row.  Altogether the rows `0 .. n-1` split into consecutive
non-empty segments with one `updateCPInfo` call per segment, which carries the
minimum and maximum accumulated over the rows of that segment. -/
theorem aux_cp_rollover (k : CpConsts) (column : JobColumn) (isUnsigned : Bool)
    (rowsPerExtent bs batch_processed : Nat) (bufStats : BLBufferStats) (last n : Nat)
    (hw : column.width ≤ 8) :
    (∀ i, i < n →
      (bs * batch_processed + i =
          (auxLoop k column isUnsigned rowsPerExtent bs batch_processed bufStats last
            i).lastInputRowInExtent →
        (auxLoop k column isUnsigned rowsPerExtent bs batch_processed bufStats last
            (i + 1)).cpCalls =
          (auxLoop k column isUnsigned rowsPerExtent bs batch_processed bufStats last
            i).cpCalls ++
            [⟨bs * batch_processed + i,
              (auxAccumulate column (auxLoop k column isUnsigned rowsPerExtent bs
                batch_processed bufStats last i).bufStats).minBufferVal,
              (auxAccumulate column (auxLoop k column isUnsigned rowsPerExtent bs
                batch_processed bufStats last i).bufStats).maxBufferVal⟩] ∧
        (auxLoop k column isUnsigned rowsPerExtent bs batch_processed bufStats last
            (i + 1)).lastInputRowInExtent = bs * batch_processed + i + rowsPerExtent ∧
        (auxLoop k column isUnsigned rowsPerExtent bs batch_processed bufStats last
            (i + 1)).bufStats.minBufferVal =
          (if isUnsigned then wrapSigned 64 k.MAX_UBIGINT else k.MAX_BIGINT) ∧
        (auxLoop k column isUnsigned rowsPerExtent bs batch_processed bufStats last
            (i + 1)).bufStats.maxBufferVal =
          (if isUnsigned then wrapSigned 64 k.MIN_UBIGINT else k.MIN_BIGINT)) ∧
      (bs * batch_processed + i ≠
          (auxLoop k column isUnsigned rowsPerExtent bs batch_processed bufStats last
            i).lastInputRowInExtent →
        (auxLoop k column isUnsigned rowsPerExtent bs batch_processed bufStats last
            (i + 1)).cpCalls =
          (auxLoop k column isUnsigned rowsPerExtent bs batch_processed bufStats last
            i).cpCalls ∧
        (auxLoop k column isUnsigned rowsPerExtent bs batch_processed bufStats last
            (i + 1)).lastInputRowInExtent =
          (auxLoop k column isUnsigned rowsPerExtent bs batch_processed bufStats last
            i).lastInputRowInExtent ∧
        (auxLoop k column isUnsigned rowsPerExtent bs batch_processed bufStats last
            (i + 1)).bufStats =
          auxAccumulate column (auxLoop k column isUnsigned rowsPerExtent bs batch_processed
            bufStats last i).bufStats)) ∧
    ((auxFlush k column isUnsigned rowsPerExtent bs batch_processed bufStats last n).cpCalls =
      (auxLoop k column isUnsigned rowsPerExtent bs batch_processed bufStats last n).cpCalls ++
        (if 0 < n ∧ bs * batch_processed + (n - 1) ≠
            (auxLoop k column isUnsigned rowsPerExtent bs batch_processed bufStats last
              (n - 1)).lastInputRowInExtent then
          [⟨(auxLoop k column isUnsigned rowsPerExtent bs batch_processed bufStats last
              n).lastInputRowInExtent,
            (auxLoop k column isUnsigned rowsPerExtent bs batch_processed bufStats last
              n).bufStats.minBufferVal,
            (auxLoop k column isUnsigned rowsPerExtent bs batch_processed bufStats last
              n).bufStats.maxBufferVal⟩]
        else [])) ∧
    (∃ segs : List (List Nat), segs.flatten = List.range n ∧ (∀ seg ∈ segs, seg ≠ []) ∧
      (auxFlush k column isUnsigned rowsPerExtent bs batch_processed bufStats last n).cpCalls =
        segmentFlushes k column isUnsigned rowsPerExtent last
          (bufStats.minBufferVal, bufStats.maxBufferVal) segs) := by
  refine ⟨fun i _ => ⟨fun hb => ?_, fun hb => ?_⟩, ?_, ?_⟩
  · rw [auxLoop_succ, auxRow_boundary k column isUnsigned rowsPerExtent bs batch_processed _ i
      hw hb]
    have hid := resetBufStats_pair k column isUnsigned
      (auxAccumulate column (auxLoop k column isUnsigned rowsPerExtent bs batch_processed
        bufStats last i).bufStats) hw
    simp only [identityPair] at hid
    refine ⟨by simp only [hb], by simp only [hb], ?_, ?_⟩
    · have := congrArg Prod.fst hid
      simp only at this
      rw [this]; split_ifs <;> rfl
    · have := congrArg Prod.snd hid
      simp only at this
      rw [this]; split_ifs <;> rfl
  · rw [auxLoop_succ, auxRow_inner k column isUnsigned rowsPerExtent bs batch_processed _ i hb]
    exact ⟨rfl, rfl, rfl⟩
  · have hp := auxLoop_pending k column isUnsigned rowsPerExtent bs batch_processed bufStats
      last n
    unfold auxFlush
    by_cases hc : 0 < n ∧ bs * batch_processed + (n - 1) ≠
        (auxLoop k column isUnsigned rowsPerExtent bs batch_processed bufStats last
          (n - 1)).lastInputRowInExtent
    · simp only [hp.mpr hc, if_true, if_pos hc, AuxLocals.updateCPInfo, if_pos hw]
    · have hf : (auxLoop k column isUnsigned rowsPerExtent bs batch_processed bufStats last
          n).updateCPInfoPendingFlag = false := by
        cases h : (auxLoop k column isUnsigned rowsPerExtent bs batch_processed bufStats last
          n).updateCPInfoPendingFlag
        · rfl
        · exact absurd (hp.mp h) hc
      simp only [hf, Bool.false_eq_true, if_false, if_neg hc, List.append_nil]
  · obtain ⟨segs, tail, h1, h2, h3, h4, h5, h6⟩ :=
      auxRows_split k column isUnsigned rowsPerExtent bs batch_processed hw (List.range n)
        (auxStart bufStats last)
    have hL : List.foldl (auxRow k column isUnsigned rowsPerExtent bs batch_processed)
        (auxStart bufStats last) (List.range n) =
        auxLoop k column isUnsigned rowsPerExtent bs batch_processed bufStats last n := rfl
    rw [hL] at h3 h4 h5 h6
    simp only [auxStart, List.nil_append] at h3 h4 h5 h6
    unfold auxFlush
    cases tail with
    | nil =>
      have hf : (auxLoop k column isUnsigned rowsPerExtent bs batch_processed bufStats last
          n).updateCPInfoPendingFlag = false := by
        rw [h6]; simp
      refine ⟨segs, by simpa using h1, h2, ?_⟩
      simp only [hf, Bool.false_eq_true, if_false, h3]
    | cons t ts =>
      have hf : (auxLoop k column isUnsigned rowsPerExtent bs batch_processed bufStats last
          n).updateCPInfoPendingFlag = true := by
        rw [h6]; simp
      refine ⟨segs ++ [t :: ts], by simpa using h1, ?_, ?_⟩
      · intro seg hseg
        rcases List.mem_append.mp hseg with h | h
        · exact h2 seg h
        · rw [List.mem_singleton.mp h]; simp
      · simp only [hf, if_true, AuxLocals.updateCPInfo, if_pos hw, h3, h4,
          segmentFlushes_snoc]
        have e1 := congrArg Prod.fst h5
        have e2 := congrArg Prod.snd h5
        simp only at e1 e2
        rw [e1, e2]


set_option maxRecDepth 100000 in
theorem aux_cp_rollover_witness :
    (auxLoop sampleCp
        { weType := ColType.WR_UBYTE, width := 1, fDefaultUInt := 1, fMinIntSat := 0,
          fMaxIntSat := 255 } true 8 10 0 ⟨-3, 0, 0, 0, 0⟩ 3 4).cpCalls = [⟨3, 1, 1⟩] ∧
    (auxFlush sampleCp
        { weType := ColType.WR_UBYTE, width := 1, fDefaultUInt := 1, fMinIntSat := 0,
          fMaxIntSat := 255 } true 8 10 0 ⟨-3, 0, 0, 0, 0⟩ 3 10).cpCalls =
      [⟨3, 1, 1⟩, ⟨11, 1, 1⟩] := by
  have h := aux_cp_rollover sampleCp
    { weType := ColType.WR_UBYTE, width := 1, fDefaultUInt := 1, fMinIntSat := 0,
      fMaxIntSat := 255 } true 8 10 0 ⟨-3, 0, 0, 0, 0⟩ 3 10 (by decide)
  exact ⟨(((h.1 3 (by decide)).1 (by decide)).1).trans (by decide), h.2.1.trans (by decide)⟩

/-- The element conversion of a calendar column. -/
theorem calendar_branch (nv : NullValues) (dc : DataConvert) (fo : FloatOps)
    (column : JobColumn) (arrowType : ArrowType) (chunk : List (Option Int)) (st : ConvState)
    (hb : column.isCalendarBranch) :
    ∃ f : Option Int → ConvState → Int × ConvState,
      parquetConvert nv dc fo chunk arrowType column st = some (convertLoop f chunk st) ∧
      (∀ c, parquetConvert nv dc fo c arrowType column st = some (convertLoop f c st)) ∧
      ∀ raw s, f (some raw) s =
        if (column.calendar dc raw).2 = 0 then
          ((column.calendar dc raw).1, s.updateMinMax (column.calendar dc raw).1)
        else (0, s.countSat true) := by
  rcases hb with ⟨hw | hw, hd⟩ | ⟨hw, hd⟩
  · refine ⟨convertDate nv dc column, by simp [parquetConvert, hw, hd],
      fun c => by simp [parquetConvert, hw, hd], fun raw s => ?_⟩
    simp only [convertDate, JobColumn.calendar, hd, if_true]
  · refine ⟨convertDate nv dc column, by simp [parquetConvert, hw, hd],
      fun c => by simp [parquetConvert, hw, hd], fun raw s => ?_⟩
    simp only [convertDate, JobColumn.calendar, hd, if_true]
  · refine ⟨convertDatetime nv dc column, by simp [parquetConvert, hw, hd],
      fun c => by simp [parquetConvert, hw, hd], fun raw s => ?_⟩
    simp only [convertDatetime, JobColumn.calendar, hd, reduceCtorEq, if_false]

/-- The signed min/max update as a record. -/
theorem updateMinMax_bufStats (st : ConvState) (v : Int) :
    (st.updateMinMax v).bufStats =
      { st.bufStats with minBufferVal := min st.bufStats.minBufferVal v
                         maxBufferVal := max st.bufStats.maxBufferVal v } := by
  obtain ⟨⟨mn, mx, bmn, bmx, sc⟩, a⟩ := st
  simp only [ConvState.updateMinMax]
  by_cases h1 : v < mn
  · rw [if_pos h1]
    by_cases h2 : v > mx
    · simp only [h2, if_true, min_eq_right (le_of_lt h1), max_eq_right (le_of_lt h2)]
    · simp only [h2, if_false, min_eq_right (le_of_lt h1), max_eq_left (not_lt.mp h2)]
  · rw [if_neg h1]
    by_cases h2 : v > mx
    · simp only [h2, if_true, min_eq_left (not_lt.mp h1), max_eq_right (le_of_lt h2)]
    · simp only [h2, if_false, min_eq_left (not_lt.mp h1), max_eq_left (not_lt.mp h2)]

/-- C33: in the `DATE` loop and in the `DATETIME` loop of `parquetConvert`, a
non-null element whose calendar conversion leaves a status other than 0 is
copied out as 0, adds one to `satCount` and leaves the rest of `bufStats`
(the min/max accumulator) as it was; an element whose conversion leaves
status 0 is copied out as the converted value, which extends the minimum and
the maximum, and `satCount` stays. -/
theorem parquetConvert_invalid_date (nv : NullValues) (dc : DataConvert) (fo : FloatOps)
    (column : JobColumn) (arrowType : ArrowType) (chunk : List (Option Int)) (st : ConvState)
    (hb : column.isCalendarBranch) :
    ∃ out st2, parquetConvert nv dc fo chunk arrowType column st = some (out, st2) ∧
      out.length = chunk.length ∧
      ∀ (i : Nat) (raw : Int), chunk[i]? = some (some raw) →
        ((column.calendar dc raw).2 ≠ 0 →
          out[i]? = some 0 ∧
          (parquetConvert nv dc fo (chunk.take (i + 1)) arrowType column st).map
              (fun r => r.2.bufStats) =
            (parquetConvert nv dc fo (chunk.take i) arrowType column st).map
              (fun r => { r.2.bufStats with satCount := r.2.bufStats.satCount + 1 })) ∧
        ((column.calendar dc raw).2 = 0 →
          out[i]? = some (column.calendar dc raw).1 ∧
          (parquetConvert nv dc fo (chunk.take (i + 1)) arrowType column st).map
              (fun r => r.2.bufStats) =
            (parquetConvert nv dc fo (chunk.take i) arrowType column st).map
              (fun r => { r.2.bufStats with
                minBufferVal := min r.2.bufStats.minBufferVal (column.calendar dc raw).1
                maxBufferVal := max r.2.bufStats.maxBufferVal (column.calendar dc raw).1 })) := by
  obtain ⟨f, hf, hp, hel⟩ := calendar_branch nv dc fo column arrowType chunk st hb
  refine ⟨_, _, hf, convertLoop_length f chunk st, fun i raw hi => ⟨fun hrc => ?_, fun hrc => ?_⟩⟩
  · refine ⟨?_, ?_⟩
    · rw [convertLoop_getElem f chunk st i (some raw) hi, hel, if_neg hrc]
    · rw [hp, hp, Option.map_some', Option.map_some',
        convertLoop_take_succ f chunk st i (some raw) hi, hel, if_neg hrc]
      rfl
  · refine ⟨?_, ?_⟩
    · rw [convertLoop_getElem f chunk st i (some raw) hi, hel, if_pos hrc]
    · rw [hp, hp, Option.map_some', Option.map_some',
        convertLoop_take_succ f chunk st i (some raw) hi, hel, if_pos hrc]
      simp only [Option.some.injEq]
      exact updateMinMax_bufStats _ _

set_option maxRecDepth 100000 in
theorem parquetConvert_invalid_date_witness :
    (parquetConvert sampleNulls strictConvert sampleFloatOps [some 5, some (-1)]
        ArrowType.OTHER (dateColumn (-1000) 1000) ⟨⟨100, -100, 0, 0, 0⟩, 1⟩).map
        (fun r => (r.1[0]?, r.1[1]?)) = some (some 5, some 0) ∧
    (parquetConvert sampleNulls strictConvert sampleFloatOps [some 5, some (-1)]
        ArrowType.OTHER (dateColumn (-1000) 1000) ⟨⟨100, -100, 0, 0, 0⟩, 1⟩).map
        (fun r => r.2.bufStats) = some ⟨5, 5, 0, 0, 1⟩ := by
  obtain ⟨out, st2, h1, -, h3⟩ := parquetConvert_invalid_date sampleNulls strictConvert
    sampleFloatOps (dateColumn (-1000) 1000) ArrowType.OTHER [some 5, some (-1)]
    ⟨⟨100, -100, 0, 0, 0⟩, 1⟩ (by decide)
  have a0 := ((h3 0 5 rfl).2 (by decide)).1
  have a1 := ((h3 1 (-1) rfl).1 (by decide)).1
  have c1 := ((h3 1 (-1) rfl).1 (by decide)).2
  refine ⟨?_, ?_⟩
  · rw [h1, Option.map_some', a0, a1]
    rfl
  · exact c1.trans (by decide)

/-- C34: when `reserveSection` succeeds and grants fewer rows than the batch
holds (`0 < nRowsParsed < cbs`), `parseParquetDict` writes the granted number
of rows and makes no further reservation, so the rows beyond the grant are not
persisted by it; and `parseParquetCol` writes all `cbs` rows of the batch to
the section, which is more than the section was granted, again with a single
reservation.  The property of the claim (every row persisted, no section
overfilled) therefore fails in both functions. -/
theorem parseParquet_short_grant (cbs bs batchProcessed : Nat) (r : Reserved)
    (dctnryRc releaseRc : Int) (autoIncFlag : Bool) (nullCount autoIncRc : Int) (satCount : Nat)
    (hr : r.rc = NO_ERROR) (h0 : 0 < r.nRowsParsed) (hlt : r.nRowsParsed < cbs)
    (hd : dctnryRc = NO_ERROR) :
    (TableInfo.parseParquetDict cbs bs batchProcessed r dctnryRc releaseRc).2 =
        [SectionCall.reserveSection (bs * batchProcessed) cbs,
          SectionCall.updateDctnryStoreParquet r.nRowsParsed,
          SectionCall.write r.nRowsParsed, SectionCall.releaseSection] ∧
      rowsWritten (TableInfo.parseParquetDict cbs bs batchProcessed r dctnryRc releaseRc).2 <
        cbs ∧
      reservations (TableInfo.parseParquetDict cbs bs batchProcessed r dctnryRc releaseRc).2 =
        1 ∧
      rowsWritten (TableInfo.parseParquetCol cbs bs batchProcessed r autoIncFlag nullCount
        autoIncRc satCount releaseRc).2 = cbs ∧
      r.nRowsParsed < rowsWritten (TableInfo.parseParquetCol cbs bs batchProcessed r autoIncFlag
        nullCount autoIncRc satCount releaseRc).2 ∧
      reservations (TableInfo.parseParquetCol cbs bs batchProcessed r autoIncFlag nullCount
        autoIncRc satCount releaseRc).2 = 1 := by
  have hD : (TableInfo.parseParquetDict cbs bs batchProcessed r dctnryRc releaseRc).2 =
      [SectionCall.reserveSection (bs * batchProcessed) cbs,
        SectionCall.updateDctnryStoreParquet r.nRowsParsed,
        SectionCall.write r.nRowsParsed, SectionCall.releaseSection] := by
    simp only [TableInfo.parseParquetDict, hr, hd, ne_eq, not_true_eq_false, if_false, h0,
      gt_iff_lt, if_true]
    split_ifs <;> rfl
  have hC : rowsWritten (TableInfo.parseParquetCol cbs bs batchProcessed r autoIncFlag nullCount
      autoIncRc satCount releaseRc).2 = cbs ∧
      reservations (TableInfo.parseParquetCol cbs bs batchProcessed r autoIncFlag nullCount
      autoIncRc satCount releaseRc).2 = 1 := by
    simp only [TableInfo.parseParquetCol, hr, ne_eq, not_true_eq_false, if_false, h0,
      gt_iff_lt, if_true]
    split_ifs <;> simp [rowsWritten, reservations]
  refine ⟨hD, ?_, ?_, hC.1, ?_, hC.2⟩
  · rw [hD]
    simpa [rowsWritten] using hlt
  · rw [hD]
    rfl
  · rw [hC.1]
    exact hlt

theorem parseParquet_short_grant_witness :
    rowsWritten (TableInfo.parseParquetDict 10 8 0 ⟨NO_ERROR, 4, 3⟩ NO_ERROR NO_ERROR).2 = 4 ∧
      reservations (TableInfo.parseParquetDict 10 8 0 ⟨NO_ERROR, 4, 3⟩ NO_ERROR NO_ERROR).2 = 1 ∧
      (TableInfo.parseParquetCol 10 8 0 ⟨NO_ERROR, 4, 3⟩ false 0 NO_ERROR 0 NO_ERROR).2 =
        [SectionCall.reserveSection 0 10, SectionCall.parquetConvert 10,
          SectionCall.updateCPInfo 3, SectionCall.write 10, SectionCall.releaseSection] := by
  have h := parseParquet_short_grant 10 8 0 ⟨NO_ERROR, 4, 3⟩ NO_ERROR NO_ERROR false 0 NO_ERROR 0
    rfl (by decide) (by decide) rfl
  exact ⟨by rw [h.1]; rfl, h.2.2.1, by decide⟩

/-- C35: `compareHWMs` computes the accepted range modulo 2^32.  With the
narrow HWM `h = 2^31` and the multiplier `m = 2` the product is 2^32 and the
wider HWM 0, which is outside the exact range `[h*m, h*m + m - 1]`, is accepted
with `NO_ERROR` (and `colIdx` is left alone); and whenever
`h*m + m - 1 < 2^32` (for a wider column that exists and a multiplier of at
least 1) the result is `ERR_BRM_HWMS_OUT_OF_SYNC` with `colIdx` set to the
wider column exactly when the wider HWM is outside the exact range, and
`NO_ERROR` with `colIdx` unchanged otherwise. -/
theorem compareHWMs_wraps (ec : ErrorCodes) (h0 : ec.ERR_BRM_HWMS_OUT_OF_SYNC ≠ NO_ERROR) :
    (∃ h m w : Nat, (m = 2 ∨ m = 4 ∨ m = 8 ∨ m = 16) ∧ h < 2 ^ 32 ∧ w < 2 ^ 32 ∧
      2 ^ 32 ≤ h * m ∧ ¬ (h * m ≤ w ∧ w ≤ h * m + m - 1) ∧
      compareHWMs ec 0 1 1 m [segHwm h, segHwm w] 7 = (NO_ERROR, 7)) ∧
    ∀ (seg : List DBRootExtentInfo) (a b : Int) (w1 w2 : Nat) (colIdx : Int),
      0 ≤ b → 1 ≤ w2 / w1 →
      (segAt seg a).fLocalHwm * (w2 / w1) + w2 / w1 - 1 < 2 ^ 32 →
      compareHWMs ec a b w1 w2 seg colIdx =
          (if (segAt seg b).fLocalHwm < (segAt seg a).fLocalHwm * (w2 / w1) ∨
              (segAt seg a).fLocalHwm * (w2 / w1) + w2 / w1 - 1 < (segAt seg b).fLocalHwm then
            (ec.ERR_BRM_HWMS_OUT_OF_SYNC, b)
          else (NO_ERROR, colIdx)) ∧
        ((compareHWMs ec a b w1 w2 seg colIdx).1 = ec.ERR_BRM_HWMS_OUT_OF_SYNC ↔
          ¬ ((segAt seg a).fLocalHwm * (w2 / w1) ≤ (segAt seg b).fLocalHwm ∧
            (segAt seg b).fLocalHwm ≤ (segAt seg a).fLocalHwm * (w2 / w1) + w2 / w1 - 1)) := by
  refine ⟨⟨2 ^ 31, 2, 0, Or.inl rfl, by norm_num, by norm_num, by norm_num, by norm_num, ?_⟩,
    ?_⟩
  · simp [compareHWMs, segAt, segHwm]
  · intro seg a b w1 w2 colIdx hb hm1 hs
    have e1 : ((segAt seg a).fLocalHwm * (w2 / w1)) % 2 ^ 32 =
        (segAt seg a).fLocalHwm * (w2 / w1) := Nat.mod_eq_of_lt (by omega)
    have e2 : ((segAt seg a).fLocalHwm * (w2 / w1) + w2 / w1 + (2 ^ 32 - 1)) % 2 ^ 32 =
        (segAt seg a).fLocalHwm * (w2 / w1) + w2 / w1 - 1 := by
      have : (segAt seg a).fLocalHwm * (w2 / w1) + w2 / w1 + (2 ^ 32 - 1) =
          ((segAt seg a).fLocalHwm * (w2 / w1) + w2 / w1 - 1) + 2 ^ 32 := by omega
      rw [this, Nat.add_mod_right]
      exact Nat.mod_eq_of_lt (by omega)
    have hres : compareHWMs ec a b w1 w2 seg colIdx =
        (if (segAt seg b).fLocalHwm < (segAt seg a).fLocalHwm * (w2 / w1) ∨
            (segAt seg a).fLocalHwm * (w2 / w1) + w2 / w1 - 1 < (segAt seg b).fLocalHwm then
          (ec.ERR_BRM_HWMS_OUT_OF_SYNC, b)
        else (NO_ERROR, colIdx)) := by
      unfold compareHWMs
      rw [if_neg (by omega)]
      simp only [e1, e2, gt_iff_lt]
    refine ⟨hres, ?_⟩
    rw [hres]
    split_ifs with hc
    · simp only [true_iff]
      omega
    · simp only
      constructor
      · intro h
        exact absurd h.symm h0
      · intro h
        exact absurd (by omega) h

theorem compareHWMs_wraps_witness :
    compareHWMs sampleCodes 0 1 1 2 [segHwm 5, segHwm 12] 7 =
        (sampleCodes.ERR_BRM_HWMS_OUT_OF_SYNC, 1) ∧
      compareHWMs sampleCodes 0 1 1 2 [segHwm 5, segHwm 11] 7 = (NO_ERROR, 7) := by
  have h := (compareHWMs_wraps sampleCodes (by decide)).2
  exact ⟨((h [segHwm 5, segHwm 12] 0 1 1 2 7 (by decide) (by decide) (by decide)).1).trans
      (by decide),
    ((h [segHwm 5, segHwm 11] 0 1 1 2 7 (by decide) (by decide) (by decide)).1).trans
      (by decide)⟩

/-- The low 64 bits of a 128-bit pattern are the low 64 bits of the number. -/
theorem wrapSigned_low64 (raw : Int) : wrapSigned 64 (wrapSigned 128 raw) = wrapSigned 64 raw := by
  unfold wrapSigned
  norm_num
  omega

/-- Adding a multiple of 2^64 keeps the low 64 bits. -/
theorem wrapSigned_add_mul (raw k : Int) : wrapSigned 64 (raw + k * 2 ^ 64) = wrapSigned 64 raw := by
  unfold wrapSigned
  have : raw + k * 2 ^ 64 + 2 ^ (64 - 1) = raw + 2 ^ (64 - 1) + 2 ^ 64 * k := by ring
  rw [this, Int.add_mul_emod_self_left]

/-- The decimal read of the branches `WR_BYTE`, `WR_SHORT`, `WR_INT`/`WR_MEDINT`
and `WR_LONGLONG`. -/
theorem readElem_decimal (column : JobColumn) (arrowType : ArrowType) (raw : Int)
    (hd : column.isDecimal = true)
    (hw : column.weType = ColType.WR_BYTE ∨ column.weType = ColType.WR_SHORT ∨
      column.weType = ColType.WR_INT ∨ column.weType = ColType.WR_MEDINT ∨
      column.weType = ColType.WR_LONGLONG) :
    column.readElem arrowType raw = wrapSigned 64 raw := by
  rw [← wrapSigned_low64]
  rcases hw with h | h | h | h | h <;>
    simp [JobColumn.readElem, h, readByte, readShort, readInt, readLongLong, hd]

/-- A decimal column of one of these branches is an integer column. -/
theorem decimal_isIntegerBranch (column : JobColumn) (hd : column.isDecimal = true)
    (hw : column.weType = ColType.WR_BYTE ∨ column.weType = ColType.WR_SHORT ∨
      column.weType = ColType.WR_INT ∨ column.weType = ColType.WR_MEDINT ∨
      column.weType = ColType.WR_LONGLONG) : column.isIntegerBranch := by
  unfold JobColumn.isDecimal at hd
  unfold JobColumn.isIntegerBranch
  have hd2 := of_decide_eq_true hd
  rcases hw with h | h | h | h | h <;> rcases hd2 with g | g <;> simp [h, g]

theorem convertLoop_congr (f : Option Int → ConvState → Int × ConvState)
    (R : Option Int → Option Int → Prop) (hR : ∀ a b s, R a b → f a s = f b s)
    (c1 c2 : List (Option Int)) (h : List.Forall₂ R c1 c2) :
    ∀ st, convertLoop f c1 st = convertLoop f c2 st := by
  induction h with
  | nil => intro st; rfl
  | cons hab _ ih =>
    intro st
    simp only [convertLoop]
    rw [hR _ _ st hab, ih]

/-- C36: for a `DECIMAL` or `UDECIMAL` column in one of the branches `WR_BYTE`,
`WR_SHORT`, `WR_INT`/`WR_MEDINT`, `WR_LONGLONG` (widths 1, 2, 4, 8),
`parquetConvert` runs to the end and each non-null element enters the
saturation test as the signed value of its low 64 bits: the value copied out is
the narrowed clamp of `wrapSigned 64 raw`, and `satCount` grows by one exactly
when the test of that value sets `bSatVal`.  Hence two chunks whose elements
are both null or differ by a multiple of 2^64 give the same output and the
same final `bufStats` (with the same saturation count). -/
theorem parquetConvert_decimal_low64 (nv : NullValues) (dc : DataConvert) (fo : FloatOps)
    (column : JobColumn) (arrowType : ArrowType) (chunk chunk2 : List (Option Int))
    (st : ConvState) (hd : column.isDecimal = true)
    (hw : column.weType = ColType.WR_BYTE ∨ column.weType = ColType.WR_SHORT ∨
      column.weType = ColType.WR_INT ∨ column.weType = ColType.WR_MEDINT ∨
      column.weType = ColType.WR_LONGLONG)
    (hrel : List.Forall₂ (fun a b : Option Int =>
      (a = none ∧ b = none) ∨ ∃ r k : Int, a = some r ∧ b = some (r + k * 2 ^ 64))
      chunk chunk2) :
    ∃ out st2, parquetConvert nv dc fo chunk arrowType column st = some (out, st2) ∧
      parquetConvert nv dc fo chunk2 arrowType column st = some (out, st2) ∧
      out.length = chunk.length ∧
      ∀ (i : Nat) (raw : Int), chunk[i]? = some (some raw) →
        out[i]? = some (column.narrow (column.satTest (wrapSigned 64 raw)).1) ∧
        (parquetConvert nv dc fo (chunk.take (i + 1)) arrowType column st).map
            (fun r => r.2.bufStats.satCount) =
          (parquetConvert nv dc fo (chunk.take i) arrowType column st).map
            (fun r => r.2.bufStats.satCount +
              (if (column.satTest (wrapSigned 64 raw)).2 then 1 else 0)) := by
  have hb := branch_integer nv dc fo arrowType column (decimal_isIntegerBranch column hd hw)
  have hp : ∀ c, parquetConvert nv dc fo c arrowType column st =
      some (convertLoop (column.elemConv nv arrowType) c st) :=
    fun c => parquetConvert_branch nv dc fo c arrowType column st _ hb
  have hR : ∀ (a b : Option Int) (s : ConvState),
      ((a = none ∧ b = none) ∨ ∃ r k : Int, a = some r ∧ b = some (r + k * 2 ^ 64)) →
      column.elemConv nv arrowType a s = column.elemConv nv arrowType b s := by
    intro a b s h
    rcases h with ⟨h1, h2⟩ | ⟨r, k, h1, h2⟩
    · rw [h1, h2]
    · rw [h1, h2, elemConv_some, elemConv_some, readElem_decimal column arrowType _ hd hw,
        readElem_decimal column arrowType _ hd hw, wrapSigned_add_mul]
  have hc := convertLoop_congr (column.elemConv nv arrowType) _ hR chunk chunk2 hrel st
  refine ⟨_, _, hp chunk, by rw [hp chunk2, hc], convertLoop_length _ chunk st,
    fun i raw hi => ⟨?_, ?_⟩⟩
  · rw [convertLoop_getElem _ chunk st i (some raw) hi, elemConv_some,
      readElem_decimal column arrowType _ hd hw]
  · rw [hp, hp, Option.map_some', Option.map_some',
      convertLoop_take_succ _ chunk st i (some raw) hi, elemConv_some,
      readElem_decimal column arrowType _ hd hw, (cpUpdate_fields _ _ _).2,
      (countSat_fields _ _).2]

set_option maxRecDepth 100000 in
theorem parquetConvert_decimal_low64_witness :
    parquetConvert sampleNulls sampleConvert sampleFloatOps [some 5, none, some 300]
        ArrowType.OTHER
        { weType := ColType.WR_SHORT, dataType := ColDataType.DECIMAL, width := 2,
          fMinIntSat := -100, fMaxIntSat := 100 } (ConvState.start 0) =
      parquetConvert sampleNulls sampleConvert sampleFloatOps
        [some (5 + 3 * 2 ^ 64), none, some (300 + (-1) * 2 ^ 64)] ArrowType.OTHER
        { weType := ColType.WR_SHORT, dataType := ColDataType.DECIMAL, width := 2,
          fMinIntSat := -100, fMaxIntSat := 100 } (ConvState.start 0) ∧
    (parquetConvert sampleNulls sampleConvert sampleFloatOps
        [some (5 + 3 * 2 ^ 64), none, some (300 + (-1) * 2 ^ 64)] ArrowType.OTHER
        { weType := ColType.WR_SHORT, dataType := ColDataType.DECIMAL, width := 2,
          fMinIntSat := -100, fMaxIntSat := 100 } (ConvState.start 0)).map
      (fun r => (r.1[0]?, r.1[2]?, r.2.bufStats.satCount)) = some (some 5, some 100, 1) := by
  obtain ⟨out, st2, h1, h2, -, -⟩ := parquetConvert_decimal_low64 sampleNulls sampleConvert
    sampleFloatOps
    { weType := ColType.WR_SHORT, dataType := ColDataType.DECIMAL, width := 2,
      fMinIntSat := -100, fMaxIntSat := 100 }
    ArrowType.OTHER [some 5, none, some 300]
    [some (5 + 3 * 2 ^ 64), none, some (300 + (-1) * 2 ^ 64)] (ConvState.start 0) rfl
    (Or.inr (Or.inl rfl))
    (List.Forall₂.cons (Or.inr ⟨5, 3, rfl, rfl⟩)
      (List.Forall₂.cons (Or.inl ⟨rfl, rfl⟩)
        (List.Forall₂.cons (Or.inr ⟨300, -1, rfl, rfl⟩) List.Forall₂.nil)))
  refine ⟨h1.trans h2.symm, ?_⟩
  rw [h2, ← h1]
  decide

/-- The advance loop ends once the fuel covers the distance from `cur` round the
ring to `fCurrentReadBuffer`. -/
theorem advanceParseBuffer_dist (ti : TableInfo) (hread : ti.fCurrentReadBuffer < ti.fReadBufCount) :
    ∀ (fuel cur : Nat), cur < ti.fReadBufCount →
      (if cur < ti.fCurrentReadBuffer then ti.fCurrentReadBuffer - cur
        else ti.fCurrentReadBuffer + ti.fReadBufCount - cur) ≤ fuel →
      ∃ r, ti.advanceParseBuffer fuel cur = some r ∧ r < ti.fReadBufCount ∧
        (r = ti.fCurrentReadBuffer ∨
          (ti.fBuffers.getD r default).fStatusBLB ≠ Status.PARSE_COMPLETE) := by
  intro fuel
  induction fuel with
  | zero =>
    intro cur hc hd
    split_ifs at hd <;> omega
  | succ f ih =>
    intro cur hc hd
    unfold TableInfo.advanceParseBuffer
    by_cases hs : (ti.fBuffers.getD cur default).fStatusBLB = Status.PARSE_COMPLETE
    · rw [if_pos hs]
      simp only
      have hmod : (cur + 1) % ti.fReadBufCount = if cur + 1 = ti.fReadBufCount then 0 else cur + 1 := by
        split_ifs with h
        · rw [h, Nat.mod_self]
        · exact Nat.mod_eq_of_lt (by omega)
      by_cases hn : (cur + 1) % ti.fReadBufCount = ti.fCurrentReadBuffer
      · rw [if_pos hn]
        exact ⟨_, rfl, by rw [hn]; exact hread, Or.inl hn⟩
      · rw [if_neg hn]
        apply ih
        · rw [hmod]
          split_ifs <;> omega
        · rw [hmod] at hn ⊢
          split_ifs at hd hn ⊢ <;> omega
    · rw [if_neg hs]
      exact ⟨cur, rfl, hc, Or.inr hs⟩

/-- More fuel does not change the result of the advance loop. -/
theorem advanceParseBuffer_mono (ti : TableInfo) :
    ∀ (fuel cur r : Nat), ti.advanceParseBuffer fuel cur = some r →
      ∀ fuel2, fuel ≤ fuel2 → ti.advanceParseBuffer fuel2 cur = some r := by
  intro fuel
  induction fuel with
  | zero =>
    intro cur r h
    simp [TableInfo.advanceParseBuffer] at h
  | succ f ih =>
    intro cur r h fuel2 hf
    obtain ⟨g, rfl⟩ : ∃ g, fuel2 = g + 1 := ⟨fuel2 - 1, by omega⟩
    unfold TableInfo.advanceParseBuffer at h ⊢
    by_cases hs : (ti.fBuffers.getD cur default).fStatusBLB = Status.PARSE_COMPLETE
    · rw [if_pos hs] at h ⊢
      simp only at h ⊢
      by_cases hn : (cur + 1) % ti.fReadBufCount = ti.fCurrentReadBuffer
      · rw [if_pos hn] at h ⊢
        exact h
      · rw [if_neg hn] at h ⊢
        exact ih _ _ h g (by omega)
    · rw [if_neg hs] at h ⊢
      exact h

/-- The reader's round keeps the ring size and the read position in the ring. -/
theorem readTableDataFill_ring (ec : ErrorCodes) (fr : FillResult) (ti : TableInfo)
    (loc : ReaderLocals) (hn : 1 ≤ ti.fReadBufCount)
    (hread : ti.fCurrentReadBuffer < ti.fReadBufCount) :
    (ti.readTableDataFill ec fr loc).2.1.fReadBufCount = ti.fReadBufCount ∧
      (ti.readTableDataFill ec fr loc).2.1.fCurrentReadBuffer < ti.fReadBufCount := by
  have hm : ∀ c, (c + 1) % ti.fReadBufCount < ti.fReadBufCount := fun c => Nat.mod_lt _ (by omega)
  have f1 := writeErrorList_frame ti (some fr.errorRows) (some fr.errorDatRows) false
  unfold TableInfo.readTableDataFill
  simp only
  split_ifs <;> simp only [writeErrorList_frame, f1, hm, hread, and_self]

/-- C37: for a ring of `fReadBufCount >= 1` buffers with `fCurrentReadBuffer`
and the start position inside the ring, and for every assignment of buffer
statuses, the loop of `setParseComplete` that advances `currentParseBuffer`
ends within `fReadBufCount` rounds (fuel `fReadBufCount`, and any larger fuel,
gives a result); the result is in `[0, fReadBufCount)` and either equals
`fCurrentReadBuffer` or designates a buffer whose status is not
`PARSE_COMPLETE`.  The reader's advance at the end of a round of
`readTableData` leaves `fReadBufCount` alone and keeps `fCurrentReadBuffer` in
`[0, fReadBufCount)`. -/
theorem advanceParseBuffer_terminates (ti : TableInfo) (cur : Nat)
    (hn : 1 ≤ ti.fReadBufCount) (hcur : cur < ti.fReadBufCount)
    (hread : ti.fCurrentReadBuffer < ti.fReadBufCount) :
    (∃ r, (∀ fuel, ti.fReadBufCount ≤ fuel → ti.advanceParseBuffer fuel cur = some r) ∧
      r < ti.fReadBufCount ∧
      (r = ti.fCurrentReadBuffer ∨
        (ti.fBuffers.getD r default).fStatusBLB ≠ Status.PARSE_COMPLETE)) ∧
    ∀ (ec : ErrorCodes) (fr : FillResult) (loc : ReaderLocals),
      (ti.readTableDataFill ec fr loc).2.1.fReadBufCount = ti.fReadBufCount ∧
      (ti.readTableDataFill ec fr loc).2.1.fCurrentReadBuffer < ti.fReadBufCount := by
  have hd : (if cur < ti.fCurrentReadBuffer then ti.fCurrentReadBuffer - cur
      else ti.fCurrentReadBuffer + ti.fReadBufCount - cur) ≤ ti.fReadBufCount := by
    split_ifs <;> omega
  refine ⟨?_, ?_⟩
  · obtain ⟨r, h1, h2, h3⟩ := advanceParseBuffer_dist ti hread ti.fReadBufCount cur hcur hd
    refine ⟨r, fun fuel hf => ?_, h2, h3⟩
    exact advanceParseBuffer_mono ti _ cur r h1 fuel hf
  · intro ec fr loc
    exact readTableDataFill_ring ec fr ti loc hn hread

theorem advanceParseBuffer_terminates_witness :
    (∃ r, TableInfo.advanceParseBuffer
      { TableInfo.new with
        fReadBufCount := 3
        fBuffers := [⟨Status.PARSE_COMPLETE, []⟩, ⟨Status.PARSE_COMPLETE, []⟩,
          ⟨Status.PARSE_COMPLETE, []⟩] } 3 1 = some r ∧ r < 3) ∧
    TableInfo.advanceParseBuffer
      { TableInfo.new with
        fReadBufCount := 3
        fBuffers := [⟨Status.PARSE_COMPLETE, []⟩, ⟨Status.PARSE_COMPLETE, []⟩,
          ⟨Status.PARSE_COMPLETE, []⟩] } 3 1 = some 0 := by
  obtain ⟨⟨r, h1, h2, -⟩, -⟩ := advanceParseBuffer_terminates
    { TableInfo.new with
        fReadBufCount := 3
        fBuffers := [⟨Status.PARSE_COMPLETE, []⟩, ⟨Status.PARSE_COMPLETE, []⟩,
          ⟨Status.PARSE_COMPLETE, []⟩] } 1 (by decide) (by decide) (by decide)
  exact ⟨⟨r, h1 3 (le_refl _), h2⟩, by decide⟩

/-- The retry loop when BRM answers with lock id 0 `k` times and then with an
error code and a lock id other than 0: the loop returns that code. -/
theorem acquireLoop_error (E T : Int) (g : Nat → Int × Nat) (d : Bool) (rc : Int) (id : Nat)
    (hrc : rc ≠ NO_ERROR) (hid : id ≠ 0) :
    ∀ (k fuel n : Nat) (c : Int) (tl : LockFields), k + 1 ≤ fuel →
      (∀ i, i < k → (g (n + i)).2 = 0) → g (n + k) = (rc, id) →
      (d = true ∨ k = 0 ∨ c + k < T) →
      ∃ t, TableInfo.acquireLoop E d T g fuel n c tl = some (rc, t) ∧
        t.fTableLocked = tl.fTableLocked ∧ t.fTableLockID = id ∧
        t.fLockCalls.getLast? = some (LockCall.logMsg LockMsg.lockError rc) := by
  intro k
  induction k with
  | zero =>
    intro fuel n c tl hfuel _ hk _
    obtain ⟨fuel, rfl⟩ : ∃ f, fuel = f + 1 := ⟨fuel - 1, by omega⟩
    have hk2 : g n = (rc, id) := by simpa using hk
    simp [TableInfo.acquireLoop, hk2, hrc, hid, LockFields.call]
  | succ k ih =>
    intro fuel n c tl hfuel hlocked hk hT
    obtain ⟨fuel, rfl⟩ : ∃ f, fuel = f + 1 := ⟨fuel - 1, by omega⟩
    have hgn : (g n).2 = 0 := by simpa using hlocked 0 (by omega)
    have hl2 : ∀ i, i < k → (g (n + 1 + i)).2 = 0 := by
      intro i hi
      have := hlocked (i + 1) (by omega)
      rwa [show n + (i + 1) = n + 1 + i by omega] at this
    have hk3 : g (n + 1 + k) = (rc, id) := by
      rwa [show n + (k + 1) = n + 1 + k by omega] at hk
    unfold TableInfo.acquireLoop
    simp only [hgn, gt_iff_lt, lt_self_iff_false, and_false, if_false, if_true]
    cases d with
    | true =>
      simp only [if_true]
      obtain ⟨t, h1, h2, h3, h4⟩ := ih fuel (n + 1) c
        ((({ tl with fTableLockID := 0 } : LockFields).call
          (LockCall.getTableLock (g n).1 0)).call (LockCall.sleepMS 100))
        (by omega) hl2 hk3 (Or.inl rfl)
      exact ⟨t, h1, h2, h3, h4⟩
    | false =>
      have hc : ¬ (c + 1 ≥ T) := by
        rcases hT with h | h | h
        · cases h
        · omega
        · push_cast at h; omega
      simp only [Bool.false_eq_true, if_false, hc]
      obtain ⟨t, h1, h2, h3, h4⟩ := ih fuel (n + 1) (c + 1)
        ((({ tl with fTableLockID := 0 } : LockFields).call
          (LockCall.getTableLock (g n).1 0)).call (LockCall.sleepMS 100))
        (by omega) hl2 hk3 (by
          rcases hT with h | h | h
          · cases h
          · omega
          · right; by_cases hk0 : k = 0
            · left; exact hk0
            · right; push_cast at h; omega)
      exact ⟨t, h1, h2, h3, h4⟩

/-- Whatever the retry loop returns is `NO_ERROR`, the timeout code, or the code
of an attempt that left a lock id other than 0. -/
theorem acquireLoop_codes (E T : Int) (g : Nat → Int × Nat) (d : Bool) :
    ∀ (fuel n : Nat) (c : Int) (tl : LockFields) (rc : Int) (t : LockFields),
      TableInfo.acquireLoop E d T g fuel n c tl = some (rc, t) →
      rc = NO_ERROR ∨ rc = E ∨ ∃ m, (g m).1 = rc ∧ (g m).2 ≠ 0 := by
  intro fuel
  induction fuel with
  | zero =>
    intro n c tl rc t h
    simp [TableInfo.acquireLoop] at h
  | succ f ih =>
    intro n c tl rc t h
    unfold TableInfo.acquireLoop at h
    simp only at h
    split_ifs at h with h1 h2 h3 h4
    · left
      simp only [Option.some.injEq, Prod.mk.injEq] at h
      exact h.1.symm
    · exact ih _ _ _ _ _ h
    · right; left
      simp only [Option.some.injEq, Prod.mk.injEq] at h
      exact h.1.symm
    · exact ih _ _ _ _ _ h
    · right; right
      simp only [Option.some.injEq, Prod.mk.injEq] at h
      exact ⟨n, h.1, h2⟩

/-- C38: in local mode `acquireTableLock` does not propagate the code of an
attempt that left lock id 0.  If every attempt answers with a non-zero code
and lock id 0, the call makes `max 1 NUM_TRIES` attempts, sleeping after each,
and returns `ERR_TBLLOCK_GET_LOCK_LOCKED`; if after `k` such attempts (before
the timeout, or with the timeout disabled) BRM answers with an error code and a
lock id other than 0, that code is returned as it is; and whatever code the
call returns is `NO_ERROR`, `ERR_TBLLOCK_GET_LOCK_LOCKED`, or the code of an
attempt that left a lock id other than 0. -/
theorem acquireTableLock_error_codes (ERR_TBLLOCK_GET_LOCK_LOCKED : Int) (rootIdList : List Nat)
    (waitPeriod : Int) (getTableLock : Nat → Int × Nat) (tl : LockFields) (N : Nat)
    (hlocal : ¬ tl.distributed)
    (_hrange : -2147483648 ≤ 10 * waitPeriod ∧ 10 * waitPeriod ≤ 2147483647)
    (hN : (N : Int) = max 1 (10 * waitPeriod)) :
    ((∀ n, (getTableLock n).1 ≠ NO_ERROR ∧ (getTableLock n).2 = 0) → ∀ fuel, N ≤ fuel →
      ∃ t, TableInfo.acquireTableLock ERR_TBLLOCK_GET_LOCK_LOCKED rootIdList waitPeriod
            getTableLock fuel false tl = some (ERR_TBLLOCK_GET_LOCK_LOCKED, t) ∧
        t.fTableLocked = tl.fTableLocked ∧
        t.fLockCalls = tl.fLockCalls ++ (LockCall.getRootIdList ::
          ((List.range N).flatMap (fun i =>
            [LockCall.getTableLock (getTableLock i).1 0, LockCall.sleepMS 100]) ++
            [LockCall.logMsg LockMsg.unableToAcquire ERR_TBLLOCK_GET_LOCK_LOCKED]))) ∧
    (∀ (k id : Nat) (rc : Int) (disableTimeOut : Bool),
      (∀ i, i < k → (getTableLock i).2 = 0) →
      getTableLock k = (rc, id) → rc ≠ NO_ERROR → id ≠ 0 → (disableTimeOut = true ∨ k < N) →
      ∀ fuel, k + 1 ≤ fuel →
      ∃ t, TableInfo.acquireTableLock ERR_TBLLOCK_GET_LOCK_LOCKED rootIdList waitPeriod
            getTableLock fuel disableTimeOut tl = some (rc, t) ∧
        t.fTableLocked = tl.fTableLocked ∧ t.fTableLockID = id) ∧
    (∀ (fuel : Nat) (disableTimeOut : Bool) (rc : Int) (t : LockFields),
      TableInfo.acquireTableLock ERR_TBLLOCK_GET_LOCK_LOCKED rootIdList waitPeriod
        getTableLock fuel disableTimeOut tl = some (rc, t) →
      rc = NO_ERROR ∨ rc = ERR_TBLLOCK_GET_LOCK_LOCKED ∨
        ∃ m, (getTableLock m).1 = rc ∧ (getTableLock m).2 ≠ 0) := by
  have hloc : ¬ (({ tl with fOrigDbRootIds := rootIdList }).call
      LockCall.getRootIdList).distributed := hlocal
  have hN2 : (N : Int) ≤ 10 * waitPeriod ∨ N = 1 := by
    by_cases h1 : 10 * waitPeriod ≤ 1
    · right
      have : (N : Int) = 1 := by rw [hN]; exact max_eq_left h1
      exact_mod_cast this
    · left; rw [hN, max_eq_right (by omega)]
  have hN1 : 1 ≤ N := by
    have : (1 : Int) ≤ N := by rw [hN]; exact le_max_left _ _
    exact_mod_cast this
  have hN3 : 10 * waitPeriod ≤ N := by rw [hN]; exact le_max_right _ _
  refine ⟨?_, ?_, ?_⟩
  · intro hg fuel hf
    unfold TableInfo.acquireTableLock
    simp only [if_neg hloc]
    rw [acquireLoop_locked ERR_TBLLOCK_GET_LOCK_LOCKED (10 * waitPeriod) getTableLock
      (fun n => (hg n).2) N fuel 0 0 _ hN1 hf (by simpa using hN3)
      (by rcases hN2 with h | h
          · right; simpa using h
          · left; exact h)]
    exact ⟨_, rfl, rfl, by simp [LockFields.call]⟩
  · intro k id rc d hlocked hk hrc hid hd fuel hf
    unfold TableInfo.acquireTableLock
    simp only [if_neg hloc]
    obtain ⟨t, h1, h2, h3, -⟩ := acquireLoop_error ERR_TBLLOCK_GET_LOCK_LOCKED (10 * waitPeriod)
      getTableLock d rc id hrc hid k fuel 0 0
      (({ tl with fOrigDbRootIds := rootIdList }).call LockCall.getRootIdList) hf
      (by simpa using hlocked) (by simpa using hk)
      (by rcases hd with h | h
          · left; exact h
          · right
            by_cases hk0 : k = 0
            · left; exact hk0
            · right
              rcases hN2 with g | g
              · have : (k : Int) < N := by exact_mod_cast h
                omega
              · omega)
    exact ⟨t, h1, h2, h3⟩
  · intro fuel d rc t h
    unfold TableInfo.acquireTableLock at h
    simp only [if_neg hloc] at h
    exact acquireLoop_codes _ _ _ _ _ _ _ _ _ _ h

theorem acquireTableLock_error_codes_witness :
    (∃ t, TableInfo.acquireTableLock 1500 [1] 1 (fun _ => (1009, 0)) 10 false
          (LockFields.new false) = some (1500, t) ∧
        t.fTableLocked = (LockFields.new false).fTableLocked ∧
        t.fLockCalls = (LockFields.new false).fLockCalls ++ (LockCall.getRootIdList ::
          ((List.range 10).flatMap (fun i =>
            [LockCall.getTableLock ((fun _ => (1009, 0)) i : Int × Nat).1 0,
              LockCall.sleepMS 100]) ++
            [LockCall.logMsg LockMsg.unableToAcquire 1500]))) ∧
    (∃ t, TableInfo.acquireTableLock 1500 [1] 1
          (fun n => if n < 3 then (1009, 0) else (1009, 42)) 4 false
          (LockFields.new false) = some (1009, t) ∧
        t.fTableLocked = (LockFields.new false).fTableLocked ∧ t.fTableLockID = 42) :=
  ⟨(acquireTableLock_error_codes 1500 [1] 1 (fun _ => (1009, 0)) (LockFields.new false) 10
      (by decide) (by decide) (by decide)).1 (fun _ => ⟨by decide, rfl⟩) 10 le_rfl,
    (acquireTableLock_error_codes 1500 [1] 1
      (fun n => if n < 3 then (1009, 0) else (1009, 42)) (LockFields.new false) 10
      (by decide) (by decide) (by decide)).2.1 3 42 1009 false
      (by intro i hi; interval_cases i <;> rfl) rfl (by decide) (by decide)
      (Or.inr (by decide)) 4 le_rfl⟩

/-- C39: when `fStatusTI` is `ERR` at the call, `setParseComplete` returns
`ERR_UNKNOWN` and the state after the call is the state before it: the
column's `lastProcessingTime`, the statuses of the buffers and of their column
cells, `fNumberOfColsParsed`, `fCurrentParseBuffer` and `fStatusTI` are as they
were, and the log of collaborator calls has not grown, so no finalize step was
run. -/
theorem setParseComplete_on_err (ec : ErrorCodes) (env : FinalizeEnv) (columnId bufferId : Nat)
    (processingTime : Int) (ti : TableInfo) (h : ti.fStatusTI = Status.ERR) :
    ti.setParseComplete ec env columnId bufferId processingTime = some (ec.ERR_UNKNOWN, ti) ∧
      ∀ rc t, ti.setParseComplete ec env columnId bufferId processingTime = some (rc, t) →
        rc = ec.ERR_UNKNOWN ∧ t.fColumns = ti.fColumns ∧ t.fBuffers = ti.fBuffers ∧
          t.fNumberOfColsParsed = ti.fNumberOfColsParsed ∧
          t.fCurrentParseBuffer = ti.fCurrentParseBuffer ∧ t.fStatusTI = Status.ERR ∧
          t.fCalls = ti.fCalls := by
  have h1 : ti.setParseComplete ec env columnId bufferId processingTime =
      some (ec.ERR_UNKNOWN, ti) := by
    unfold TableInfo.setParseComplete
    rw [if_pos h]
  refine ⟨h1, fun rc t h2 => ?_⟩
  rw [h1] at h2
  simp only [Option.some.injEq, Prod.mk.injEq] at h2
  obtain ⟨rfl, rfl⟩ := h2
  exact ⟨rfl, rfl, rfl, rfl, rfl, h, rfl⟩

theorem setParseComplete_on_err_witness :
    ({ readyTable [⟨4, 0⟩, ⟨8, 0⟩] with fStatusTI := Status.ERR }).setParseComplete sampleCodes
        (okEnv []) 0 0 7 =
      some (sampleCodes.ERR_UNKNOWN, { readyTable [⟨4, 0⟩, ⟨8, 0⟩] with fStatusTI := Status.ERR }) :=
  (setParseComplete_on_err sampleCodes (okEnv []) 0 0 7
    { readyTable [⟨4, 0⟩, ⟨8, 0⟩] with fStatusTI := Status.ERR } rfl).1

/-- C40 (counterexample): the only buffer of the table is `NEW`, not
`READ_COMPLETE`, and the job status is `EXIT_FAILURE`: `getColumnForParse` does
not return -1, it sets `fStatusTI` to `ERR` and throws. -/
theorem getColumnForParse_safe_counterexample :
    (((TableInfo.new.addColumn ⟨4, 0⟩).initializeBuffers 1).fBuffers.getD 0 default).fStatusBLB ≠
        Status.READ_COMPLETE ∧
      ((TableInfo.new.addColumn ⟨4, 0⟩).initializeBuffers 1).getColumnForParse 7 0 true ≠
        some (ParseOutcome.ret (-1), (TableInfo.new.addColumn ⟨4, 0⟩).initializeBuffers 1) ∧
      (((TableInfo.new.addColumn ⟨4, 0⟩).initializeBuffers 1).getColumnForParse 7 0 true).map
        (fun r => (r.1, r.2.fStatusTI)) = some (ParseOutcome.threw, Status.ERR) := by
  decide

/-- C40 (amended): a call of `getColumnForParse` always ends.  When the job
status is `EXIT_FAILURE` it sets `fStatusTI` to `ERR` and throws, handing out
no column.  Otherwise it returns -1, leaving the table as it was, whenever the
buffer's status is not `READ_COMPLETE` or no cell of the buffer among the
columns `0 .. fNumberOfColumns - 1` has locker -1.  Any column id `k` other
than -1 that it returns satisfies `0 <= k < fNumberOfColumns`, the buffer was
ready for parsing, and the cell `k` of the buffer had locker -1 in the state
in which it was selected. -/
theorem getColumnForParse_safe (ti : TableInfo) (id : Int) (bufferId : Nat) (jobFailed : Bool) :
    (∃ o t, ti.getColumnForParse id bufferId jobFailed = some (o, t)) ∧
    (jobFailed = true →
      ti.getColumnForParse id bufferId jobFailed =
        some (ParseOutcome.threw, { ti with fStatusTI := Status.ERR })) ∧
    (jobFailed = false →
      ((ti.fBuffers.getD bufferId default).fStatusBLB ≠ Status.READ_COMPLETE ∨
        ∀ k < ti.fNumberOfColumns, ¬ ti.unlocked bufferId k) →
      ti.getColumnForParse id bufferId jobFailed = some (ParseOutcome.ret (-1), ti)) ∧
    (∀ (k : Int) (t : TableInfo),
      ti.getColumnForParse id bufferId jobFailed = some (ParseOutcome.ret k, t) → k ≠ -1 →
      0 ≤ k ∧ k < ti.fNumberOfColumns ∧ ti.unlocked bufferId k.toNat ∧
        (ti.fBuffers.getD bufferId default).fStatusBLB = Status.READ_COMPLETE ∧
        jobFailed = false) := by
  have hready : ti.bufferReadyForParse bufferId = true →
      (ti.fBuffers.getD bufferId default).fStatusBLB = Status.READ_COMPLETE := by
    intro h
    unfold TableInfo.bufferReadyForParse at h
    split_ifs at h
    exact of_decide_eq_true h
  -- the outcome of the call, by cases
  have hcases : (jobFailed = true ∧ ti.getColumnForParse id bufferId jobFailed =
        some (ParseOutcome.threw, { ti with fStatusTI := Status.ERR })) ∨
      (jobFailed = false ∧ (¬ ti.bufferReadyForParse bufferId = true ∨
          ∀ k < ti.fNumberOfColumns, ¬ ti.unlocked bufferId k) ∧
        ti.getColumnForParse id bufferId jobFailed = some (ParseOutcome.ret (-1), ti)) ∨
      (jobFailed = false ∧ ti.bufferReadyForParse bufferId = true ∧
        ∃ c : Nat, c < ti.fNumberOfColumns ∧ ti.unlocked bufferId c ∧
          ti.getColumnForParse id bufferId jobFailed =
            some (ParseOutcome.ret c, { ti with fBuffers := (ti.fBuffers.set bufferId
              ((ti.fBuffers.getD bufferId default).tryAndLockColumn c id).2) })) := by
    cases jobFailed with
    | true => left; exact ⟨rfl, by simp [TableInfo.getColumnForParse]⟩
    | false =>
      right
      by_cases hr : ti.bufferReadyForParse bufferId = true
      · by_cases hex : ∃ k < ti.fNumberOfColumns, ti.unlocked bufferId k
        · right
          obtain ⟨c, hc1, hc2, hc3, -, -⟩ := (select_inv ti bufferId ti.fNumberOfColumns).2 hex
          have hsel : (ti.selectColumn bufferId (-1, 0)).1 = (c : Int) := by
            rw [selectColumn_eq]; exact hc1
          have hlock := hc3
          unfold TableInfo.unlocked at hlock
          have hne : ((c : Int) = -1) = False := by
            apply eq_false
            omega
          refine ⟨rfl, hr, c, hc2, hc3, ?_⟩
          simp only [TableInfo.getColumnForParse, Bool.false_eq_true, if_false, hr,
            not_true_eq_false, hsel, hne, Int.toNat_natCast, BulkLoadBuffer.tryAndLockColumn,
            hlock, if_true]
        · left
          have hall : ∀ k < ti.fNumberOfColumns, ¬ ti.unlocked bufferId k := by
            intro k hk hU
            exact hex ⟨k, hk, hU⟩
          have hsel : (ti.selectColumn bufferId (-1, 0)).1 = -1 := by
            rw [selectColumn_eq, (select_inv ti bufferId ti.fNumberOfColumns).1 hall]
          refine ⟨rfl, Or.inr hall, ?_⟩
          simp only [TableInfo.getColumnForParse, Bool.false_eq_true, if_false, hr,
            not_true_eq_false, hsel, if_true]
      · left
        refine ⟨rfl, Or.inl hr, ?_⟩
        simp only [TableInfo.getColumnForParse, Bool.false_eq_true, if_false, hr,
          not_false_eq_true, if_true]
  refine ⟨?_, ?_, ?_, ?_⟩
  · rcases hcases with ⟨-, h⟩ | ⟨-, -, h⟩ | ⟨-, -, c, -, -, h⟩ <;> exact ⟨_, _, h⟩
  · intro hj
    rcases hcases with ⟨-, h⟩ | ⟨hf, -, -⟩ | ⟨hf, -, -⟩
    · exact h
    · rw [hj] at hf; cases hf
    · rw [hj] at hf; cases hf
  · intro hj hor
    rcases hcases with ⟨hf, -⟩ | ⟨-, -, h⟩ | ⟨-, hr, c, hc, hU, -⟩
    · rw [hj] at hf; cases hf
    · exact h
    · rcases hor with h | h
      · exact absurd (hready hr) h
      · exact absurd hU (h c hc)
  · intro k t hk hne
    rcases hcases with ⟨-, h⟩ | ⟨-, -, h⟩ | ⟨hf, hr, c, hc, hU, h⟩
    · rw [h] at hk
      simp at hk
    · rw [h] at hk
      simp only [Option.some.injEq, Prod.mk.injEq, ParseOutcome.ret.injEq] at hk
      exact absurd hk.1.symm hne
    · rw [h] at hk
      simp only [Option.some.injEq, Prod.mk.injEq, ParseOutcome.ret.injEq] at hk
      obtain ⟨rfl, -⟩ := hk
      refine ⟨by omega, by exact_mod_cast hc, ?_, hready hr, hf⟩
      rw [Int.toNat_natCast]
      exact hU

end WriteEngine
